import Mathlib

/-!
ImPlot: axis transform, tick generation and interaction engine.

A shallow embedding of `implot.cpp` (ImPlot v0.5 WIP) and theorems about it.

Conventions of the embedding.

* Numbers.  The pixel transform, the fit and the interaction code are written
  over an arbitrary ordered field `K` (or over `ℚ`), with the two transcendental
  functions `ImLog10` and `ImPow(10, ·)` supplied by an `ImMath K` record, so
  that they run over `ℚ` on linear axes and are stated over `ℝ` with the real
  logarithm on logarithmic axes.  Where the result of the code depends on the
  rounding of a `double`, the operation is rounded: `F64.round` is rounding to
  the nearest binary64 number, ties to even, over `ℚ`.  The constraint pass of
  `BeginPlot` rounds through the field `fl` of its constants, and `NiceNum64`,
  `AddDefaultTicks.linear64`, `NiceNumTime`, `ImTimeStepper.GetIntegral` and
  `AddDefaultTimeScaleTicks` round with `F64.round`.  `NiceNum` and
  `AddDefaultTicks` are the same code over exact numbers.
* A C `int` is an `ℤ`, a flag set is a `ℕ` read as a bit set.  A conversion of
  a `double` to `int` whose result matters is `F64.toInt`, which has no result
  outside the 32-bit range.
* A loop over a `double` counter carries fuel and returns `none` when the fuel
  runs out; the theorems show that the result is `some`, or that it is `none`
  for every amount of fuel.
* The context `GImPlot` and the current plot are passed and returned explicitly.

Part 1 holds the definitions, Part 2 the theorems.
-/

namespace ImPlot

/-! ## Part 1: definitions -/

/-! ### Numbers -/

/-- The constant `DBL_EPSILON` of `<float.h>`, two to the power minus 52. -/
def DBL_EPSILON : ℚ := 1 / 2 ^ 52

/-! ### Binary64 rounding -/

/-- The power `2 ^ e` for a whole exponent of either sign. -/
def F64.pow2 (e : ℤ) : ℚ :=
  if 0 ≤ e then ((2 ^ e.toNat : ℕ) : ℚ) else 1 / ((2 ^ (-e).toNat : ℕ) : ℚ)

/-- The number of binary digits of `n`, by halving; `fuel` bounds the number of
halvings and `n` itself is always enough. -/
def F64.bitLength : ℕ → ℕ → ℕ
  | 0, _ => 0
  | fuel + 1, n => if n = 0 then 0 else F64.bitLength fuel (n / 2) + 1

/-- The exponent `e` with `2 ^ e ≤ x < 2 ^ (e + 1)` of a positive number, from the bit
lengths of its numerator and denominator. -/
def F64.exponent (x : ℚ) : ℤ :=
  let e0 : ℤ := (F64.bitLength x.num.natAbs x.num.natAbs : ℤ)
    - (F64.bitLength x.den x.den : ℤ)
  if x < F64.pow2 e0 then e0 - 1 else e0

/-- Rounding to the nearest whole number, a tie going to the even one. -/
def F64.roundHalfEven (q : ℚ) : ℤ :=
  let f : ℤ := ⌊q⌋
  if q - f < 1 / 2 then f
  else if 1 / 2 < q - f then f + 1
  else if f % 2 = 0 then f else f + 1

/-- The result of a `double` operation whose exact value is `x`: the nearest number with
a significand of 53 bits (IEEE 754 binary64, round to nearest, ties to even), with the
fixed spacing `2 ^ -1074` below `2 ^ -1022`.  Values beyond the largest `double`, which
the hardware turns into an infinity, are outside this model. -/
def F64.round (x : ℚ) : ℚ :=
  if x = 0 then 0
  else
    let e : ℤ := max (F64.exponent |x|) (-1022)
    (F64.roundHalfEven (x / F64.pow2 (e - 52)) : ℚ) * F64.pow2 (e - 52)

/-- Value of `(int)floor(ImLog10(x))` for `x > 0`: the integer `e` with
`10 ^ e ≤ x < 10 ^ (e + 1)` (see `floorLog10_eq_floor_logb`). -/
def floorLog10 (x : ℚ) : ℤ := Int.log 10 x

/-- Value of `(int)ceil(ImLog10(x))` for `x > 0`: the integer `e` with
`10 ^ (e - 1) < x ≤ 10 ^ e` (see `ceilLog10_eq_ceil_logb`). -/
def ceilLog10 (x : ℚ) : ℤ := Int.clog 10 x

/-- Value of `(int)ImLog10(x)` for `x > 0`.  The conversion of a `double` to `int`
drops the fractional part, so it is the floor of a non-negative logarithm
(`x ≥ 1`) and the ceiling of a negative one (`x < 1`). -/
def truncLog10 (x : ℚ) : ℤ := if 1 ≤ x then floorLog10 x else ceilLog10 x

/-- The integers `a, a + 1, ..., b - 1` visited by `for (int i = a; i < b; ++i)`. -/
def intRange (a b : ℤ) : List ℤ :=
  (List.range (b - a).toNat).map (fun (k : ℕ) => a + (k : ℤ))

/-- `NiceNum` (implot.cpp, 153-176).  `expv` is `(int)floor(ImLog10(x))` and
`ImPow(10.0, expv)` is the integer power `10 ^ expv`. -/
def NiceNum (x : ℚ) (round : Bool) : ℚ :=
  let expv : ℤ := floorLog10 x
  let f : ℚ := x / (10 : ℚ) ^ expv
  let nf : ℚ :=
    if round then
      if f < 1.5 then 1
      else if f < 3 then 2
      else if f < 7 then 5
      else 10
    else if f ≤ 1 then 1
    else if f ≤ 2 then 2
    else if f ≤ 5 then 5
    else 10
  nf * (10 : ℚ) ^ expv

/-- A number of the form `m * 10 ^ e` with `e` an integer and `m` one of 1, 2, 5, 10. -/
def IsNice (v : ℚ) : Prop :=
  ∃ (m : ℚ) (e : ℤ), (m = 1 ∨ m = 2 ∨ m = 5 ∨ m = 10) ∧ v = m * (10 : ℚ) ^ e

/-- `ImPlotRange`: the interval `[Min, Max]` shown by an axis. -/
structure ImPlotRange (K : Type) where
  Min : K
  Max : K

/-- Modelled from the spec: `ImPlotRange::Size` of implot_internal.h, which is not
under src/; the spec calls it `range.size()`, the length `Max - Min`. -/
def ImPlotRange.Size {K : Type} [Sub K] (r : ImPlotRange K) : K := r.Max - r.Min

/-- Modelled from the spec: `ImPlotRange::Contains` of implot_internal.h, which is
not under src/; the spec says that ticks are clipped to `[min, max]`. -/
def ImPlotRange.Contains {K : Type} [LinearOrder K] (r : ImPlotRange K) (v : K) : Bool :=
  decide (v ≥ r.Min) && decide (v ≤ r.Max)

/-- `ImPlotTick`: position in plot space, major flag, label flag, and whether a label
has been written. -/
structure ImPlotTick (K : Type) where
  PlotPos : K
  Major : Bool
  ShowLabel : Bool
  Labeled : Bool

/-- Modelled from the spec: the constructor `ImPlotTick(value, major, show_label)` of
implot_internal.h, which is not under src/; a new tick carries no label yet. -/
def ImPlotTick.new {K : Type} (value : K) (major show_label : Bool) : ImPlotTick K :=
  { PlotPos := value, Major := major, ShowLabel := show_label, Labeled := false }

/-- Body of the decade loop of `AddDefaultTicks` in log mode (implot.cpp, 415-424):
the major tick `10 ^ e` and the eight minor ticks of the decade, each kept when it
lies in the range widened by `DBL_EPSILON`. -/
def AddDefaultTicks.logDecade (range : ImPlotRange ℚ) (e : ℤ) : List (ImPlotTick ℚ) :=
  let major1 : ℚ := (10 : ℚ) ^ e
  let major2 : ℚ := (10 : ℚ) ^ (e + 1)
  let interval : ℚ := (major2 - major1) / 9
  (if major1 ≥ range.Min - DBL_EPSILON ∧ major1 ≤ range.Max + DBL_EPSILON
    then [ImPlotTick.new major1 true true] else []) ++
  (intRange 1 9).flatMap (fun i =>
    let minor : ℚ := major1 + (i : ℚ) * interval
    if minor ≥ range.Min - DBL_EPSILON ∧ minor ≤ range.Max + DBL_EPSILON
      then [ImPlotTick.new minor false false] else [])

/-- Body of the loop of `AddDefaultTicks` in linear mode (implot.cpp, 433-439): the
major tick at `major` and the minor ticks `major + i * interval / nMinor` for
`1 ≤ i < nMinor`, each kept when the range contains it. -/
def AddDefaultTicks.linearBody (range : ImPlotRange ℚ) (interval : ℚ) (nMinor : ℤ)
    (major : ℚ) : List (ImPlotTick ℚ) :=
  (if range.Contains major then [ImPlotTick.new major true true] else []) ++
  (intRange 1 nMinor).flatMap (fun i =>
    let minor : ℚ := major + (i : ℚ) * interval / (nMinor : ℚ)
    if range.Contains minor then [ImPlotTick.new minor false true] else [])

/-- The loop `for (double major = graphmin; major < bound; major += interval)` of
`AddDefaultTicks` (implot.cpp, 432) in exact arithmetic, with fuel: `none` when the fuel
runs out before the loop condition fails.  `AddDefaultTicks.linearLoop64` is the loop in
the arithmetic of `double`. -/
def AddDefaultTicks.linearLoop (range : ImPlotRange ℚ) (interval : ℚ) (nMinor : ℤ)
    (bound : ℚ) : ℕ → ℚ → List (ImPlotTick ℚ) → Option (List (ImPlotTick ℚ))
  | 0, _, _ => none
  | fuel + 1, major, out =>
    if major < bound then
      AddDefaultTicks.linearLoop range interval nMinor bound fuel (major + interval)
        (out ++ AddDefaultTicks.linearBody range interval nMinor major)
    else some out

/-- Fuel that lets the linear loop run to its end: one more than the number of steps
of length `interval` from `graphmin` up to `bound`. -/
def AddDefaultTicks.linearFuel (graphmin bound interval : ℚ) : ℕ :=
  (⌈(bound - graphmin) / interval⌉).toNat + 1

/-- `AddDefaultTicks` (implot.cpp, 408-442): appends the default ticks of `range` to
`out`, in exact arithmetic.  `AddDefaultTicks.linear64` is the linear branch in the
arithmetic of `double`. -/
def AddDefaultTicks (range : ImPlotRange ℚ) (nMajor nMinor : ℤ) (logscale : Bool)
    (out : List (ImPlotTick ℚ)) : Option (List (ImPlotTick ℚ)) :=
  if logscale then
    if range.Min ≤ 0 ∨ range.Max ≤ 0 then some out
    else
      let exp_min : ℤ := truncLog10 range.Min
      let exp_max : ℤ := ceilLog10 range.Max
      some (out ++ (intRange (exp_min - 1) (exp_max + 1)).flatMap
        (AddDefaultTicks.logDecade range))
  else
    let nice_range : ℚ := NiceNum (range.Size * 0.99) false
    let interval : ℚ := NiceNum (nice_range / ((nMajor : ℚ) - 1)) true
    let graphmin : ℚ := (⌊range.Min / interval⌋ : ℚ) * interval
    let graphmax : ℚ := (⌈range.Max / interval⌉ : ℚ) * interval
    AddDefaultTicks.linearLoop range interval nMinor (graphmax + 0.5 * interval)
      (AddDefaultTicks.linearFuel graphmin (graphmax + 0.5 * interval) interval) graphmin out

/-- The step of the linear major ticks, as `AddDefaultTicks` computes it. -/
def linearStep (range : ImPlotRange ℚ) (nMajor : ℤ) : ℚ :=
  NiceNum (NiceNum (range.Size * 0.99) false / ((nMajor : ℚ) - 1)) true

/-- Positions of the major ticks of a tick list, in list order. -/
def majorPositions {K : Type} (ticks : List (ImPlotTick K)) : List K :=
  (ticks.filter (fun t => t.Major)).map (fun t => t.PlotPos)

/-! ### Geometry, flags and the plot state -/

/-- The functions of `<math.h>` that the pixel transform calls through `ImLog10` and
`ImPow`; they are a parameter so that the transform is computable on linear axes. -/
structure ImMath (K : Type) where
  ImLog10 : K → K
  ImPow : K → K → K

/-- The laws of the exact base ten logarithm and power that the theorems on log-scaled
axes rely on; the real `Real.logb 10` and real power satisfy them. -/
def ImMath.Exact {K : Type} [LinearOrderedField K] (m : ImMath K) : Prop :=
  (∀ t : K, m.ImLog10 (m.ImPow 10 t) = t) ∧
  (∀ y : K, 0 < y → m.ImPow 10 (m.ImLog10 y) = y) ∧
  m.ImLog10 1 = 0 ∧
  (∀ y : K, 1 < y → 0 < m.ImLog10 y)

/-- `ImVec2` of Dear ImGui: a point in pixels. -/
structure ImVec2 (K : Type) where
  x : K
  y : K

/-- `ImPlotPoint`: a point in plot coordinates. -/
structure ImPlotPoint (K : Type) where
  x : K
  y : K

/-- `ImRect` of Dear ImGui: the corners `Min` (upper left) and `Max` (lower right). -/
structure ImRect (K : Type) where
  Min : ImVec2 K
  Max : ImVec2 K

/-- The constructor `ImRect(x1, y1, x2, y2)` of Dear ImGui. -/
def ImRect.ofCoords {K : Type} (x1 y1 x2 y2 : K) : ImRect K :=
  { Min := { x := x1, y := y1 }, Max := { x := x2, y := y2 } }

/-- `ImRect::Contains(p)` of Dear ImGui. -/
def ImRect.Contains {K : Type} [LinearOrder K] (r : ImRect K) (p : ImVec2 K) : Bool :=
  decide (p.x ≥ r.Min.x) && decide (p.y ≥ r.Min.y) && decide (p.x < r.Max.x) &&
    decide (p.y < r.Max.y)

/-- `ImRect::GetWidth` of Dear ImGui. -/
def ImRect.GetWidth {K : Type} [Sub K] (r : ImRect K) : K := r.Max.x - r.Min.x

/-- `ImRect::GetHeight` of Dear ImGui. -/
def ImRect.GetHeight {K : Type} [Sub K] (r : ImRect K) : K := r.Max.y - r.Min.y

/-- `ImLerp(a, b, t)` of Dear ImGui. -/
def ImLerp {K : Type} [Add K] [Sub K] [Mul K] (a b t : K) : K := a + (b - a) * t

/-- Modelled from the spec: `ImHasFlag(set, flag)` of implot_internal.h, which is not
under src/; the spec describes the flags as a bit set, and the flag is held when all
its bits are in the set. -/
def ImHasFlag (set flag : ℕ) : Bool := (set &&& flag) == flag

/-- Modelled from the spec: the axis flags of implot.h, which is not under src/; the
spec lists them as orthogonal members of a bit set, so each is a bit of its own. -/
def ImPlotAxisFlags_GridLines : ℕ := 1
/-- Modelled from the spec: axis flag of implot.h, see `ImPlotAxisFlags_GridLines`. -/
def ImPlotAxisFlags_TickMarks : ℕ := 2
/-- Modelled from the spec: axis flag of implot.h, see `ImPlotAxisFlags_GridLines`. -/
def ImPlotAxisFlags_TickLabels : ℕ := 4
/-- Modelled from the spec: axis flag of implot.h, see `ImPlotAxisFlags_GridLines`. -/
def ImPlotAxisFlags_Invert : ℕ := 8
/-- Modelled from the spec: axis flag of implot.h, see `ImPlotAxisFlags_GridLines`. -/
def ImPlotAxisFlags_LockMin : ℕ := 16
/-- Modelled from the spec: axis flag of implot.h, see `ImPlotAxisFlags_GridLines`. -/
def ImPlotAxisFlags_LockMax : ℕ := 32
/-- Modelled from the spec: axis flag of implot.h, see `ImPlotAxisFlags_GridLines`. -/
def ImPlotAxisFlags_LogScale : ℕ := 64
/-- Modelled from the spec: axis flag of implot.h, see `ImPlotAxisFlags_GridLines`. -/
def ImPlotAxisFlags_Time : ℕ := 256

/-- Modelled from the spec: the plot flags of implot.h, which is not under src/, each a
bit of its own. -/
def ImPlotFlags_MousePos : ℕ := 1
/-- Modelled from the spec: plot flag of implot.h, see `ImPlotFlags_MousePos`. -/
def ImPlotFlags_Legend : ℕ := 2
/-- Modelled from the spec: plot flag of implot.h, see `ImPlotFlags_MousePos`. -/
def ImPlotFlags_Highlight : ℕ := 4
/-- Modelled from the spec: plot flag of implot.h, see `ImPlotFlags_MousePos`. -/
def ImPlotFlags_BoxSelect : ℕ := 8
/-- Modelled from the spec: plot flag of implot.h, see `ImPlotFlags_MousePos`. -/
def ImPlotFlags_Query : ℕ := 16
/-- Modelled from the spec: plot flag of implot.h, see `ImPlotFlags_MousePos`. -/
def ImPlotFlags_ContextMenu : ℕ := 32
/-- Modelled from the spec: plot flag of implot.h, see `ImPlotFlags_MousePos`. -/
def ImPlotFlags_Crosshairs : ℕ := 64
/-- Modelled from the spec: plot flag of implot.h, see `ImPlotFlags_MousePos`. -/
def ImPlotFlags_AntiAliased : ℕ := 128
/-- Modelled from the spec: plot flag of implot.h, see `ImPlotFlags_MousePos`. -/
def ImPlotFlags_NoChild : ℕ := 256
/-- Modelled from the spec: plot flag of implot.h, see `ImPlotFlags_MousePos`. -/
def ImPlotFlags_YAxis2 : ℕ := 512
/-- Modelled from the spec: plot flag of implot.h, see `ImPlotFlags_MousePos`. -/
def ImPlotFlags_YAxis3 : ℕ := 1024

/-- `ImGuiKeyModFlags_None` of Dear ImGui. -/
def ImGuiKeyModFlags_None : ℕ := 0
/-- `ImGuiKeyModFlags_Ctrl` of Dear ImGui. -/
def ImGuiKeyModFlags_Ctrl : ℕ := 1
/-- `ImGuiKeyModFlags_Shift` of Dear ImGui. -/
def ImGuiKeyModFlags_Shift : ℕ := 2
/-- `ImGuiKeyModFlags_Alt` of Dear ImGui. -/
def ImGuiKeyModFlags_Alt : ℕ := 4
/-- `ImGuiMouseButton_Left` of Dear ImGui. -/
def ImGuiMouseButton_Left : ℕ := 0
/-- `ImGuiMouseButton_Right` of Dear ImGui. -/
def ImGuiMouseButton_Right : ℕ := 1
/-- `ImGuiMouseButton_Middle` of Dear ImGui. -/
def ImGuiMouseButton_Middle : ℕ := 2
/-- `ImGuiCond_Always` of Dear ImGui. -/
def ImGuiCond_Always : ℕ := 1
/-- `ImGuiCond_Once` of Dear ImGui. -/
def ImGuiCond_Once : ℕ := 2

/-- `ImPlotInputMap` (fields as set by its constructor, implot.cpp 108-121). -/
structure ImPlotInputMap where
  PanButton : ℕ
  PanMod : ℕ
  FitButton : ℕ
  ContextMenuButton : ℕ
  BoxSelectButton : ℕ
  BoxSelectMod : ℕ
  BoxSelectCancelButton : ℕ
  QueryButton : ℕ
  QueryMod : ℕ
  QueryToggleMod : ℕ
  HorizontalMod : ℕ
  VerticalMod : ℕ

/-- The constructor `ImPlotInputMap::ImPlotInputMap` (implot.cpp, 108-121). -/
def ImPlotInputMap.new : ImPlotInputMap :=
  { PanButton := ImGuiMouseButton_Left
    PanMod := ImGuiKeyModFlags_None
    FitButton := ImGuiMouseButton_Left
    ContextMenuButton := ImGuiMouseButton_Right
    BoxSelectButton := ImGuiMouseButton_Right
    BoxSelectMod := ImGuiKeyModFlags_None
    BoxSelectCancelButton := ImGuiMouseButton_Left
    QueryButton := ImGuiMouseButton_Middle
    QueryMod := ImGuiKeyModFlags_None
    QueryToggleMod := ImGuiKeyModFlags_Ctrl
    HorizontalMod := ImGuiKeyModFlags_Alt
    VerticalMod := ImGuiKeyModFlags_Shift }

/-- The part of the Dear ImGui input record that the plot reads each frame: pointer
position and motion, wheel, the per-button states and the modifier keys. -/
structure ImGuiInput (K : Type) where
  MousePos : ImVec2 K
  MouseDelta : ImVec2 K
  MouseWheel : K
  MouseDown : ℕ → Bool
  MouseClicked : ℕ → Bool
  MouseReleased : ℕ → Bool
  MouseDoubleClicked : ℕ → Bool
  KeyMods : ℕ

/-- A `double` that may hold one of the special values of IEEE arithmetic; the fit
extents start at plus and minus `HUGE_VAL` (implot.cpp, 232-236). -/
inductive ImDouble (K : Type) where
  | finite (v : K)
  | posInf
  | negInf
  | nan

/-- Modelled from the spec: `NanOrInf` of implot_internal.h, which is not under src/;
the spec names the test "NaN/Inf". -/
def NanOrInf {K : Type} : ImDouble K → Bool
  | ImDouble.finite _ => false
  | _ => true

/-- `ImPlotAxis`: the persistent state of one axis. -/
structure ImPlotAxis (K : Type) where
  Dragging : Bool
  HoveredExt : Bool
  HoveredTot : Bool
  Range : ImPlotRange K
  Flags : ℕ
  PreviousFlags : ℕ

/-- `ImPlotState`: the persistent state of one plot.  `YAxis` is the array
`YAxis[IMPLOT_Y_AXES]` with `IMPLOT_Y_AXES = 3`. -/
structure ImPlotState (K : Type) where
  Flags : ℕ
  PreviousFlags : ℕ
  XAxis : ImPlotAxis K
  YAxis : Fin 3 → ImPlotAxis K
  SelectStart : ImVec2 K
  Selecting : Bool
  Querying : Bool
  Queried : Bool
  DraggingQuery : Bool
  QueryStart : ImVec2 K
  QueryRect : ImRect K
  BB_Legend : ImRect K
  CurrentYAxis : Fin 3

/-- `ImPlotAxisState`: the per-frame view of an axis (the fields that implot.cpp reads;
the axis itself is read from the plot). -/
structure ImPlotAxisState where
  HasRange : Bool
  RangeCond : ℕ
  Present : Bool
  HasLabels : Bool
  Invert : Bool
  LockMin : Bool
  LockMax : Bool
  Lock : Bool

/-- Modelled from the spec: the constructor
`ImPlotAxisState(axis, has_range, range_cond, present)` of implot_internal.h, which is
not under src/.  The spec speaks of the per-axis min and max lock flags and of locked
axes: `LockMin`, `LockMax` and `Invert` are the axis flags of that name (the context
menu, implot.cpp 1166-1188, keeps them in step with the flags) and an axis is locked
when it is absent or both bounds are locked. -/
def ImPlotAxisState.new {K : Type} (axis : ImPlotAxis K) (has_range : Bool) (range_cond : ℕ)
    (present : Bool) : ImPlotAxisState :=
  { HasRange := has_range
    RangeCond := range_cond
    Present := present
    HasLabels := ImHasFlag axis.Flags ImPlotAxisFlags_TickLabels
    Invert := ImHasFlag axis.Flags ImPlotAxisFlags_Invert
    LockMin := ImHasFlag axis.Flags ImPlotAxisFlags_LockMin
    LockMax := ImHasFlag axis.Flags ImPlotAxisFlags_LockMax
    Lock := !present || (ImHasFlag axis.Flags ImPlotAxisFlags_LockMin &&
      ImHasFlag axis.Flags ImPlotAxisFlags_LockMax) }

/-- The part of `ImPlotContext` that the transform and the interaction read and write. -/
structure ImPlotContext (K : Type) where
  BB_Plot : ImRect K
  Hov_Frame : Bool
  Hov_Plot : Bool
  X : ImPlotAxisState
  Y : Fin 3 → ImPlotAxisState
  LockPlot : Bool
  PixelRange : Fin 3 → ImRect K
  Mx : K
  My : Fin 3 → K
  LogDenX : K
  LogDenY : Fin 3 → K
  FitThisFrame : Bool
  FitX : Bool
  FitY : Fin 3 → Bool
  ExtentsX : ImPlotRange (ImDouble K)
  ExtentsY : Fin 3 → ImPlotRange (ImDouble K)
  VisibleItemCount : ℤ
  InputMap : ImPlotInputMap

/-- The assignment `plot.XAxis.Range.Min = v`. -/
def ImPlotState.setXMin {K : Type} (plot : ImPlotState K) (v : K) : ImPlotState K :=
  { plot with XAxis := { plot.XAxis with Range := { plot.XAxis.Range with Min := v } } }

/-- The assignment `plot.XAxis.Range.Max = v`. -/
def ImPlotState.setXMax {K : Type} (plot : ImPlotState K) (v : K) : ImPlotState K :=
  { plot with XAxis := { plot.XAxis with Range := { plot.XAxis.Range with Max := v } } }

/-- The assignment `plot.YAxis[i].Range.Min = v`. -/
def ImPlotState.setYMin {K : Type} (plot : ImPlotState K) (i : Fin 3) (v : K) :
    ImPlotState K :=
  let axis : ImPlotAxis K := { (plot.YAxis i) with Range := { (plot.YAxis i).Range with Min := v } }
  { plot with YAxis := Function.update plot.YAxis i axis }

/-- The assignment `plot.YAxis[i].Range.Max = v`. -/
def ImPlotState.setYMax {K : Type} (plot : ImPlotState K) (i : Fin 3) (v : K) :
    ImPlotState K :=
  let axis : ImPlotAxis K := { (plot.YAxis i) with Range := { (plot.YAxis i).Range with Max := v } }
  { plot with YAxis := Function.update plot.YAxis i axis }

/-- The loop `for (int i = 0; i < IMPLOT_Y_AXES; i++)` over a state. -/
def forYAxes {σ : Type} (body : Fin 3 → σ → σ) (s : σ) : σ := body 2 (body 1 (body 0 s))

/-! ### The pixel transform -/

/-- `UpdateTransformCache` (implot.cpp, 278-294).  Iteration `i` of either loop writes
entry `i` of its array only, so the arrays are given entry by entry. -/
def UpdateTransformCache {K : Type} [LinearOrderedField K] (m : ImMath K)
    (gp : ImPlotContext K) (plot : ImPlotState K) : ImPlotContext K :=
  let PixelRange : Fin 3 → ImRect K := fun i =>
    ImRect.ofCoords
      (if ImHasFlag plot.XAxis.Flags ImPlotAxisFlags_Invert then gp.BB_Plot.Max.x
        else gp.BB_Plot.Min.x)
      (if ImHasFlag (plot.YAxis i).Flags ImPlotAxisFlags_Invert then gp.BB_Plot.Min.y
        else gp.BB_Plot.Max.y)
      (if ImHasFlag plot.XAxis.Flags ImPlotAxisFlags_Invert then gp.BB_Plot.Min.x
        else gp.BB_Plot.Max.x)
      (if ImHasFlag (plot.YAxis i).Flags ImPlotAxisFlags_Invert then gp.BB_Plot.Max.y
        else gp.BB_Plot.Min.y)
  { gp with
    PixelRange := PixelRange
    My := fun i => ((PixelRange i).Max.y - (PixelRange i).Min.y) / (plot.YAxis i).Range.Size
    LogDenX := m.ImLog10 (plot.XAxis.Range.Max / plot.XAxis.Range.Min)
    LogDenY := fun i => m.ImLog10 ((plot.YAxis i).Range.Max / (plot.YAxis i).Range.Min)
    Mx := ((PixelRange 0).Max.x - (PixelRange 0).Min.x) / plot.XAxis.Range.Size }

/-- `PixelsToPlot(x, y, y_axis)` (implot.cpp, 296-312), for a y-axis index already
resolved (`y_axis_in` when it is not negative, else `CurrentYAxis`). -/
def PixelsToPlot {K : Type} [LinearOrderedField K] (m : ImMath K) (gp : ImPlotContext K)
    (plot : ImPlotState K) (x y : K) (y_axis : Fin 3) : ImPlotPoint K :=
  let plt_x : K := (x - (gp.PixelRange y_axis).Min.x) / gp.Mx + plot.XAxis.Range.Min
  let plt_y : K :=
    (y - (gp.PixelRange y_axis).Min.y) / gp.My y_axis + (plot.YAxis y_axis).Range.Min
  let plt_x : K :=
    if ImHasFlag plot.XAxis.Flags ImPlotAxisFlags_LogScale then
      let t : K := (plt_x - plot.XAxis.Range.Min) / plot.XAxis.Range.Size
      m.ImPow 10 (t * gp.LogDenX) * plot.XAxis.Range.Min
    else plt_x
  let plt_y : K :=
    if ImHasFlag (plot.YAxis y_axis).Flags ImPlotAxisFlags_LogScale then
      let t : K := (plt_y - (plot.YAxis y_axis).Range.Min) / (plot.YAxis y_axis).Range.Size
      m.ImPow 10 (t * gp.LogDenY y_axis) * (plot.YAxis y_axis).Range.Min
    else plt_y
  { x := plt_x, y := plt_y }

/-- `PixelsToPlot(pix, y_axis)` (implot.cpp, 314-316). -/
def PixelsToPlotVec {K : Type} [LinearOrderedField K] (m : ImMath K) (gp : ImPlotContext K)
    (plot : ImPlotState K) (pix : ImVec2 K) (y_axis : Fin 3) : ImPlotPoint K :=
  PixelsToPlot m gp plot pix.x pix.y y_axis

/-- `PlotToPixels(x, y, y_axis)` (implot.cpp, 319-335), for a resolved y-axis index. -/
def PlotToPixels {K : Type} [LinearOrderedField K] (m : ImMath K) (gp : ImPlotContext K)
    (plot : ImPlotState K) (x y : K) (y_axis : Fin 3) : ImVec2 K :=
  let x : K :=
    if ImHasFlag plot.XAxis.Flags ImPlotAxisFlags_LogScale then
      let t : K := m.ImLog10 (x / plot.XAxis.Range.Min) / gp.LogDenX
      ImLerp plot.XAxis.Range.Min plot.XAxis.Range.Max t
    else x
  let y : K :=
    if ImHasFlag (plot.YAxis y_axis).Flags ImPlotAxisFlags_LogScale then
      let t : K := m.ImLog10 (y / (plot.YAxis y_axis).Range.Min) / gp.LogDenY y_axis
      ImLerp (plot.YAxis y_axis).Range.Min (plot.YAxis y_axis).Range.Max t
    else y
  { x := (gp.PixelRange y_axis).Min.x + gp.Mx * (x - plot.XAxis.Range.Min)
    y := (gp.PixelRange y_axis).Min.y + gp.My y_axis * (y - (plot.YAxis y_axis).Range.Min) }

/-- `PlotToPixels(plt, y_axis)` (implot.cpp, 338-340). -/
def PlotToPixelsPt {K : Type} [LinearOrderedField K] (m : ImMath K) (gp : ImPlotContext K)
    (plot : ImPlotState K) (plt : ImPlotPoint K) (y_axis : Fin 3) : ImVec2 K :=
  PlotToPixels m gp plot plt.x plt.y y_axis

/-! ### Example states -/

/-- An axis state with every field cleared. -/
def ImPlotAxisState.clear : ImPlotAxisState :=
  { HasRange := false, RangeCond := 0, Present := true, HasLabels := false, Invert := false,
    LockMin := false, LockMax := false, Lock := false }

/-- An axis showing `[lo, hi]` with the given flags, not dragged and not hovered. -/
def exampleAxis {K : Type} (lo hi : K) (flags : ℕ) : ImPlotAxis K :=
  { Dragging := false, HoveredExt := false, HoveredTot := false,
    Range := { Min := lo, Max := hi }, Flags := flags, PreviousFlags := flags }

/-- A plot with the given x axis and the same y axis three times, with plot flags
`flags`, no selection and no query. -/
def examplePlot {K : Type} [LinearOrderedField K] (flags : ℕ) (xaxis yaxis : ImPlotAxis K) :
    ImPlotState K :=
  { Flags := flags, PreviousFlags := flags, XAxis := xaxis, YAxis := fun _ => yaxis,
    SelectStart := { x := 0, y := 0 }, Selecting := false, Querying := false,
    Queried := false, DraggingQuery := false, QueryStart := { x := 0, y := 0 },
    QueryRect := ImRect.ofCoords 0 0 0 0, BB_Legend := ImRect.ofCoords 0 0 0 0,
    CurrentYAxis := 0 }

/-- A context whose plot rectangle is 400 by 300 pixels at (10, 20), with the default
input map, nothing hovered, no fit requested and empty extents. -/
def exampleContext {K : Type} [LinearOrderedField K] : ImPlotContext K :=
  { BB_Plot := ImRect.ofCoords 10 20 410 320, Hov_Frame := false, Hov_Plot := false,
    X := ImPlotAxisState.clear, Y := fun _ => ImPlotAxisState.clear, LockPlot := false,
    PixelRange := fun _ => ImRect.ofCoords 0 0 0 0, Mx := 0, My := fun _ => 0,
    LogDenX := 0, LogDenY := fun _ => 0, FitThisFrame := false, FitX := false,
    FitY := fun _ => false,
    ExtentsX := { Min := ImDouble.posInf, Max := ImDouble.negInf },
    ExtentsY := fun _ => { Min := ImDouble.posInf, Max := ImDouble.negInf },
    VisibleItemCount := 0, InputMap := ImPlotInputMap.new }

/-! ### The interaction pass of BeginPlot and the fit of EndPlot -/

/-- `ImVec2` subtraction of Dear ImGui. -/
def ImVec2.sub {K : Type} [Sub K] (a b : ImVec2 K) : ImVec2 K :=
  { x := a.x - b.x, y := a.y - b.y }

/-- `ImVec2` addition of Dear ImGui. -/
def ImVec2.add {K : Type} [Add K] (a b : ImVec2 K) : ImVec2 K :=
  { x := a.x + b.x, y := a.y + b.y }

/-- Modelled from the spec: `ImRemap(x, x0, x1, y0, y1)` of implot_internal.h, which is
not under src/; the spec uses it for the fractional position of the pointer within the
plot rectangle, the linear map that sends `x0` to `y0` and `x1` to `y1`. -/
def ImRemap {K : Type} [LinearOrderedField K] (x x0 x1 y0 y1 : K) : K :=
  y0 + (x - x0) * (y1 - y0) / (x1 - x0)

/-- The declarations of implot_internal.h that the interaction pass uses and that are
not under src/, taken as parameters: the functions of `<math.h>`, the macro
`IMPLOT_ZOOM_RATE`, and the constructor `ImPlotAxisScale(y_axis, tx, ty, zoom_rate)`,
which reads the context and the plot and yields the plot points `Min` and `Max`. -/
structure ImPlotEnv (K : Type) where
  math : ImMath K
  IMPLOT_ZOOM_RATE : K
  AxisScale : ImPlotContext K → ImPlotState K → Fin 3 → K → K → K →
    ImPlotPoint K × ImPlotPoint K

/-- The axis states of BeginPlot (implot.cpp, 599-604). -/
def BeginPlot.axisStates {K : Type} (gp : ImPlotContext K) (plot : ImPlotState K)
    (HasXRange : Bool) (XRangeCond : ℕ) (HasYRange : Fin 3 → Bool) (YRangeCond : Fin 3 → ℕ) :
    ImPlotContext K :=
  let X := ImPlotAxisState.new plot.XAxis HasXRange XRangeCond true
  let Y0 := ImPlotAxisState.new (plot.YAxis 0) (HasYRange 0) (YRangeCond 0) true
  let Y1 := ImPlotAxisState.new (plot.YAxis 1) (HasYRange 1) (YRangeCond 1)
    (ImHasFlag plot.Flags ImPlotFlags_YAxis2)
  let Y2 := ImPlotAxisState.new (plot.YAxis 2) (HasYRange 2) (YRangeCond 2)
    (ImHasFlag plot.Flags ImPlotFlags_YAxis3)
  { gp with
    X := X
    Y := fun i => if i = 0 then Y0 else if i = 1 then Y1 else Y2
    LockPlot := X.Lock && Y0.Lock && Y1.Lock && Y2.Lock }

/-- The local `any_hov_y_axis_region` of BeginPlot (implot.cpp, 787). -/
def BeginPlot.anyHovYAxisRegion {K : Type} (plot : ImPlotState K) : Bool :=
  (plot.YAxis 0).HoveredTot || (plot.YAxis 1).HoveredTot || (plot.YAxis 2).HoveredTot

/-- The local `hov_legend` of BeginPlot (implot.cpp, 790). -/
def BeginPlot.hovLegend {K : Type} [LinearOrderedField K] (inp : ImGuiInput K)
    (gp : ImPlotContext K) (plot : ImPlotState K) : Bool :=
  if ImHasFlag plot.Flags ImPlotFlags_Legend then
    gp.Hov_Frame && plot.BB_Legend.Contains inp.MousePos
  else false

/-- The local `hov_query` of BeginPlot (implot.cpp, 792-800). -/
def BeginPlot.hovQuery {K : Type} [LinearOrderedField K] (inp : ImGuiInput K)
    (gp : ImPlotContext K) (plot : ImPlotState K) : Bool :=
  if gp.Hov_Frame && gp.Hov_Plot && plot.Queried && !plot.Querying then
    let bb_query : ImRect K :=
      { Min := plot.QueryRect.Min.add gp.BB_Plot.Min
        Max := plot.QueryRect.Max.add gp.BB_Plot.Min }
    bb_query.Contains inp.MousePos
  else false

/-- The local `any_y_dragging` (implot.cpp, 813 and 832). -/
def BeginPlot.anyYDragging {K : Type} (plot : ImPlotState K) : Bool :=
  (plot.YAxis 0).Dragging || (plot.YAxis 1).Dragging || (plot.YAxis 2).Dragging

/-- The assignment `plot.YAxis[i].Dragging = b`. -/
def ImPlotState.setYDragging {K : Type} (plot : ImPlotState K) (i : Fin 3) (b : Bool) :
    ImPlotState K :=
  let axis : ImPlotAxis K := { (plot.YAxis i) with Dragging := b }
  { plot with YAxis := Function.update plot.YAxis i axis }

/-- The assignment `plot.XAxis.Dragging = b`. -/
def ImPlotState.setXDragging {K : Type} (plot : ImPlotState K) (b : Bool) : ImPlotState K :=
  { plot with XAxis := { plot.XAxis with Dragging := b } }

/-- QUERY DRAG of BeginPlot (implot.cpp, 803-817); the cursor calls are left out. -/
def BeginPlot.queryDrag {K : Type} [LinearOrderedField K] (inp : ImGuiInput K)
    (hov_legend hov_query : Bool) (gp : ImPlotContext K) (plot : ImPlotState K) :
    ImPlotState K :=
  let plot : ImPlotState K :=
    if plot.DraggingQuery &&
        (inp.MouseReleased gp.InputMap.PanButton || !inp.MouseDown gp.InputMap.PanButton) then
      { plot with DraggingQuery := false }
    else plot
  let plot : ImPlotState K :=
    if plot.DraggingQuery then
      { plot with QueryRect :=
          { Min := plot.QueryRect.Min.add inp.MouseDelta
            Max := plot.QueryRect.Max.add inp.MouseDelta } }
    else plot
  if gp.Hov_Frame && gp.Hov_Plot && hov_query && !plot.DraggingQuery && !plot.Selecting &&
      !hov_legend then
    let any_y_dragging := BeginPlot.anyYDragging plot
    if inp.MouseDown gp.InputMap.PanButton && !plot.XAxis.Dragging && !any_y_dragging then
      { plot with DraggingQuery := true }
    else plot
  else plot

/-- The end of drags (implot.cpp, 822-831); the write to the Dear ImGui field
`MouseDragMaxDistanceSqr` is left out. -/
def BeginPlot.endDrags {K : Type} (inp : ImGuiInput K) (gp : ImPlotContext K)
    (plot : ImPlotState K) : ImPlotState K :=
  let plot : ImPlotState K :=
    if plot.XAxis.Dragging &&
        (inp.MouseReleased gp.InputMap.PanButton || !inp.MouseDown gp.InputMap.PanButton) then
      plot.setXDragging false
    else plot
  forYAxes (fun i plot =>
    if (plot.YAxis i).Dragging &&
        (inp.MouseReleased gp.InputMap.PanButton || !inp.MouseDown gp.InputMap.PanButton) then
      plot.setYDragging i false
    else plot) plot

/-- The drag of the x axis (implot.cpp, 837-844). -/
def BeginPlot.doDragX {K : Type} [LinearOrderedField K] (m : ImMath K) (inp : ImGuiInput K)
    (gp : ImPlotContext K) (plot : ImPlotState K) : ImPlotState K :=
  if !gp.X.Lock && plot.XAxis.Dragging then
    let plot_tl := PixelsToPlotVec m gp plot (gp.BB_Plot.Min.sub inp.MouseDelta) 0
    let plot_br := PixelsToPlotVec m gp plot (gp.BB_Plot.Max.sub inp.MouseDelta) 0
    let plot : ImPlotState K :=
      if !gp.X.LockMin then plot.setXMin (if gp.X.Invert then plot_br.x else plot_tl.x)
      else plot
    if !gp.X.LockMax then plot.setXMax (if gp.X.Invert then plot_tl.x else plot_br.x)
    else plot
  else plot

/-- The drag of y axis `i` (implot.cpp, 846-854). -/
def BeginPlot.doDragY {K : Type} [LinearOrderedField K] (m : ImMath K) (inp : ImGuiInput K)
    (gp : ImPlotContext K) (i : Fin 3) (plot : ImPlotState K) : ImPlotState K :=
  if !(gp.Y i).Lock && (plot.YAxis i).Dragging then
    let plot_tl := PixelsToPlotVec m gp plot (gp.BB_Plot.Min.sub inp.MouseDelta) i
    let plot_br := PixelsToPlotVec m gp plot (gp.BB_Plot.Max.sub inp.MouseDelta) i
    let plot : ImPlotState K :=
      if !(gp.Y i).LockMin then
        plot.setYMin i (if (gp.Y i).Invert then plot_tl.y else plot_br.y)
      else plot
    if !(gp.Y i).LockMax then
      plot.setYMax i (if (gp.Y i).Invert then plot_br.y else plot_tl.y)
    else plot
  else plot

/-- DRAG INPUT of BeginPlot (implot.cpp, 822-889): end of drags, the drag itself, and
the start of a drag; the cursor calls are left out. -/
def BeginPlot.dragInput {K : Type} [LinearOrderedField K] (m : ImMath K) (inp : ImGuiInput K)
    (hov_legend hov_query : Bool) (gp : ImPlotContext K) (plot : ImPlotState K) :
    ImPlotContext K × ImPlotState K :=
  let plot := BeginPlot.endDrags inp gp plot
  let any_y_dragging := BeginPlot.anyYDragging plot
  let drag_in_progress := plot.XAxis.Dragging || any_y_dragging
  let (gp, plot) : ImPlotContext K × ImPlotState K :=
    if drag_in_progress then
      let gp := UpdateTransformCache m gp plot
      let plot := BeginPlot.doDragX m inp gp plot
      let plot := forYAxes (BeginPlot.doDragY m inp gp) plot
      (gp, plot)
    else (gp, plot)
  let plot : ImPlotState K :=
    if !drag_in_progress && gp.Hov_Frame && inp.MouseClicked gp.InputMap.PanButton &&
        ImHasFlag inp.KeyMods gp.InputMap.PanMod && !plot.Selecting && !hov_legend &&
        !hov_query && !plot.DraggingQuery then
      let plot : ImPlotState K :=
        if plot.XAxis.HoveredTot then plot.setXDragging true else plot
      forYAxes (fun i plot =>
        if (plot.YAxis i).HoveredTot then plot.setYDragging i true else plot) plot
    else plot
  (gp, plot)

/-- The scroll zoom of y axis `i` (implot.cpp, 911-919). -/
def BeginPlot.scrollY {K : Type} [LinearOrderedField K] (env : ImPlotEnv K)
    (gp : ImPlotContext K) (tx ty zoom_rate : K) (i : Fin 3) (plot : ImPlotState K) :
    ImPlotState K :=
  if (plot.YAxis i).HoveredTot && !(gp.Y i).Lock then
    let axis_scale := env.AxisScale gp plot i tx ty zoom_rate
    let plot_tl := axis_scale.1
    let plot_br := axis_scale.2
    let plot : ImPlotState K :=
      if !(gp.Y i).LockMin then
        plot.setYMin i (if (gp.Y i).Invert then plot_tl.y else plot_br.y)
      else plot
    if !(gp.Y i).LockMax then
      plot.setYMax i (if (gp.Y i).Invert then plot_br.y else plot_tl.y)
    else plot
  else plot

/-- SCROLL INPUT of BeginPlot (implot.cpp, 893-921). -/
def BeginPlot.scrollInput {K : Type} [LinearOrderedField K] (env : ImPlotEnv K)
    (inp : ImGuiInput K) (any_hov_y_axis_region : Bool) (gp : ImPlotContext K)
    (plot : ImPlotState K) : ImPlotContext K × ImPlotState K :=
  if gp.Hov_Frame && (plot.XAxis.HoveredTot || any_hov_y_axis_region) &&
      decide (inp.MouseWheel ≠ 0) then
    let gp := UpdateTransformCache env.math gp plot
    let zoom_rate : K := env.IMPLOT_ZOOM_RATE
    let zoom_rate : K :=
      if inp.MouseWheel > 0 then (-zoom_rate) / (1 + 2 * zoom_rate) else zoom_rate
    let tx := ImRemap inp.MousePos.x gp.BB_Plot.Min.x gp.BB_Plot.Max.x 0 1
    let ty := ImRemap inp.MousePos.y gp.BB_Plot.Min.y gp.BB_Plot.Max.y 0 1
    let plot : ImPlotState K :=
      if plot.XAxis.HoveredTot && !gp.X.Lock then
        let axis_scale := env.AxisScale gp plot 0 tx ty zoom_rate
        let plot_tl := axis_scale.1
        let plot_br := axis_scale.2
        let plot : ImPlotState K :=
          if !gp.X.LockMin then plot.setXMin (if gp.X.Invert then plot_br.x else plot_tl.x)
          else plot
        if !gp.X.LockMax then plot.setXMax (if gp.X.Invert then plot_tl.x else plot_br.x)
        else plot
      else plot
    (gp, forYAxes (BeginPlot.scrollY env gp tx ty zoom_rate) plot)
  else (gp, plot)

/-- The commit of a box selection to y axis `i` (implot.cpp, 937-942). -/
def BeginPlot.commitY {K : Type} [LinearOrderedField K] (m : ImMath K) (inp : ImGuiInput K)
    (gp : ImPlotContext K) (i : Fin 3) (plot : ImPlotState K) : ImPlotState K :=
  let p1 := PixelsToPlotVec m gp plot plot.SelectStart i
  let p2 := PixelsToPlotVec m gp plot inp.MousePos i
  let plot : ImPlotState K :=
    if !(gp.Y i).LockMin && inp.KeyMods != gp.InputMap.VerticalMod then
      plot.setYMin i (min p1.y p2.y)
    else plot
  if !(gp.Y i).LockMax && inp.KeyMods != gp.InputMap.VerticalMod then
    plot.setYMax i (max p1.y p2.y)
  else plot

/-- The confirmation of a box selection (implot.cpp, 926-946).  `PixelsToPlot` without
an axis argument uses `CurrentYAxis`. -/
def BeginPlot.confirmSelection {K : Type} [LinearOrderedField K] (m : ImMath K)
    (inp : ImGuiInput K) (gp : ImPlotContext K) (plot : ImPlotState K) :
    ImPlotContext K × ImPlotState K :=
  if plot.Selecting && (inp.MouseReleased gp.InputMap.BoxSelectButton ||
      !inp.MouseDown gp.InputMap.BoxSelectButton) then
    let gp := UpdateTransformCache m gp plot
    let select_size := plot.SelectStart.sub inp.MousePos
    let plot : ImPlotState K :=
      if ImHasFlag plot.Flags ImPlotFlags_BoxSelect && decide (|select_size.x| > 2) &&
          decide (|select_size.y| > 2) then
        let p1 := PixelsToPlotVec m gp plot plot.SelectStart plot.CurrentYAxis
        let p2 := PixelsToPlotVec m gp plot inp.MousePos plot.CurrentYAxis
        let plot : ImPlotState K :=
          if !gp.X.LockMin && inp.KeyMods != gp.InputMap.HorizontalMod then
            plot.setXMin (min p1.x p2.x)
          else plot
        let plot : ImPlotState K :=
          if !gp.X.LockMax && inp.KeyMods != gp.InputMap.HorizontalMod then
            plot.setXMax (max p1.x p2.x)
          else plot
        forYAxes (BeginPlot.commitY m inp gp) plot
      else plot
    (gp, { plot with Selecting := false })
  else (gp, plot)

/-- "cancel selection" of BeginPlot (implot.cpp, 952-954). -/
def BeginPlot.cancelSelection {K : Type} (inp : ImGuiInput K) (gp : ImPlotContext K)
    (plot : ImPlotState K) : ImPlotState K :=
  if plot.Selecting && (inp.MouseClicked gp.InputMap.BoxSelectCancelButton ||
      inp.MouseDown gp.InputMap.BoxSelectCancelButton) then
    { plot with Selecting := false }
  else plot

/-- "begin selection or query" of BeginPlot (implot.cpp, 956-959). -/
def BeginPlot.beginSelection {K : Type} (inp : ImGuiInput K) (gp : ImPlotContext K)
    (plot : ImPlotState K) : ImPlotState K :=
  if gp.Hov_Frame && gp.Hov_Plot && inp.MouseClicked gp.InputMap.BoxSelectButton &&
      ImHasFlag inp.KeyMods gp.InputMap.BoxSelectMod then
    { plot with SelectStart := inp.MousePos, Selecting := true }
  else plot

/-- "update query" of BeginPlot (implot.cpp, 961-970); the rebuilt transform cache is
returned with the plot. -/
def BeginPlot.updateQuery {K : Type} [LinearOrderedField K] (m : ImMath K)
    (inp : ImGuiInput K) (gp : ImPlotContext K) (plot : ImPlotState K) :
    ImPlotContext K × ImPlotState K :=
  if plot.Querying then
    let gp := UpdateTransformCache m gp plot
    let r : ImRect K :=
      { Min :=
          { x := if ImHasFlag inp.KeyMods gp.InputMap.HorizontalMod then gp.BB_Plot.Min.x
                  else min plot.QueryStart.x inp.MousePos.x
            y := if ImHasFlag inp.KeyMods gp.InputMap.VerticalMod then gp.BB_Plot.Min.y
                  else min plot.QueryStart.y inp.MousePos.y }
        Max :=
          { x := if ImHasFlag inp.KeyMods gp.InputMap.HorizontalMod then gp.BB_Plot.Max.x
                  else max plot.QueryStart.x inp.MousePos.x
            y := if ImHasFlag inp.KeyMods gp.InputMap.VerticalMod then gp.BB_Plot.Max.y
                  else max plot.QueryStart.y inp.MousePos.y } }
    (gp, { plot with QueryRect :=
            { Min := r.Min.sub gp.BB_Plot.Min, Max := r.Max.sub gp.BB_Plot.Min } })
  else (gp, plot)

/-- "end query" of BeginPlot (implot.cpp, 972-978). -/
def BeginPlot.endQuery {K : Type} [LinearOrderedField K] (inp : ImGuiInput K)
    (gp : ImPlotContext K) (plot : ImPlotState K) : ImPlotState K :=
  if plot.Querying && (inp.MouseReleased gp.InputMap.QueryButton ||
      inp.MouseReleased gp.InputMap.BoxSelectButton) then
    { plot with
      Querying := false
      Queried := decide (plot.QueryRect.GetWidth > 2) && decide (plot.QueryRect.GetHeight > 2) }
  else plot

/-- "begin query" of BeginPlot (implot.cpp, 981-986). -/
def BeginPlot.beginQuery {K : Type} [LinearOrderedField K] (inp : ImGuiInput K)
    (gp : ImPlotContext K) (plot : ImPlotState K) : ImPlotState K :=
  if ImHasFlag plot.Flags ImPlotFlags_Query && gp.Hov_Frame && gp.Hov_Plot &&
      inp.MouseClicked gp.InputMap.QueryButton &&
      ImHasFlag inp.KeyMods gp.InputMap.QueryMod then
    { plot with
      QueryRect := ImRect.ofCoords 0 0 0 0
      Querying := true
      Queried := true
      QueryStart := inp.MousePos }
  else plot

/-- "toggle between select/query" of BeginPlot, from selection to query
(implot.cpp, 988-994). -/
def BeginPlot.toggleToQuery {K : Type} [LinearOrderedField K] (inp : ImGuiInput K)
    (gp : ImPlotContext K) (plot : ImPlotState K) : ImPlotState K :=
  if ImHasFlag plot.Flags ImPlotFlags_Query && plot.Selecting &&
      ImHasFlag inp.KeyMods gp.InputMap.QueryToggleMod then
    { plot with
      Selecting := false
      QueryRect := ImRect.ofCoords 0 0 0 0
      Querying := true
      Queried := true
      QueryStart := plot.SelectStart }
  else plot

/-- The toggle from query back to selection (implot.cpp, 995-1000). -/
def BeginPlot.toggleToSelect {K : Type} [LinearOrderedField K] (inp : ImGuiInput K)
    (gp : ImPlotContext K) (plot : ImPlotState K) : ImPlotState K :=
  if ImHasFlag plot.Flags ImPlotFlags_BoxSelect && plot.Querying &&
      !ImHasFlag inp.KeyMods gp.InputMap.QueryToggleMod &&
      !inp.MouseDown gp.InputMap.QueryButton then
    { plot with
      Selecting := true
      Querying := false
      Queried := false
      QueryRect := ImRect.ofCoords 0 0 0 0 }
  else plot

/-- The reset of the query when the Query flag is off (implot.cpp, 1001-1005). -/
def BeginPlot.clearQuery {K : Type} [LinearOrderedField K] (plot : ImPlotState K) :
    ImPlotState K :=
  if !ImHasFlag plot.Flags ImPlotFlags_Query then
    { plot with
      Queried := false
      Querying := false
      QueryRect := ImRect.ofCoords 0 0 0 0 }
  else plot

/-- BOX-SELECTION AND QUERY of BeginPlot after the confirmation (implot.cpp, 947-1005):
cancel selection, begin selection, update query, end query, begin query, and the toggles
between selection and query.  The cursor call of "bad selection" is left out. -/
def BeginPlot.selectAndQuery {K : Type} [LinearOrderedField K] (m : ImMath K)
    (inp : ImGuiInput K) (gp : ImPlotContext K) (plot : ImPlotState K) :
    ImPlotContext K × ImPlotState K :=
  let plot := BeginPlot.cancelSelection inp gp plot
  let plot := BeginPlot.beginSelection inp gp plot
  let r := BeginPlot.updateQuery m inp gp plot
  let gp := r.1
  let plot := r.2
  let plot := BeginPlot.endQuery inp gp plot
  let plot := BeginPlot.beginQuery inp gp plot
  let plot := BeginPlot.toggleToQuery inp gp plot
  let plot := BeginPlot.toggleToSelect inp gp plot
  let plot := BeginPlot.clearQuery plot
  (gp, plot)

/-- DOUBLE CLICK of BeginPlot (implot.cpp, 1009-1020): the request of a fit. -/
def BeginPlot.doubleClick {K : Type} (inp : ImGuiInput K)
    (any_hov_y_axis_region hov_legend hov_query : Bool) (gp : ImPlotContext K)
    (plot : ImPlotState K) : ImPlotContext K :=
  if inp.MouseDoubleClicked gp.InputMap.FitButton && gp.Hov_Frame &&
      (plot.XAxis.HoveredTot || any_hov_y_axis_region) && !hov_legend && !hov_query then
    { gp with
      FitThisFrame := true
      FitX := plot.XAxis.HoveredTot
      FitY := fun i => (plot.YAxis i).HoveredTot }
  else
    { gp with
      FitThisFrame := false
      FitX := false
      FitY := fun _ => false }

/-- The interaction pass of BeginPlot (implot.cpp, 787-1020), from the hover locals to
the double click, on the context and plot as the earlier parts of BeginPlot left them. -/
def BeginPlot.interaction {K : Type} [LinearOrderedField K] (env : ImPlotEnv K)
    (inp : ImGuiInput K) (gp : ImPlotContext K) (plot : ImPlotState K) :
    ImPlotContext K × ImPlotState K :=
  let any_hov_y_axis_region := BeginPlot.anyHovYAxisRegion plot
  let hov_legend := BeginPlot.hovLegend inp gp plot
  let hov_query := BeginPlot.hovQuery inp gp plot
  let plot := BeginPlot.queryDrag inp hov_legend hov_query gp plot
  let drag := BeginPlot.dragInput env.math inp hov_legend hov_query gp plot
  let scroll := BeginPlot.scrollInput env inp any_hov_y_axis_region drag.1 drag.2
  let confirm := BeginPlot.confirmSelection env.math inp scroll.1 scroll.2
  let select := BeginPlot.selectAndQuery env.math inp confirm.1 confirm.2
  let gp := BeginPlot.doubleClick inp any_hov_y_axis_region hov_legend hov_query
    select.1 select.2
  (gp, select.2)

/-- The value of a `double` that is neither NaN nor infinite. -/
def ImDouble.value {K : Type} [Zero K] : ImDouble K → K
  | ImDouble.finite v => v
  | _ => 0

/-- The fit of y axis `i` in EndPlot (implot.cpp, 1499-1504). -/
def EndPlot.fitY {K : Type} [Zero K] (gp : ImPlotContext K) (i : Fin 3)
    (plot : ImPlotState K) : ImPlotState K :=
  let plot : ImPlotState K :=
    if gp.FitY i && !ImHasFlag (plot.YAxis i).Flags ImPlotAxisFlags_LockMin &&
        !NanOrInf (gp.ExtentsY i).Min then
      plot.setYMin i (gp.ExtentsY i).Min.value
    else plot
  if gp.FitY i && !ImHasFlag (plot.YAxis i).Flags ImPlotAxisFlags_LockMax &&
      !NanOrInf (gp.ExtentsY i).Max then
    plot.setYMax i (gp.ExtentsY i).Max.value
  else plot

/-- The fit of the x axis in EndPlot (implot.cpp, 1492-1497). -/
def EndPlot.fitX {K : Type} [Zero K] (gp : ImPlotContext K) (plot : ImPlotState K) :
    ImPlotState K :=
  let plot : ImPlotState K :=
    if gp.FitX && !ImHasFlag plot.XAxis.Flags ImPlotAxisFlags_LockMin &&
        !NanOrInf gp.ExtentsX.Min then
      plot.setXMin gp.ExtentsX.Min.value
    else plot
  if gp.FitX && !ImHasFlag plot.XAxis.Flags ImPlotAxisFlags_LockMax &&
      !NanOrInf gp.ExtentsX.Max then
    plot.setXMax gp.ExtentsX.Max.value
  else plot

/-- FIT DATA of EndPlot (implot.cpp, 1491-1506).  A bound is assigned an extent only
when the extent is neither NaN nor infinite, so the range stays a number. -/
def EndPlot.fitData {K : Type} [Zero K] (gp : ImPlotContext K) (plot : ImPlotState K) :
    ImPlotState K :=
  if gp.FitThisFrame && (decide (gp.VisibleItemCount > 0) || plot.Queried) then
    forYAxes (EndPlot.fitY gp) (EndPlot.fitX gp plot)
  else plot

/-- The hover flags of the axes (implot.cpp, 755-756 and 772-775); whether the pointer is
in the region of the x axis and of each y axis is an input, the regions being laid out
from text sizes. -/
def BeginPlot.hover {K : Type} (gp : ImPlotContext K) (inXRegion : Bool)
    (inYRegion : Fin 3 → Bool) (plot : ImPlotState K) : ImPlotState K :=
  { plot with
    XAxis := { plot.XAxis with
      HoveredExt := inXRegion
      HoveredTot := inXRegion || gp.Hov_Plot }
    YAxis := fun i => { (plot.YAxis i) with
      HoveredExt := (gp.Y i).Present && inYRegion i
      HoveredTot := ((gp.Y i).Present && inYRegion i) || gp.Hov_Plot } }

/-- What one frame supplies to the interaction: the pointer and key input, the context
as the layout of BeginPlot left it, the pending-range arguments of the axis states,
whether the pointer is in the axis regions, and the extents and item count that the
plotting calls have accumulated by EndPlot. -/
structure FrameInput (K : Type) where
  inp : ImGuiInput K
  gp : ImPlotContext K
  HasXRange : Bool
  XRangeCond : ℕ
  HasYRange : Fin 3 → Bool
  YRangeCond : Fin 3 → ℕ
  inXRegion : Bool
  inYRegion : Fin 3 → Bool
  ExtentsX : ImPlotRange (ImDouble K)
  ExtentsY : Fin 3 → ImPlotRange (ImDouble K)
  VisibleItemCount : ℤ

/-- One frame of interaction on a plot: the axis states, the hover flags and the
interaction pass of BeginPlot, the plotting calls (which change only the extents and the item count of the
context), and the fit of EndPlot. -/
def interactionFrame {K : Type} [LinearOrderedField K] (env : ImPlotEnv K)
    (f : FrameInput K) (plot : ImPlotState K) : ImPlotState K :=
  let gp := BeginPlot.axisStates f.gp plot f.HasXRange f.XRangeCond f.HasYRange f.YRangeCond
  let plot := BeginPlot.hover gp f.inXRegion f.inYRegion plot
  let r := BeginPlot.interaction env f.inp gp plot
  let gp : ImPlotContext K :=
    { r.1 with ExtentsX := f.ExtentsX, ExtentsY := f.ExtentsY,
               VisibleItemCount := f.VisibleItemCount }
  EndPlot.fitData gp r.2

/-- A sequence of frames of interaction, first frame first. -/
def interactionFrames {K : Type} [LinearOrderedField K] (env : ImPlotEnv K) :
    List (FrameInput K) → ImPlotState K → ImPlotState K
  | [], plot => plot
  | f :: fs, plot => interactionFrames env fs (interactionFrame env f plot)

/-- The number held by a `double` when it is neither NaN nor infinite, else `old`. -/
def ImDouble.finiteOr {K : Type} : ImDouble K → K → K
  | ImDouble.finite v, _ => v
  | _, old => old

/-- The fit of one bound in the words of the specification: when a fit was requested and
applies (`requested`), the axis is marked for fit and the bound is not locked, a finite
extent replaces the bound; in every other case the bound stays. -/
def fitBound {K : Type} (requested marked locked : Bool) (extent : ImDouble K) (old : K) : K :=
  if requested = true ∧ marked = true ∧ locked = false then extent.finiteOr old else old

/-- A plot with the default axis flags (grid lines, tick marks, tick labels; no lock)
whose axes all show `[0, 1]`. -/
def fitExamplePlot : ImPlotState ℚ :=
  examplePlot 0 (exampleAxis 0 1 7) (exampleAxis 0 1 7)

/-- A stand-in for `<math.h>` on plots without log-scaled axes, whose results depend on
no value of `ImLog10` or `ImPow`. -/
def linearOnlyMath : ImMath ℚ := { ImLog10 := fun _ => 0, ImPow := fun _ _ => 0 }

/-- A plot with box selection enabled, linear axes `x` in `[0, 10]` and `y` in `[-5, 5]`,
and a selection started at the pixel (110, 120). -/
def selectExamplePlot : ImPlotState ℚ :=
  { (examplePlot ImPlotFlags_BoxSelect (exampleAxis 0 10 7) (exampleAxis (-5) 5 7) :
      ImPlotState ℚ) with
    Selecting := true
    SelectStart := { x := 110, y := 120 } }

/-- The input of a frame in which the right button is released at the pixel (210, 220)
with no modifier key held. -/
def selectExampleInput : ImGuiInput ℚ :=
  { MousePos := { x := 210, y := 220 }, MouseDelta := { x := 0, y := 0 }, MouseWheel := 0,
    MouseDown := fun _ => false, MouseClicked := fun _ => false,
    MouseReleased := fun b => b == ImGuiMouseButton_Right,
    MouseDoubleClicked := fun _ => false, KeyMods := ImGuiKeyModFlags_None }

/-- An axis keeps its flags, and keeps its range minimum when `locked` is set. -/
def AxisKept {K : Type} (locked : Bool) (a a' : ImPlotAxis K) : Prop :=
  a'.Flags = a.Flags ∧ (locked = true → a'.Range.Min = a.Range.Min)

/-- Every axis of the plot keeps its flags, and keeps its range minimum when its entry in
`lx`, `ly` is set. -/
def PlotKept {K : Type} (lx : Bool) (ly : Fin 3 → Bool) (p p' : ImPlotState K) : Prop :=
  AxisKept lx p.XAxis p'.XAxis ∧ ∀ i : Fin 3, AxisKept (ly i) (p.YAxis i) (p'.YAxis i)

/-- The four axes of a plot: X, and Y0, Y1, Y2. -/
inductive ImPlotAxisId where
  | X
  | Y (i : Fin 3)

/-- The axis of a plot with the given name. -/
def ImPlotState.axis {K : Type} (plot : ImPlotState K) : ImPlotAxisId → ImPlotAxis K
  | ImPlotAxisId.X => plot.XAxis
  | ImPlotAxisId.Y i => plot.YAxis i

/-- An environment for the examples: no log-scaled axis, a zoom rate of one tenth, and an
axis scale that maps the plot rectangle, grown by `zoom_rate` about the pointer fraction
`(tx, ty)`, to plot space. -/
def exampleEnv : ImPlotEnv ℚ :=
  { math := linearOnlyMath
    IMPLOT_ZOOM_RATE := 1 / 10
    AxisScale := fun gp plot i tx ty zoom_rate =>
      (PixelsToPlot linearOnlyMath gp plot
          (gp.BB_Plot.Min.x - gp.BB_Plot.GetWidth * (tx * zoom_rate))
          (gp.BB_Plot.Min.y - gp.BB_Plot.GetHeight * (ty * zoom_rate)) i,
        PixelsToPlot linearOnlyMath gp plot
          (gp.BB_Plot.Max.x + gp.BB_Plot.GetWidth * ((1 - tx) * zoom_rate))
          (gp.BB_Plot.Max.y + gp.BB_Plot.GetHeight * ((1 - ty) * zoom_rate)) i) }

/-- A plot whose x axis shows `[0, 10]`, has the LockMin flag (with the default flags,
23 = 7 + 16) and is being dragged; the y axes show `[-5, 5]`. -/
def dragExamplePlot : ImPlotState ℚ :=
  examplePlot 0 { (exampleAxis 0 10 23 : ImPlotAxis ℚ) with Dragging := true }
    (exampleAxis (-5) 5 7)

/-- A frame in which the left button is held and the pointer has moved 40 pixels to the
right over the plot. -/
def dragExampleFrame : FrameInput ℚ :=
  { inp :=
      { MousePos := { x := 200, y := 100 }, MouseDelta := { x := 40, y := 0 }, MouseWheel := 0,
        MouseDown := fun b => b == ImGuiMouseButton_Left, MouseClicked := fun _ => false,
        MouseReleased := fun _ => false, MouseDoubleClicked := fun _ => false,
        KeyMods := ImGuiKeyModFlags_None }
    gp := { (exampleContext : ImPlotContext ℚ) with Hov_Frame := true, Hov_Plot := true }
    HasXRange := false
    XRangeCond := 0
    HasYRange := fun _ => false
    YRangeCond := fun _ => 0
    inXRegion := false
    inYRegion := fun _ => false
    ExtentsX := { Min := ImDouble.posInf, Max := ImDouble.negInf }
    ExtentsY := fun _ => { Min := ImDouble.posInf, Max := ImDouble.negInf }
    VisibleItemCount := 0 }

/-- A context like `exampleContext` in which the pointer is over the frame and the plot. -/
def hoveredContext : ImPlotContext ℚ :=
  { (exampleContext : ImPlotContext ℚ) with Hov_Frame := true, Hov_Plot := true }

/-- A plot with the BoxSelect and Query flags (24 = 8 + 16) on which a box selection,
started at the pixel (110, 120), is in progress and no query is. -/
def queryExamplePlot : ImPlotState ℚ :=
  { (examplePlot 24 (exampleAxis 0 10 7) (exampleAxis (-5) 5 7) : ImPlotState ℚ) with
    Selecting := true
    SelectStart := { x := 110, y := 120 } }

/-- The input of a frame in which the right button is still held, the middle button is
clicked at the pixel (210, 220), and no modifier key is held. -/
def queryClickInput : ImGuiInput ℚ :=
  { MousePos := { x := 210, y := 220 }, MouseDelta := { x := 0, y := 0 }, MouseWheel := 0,
    MouseDown := fun b => b == ImGuiMouseButton_Right || b == ImGuiMouseButton_Middle,
    MouseClicked := fun b => b == ImGuiMouseButton_Middle,
    MouseReleased := fun _ => false,
    MouseDoubleClicked := fun _ => false, KeyMods := ImGuiKeyModFlags_None }

/-- A plot with the Legend and BoxSelect flags (10 = 2 + 8) whose legend, as laid out in
the frame before, covers the pixels from (20, 30) to (120, 80); nothing is in progress. -/
def legendExamplePlot : ImPlotState ℚ :=
  { (examplePlot 10 (exampleAxis 0 10 7) (exampleAxis (-5) 5 7) : ImPlotState ℚ) with
    BB_Legend := ImRect.ofCoords 20 30 120 80 }

/-- The input of a frame in which the right button is clicked at the pixel (50, 50),
inside the legend, with no modifier key held. -/
def legendClickInput : ImGuiInput ℚ :=
  { MousePos := { x := 50, y := 50 }, MouseDelta := { x := 0, y := 0 }, MouseWheel := 0,
    MouseDown := fun b => b == ImGuiMouseButton_Right,
    MouseClicked := fun b => b == ImGuiMouseButton_Right,
    MouseReleased := fun _ => false,
    MouseDoubleClicked := fun _ => false, KeyMods := ImGuiKeyModFlags_None }

/-- No drag has been started between `p` and `q`: the plot flags are the same, and the
Dragging flag of an axis and the DraggingQuery flag are set in `q` only when they were
set in `p`. -/
def NoNewDrag {K : Type} (p q : ImPlotState K) : Prop :=
  q.Flags = p.Flags ∧ (q.DraggingQuery = true → p.DraggingQuery = true) ∧
  (q.XAxis.Dragging = true → p.XAxis.Dragging = true) ∧
  ∀ i : Fin 3, (q.YAxis i).Dragging = true → (p.YAxis i).Dragging = true

/-- The input of a frame in which the left button is clicked at the pixel (50, 50),
inside the legend, with no modifier key held. -/
def legendPanInput : ImGuiInput ℚ :=
  { MousePos := { x := 50, y := 50 }, MouseDelta := { x := 0, y := 0 }, MouseWheel := 0,
    MouseDown := fun b => b == ImGuiMouseButton_Left,
    MouseClicked := fun b => b == ImGuiMouseButton_Left,
    MouseReleased := fun _ => false,
    MouseDoubleClicked := fun _ => false, KeyMods := ImGuiKeyModFlags_None }

/-! ### The constraint pass of BeginPlot -/

/-- Modelled from the spec: the enumeration `ImTimeUnit_` of implot_internal.h, which is
not under src/; the spec lists the units from the finest to the coarsest as microsecond,
millisecond, second, minute, hour, day, month, year, and implot.cpp compares them in that
order (`unit < ImTimeUnit_SEC`, the loop from `ImTimeUnit_US` to `ImTimeUnit_COUNT`). -/
def ImTimeUnit_US : ℕ := 0
/-- Millisecond. -/
def ImTimeUnit_MS : ℕ := 1
/-- Second. -/
def ImTimeUnit_SEC : ℕ := 2
/-- Minute. -/
def ImTimeUnit_MIN : ℕ := 3
/-- Hour. -/
def ImTimeUnit_HR : ℕ := 4
/-- Day. -/
def ImTimeUnit_DAY : ℕ := 5
/-- Month. -/
def ImTimeUnit_MON : ℕ := 6
/-- Year. -/
def ImTimeUnit_YEAR : ℕ := 7
/-- The number of units. -/
def ImTimeUnit_COUNT : ℕ := 8

/-- `struct tm` of `<time.h>`. -/
structure Tm where
  tm_sec : ℤ
  tm_min : ℤ
  tm_hour : ℤ
  tm_mday : ℤ
  tm_mon : ℤ
  tm_year : ℤ
  tm_wday : ℤ
  tm_yday : ℤ
  tm_isdst : ℤ

/-- The declarations that the time code of implot.cpp uses and that are not under src/,
taken as parameters: the tables `ImTimeUnits_Size` (whole microseconds), `ImTimeUnits_Steps`,
`ImTimeUnits_Common`, `ImTimeUnits_PrefixValueFormats` and `ImTimeUnits_ValueFormats` and
the macro `US_IN_SEC` of implot_internal.h, and `localtime` (a null result is `none`),
`mktime` and `strftime` (the characters written, none when they do not fit `maxsize`) of
`<time.h>`, which depend on the platform and its time zone, and the functions of
`<math.h>` that `NiceNum` calls (`math`). -/
structure ImTimeEnv where
  math : ImMath ℚ
  ImTimeUnits_Size : ℕ → ℤ
  ImTimeUnits_Steps : ℕ → ℤ
  ImTimeUnits_Common : ℕ → Bool
  ImTimeUnits_PrefixValueFormats : ℕ → String
  ImTimeUnits_ValueFormats : ℕ → String
  US_IN_SEC : ℤ
  localtime : ℤ → Option Tm
  mktime : Tm → ℤ
  strftime : ℕ → String → Tm → List Char

/-- The constants that the constraint pass of BeginPlot reads and that are not under src/,
taken as parameters: `DBL_MAX` of `<float.h>`, the positive floor of `ConstrainLog`, and
the macros `IM_MIN_SEC_TIME_LIMIT` and `IM_MAX_SEC_TIME_LIMIT` of implot_internal.h.
With them comes the arithmetic of the pass: `fl x` is the `double` that an operation
with the exact result `x` stores (`F64.round` for IEEE 754 binary64). -/
structure ImPlotLimitConsts (K : Type) where
  DBL_MAX : K
  LogFloor : K
  IM_MIN_SEC_TIME_LIMIT : K
  IM_MAX_SEC_TIME_LIMIT : K
  fl : K → K

/-- Modelled from the spec: `ConstrainNan` of implot_internal.h, which is not under src/;
the spec has the constraint pass "replace NaN with 0". -/
def ConstrainNan {K : Type} [Zero K] : ImDouble K → ImDouble K
  | ImDouble.nan => ImDouble.finite 0
  | d => d

/-- Modelled from the spec: `ConstrainInf` of implot_internal.h, which is not under src/;
the spec has the constraint pass "replace ±Inf with a large finite bound", here the
parameter `big` and its negative. -/
def ConstrainInf {K : Type} [Neg K] (big : K) : ImDouble K → ImDouble K
  | ImDouble.posInf => ImDouble.finite big
  | ImDouble.negInf => ImDouble.finite (-big)
  | d => d

/-- Modelled from the spec: `ConstrainLog` of implot_internal.h, which is not under src/;
the spec has "values ≤0 pushed to a small positive floor". -/
def ConstrainLog {K : Type} [LinearOrderedField K] (floor val : K) : K :=
  if val ≤ 0 then floor else val

/-- `ConstrainTime` (implot.cpp, 2413-2415), with the two limits as arguments. -/
def ConstrainTime {K : Type} [LinearOrderedField K] (lo hi val : K) : K :=
  if val < lo then lo else if val > hi then hi else val

/-- A range of numbers as a range of doubles. -/
def ImPlotRange.ofNumbers {K : Type} (r : ImPlotRange K) : ImPlotRange (ImDouble K) :=
  { Min := ImDouble.finite r.Min, Max := ImDouble.finite r.Max }

/-- The NextPlotData section of BeginPlot for one axis (implot.cpp, 584-596): the range
that the axis holds after it, given the range it held before. -/
def BeginPlot.nextRange {K : Type} (just_created has_range : Bool) (range_cond : ℕ)
    (pending stored : ImPlotRange (ImDouble K)) : ImPlotRange (ImDouble K) :=
  if has_range then
    if just_created || range_cond == ImGuiCond_Always then pending else stored
  else stored

/-- One bound of the time axis, clamped in seconds to the supported window
(implot.cpp, 620 and 621):
`ConstrainTime(val / ImTimeUnits_Size[ImTimeUnit_SEC]) * ImTimeUnits_Size[ImTimeUnit_SEC]`,
the division and the multiplication each rounded to a `double`. -/
def BeginPlot.clampTime {K : Type} [LinearOrderedField K] (c : ImPlotLimitConsts K)
    (t : ImTimeEnv) (val : K) : K :=
  let SEC : K := (t.ImTimeUnits_Size ImTimeUnit_SEC : K)
  c.fl (ConstrainTime c.IM_MIN_SEC_TIME_LIMIT c.IM_MAX_SEC_TIME_LIMIT (c.fl (val / SEC)) * SEC)

/-- The time constraints of BeginPlot on the x axis (implot.cpp, 619-625): both bounds
are clamped, in seconds, to the supported window, and when `Max <= Min + 1 us` holds for
the rounded sum, `Max` becomes the rounded sum `Min + 2 us`. -/
def BeginPlot.constrainTimeRange {K : Type} [LinearOrderedField K] (c : ImPlotLimitConsts K)
    (t : ImTimeEnv) (r : ImPlotRange K) : ImPlotRange K :=
  let US : K := (t.ImTimeUnits_Size ImTimeUnit_US : K)
  let Min : K := BeginPlot.clampTime c t r.Min
  let Max : K := BeginPlot.clampTime c t r.Max
  let Max : K := if Max ≤ c.fl (Min + US) then c.fl (Min + 2 * US) else Max
  { Min := Min, Max := Max }

/-- The last constraint of BeginPlot on an axis (implot.cpp, 635-640):
`if (Range.Max <= Range.Min) Range.Max = Range.Min + DBL_EPSILON`, the sum rounded to a
`double`. -/
def BeginPlot.constrainOrder {K : Type} [LinearOrderedField K] (c : ImPlotLimitConsts K)
    (r : ImPlotRange K) : ImPlotRange K :=
  if r.Max ≤ r.Min then { Min := r.Min, Max := c.fl (r.Min + (DBL_EPSILON : K)) } else r

/-- The constraints of BeginPlot on the x axis (implot.cpp, 608-609, 615-625, 635-636),
in the order of the source: NaN and infinities, the log scale, the time scale, and the
bump of an empty or reversed range by `DBL_EPSILON`. -/
def BeginPlot.constrainX {K : Type} [LinearOrderedField K] (c : ImPlotLimitConsts K)
    (t : ImTimeEnv) (flags : ℕ) (r : ImPlotRange (ImDouble K)) : ImPlotRange K :=
  let Min : K := (ConstrainNan (ConstrainInf c.DBL_MAX r.Min)).value
  let Max : K := (ConstrainNan (ConstrainInf c.DBL_MAX r.Max)).value
  let Min : K := if ImHasFlag flags ImPlotAxisFlags_LogScale then ConstrainLog c.LogFloor Min
    else Min
  let Max : K := if ImHasFlag flags ImPlotAxisFlags_LogScale then ConstrainLog c.LogFloor Max
    else Max
  let r : ImPlotRange K :=
    if ImHasFlag flags ImPlotAxisFlags_Time then
      BeginPlot.constrainTimeRange c t { Min := Min, Max := Max }
    else { Min := Min, Max := Max }
  BeginPlot.constrainOrder c r

/-- The constraints of BeginPlot on a y axis (implot.cpp, 610-613, 628-633, 637-640). -/
def BeginPlot.constrainY {K : Type} [LinearOrderedField K] (c : ImPlotLimitConsts K)
    (flags : ℕ) (r : ImPlotRange (ImDouble K)) : ImPlotRange K :=
  let Min : K := (ConstrainNan (ConstrainInf c.DBL_MAX r.Min)).value
  let Max : K := (ConstrainNan (ConstrainInf c.DBL_MAX r.Max)).value
  let Min : K := if ImHasFlag flags ImPlotAxisFlags_LogScale then ConstrainLog c.LogFloor Min
    else Min
  let Max : K := if ImHasFlag flags ImPlotAxisFlags_LogScale then ConstrainLog c.LogFloor Max
    else Max
  BeginPlot.constrainOrder c { Min := Min, Max := Max }
/-! ### The context, the Begin/End bracket and the calls around it -/

/-- How a call can go wrong: a failed `IM_ASSERT_USER_ERROR` or `IM_ASSERT`, with the
message of the check, or an array of `IMPLOT_Y_AXES` entries indexed outside `0..2`,
which no check has caught. -/
inductive ImPlotFault where
  | usage (msg : String)
  | outOfBounds
  deriving DecidableEq

/-- `IM_ASSERT_USER_ERROR(_EXP, _MSG)` and `IM_ASSERT(_EXP)`: the call goes on when the
expression holds and is reported otherwise. -/
def IM_ASSERT_USER_ERROR (exp : Bool) (msg : String) : Except ImPlotFault Unit :=
  if exp then Except.ok () else Except.error (ImPlotFault.usage msg)

/-- Entry `i` of an array of `IMPLOT_Y_AXES = 3` entries, for an `int` index. -/
def yAxisEntry {α : Type} (arr : Fin 3 → α) (i : ℤ) : Except ImPlotFault α :=
  if i = 0 then Except.ok (arr 0)
  else if i = 1 then Except.ok (arr 1)
  else if i = 2 then Except.ok (arr 2)
  else Except.error ImPlotFault.outOfBounds

/-- `ImPlotNextPlotData`: what the set-next calls leave for the next BeginPlot.  The
pending ranges are doubles as the caller passed them. -/
structure ImPlotNextPlotData (K : Type) where
  XRangeCond : ℕ
  YRangeCond : Fin 3 → ℕ
  X : ImPlotRange (ImDouble K)
  Y : Fin 3 → ImPlotRange (ImDouble K)
  HasXRange : Bool
  HasYRange : Fin 3 → Bool
  ShowDefaultTicksX : Bool
  ShowDefaultTicksY : Fin 3 → Bool

/-- Modelled from the spec: the constructor `ImPlotNextPlotData()` of implot_internal.h,
which is not under src/.  The spec has the set-next calls apply to the next plot only and
the default ticks generated unless custom ticks replace them, and `Reset` (implot.cpp,
215) assigns a newly constructed record "to reset the next plot data": no range is
pending and the default ticks are shown.  The conditions and ranges, which BeginPlot uses
only under `HasXRange` and `HasYRange`, are given as `0` and NaN. -/
def ImPlotNextPlotData.new {K : Type} : ImPlotNextPlotData K :=
  { XRangeCond := 0
    YRangeCond := fun _ => 0
    X := { Min := ImDouble.nan, Max := ImDouble.nan }
    Y := fun _ => { Min := ImDouble.nan, Max := ImDouble.nan }
    HasXRange := false
    HasYRange := fun _ => false
    ShowDefaultTicksX := true
    ShowDefaultTicksY := fun _ => true }

/-- The context `*GImPlot`: the part `gp` that the transform and the interaction use,
and the fields that BeginPlot, EndPlot, `Reset` and the set-next calls manage.  The pool
`Plots` is a table of plots by ID with the set of IDs that have been added
(`GetByKey(ID) == NULL` when `PlotExists ID` is false); `CurrentPlot` points into the
pool, so it is an ID, or `none` for `NULL`. -/
structure ImPlotGlobal (K : Type) where
  gp : ImPlotContext K
  Plots : ℕ → ImPlotState K
  PlotExists : ℕ → Bool
  CurrentPlot : Option ℕ
  NextPlotData : ImPlotNextPlotData K
  XTicks : List (ImPlotTick K)
  YTicks : Fin 3 → List (ImPlotTick K)
  LastMousePos : Fin 3 → ImPlotPoint K
  ChildWindowMade : Bool

/-- `Reset(ctx)` (implot.cpp, 211-244); the calls into Dear ImGui, the legend, the label
buffers and the counters of digital plots are left out. -/
def Reset {K : Type} (ctx : ImPlotGlobal K) : ImPlotGlobal K :=
  { ctx with
    ChildWindowMade := false
    NextPlotData := ImPlotNextPlotData.new
    gp := { ctx.gp with
      VisibleItemCount := 0
      FitX := false
      ExtentsX := { Min := ImDouble.posInf, Max := ImDouble.negInf }
      ExtentsY := fun _ => { Min := ImDouble.posInf, Max := ImDouble.negInf }
      FitY := fun _ => false }
    XTicks := []
    YTicks := fun _ => []
    CurrentPlot := none }

/-- `ImIsPowerOfTwo(v)` of Dear ImGui: `v != 0 && (v & (v - 1)) == 0`. -/
def ImIsPowerOfTwo (v : ℕ) : Bool := v != 0 && (v &&& (v - 1)) == 0

/-- `SetNextPlotLimitsX(x_min, x_max, cond)` (implot.cpp, 1569-1577). -/
def SetNextPlotLimitsX {K : Type} (x_min x_max : ImDouble K) (cond : ℕ)
    (g : ImPlotGlobal K) : Except ImPlotFault (ImPlotGlobal K) :=
  match IM_ASSERT_USER_ERROR g.CurrentPlot.isNone
      "SetNextPlotLSetNextPlotLimitsXimitsY() needs to be called before BeginPlot()!" with
  | Except.error e => Except.error e
  | Except.ok _ =>
    match IM_ASSERT_USER_ERROR (cond == 0 || ImIsPowerOfTwo cond)
        "cond == 0 || ImIsPowerOfTwo(cond)" with
    | Except.error e => Except.error e
    | Except.ok _ =>
      Except.ok { g with NextPlotData := { g.NextPlotData with
        HasXRange := true
        XRangeCond := cond
        X := { Min := x_min, Max := x_max } } }

/-- `SetNextPlotLimitsY(y_min, y_max, cond, y_axis)` (implot.cpp, 1579-1588). -/
def SetNextPlotLimitsY {K : Type} (y_min y_max : ImDouble K) (cond : ℕ) (y_axis : ℤ)
    (g : ImPlotGlobal K) : Except ImPlotFault (ImPlotGlobal K) :=
  match IM_ASSERT_USER_ERROR g.CurrentPlot.isNone
      "SetNextPlotLimitsY() needs to be called before BeginPlot()!" with
  | Except.error e => Except.error e
  | Except.ok _ =>
    match IM_ASSERT_USER_ERROR (decide (y_axis ≥ 0) && decide (y_axis < 3))
        "y_axis needs to be between 0 and IMPLOT_Y_AXES" with
    | Except.error e => Except.error e
    | Except.ok _ =>
      match IM_ASSERT_USER_ERROR (cond == 0 || ImIsPowerOfTwo cond)
          "cond == 0 || ImIsPowerOfTwo(cond)" with
      | Except.error e => Except.error e
      | Except.ok _ =>
        match yAxisEntry (fun i : Fin 3 => i) y_axis with
        | Except.error e => Except.error e
        | Except.ok i =>
          Except.ok { g with NextPlotData := { g.NextPlotData with
            HasYRange := Function.update g.NextPlotData.HasYRange i true
            YRangeCond := Function.update g.NextPlotData.YRangeCond i cond
            Y := Function.update g.NextPlotData.Y i { Min := y_min, Max := y_max } } }

/-- `SetNextPlotLimits(x_min, x_max, y_min, y_max, cond)` (implot.cpp, 1563-1567). -/
def SetNextPlotLimits {K : Type} (x_min x_max y_min y_max : ImDouble K) (cond : ℕ)
    (g : ImPlotGlobal K) : Except ImPlotFault (ImPlotGlobal K) :=
  match IM_ASSERT_USER_ERROR g.CurrentPlot.isNone
      "SetNextPlotLimits() needs to be called before BeginPlot()!" with
  | Except.error e => Except.error e
  | Except.ok _ =>
    match SetNextPlotLimitsX x_min x_max cond g with
    | Except.error e => Except.error e
    | Except.ok g => SetNextPlotLimitsY y_min y_max cond 0 g

/-- `AddCustomTicks(values, labels, n, ticks, buffer)` (implot.cpp, 444-455), with the
`n` values as a list and `labels != NULL` as a flag; the label text is left out. -/
def AddCustomTicks {K : Type} (values : List K) (labels : Bool) (ticks : List (ImPlotTick K)) :
    List (ImPlotTick K) :=
  ticks ++ values.map (fun v =>
    { (ImPlotTick.new v false true : ImPlotTick K) with Labeled := labels })

/-- `SetNextPlotTicksX(values, n_ticks, labels, show_default)` (implot.cpp, 1590-1595). -/
def SetNextPlotTicksX {K : Type} (values : List K) (labels show_default : Bool)
    (g : ImPlotGlobal K) : Except ImPlotFault (ImPlotGlobal K) :=
  match IM_ASSERT_USER_ERROR g.CurrentPlot.isNone
      "SetNextPlotTicksX() needs to be called before BeginPlot()!" with
  | Except.error e => Except.error e
  | Except.ok _ =>
    Except.ok { g with
      NextPlotData := { g.NextPlotData with ShowDefaultTicksX := show_default }
      XTicks := AddCustomTicks values labels g.XTicks }

/-- `SetNextPlotTicksY(values, n_ticks, labels, show_default, y_axis)`
(implot.cpp, 1604-1610). -/
def SetNextPlotTicksY {K : Type} (values : List K) (labels show_default : Bool) (y_axis : ℤ)
    (g : ImPlotGlobal K) : Except ImPlotFault (ImPlotGlobal K) :=
  match IM_ASSERT_USER_ERROR g.CurrentPlot.isNone
      "SetNextPlotTicksY() needs to be called before BeginPlot()!" with
  | Except.error e => Except.error e
  | Except.ok _ =>
    match IM_ASSERT_USER_ERROR (decide (y_axis ≥ 0) && decide (y_axis < 3))
        "y_axis needs to be between 0 and IMPLOT_Y_AXES" with
    | Except.error e => Except.error e
    | Except.ok _ =>
      match yAxisEntry (fun i : Fin 3 => i) y_axis with
      | Except.error e => Except.error e
      | Except.ok i =>
        Except.ok { g with
          NextPlotData := { g.NextPlotData with
            ShowDefaultTicksY := Function.update g.NextPlotData.ShowDefaultTicksY i show_default }
          YTicks := Function.update g.YTicks i (AddCustomTicks values labels (g.YTicks i)) }

/-- The declarations of implot_internal.h and of the C library that BeginPlot uses and
that are not under src/, taken as parameters: those of the interaction pass (`env`), the
constants of the constraint pass (`limits`), the time tables (`time`), and the plot that
`gp.Plots.GetOrAddByKey(ID)` constructs for a new ID (`NewPlot`). -/
structure ImPlotInternal (K : Type) where
  env : ImPlotEnv K
  limits : ImPlotLimitConsts K
  time : ImTimeEnv
  NewPlot : ImPlotState K

/-- What Dear ImGui and the layout supply to one call of BeginPlot: whether the window
skips items, the result of `ItemAdd`, the input record, `ItemHoverable` of the frame, the
plot rectangle (laid out from text sizes), whether the pointer is in the region of each
axis, and the default ticks that `AddDefaultTicks` or `AddDefaultTimeScaleTicks` append
for each axis (both only push ticks to the back of the list; the number of divisions
comes from text sizes). -/
structure BeginPlotHost (K : Type) where
  SkipItems : Bool
  ItemAdd : Bool
  inp : ImGuiInput K
  Hov_Frame : Bool
  BB_Plot : ImRect K
  inXRegion : Bool
  inYRegion : Fin 3 → Bool
  XDefaultTicks : List (ImPlotTick K)
  YDefaultTicks : Fin 3 → List (ImPlotTick K)

/-- The assignment `plot.YAxis[i].Flags = flags`. -/
def ImPlotState.setYFlags {K : Type} (plot : ImPlotState K) (i : Fin 3) (flags : ℕ) :
    ImPlotState K :=
  let axis : ImPlotAxis K := { (plot.YAxis i) with Flags := flags }
  { plot with YAxis := Function.update plot.YAxis i axis }

/-- The flags section of BeginPlot (implot.cpp, 543-567).  For a plot that exists the
flags of the x axis are not refreshed. -/
def BeginPlot.updateFlags {K : Type} (just_created : Bool)
    (flags x_flags y_flags y2_flags y3_flags : ℕ) (plot : ImPlotState K) : ImPlotState K :=
  let plot : ImPlotState K :=
    if just_created then
      let plot : ImPlotState K :=
        { plot with Flags := flags, XAxis := { plot.XAxis with Flags := x_flags } }
      ((plot.setYFlags 0 y_flags).setYFlags 1 y2_flags).setYFlags 2 y3_flags
    else
      let plot : ImPlotState K :=
        if flags != plot.PreviousFlags then { plot with Flags := flags } else plot
      let plot : ImPlotState K :=
        if y_flags != (plot.YAxis 0).PreviousFlags then plot.setYFlags 0 y_flags else plot
      let plot : ImPlotState K :=
        if y2_flags != (plot.YAxis 1).PreviousFlags then plot.setYFlags 1 y2_flags else plot
      if y3_flags != (plot.YAxis 2).PreviousFlags then plot.setYFlags 2 y3_flags else plot
  { plot with
    PreviousFlags := flags
    XAxis := { plot.XAxis with PreviousFlags := x_flags }
    YAxis := fun i => { (plot.YAxis i) with
      PreviousFlags := if i = 0 then y_flags else if i = 1 then y2_flags else y3_flags } }

/-- The NextPlotData section of BeginPlot (implot.cpp, 584-596) followed by its
constraints (implot.cpp, 608-640): each axis takes the pending range when it applies and
is then constrained. -/
def BeginPlot.ranges {K : Type} [LinearOrderedField K] (c : ImPlotLimitConsts K)
    (t : ImTimeEnv) (just_created : Bool) (npd : ImPlotNextPlotData K) (plot : ImPlotState K) :
    ImPlotState K :=
  { plot with
    XAxis := { plot.XAxis with
      Range := BeginPlot.constrainX c t plot.XAxis.Flags
        (BeginPlot.nextRange just_created npd.HasXRange npd.XRangeCond npd.X
          plot.XAxis.Range.ofNumbers) }
    YAxis := fun i => { (plot.YAxis i) with
      Range := BeginPlot.constrainY c (plot.YAxis i).Flags
        (BeginPlot.nextRange just_created (npd.HasYRange i) (npd.YRangeCond i) (npd.Y i)
          (plot.YAxis i).Range.ofNumbers) } }

/-- `LabelTicks` (implot.cpp, 457-479) as far as the tick list goes: a tick that shows a
label and has none is marked as labeled; the text is left out. -/
def LabelTicks {K : Type} (ticks : List (ImPlotTick K)) : List (ImPlotTick K) :=
  ticks.map (fun tk => if tk.ShowLabel && !tk.Labeled then { tk with Labeled := true } else tk)

/-- Whether an axis with the given flags has grid lines, tick marks or tick labels
(implot.cpp, 697-708; the number of divisions is at least 2). -/
def BeginPlot.renderAxis (flags : ℕ) : Bool :=
  ImHasFlag flags ImPlotAxisFlags_GridLines || ImHasFlag flags ImPlotAxisFlags_TickMarks ||
    ImHasFlag flags ImPlotAxisFlags_TickLabels

/-- The plot with the given ID written back to the pool. -/
def ImPlotGlobal.setPlot {K : Type} (g : ImPlotGlobal K) (ID : ℕ) (plot : ImPlotState K) :
    ImPlotGlobal K :=
  { g with Plots := Function.update g.Plots ID plot }

/-- `BeginPlot` (implot.cpp, 519-1123) on the context, for the plot `ID` (the hash of
the title) and the flags passed.  Colours, sizes and drawing are left out; the result is
the value returned and the context, or the failed check. -/
def BeginPlot {K : Type} [LinearOrderedField K] (e : ImPlotInternal K) (h : BeginPlotHost K)
    (ID flags x_flags y_flags y2_flags y3_flags : ℕ) (g : ImPlotGlobal K) :
    Except ImPlotFault (Bool × ImPlotGlobal K) :=
  match IM_ASSERT_USER_ERROR g.CurrentPlot.isNone "Mismatched BeginPlot()/EndPlot()!" with
  | Except.error err => Except.error err
  | Except.ok _ =>
    if h.SkipItems then Except.ok (false, Reset g)
    else
      let just_created : Bool := !g.PlotExists ID
      let plot : ImPlotState K := if just_created then e.NewPlot else g.Plots ID
      let g : ImPlotGlobal K :=
        { g with PlotExists := Function.update g.PlotExists ID true, CurrentPlot := some ID }
      let plot : ImPlotState K := { plot with CurrentYAxis := 0 }
      let plot := BeginPlot.updateFlags just_created flags x_flags y_flags y2_flags y3_flags plot
      let g : ImPlotGlobal K :=
        { g with ChildWindowMade := !ImHasFlag plot.Flags ImPlotFlags_NoChild }
      let gp := BeginPlot.axisStates g.gp plot g.NextPlotData.HasXRange
        g.NextPlotData.XRangeCond g.NextPlotData.HasYRange g.NextPlotData.YRangeCond
      let plot := BeginPlot.ranges e.limits e.time just_created g.NextPlotData plot
      if !h.ItemAdd then Except.ok (false, Reset ({ g with gp := gp }.setPlot ID plot))
      else
        let gp : ImPlotContext K := { gp with Hov_Frame := h.Hov_Frame }
        let XTicks : List (ImPlotTick K) :=
          if BeginPlot.renderAxis plot.XAxis.Flags && g.NextPlotData.ShowDefaultTicksX then
            g.XTicks ++ h.XDefaultTicks
          else g.XTicks
        let YTicks : Fin 3 → List (ImPlotTick K) := fun i =>
          if (gp.Y i).Present && BeginPlot.renderAxis (plot.YAxis i).Flags &&
              g.NextPlotData.ShowDefaultTicksY i then
            g.YTicks i ++ h.YDefaultTicks i
          else g.YTicks i
        let XTicks := if gp.X.HasLabels then LabelTicks XTicks else XTicks
        let YTicks : Fin 3 → List (ImPlotTick K) := fun i =>
          if (gp.Y i).Present && (gp.Y i).HasLabels then LabelTicks (YTicks i) else YTicks i
        let gp : ImPlotContext K :=
          { gp with BB_Plot := h.BB_Plot, Hov_Plot := h.BB_Plot.Contains h.inp.MousePos }
        let plot := BeginPlot.hover gp h.inXRegion h.inYRegion plot
        let r := BeginPlot.interaction e.env h.inp gp plot
        let gp := UpdateTransformCache e.env.math r.1 r.2
        let g : ImPlotGlobal K :=
          { g with
            gp := gp
            XTicks := XTicks
            YTicks := YTicks
            LastMousePos := fun i => PixelsToPlotVec e.env.math gp r.2 h.inp.MousePos i }
        Except.ok (true, g.setPlot ID r.2)

/-- What the layout supplies to one call of EndPlot: the number of legend entries and
the box of the legend, laid out from text sizes (implot.cpp, 1389-1400). -/
structure EndPlotHost (K : Type) where
  nItems : ℤ
  BB_Legend : ImRect K

/-- `EndPlot` (implot.cpp, 1269-1553) on the context: the legend box, the fit, and the
reset.  Drawing and the context menus, which change a plot only through the choices of
the user in them, are left out. -/
def EndPlot {K : Type} [LinearOrderedField K] (h : EndPlotHost K) (g : ImPlotGlobal K) :
    Except ImPlotFault (ImPlotGlobal K) :=
  match g.CurrentPlot with
  | none => Except.error (ImPlotFault.usage "Mismatched BeginPlot()/EndPlot()!")
  | some ID =>
    let plot := g.Plots ID
    let plot : ImPlotState K :=
      if ImHasFlag plot.Flags ImPlotFlags_Legend && decide (h.nItems > 0) then
        { plot with BB_Legend := h.BB_Legend }
      else plot
    let plot := EndPlot.fitData g.gp plot
    Except.ok (Reset (g.setPlot ID plot))
/-! ### NiceNum in binary64 -/

/-- The cast `(int)x` of a `double` to a 32-bit `int`: the fraction is dropped, and the
result is defined only when it fits (the C standard leaves the rest undefined). -/
def F64.toInt (x : ℚ) : Option ℤ :=
  let t : ℤ := if 0 ≤ x then ⌊x⌋ else ⌈x⌉
  if -2147483648 ≤ t ∧ t ≤ 2147483647 then some t else none

/-- `NiceNum` (implot.cpp, 153-176) in the arithmetic of `double`: `ImLog10` and `ImPow`
are those of the C library `m`, the division `x / ImPow(10.0, expv)` and the product
`nf * ImPow(10.0, expv)` are rounded to the nearest `double`; the comparisons with 1.5,
3, 7, 1, 2 and 5 are exact.  The result is `none` when `(int)floor(ImLog10(x))` does not
fit an `int`. -/
def NiceNum64 (m : ImMath ℚ) (x : ℚ) (round : Bool) : Option ℚ :=
  match F64.toInt ((⌊m.ImLog10 x⌋ : ℤ) : ℚ) with
  | none => none
  | some expv =>
    let f : ℚ := F64.round (x / m.ImPow 10 (expv : ℚ))
    let nf : ℚ :=
      if round then
        if f < 1.5 then 1
        else if f < 3 then 2
        else if f < 7 then 5
        else 10
      else if f ≤ 1 then 1
      else if f ≤ 2 then 2
      else if f ≤ 5 then 5
      else 10
    some (F64.round (nf * m.ImPow 10 (expv : ℚ)))

/-- The number of decimal digits of `n`, by division; `fuel` bounds the number of
divisions and `n` itself is always enough. -/
def F64.decLength : ℕ → ℕ → ℕ
  | 0, _ => 0
  | fuel + 1, n => if n = 0 then 0 else F64.decLength fuel (n / 10) + 1

/-- The power `10 ^ e` for a whole exponent of either sign. -/
def F64.pow10 (e : ℤ) : ℚ :=
  if 0 ≤ e then ((10 ^ e.toNat : ℕ) : ℚ) else 1 / ((10 ^ (-e).toNat : ℕ) : ℚ)

/-- The decimal exponent `e` with `10 ^ e ≤ x < 10 ^ (e + 1)` of a positive number, from
the numbers of digits of its numerator and denominator. -/
def F64.decExponent (x : ℚ) : ℤ :=
  let e0 : ℤ := (F64.decLength x.num.natAbs x.num.natAbs : ℤ)
    - (F64.decLength x.den x.den : ℤ)
  if x < F64.pow10 e0 then e0 - 1 else e0

/-- An example C library for `NiceNum`, the most accurate one can ask for: `ImLog10`
returns the whole part of the logarithm, which is all that `NiceNum` reads of it, without
error, and `ImPow(10, e)` returns the `double` nearest to `10 ^ e`. -/
def exampleMath64 : ImMath ℚ :=
  { ImLog10 := fun x => (F64.decExponent x : ℚ)
    ImPow := fun _ y => F64.round (F64.pow10 ⌊y⌋) }

/-! ### Time: units, stepper, formatter and time-scale ticks -/

/-- The cast `(long long)x` or `(int)x` of a double: the fraction is dropped. -/
def truncToInt (x : ℚ) : ℤ := if 0 ≤ x then ⌊x⌋ else ⌈x⌉

/-- `DetermineTimeScaleUnitForAutoTicks(min, max, capacity)` (implot.cpp, 2091-2099): the
first unit from `ImTimeUnit_US` on that is common and splits the span into at most
`capacity` steps, or the last unit when there is none. -/
def DetermineTimeScaleUnitForAutoTicks (t : ImTimeEnv) (min max : ℚ) (capacity : ℤ) : ℕ :=
  match (List.range' ImTimeUnit_US (ImTimeUnit_COUNT - ImTimeUnit_US)).find? (fun i =>
      t.ImTimeUnits_Common i &&
        decide ((⌈(max - min) / ((t.ImTimeUnits_Steps i : ℚ) * (t.ImTimeUnits_Size i : ℚ))⌉ : ℤ)
          ≤ capacity)) with
  | some i => i
  | none => ImTimeUnit_COUNT - 1

/-- `NiceNumTime(x, unit)` (implot.cpp, 2101-2161).  `NiceNum` is the one of `double`
arithmetic, on the C library of `t`; the result is `none` when a conversion to `int` that
the call performs, `(int)x` or `(int)NiceNum(x, 1)`, is out of range. -/
def NiceNumTime (t : ImTimeEnv) (x : ℚ) (unit : ℕ) : Option ℤ :=
  match F64.toInt x with
  | none => none
  | some f =>
    let nice : Option ℤ := (NiceNum64 t.math x true).bind F64.toInt
    if unit < ImTimeUnit_SEC then nice
    else if unit = ImTimeUnit_SEC ∨ unit = ImTimeUnit_MIN then
      some (
        if f < 2 then 1
        else if f < 4 then 2
        else if f < 10 then 5
        else if f < 15 then 10
        else if (f : ℚ) < 45 / 2 then 15
        else if f < 45 then 30
        else if f < 60 then 60
        else f.tdiv 60 * 60)
    else if unit = ImTimeUnit_HR then
      some (
        if f < 2 then 1
        else if f < 4 then 2
        else if f < 6 then 4
        else if f < 12 then 6
        else if f < 24 then 12
        else f.tdiv 24 * 24)
    else if unit = ImTimeUnit_DAY then
      if f < 30 then nice else some (f.tdiv 30 * 30)
    else if unit = ImTimeUnit_MON then
      some (
        if f < 2 then 1
        else if f < 6 then 6
        else if f < 12 then 12
        else f.tdiv 12 * 12)
    else nice

/-- `ImTimeStepper`: whole seconds, the microseconds beside them, and the unit. -/
structure ImTimeStepper where
  _s : ℤ
  _us : ℤ
  unit : ℕ

/-- `ImTimeStepper::Step(n)` (implot.cpp, 2171-2181); `/` on whole numbers drops the
fraction. -/
def ImTimeStepper.Step (t : ImTimeEnv) (st : ImTimeStepper) (n : ℤ) : ImTimeStepper :=
  if st.unit < ImTimeUnit_SEC then
    let us : ℤ :=
      st._us + (t.ImTimeUnits_Size st.unit).tdiv (t.ImTimeUnits_Size ImTimeUnit_US) * n
    let seconds : ℤ := us.tdiv (t.ImTimeUnits_Size ImTimeUnit_SEC)
    { st with
      _us := us - seconds * t.ImTimeUnits_Size ImTimeUnit_SEC
      _s := st._s + seconds }
  else
    { st with
      _s := st._s
        + n * (t.ImTimeUnits_Size st.unit).tdiv (t.ImTimeUnits_Size ImTimeUnit_SEC) }

/-- The calendar part of `ImTimeStepper::Floor` (implot.cpp, 2209-2246): the fields of
the broken-down time rounded down to the unit and its step. -/
def ImTimeStepper.floorTm (unit : ℕ) (step_size : ℤ) (base_time : Tm) : Tm :=
  let base_time : Tm :=
    if unit = ImTimeUnit_SEC then
      { base_time with tm_sec := base_time.tm_sec.tdiv step_size * step_size }
    else base_time
  let base_time : Tm :=
    if unit = ImTimeUnit_MIN then
      { base_time with
        tm_sec := 0
        tm_min := base_time.tm_min.tdiv step_size * step_size }
    else base_time
  let base_time : Tm :=
    if unit = ImTimeUnit_HR then
      { base_time with
        tm_sec := 0
        tm_min := 0
        tm_hour := base_time.tm_hour.tdiv step_size * step_size }
    else base_time
  let base_time : Tm :=
    if unit = ImTimeUnit_DAY then
      let mday : ℤ := base_time.tm_mday.tdiv step_size * step_size
      { base_time with
        tm_sec := 0
        tm_min := 0
        tm_hour := 0
        tm_mday := if mday = 0 then 1 else mday }
    else base_time
  let base_time : Tm :=
    if unit = ImTimeUnit_MON then
      { base_time with
        tm_sec := 0
        tm_min := 0
        tm_hour := 0
        tm_mday := 1
        tm_mon := base_time.tm_mon.tdiv step_size * step_size }
    else base_time
  if unit = ImTimeUnit_YEAR then
    { base_time with
      tm_sec := 0
      tm_min := 0
      tm_hour := 0
      tm_mday := 1
      tm_mon := 0 }
  else base_time

/-- `ImTimeStepper::Floor(step_size)` (implot.cpp, 2183-2248). -/
def ImTimeStepper.Floor (t : ImTimeEnv) (st : ImTimeStepper) (step_size : ℤ) : ImTimeStepper :=
  if st._s < 0 then st
  else
    match t.localtime st._s with
    | none => st
    | some base_time =>
      let MS : ℤ := t.ImTimeUnits_Size ImTimeUnit_MS
      let st : ImTimeStepper :=
        if st.unit = ImTimeUnit_US then
          let ms : ℤ := st._us.tdiv MS * MS
          let uspart : ℤ := st._us - ms
          let uspart : ℤ := uspart.tdiv step_size * step_size
          { st with _us := ms + uspart }
        else st
      let st : ImTimeStepper :=
        if st.unit = ImTimeUnit_MS then
          { st with _us := (st._us.tdiv MS).tdiv step_size * step_size * MS }
        else st
      let st : ImTimeStepper :=
        if st.unit ≥ ImTimeUnit_SEC then { st with _us := 0 } else st
      { st with _s := t.mktime (ImTimeStepper.floorTm st.unit step_size base_time) }

/-- The constructor `ImTimeStepper(microSecondTimeStamp, unit, roundedToUnits)`
(implot.cpp, 2163-2169). -/
def ImTimeStepper.new (t : ImTimeEnv) (microSecondTimeStamp : ℚ) (unit : ℕ)
    (roundedToUnits : ℤ) : ImTimeStepper :=
  let USTimeStamp : ℤ := truncToInt microSecondTimeStamp
  let s : ℤ := USTimeStamp.tdiv (t.ImTimeUnits_Size ImTimeUnit_SEC)
  let us : ℤ := USTimeStamp - s * t.ImTimeUnits_Size ImTimeUnit_SEC
  ImTimeStepper.Floor t { _s := s, _us := us, unit := unit } roundedToUnits

/-- The whole number of microseconds `_s * ImTimeUnits_Size[ImTimeUnit_SEC] + _us` that a
stepper stands for.  The members `_s` and `_us` and the table are 64-bit whole numbers,
whose arithmetic is taken without overflow. -/
def ImTimeStepper.integral (t : ImTimeEnv) (st : ImTimeStepper) : ℤ :=
  st._s * t.ImTimeUnits_Size ImTimeUnit_SEC + st._us

/-- `ImTimeStepper::GetIntegral()` (implot.cpp, 2250-2252): the whole number of
microseconds, returned as a `double` and so rounded to the nearest one. -/
def ImTimeStepper.GetIntegral (t : ImTimeEnv) (st : ImTimeStepper) : ℚ :=
  F64.round (st.integral t : ℚ)

/-- The step of the minor ticks for a step of the major ticks
(implot.cpp, 2382-2391). -/
def AddDefaultTimeScaleTicks.minorStep (step_size : ℤ) : ℤ :=
  if step_size > 15 then step_size.tdiv 5
  else ([0, 0, 1, 1, 2, 1, 2, 1, 2, 3, 2, 1, 3, 1, 2, 3] : List ℤ).getD step_size.toNat 0

/-- The inner loop of `AddDefaultTimeScaleTicks` (implot.cpp, 2399-2408), which runs
until the minor stepper reaches the next major tick; `none` when the fuel runs out
first. -/
def AddDefaultTimeScaleTicks.minorLoop (t : ImTimeEnv) (lastMajorIntegral nextMajorIntegral : ℚ)
    (step_size_minor : ℤ) :
    ℕ → ImTimeStepper → List (ImPlotTick ℚ) → Option (List (ImPlotTick ℚ))
  | 0, _, _ => none
  | fuel + 1, currentMinor, out =>
    let currentMinorIntergral : ℚ := currentMinor.GetIntegral t
    if currentMinorIntergral ≥ nextMajorIntegral then some out
    else
      let out : List (ImPlotTick ℚ) :=
        if currentMinorIntergral > lastMajorIntegral ∧
            currentMinorIntergral < nextMajorIntegral then
          out ++ [ImPlotTick.new currentMinorIntergral false false]
        else out
      AddDefaultTimeScaleTicks.minorLoop t lastMajorIntegral nextMajorIntegral step_size_minor
        fuel (currentMinor.Step t step_size_minor) out

/-- The number of rounds after which a loop that starts at the whole number `start` and
adds `step` each round has passed `bound`, plus one. -/
def AddDefaultTimeScaleTicks.fuel (start bound step : ℤ) : ℕ :=
  (⌈((bound - start : ℤ) : ℚ) / (step : ℚ)⌉ : ℤ).toNat + 2

/-- By how much `Step(n)` moves the integral of a stepper of the given unit. -/
def ImTimeStepper.stepSize (t : ImTimeEnv) (unit : ℕ) (n : ℤ) : ℤ :=
  if unit < ImTimeUnit_SEC then
    (t.ImTimeUnits_Size unit).tdiv (t.ImTimeUnits_Size ImTimeUnit_US) * n
  else
    n * (t.ImTimeUnits_Size unit).tdiv (t.ImTimeUnits_Size ImTimeUnit_SEC)
      * t.ImTimeUnits_Size ImTimeUnit_SEC

/-- The outer loop of `AddDefaultTimeScaleTicks` (implot.cpp, 2365-2410); `none` when
the fuel of a loop runs out.  The unit that the source passes to the tick, read by the
labels only, is left out. -/
def AddDefaultTimeScaleTicks.majorLoop (t : ImTimeEnv) (range : ImPlotRange ℚ) (nMinor : ℤ)
    (baseUnit : ℕ) (step_size : ℤ) (graphMaxIntegral : ℚ) :
    ℕ → ImTimeStepper → List (ImPlotTick ℚ) → Option (List (ImPlotTick ℚ))
  | 0, _, _ => none
  | fuel + 1, graphMin, out =>
    let graphMinIntergral : ℚ := graphMin.GetIntegral t
    if graphMinIntergral > graphMaxIntegral then some out
    else
      let out : List (ImPlotTick ℚ) :=
        if graphMinIntergral ≥ range.Min ∧ graphMinIntergral ≤ range.Max then
          out ++ [ImPlotTick.new graphMinIntergral true true]
        else out
      let lastMajorIntegral : ℚ := graphMinIntergral
      let graphMin : ImTimeStepper := graphMin.Step t step_size
      let nextMajorIntegral : ℚ := graphMin.GetIntegral t
      if nMinor > 1 then
        let step_size_minor : ℤ := AddDefaultTimeScaleTicks.minorStep step_size
        if step_size_minor < 1 then
          AddDefaultTimeScaleTicks.majorLoop t range nMinor baseUnit step_size graphMaxIntegral
            fuel graphMin out
        else
          let currentMinor : ImTimeStepper :=
            ImTimeStepper.new t lastMajorIntegral baseUnit step_size
          match AddDefaultTimeScaleTicks.minorLoop t lastMajorIntegral nextMajorIntegral
              step_size_minor
              (AddDefaultTimeScaleTicks.fuel (currentMinor.integral t) (graphMin.integral t)
                (ImTimeStepper.stepSize t currentMinor.unit step_size_minor))
              currentMinor out with
          | none => none
          | some out =>
            AddDefaultTimeScaleTicks.majorLoop t range nMinor baseUnit step_size
              graphMaxIntegral fuel graphMin out
      else
        AddDefaultTimeScaleTicks.majorLoop t range nMinor baseUnit step_size graphMaxIntegral
          fuel graphMin out

/-- `AddDefaultTimeScaleTicks(range, nMajor, nMinor, out)` (implot.cpp, 2349-2411), the
subtraction and the two divisions rounded to a `double`; `none` when a conversion to
`int` is out of range or the fuel of a loop runs out.  The outer loop ends when the
rounded time of the stepper exceeds the rounded last time, which it does at four times
the size of the last time plus four at the latest; its fuel covers that distance. -/
def AddDefaultTimeScaleTicks (t : ImTimeEnv) (range : ImPlotRange ℚ) (nMajor nMinor : ℤ)
    (out : List (ImPlotTick ℚ)) : Option (List (ImPlotTick ℚ)) :=
  let time_range : ℚ := F64.round range.Size
  if time_range < (t.ImTimeUnits_Size ImTimeUnit_US : ℚ) then some out
  else
    let baseUnit : ℕ := DetermineTimeScaleUnitForAutoTicks t range.Min range.Max nMajor
    match NiceNumTime t
        (F64.round (F64.round (F64.round (range.Max - range.Min)
          / (t.ImTimeUnits_Size baseUnit : ℚ)) / ((nMajor - 1 : ℤ) : ℚ))) baseUnit with
    | none => none
    | some step_size =>
      let step_size : ℤ := if step_size < 1 then 1 else step_size
      let graphMin : ImTimeStepper := ImTimeStepper.new t range.Min baseUnit step_size
      let graphMax : ImTimeStepper := ImTimeStepper.new t range.Max baseUnit step_size
      let graphMax : ImTimeStepper := graphMax.Step t step_size
      let graphMaxIntegral : ℚ := graphMax.GetIntegral t
      AddDefaultTimeScaleTicks.majorLoop t range nMinor baseUnit step_size graphMaxIntegral
        (AddDefaultTimeScaleTicks.fuel (graphMin.integral t) (4 * |graphMax.integral t| + 4)
          (ImTimeStepper.stepSize t graphMin.unit step_size))
        graphMin out

/-- `ImTimeFormatter`: whole seconds, the microseconds beside them, the character buffer
(up to its terminating zero) and the write index. -/
structure ImTimeFormatter where
  _s : ℤ
  _us : ℤ
  buf : List Char
  ptr_index : ℕ

/-- The constructor `ImTimeFormatter(microSecondTimeStamp)` (implot.cpp, 2254-2259); the
buffer starts empty. -/
def ImTimeFormatter.new (t : ImTimeEnv) (microSecondTimeStamp : ℚ) : ImTimeFormatter :=
  let USTimeStamp : ℤ := truncToInt microSecondTimeStamp
  let s : ℤ := USTimeStamp.tdiv t.US_IN_SEC
  { _s := s, _us := USTimeStamp - s * t.US_IN_SEC, buf := [], ptr_index := 0 }

/-- The characters that `printf` writes for `%lld` and `%d`. -/
def formatInt (v : ℤ) : List Char :=
  if v < 0 then '-' :: Nat.toDigits 10 v.natAbs else Nat.toDigits 10 v.natAbs

/-- The characters that `printf` writes for `%0<width>d`: the sign counts towards the
width and the zeros follow it. -/
def formatPadded (width : ℕ) (v : ℤ) : List Char :=
  let digits : List Char := Nat.toDigits 10 v.natAbs
  if v < 0 then '-' :: (List.replicate (width - 1 - digits.length) '0' ++ digits)
  else List.replicate (width - digits.length) '0' ++ digits

/-- `ImTimeFormatter::ResetBuf` (implot.cpp, 2343-2346). -/
def ImTimeFormatter.ResetBuf (f : ImTimeFormatter) : ImTimeFormatter :=
  { f with buf := [], ptr_index := 0 }

/-- `ImTimeFormatter::GetIntegral` (implot.cpp, 2327-2329). -/
def ImTimeFormatter.GetIntegral (t : ImTimeEnv) (f : ImTimeFormatter) : ℤ :=
  f._s * t.US_IN_SEC + f._us

/-- `ImTimeFormatter::GetMicroseconds` (implot.cpp, 2335-2337). -/
def ImTimeFormatter.GetMicroseconds (f : ImTimeFormatter) : ℤ := f._us

/-- `ImTimeFormatter::GetMilliseconds` (implot.cpp, 2339-2341). -/
def ImTimeFormatter.GetMilliseconds (f : ImTimeFormatter) : ℤ := f.GetMicroseconds.tdiv 1000

/-- `ImTimeFormatter::WriteRawTimeToBuf` (implot.cpp, 2301-2303). -/
def ImTimeFormatter.WriteRawTimeToBuf (t : ImTimeEnv) (f : ImTimeFormatter) : ImTimeFormatter :=
  { f with buf := formatInt (f.GetIntegral t) }

/-- `ImTimeFormatter::WriteFormattedTimeToBuf(format)` (implot.cpp, 2305-2317). -/
def ImTimeFormatter.WriteFormattedTimeToBuf (t : ImTimeEnv) (f : ImTimeFormatter)
    (format : String) : ImTimeFormatter :=
  match t.localtime f._s with
  | some tm =>
    let written : List Char := t.strftime 80 format tm
    let copied : ℕ := written.length
    if copied ≠ 0 then { f with buf := written, ptr_index := copied }
    else { f with buf := written }
  | none => f.WriteRawTimeToBuf t

/-- `snprintf(buf + ptr_index, 80 - ptr_index, ...)`: the characters are written at the
index, as many as fit before the terminating zero. -/
def ImTimeFormatter.writeAtIndex (f : ImTimeFormatter) (chars : List Char) : ImTimeFormatter :=
  { f with buf := f.buf.take f.ptr_index ++ chars.take (80 - f.ptr_index - 1) }

/-- `ImTimeFormatter::WritePaddedMilliSecondsToBuf` (implot.cpp, 2319-2321). -/
def ImTimeFormatter.WritePaddedMilliSecondsToBuf (f : ImTimeFormatter) : ImTimeFormatter :=
  f.writeAtIndex (formatPadded 3 f.GetMilliseconds)

/-- `ImTimeFormatter::WritePaddedMicroSecondsToBuf` (implot.cpp, 2323-2325). -/
def ImTimeFormatter.WritePaddedMicroSecondsToBuf (f : ImTimeFormatter) : ImTimeFormatter :=
  f.writeAtIndex (formatPadded 6 f.GetMicroseconds)

/-- `ImTimeFormatter::GetFullFormattedString` (implot.cpp, 2261-2273): the string
returned. -/
def ImTimeFormatter.GetFullFormattedString (t : ImTimeEnv) (f : ImTimeFormatter) : List Char :=
  let f := f.ResetBuf
  if f._s < 0 then f.buf
  else
    let f := f.WriteFormattedTimeToBuf t "%Y/%m/%e %I:%M:%S."
    let f := f.WritePaddedMicroSecondsToBuf
    f.buf

/-- `ImTimeFormatter::GetRangeFormatterPrefixString(unit)` (implot.cpp, 2275-2283). -/
def ImTimeFormatter.GetRangeFormatterPrefixString (t : ImTimeEnv) (f : ImTimeFormatter)
    (unit : ℕ) : List Char :=
  let f := f.ResetBuf
  if f._s < 0 then f.buf
  else (f.WriteFormattedTimeToBuf t (t.ImTimeUnits_PrefixValueFormats unit)).buf

/-- `ImTimeFormatter::GetRangeFormattedString(unit)` (implot.cpp, 2285-2299). -/
def ImTimeFormatter.GetRangeFormattedString (t : ImTimeEnv) (f : ImTimeFormatter)
    (unit : ℕ) : List Char :=
  let f := f.ResetBuf
  if f._s < 0 then f.buf
  else
    let f := f.WriteFormattedTimeToBuf t (t.ImTimeUnits_ValueFormats unit)
    let f : ImTimeFormatter :=
      if unit = ImTimeUnit_MS then f.WritePaddedMilliSecondsToBuf
      else if unit = ImTimeUnit_US then f.WritePaddedMicroSecondsToBuf
      else f
    f.buf

/-! ### An example platform: UTC -/

/-- Days from 1970-01-01 to the given day of the proleptic Gregorian calendar. -/
def daysFromCivil (year month day : ℤ) : ℤ :=
  let y : ℤ := if month ≤ 2 then year - 1 else year
  let era : ℤ := y / 400
  let yoe : ℤ := y - era * 400
  let mp : ℤ := if month > 2 then month - 3 else month + 9
  let doy : ℤ := (153 * mp + 2) / 5 + day - 1
  let doe : ℤ := yoe * 365 + yoe / 4 - yoe / 100 + doy
  era * 146097 + doe - 719468

/-- `localtime` for the time zone UTC: the broken-down time of a number of seconds since
1970-01-01 00:00:00. -/
def utcLocaltime (s : ℤ) : Option Tm :=
  let days : ℤ := s / 86400
  let rem : ℤ := s % 86400
  let z : ℤ := days + 719468
  let era : ℤ := z / 146097
  let doe : ℤ := z - era * 146097
  let yoe : ℤ := (doe - doe / 1460 + doe / 36524 - doe / 146096) / 365
  let doy : ℤ := doe - (365 * yoe + yoe / 4 - yoe / 100)
  let mp : ℤ := (5 * doy + 2) / 153
  let day : ℤ := doy - (153 * mp + 2) / 5 + 1
  let month : ℤ := if mp < 10 then mp + 3 else mp - 9
  let year : ℤ := yoe + era * 400 + (if month ≤ 2 then 1 else 0)
  some
    { tm_sec := rem % 60
      tm_min := rem / 60 % 60
      tm_hour := rem / 3600
      tm_mday := day
      tm_mon := month - 1
      tm_year := year - 1900
      tm_wday := (days + 4) % 7
      tm_yday := days - daysFromCivil year 1 1
      tm_isdst := 0 }

/-- `mktime` for the time zone UTC. -/
def utcMktime (tm : Tm) : ℤ :=
  daysFromCivil (tm.tm_year + 1900) (tm.tm_mon + 1) tm.tm_mday * 86400
    + tm.tm_hour * 3600 + tm.tm_min * 60 + tm.tm_sec

/-- The conversions of `strftime` that the example formats use. -/
def exampleStrftime.conversion (tm : Tm) (c : Char) : List Char :=
  if c = 'Y' then formatInt (tm.tm_year + 1900)
  else if c = 'm' then formatPadded 2 (tm.tm_mon + 1)
  else if c = 'd' then formatPadded 2 tm.tm_mday
  else if c = 'e' then
    (if tm.tm_mday < 10 then [' '] else []) ++ formatInt tm.tm_mday
  else if c = 'H' then formatPadded 2 tm.tm_hour
  else if c = 'I' then formatPadded 2 (if tm.tm_hour % 12 = 0 then 12 else tm.tm_hour % 12)
  else if c = 'M' then formatPadded 2 tm.tm_min
  else if c = 'S' then formatPadded 2 tm.tm_sec
  else [c]

/-- The characters of a format with its conversions replaced. -/
def exampleStrftime.expand (tm : Tm) : List Char → List Char
  | [] => []
  | [c] => [c]
  | c :: d :: rest =>
    if c = '%' then exampleStrftime.conversion tm d ++ exampleStrftime.expand tm rest
    else c :: exampleStrftime.expand tm (d :: rest)

/-- An example `strftime`: nothing is written when the result with its terminating zero
does not fit `maxsize`. -/
def exampleStrftime (maxsize : ℕ) (format : String) (tm : Tm) : List Char :=
  let written : List Char := exampleStrftime.expand tm format.data
  if written.length < maxsize then written else []

/-- An example of the time declarations: sizes in microseconds with a month of 30 days
and a year of 365 days, every unit common, as step multiplier of a unit the number of
them in the next unit, the platform functions of the time zone UTC, and the example C
library.  The theorems below hold for every `ImTimeEnv`; the example serves the
witnesses. -/
def exampleTimeEnv : ImTimeEnv :=
  { math := exampleMath64
    ImTimeUnits_Size := fun u =>
      ([1, 1000, 1000000, 60000000, 3600000000, 86400000000, 2592000000000,
        31536000000000] : List ℤ).getD u 1
    ImTimeUnits_Steps := fun u => ([1000, 1000, 60, 60, 24, 30, 12, 1] : List ℤ).getD u 1
    ImTimeUnits_Common := fun _ => true
    ImTimeUnits_PrefixValueFormats := fun u =>
      (["%Y/%m/%d %H:%M:%S", "%Y/%m/%d %H:%M", "%Y/%m/%d %H:", "%Y/%m/%d", "%Y/%m/%d", "%Y/%m",
        "%Y", ""] : List String).getD u ""
    ImTimeUnits_ValueFormats := fun u =>
      (["%S.", "%S.", "%M:%S", "%H:%M", "%H:00", "%m/%d", "%Y/%m", "%Y"] : List String).getD u ""
    US_IN_SEC := 1000000
    localtime := utcLocaltime
    mktime := utcMktime
    strftime := exampleStrftime }

/-! ### The public calls that take a y-axis index -/

/-- The public `PixelsToPlot(x, y, y_axis_in)` (implot.cpp, 296-312) on the context: the
check of the bracket, the choice of the axis, and the conversion, whose arrays
`PixelRange`, `My`, `LogDenY` and `YAxis` are indexed by `y_axis`. -/
def ImPlotGlobal.PixelsToPlot {K : Type} [LinearOrderedField K] (m : ImMath K)
    (g : ImPlotGlobal K) (x y : K) (y_axis_in : ℤ) : Except ImPlotFault (ImPlotPoint K) :=
  match g.CurrentPlot with
  | none => Except.error (ImPlotFault.usage
      "PixelsToPlot() needs to be called between BeginPlot() and EndPlot()!")
  | some ID =>
    let y_axis : ℤ := if y_axis_in ≥ 0 then y_axis_in else ((g.Plots ID).CurrentYAxis : ℕ)
    match yAxisEntry (fun i : Fin 3 => i) y_axis with
    | Except.error err => Except.error err
    | Except.ok i => Except.ok (ImPlot.PixelsToPlot m g.gp (g.Plots ID) x y i)

/-- The public `PlotToPixels(x, y, y_axis_in)` (implot.cpp, 319-335) on the context. -/
def ImPlotGlobal.PlotToPixels {K : Type} [LinearOrderedField K] (m : ImMath K)
    (g : ImPlotGlobal K) (x y : K) (y_axis_in : ℤ) : Except ImPlotFault (ImVec2 K) :=
  match g.CurrentPlot with
  | none => Except.error (ImPlotFault.usage
      "PlotToPixels() needs to be called between BeginPlot() and EndPlot()!")
  | some ID =>
    let y_axis : ℤ := if y_axis_in ≥ 0 then y_axis_in else ((g.Plots ID).CurrentYAxis : ℕ)
    match yAxisEntry (fun i : Fin 3 => i) y_axis with
    | Except.error err => Except.error err
    | Except.ok i => Except.ok (ImPlot.PlotToPixels m g.gp (g.Plots ID) x y i)

/-- `SetPlotYAxis(y_axis)` (implot.cpp, 1619-1624). -/
def SetPlotYAxis {K : Type} (y_axis : ℤ) (g : ImPlotGlobal K) :
    Except ImPlotFault (ImPlotGlobal K) :=
  match g.CurrentPlot with
  | none => Except.error (ImPlotFault.usage
      "SetPlotYAxis() needs to be called between BeginPlot() and EndPlot()!")
  | some ID =>
    match IM_ASSERT_USER_ERROR (decide (y_axis ≥ 0) && decide (y_axis < 3))
        "y_axis needs to be between 0 and IMPLOT_Y_AXES" with
    | Except.error err => Except.error err
    | Except.ok _ =>
      match yAxisEntry (fun i : Fin 3 => i) y_axis with
      | Except.error err => Except.error err
      | Except.ok i => Except.ok (g.setPlot ID { (g.Plots ID) with CurrentYAxis := i })

/-- `IsPlotYAxisHovered(y_axis_in)` (implot.cpp, 1660-1666). -/
def IsPlotYAxisHovered {K : Type} (y_axis_in : ℤ) (g : ImPlotGlobal K) :
    Except ImPlotFault Bool :=
  match IM_ASSERT_USER_ERROR (decide (y_axis_in ≥ -1) && decide (y_axis_in < 3))
      "y_axis needs to between -1 and IMPLOT_Y_AXES" with
  | Except.error err => Except.error err
  | Except.ok _ =>
    match g.CurrentPlot with
    | none => Except.error (ImPlotFault.usage
        "IsPlotYAxisHovered() needs to be called between BeginPlot() and EndPlot()!")
    | some ID =>
      let y_axis : ℤ := if y_axis_in ≥ 0 then y_axis_in else ((g.Plots ID).CurrentYAxis : ℕ)
      match yAxisEntry (g.Plots ID).YAxis y_axis with
      | Except.error err => Except.error err
      | Except.ok axis => Except.ok axis.HoveredExt

/-- `GetPlotMousePos(y_axis_in)` (implot.cpp, 1668-1674). -/
def GetPlotMousePos {K : Type} (y_axis_in : ℤ) (g : ImPlotGlobal K) :
    Except ImPlotFault (ImPlotPoint K) :=
  match IM_ASSERT_USER_ERROR (decide (y_axis_in ≥ -1) && decide (y_axis_in < 3))
      "y_axis needs to between -1 and IMPLOT_Y_AXES" with
  | Except.error err => Except.error err
  | Except.ok _ =>
    match g.CurrentPlot with
    | none => Except.error (ImPlotFault.usage
        "GetPlotMousePos() needs to be called between BeginPlot() and EndPlot()!")
    | some ID =>
      let y_axis : ℤ := if y_axis_in ≥ 0 then y_axis_in else ((g.Plots ID).CurrentYAxis : ℕ)
      yAxisEntry g.LastMousePos y_axis

/-- `ImPlotLimits`: a range of x and a range of y. -/
structure ImPlotLimits (K : Type) where
  X : ImPlotRange K
  Y : ImPlotRange K

/-- `GetPlotLimits(y_axis_in)` (implot.cpp, 1677-1688). -/
def GetPlotLimits {K : Type} (y_axis_in : ℤ) (g : ImPlotGlobal K) :
    Except ImPlotFault (ImPlotLimits K) :=
  match IM_ASSERT_USER_ERROR (decide (y_axis_in ≥ -1) && decide (y_axis_in < 3))
      "y_axis needs to between -1 and IMPLOT_Y_AXES" with
  | Except.error err => Except.error err
  | Except.ok _ =>
    match g.CurrentPlot with
    | none => Except.error (ImPlotFault.usage
        "GetPlotLimits() needs to be called between BeginPlot() and EndPlot()!")
    | some ID =>
      let y_axis : ℤ := if y_axis_in ≥ 0 then y_axis_in else ((g.Plots ID).CurrentYAxis : ℕ)
      match yAxisEntry (g.Plots ID).YAxis y_axis with
      | Except.error err => Except.error err
      | Except.ok axis => Except.ok { X := (g.Plots ID).XAxis.Range, Y := axis.Range }

/-- `GetPlotQuery(y_axis_in)` (implot.cpp, 1696-1713); the transform cache that it
rebuilds is not returned. -/
def GetPlotQuery {K : Type} [LinearOrderedField K] (m : ImMath K) (y_axis_in : ℤ)
    (g : ImPlotGlobal K) : Except ImPlotFault (ImPlotLimits K) :=
  match IM_ASSERT_USER_ERROR (decide (y_axis_in ≥ -1) && decide (y_axis_in < 3))
      "y_axis needs to between -1 and IMPLOT_Y_AXES" with
  | Except.error err => Except.error err
  | Except.ok _ =>
    match g.CurrentPlot with
    | none => Except.error (ImPlotFault.usage
        "GetPlotQuery() needs to be called between BeginPlot() and EndPlot()!")
    | some ID =>
      let plot := g.Plots ID
      let y_axis : ℤ := if y_axis_in ≥ 0 then y_axis_in else (plot.CurrentYAxis : ℕ)
      let g : ImPlotGlobal K := { g with gp := UpdateTransformCache m g.gp plot }
      match g.PixelsToPlot m (plot.QueryRect.Min.add g.gp.BB_Plot.Min).x
          (plot.QueryRect.Min.add g.gp.BB_Plot.Min).y y_axis with
      | Except.error err => Except.error err
      | Except.ok p1 =>
        match g.PixelsToPlot m (plot.QueryRect.Max.add g.gp.BB_Plot.Min).x
            (plot.QueryRect.Max.add g.gp.BB_Plot.Min).y y_axis with
        | Except.error err => Except.error err
        | Except.ok p2 =>
          Except.ok
            { X := { Min := min p1.x p2.x, Max := max p1.x p2.x }
              Y := { Min := min p1.y p2.y, Max := max p1.y p2.y } }

/-! ### Example contexts -/

/-- Example constants of the constraint pass: the largest double, a log floor of one
thousandth, a time window from 1970 to the year 3000 in seconds, and the arithmetic of
IEEE 754 binary64. -/
def exampleLimits : ImPlotLimitConsts ℚ :=
  { DBL_MAX := 2 ^ 1024 - 2 ^ 971
    LogFloor := 1 / 1000
    IM_MIN_SEC_TIME_LIMIT := 0
    IM_MAX_SEC_TIME_LIMIT := 32503680000
    fl := F64.round }

/-- An example of the declarations that BeginPlot uses: the example environment, limits
and time declarations, and a new plot with the default axis flags showing `[0, 1]`. -/
def exampleInternal : ImPlotInternal ℚ :=
  { env := exampleEnv, limits := exampleLimits, time := exampleTimeEnv,
    NewPlot := fitExamplePlot }

/-- A context with no plot yet, outside a bracket, with nothing pending. -/
def exampleGlobal : ImPlotGlobal ℚ :=
  { gp := exampleContext
    Plots := fun _ => fitExamplePlot
    PlotExists := fun _ => false
    CurrentPlot := none
    NextPlotData := ImPlotNextPlotData.new
    XTicks := []
    YTicks := fun _ => []
    LastMousePos := fun _ => { x := 0, y := 0 }
    ChildWindowMade := false }

/-- The input of a frame in which the pointer rests at the pixel (200, 100). -/
def quietInput : ImGuiInput ℚ :=
  { MousePos := { x := 200, y := 100 }, MouseDelta := { x := 0, y := 0 }, MouseWheel := 0,
    MouseDown := fun _ => false, MouseClicked := fun _ => false,
    MouseReleased := fun _ => false, MouseDoubleClicked := fun _ => false,
    KeyMods := ImGuiKeyModFlags_None }

/-- A call of BeginPlot in a visible window: the item is added, the pointer rests over
the plot rectangle of 400 by 300 pixels at (10, 20), and the default ticks of every axis
are those at its bounds `0` and `1`. -/
def exampleHost : BeginPlotHost ℚ :=
  { SkipItems := false
    ItemAdd := true
    inp := quietInput
    Hov_Frame := true
    BB_Plot := ImRect.ofCoords 10 20 410 320
    inXRegion := false
    inYRegion := fun _ => false
    XDefaultTicks := [ImPlotTick.new 0 true true, ImPlotTick.new 1 true true]
    YDefaultTicks := fun _ => [ImPlotTick.new 0 true true, ImPlotTick.new 1 true true] }

/-- A call of EndPlot with no legend entry. -/
def exampleEndHost : EndPlotHost ℚ :=
  { nItems := 0, BB_Legend := ImRect.ofCoords 0 0 0 0 }

/-- A context, outside a bracket, whose pool holds the plot `1`: the plot of
`dragExamplePlot`, whose x axis shows `[0, 10]`, has the LockMin flag and is being
dragged. -/
def dragExampleGlobal : ImPlotGlobal ℚ :=
  { exampleGlobal with
    Plots := fun _ => dragExamplePlot
    PlotExists := fun ID => ID == 1 }

/-- A call of BeginPlot in which the left button is held and the pointer has moved 440
pixels to the right since the frame before. -/
def dragExampleHost : BeginPlotHost ℚ :=
  { exampleHost with
    inp :=
      { MousePos := { x := 200, y := 100 }, MouseDelta := { x := 440, y := 0 }, MouseWheel := 0,
        MouseDown := fun b => b == ImGuiMouseButton_Left, MouseClicked := fun _ => false,
        MouseReleased := fun _ => false, MouseDoubleClicked := fun _ => false,
        KeyMods := ImGuiKeyModFlags_None } }

/-- A context inside a bracket: the plot `1` of the pool is current. -/
def insideExampleGlobal : ImPlotGlobal ℚ :=
  { exampleGlobal with
    PlotExists := fun ID => ID == 1
    CurrentPlot := some 1 }

/-- Two frames of the plot `1` on the example context, default flags: custom ticks at
the given positions of the x axis (without labels, with the default ticks) are set before
the BeginPlot of the first frame only.  The result is what the first BeginPlot returns,
the positions in the tick list of the x axis after the first BeginPlot, after the first
EndPlot, and after the second BeginPlot. -/
def customTicksExample (values : List ℚ) :
    Except ImPlotFault (Bool × List ℚ × List ℚ × List ℚ) :=
  match SetNextPlotTicksX values false true exampleGlobal with
  | Except.error err => Except.error err
  | Except.ok g1 =>
    match BeginPlot exampleInternal exampleHost 1 0 7 7 7 7 g1 with
    | Except.error err => Except.error err
    | Except.ok r2 =>
      match EndPlot exampleEndHost r2.2 with
      | Except.error err => Except.error err
      | Except.ok g3 =>
        match BeginPlot exampleInternal exampleHost 1 0 7 7 7 7 g3 with
        | Except.error err => Except.error err
        | Except.ok r4 =>
          Except.ok (r2.1, r2.2.XTicks.map (fun tk => tk.PlotPos),
            g3.XTicks.map (fun tk => tk.PlotPos), r4.2.XTicks.map (fun tk => tk.PlotPos))

/-- The table of unit sizes is usable by the stepper: a second has a positive size,
every unit below the second holds at least one microsecond, and every unit from the second
on holds at least one second. -/
def ImTimeEnv.WholeUnits (t : ImTimeEnv) : Prop :=
  0 < t.ImTimeUnits_Size ImTimeUnit_SEC ∧
  (∀ u < ImTimeUnit_SEC,
    0 < (t.ImTimeUnits_Size u).tdiv (t.ImTimeUnits_Size ImTimeUnit_US)) ∧
  (∀ u < ImTimeUnit_COUNT, ImTimeUnit_SEC ≤ u →
    0 < (t.ImTimeUnits_Size u).tdiv (t.ImTimeUnits_Size ImTimeUnit_SEC))

/-- The ticks are the `double`s nearest to the whole numbers `Is`, which are strictly
increasing and all below `b`. -/
def ExactTicksBelow (b : ℤ) (Is : List ℤ) (out : List (ImPlotTick ℚ)) : Prop :=
  out.map (fun tk => tk.PlotPos) = Is.map (fun (I : ℤ) => F64.round (I : ℚ)) ∧
    Is.Pairwise (· < ·) ∧ ∀ I ∈ Is, I < b

/-- The ticks are the `double`s nearest to the whole numbers `Is`, which are strictly
increasing and none above `b`. -/
def ExactTicksUpTo (b : ℤ) (Is : List ℤ) (out : List (ImPlotTick ℚ)) : Prop :=
  out.map (fun tk => tk.PlotPos) = Is.map (fun (I : ℤ) => F64.round (I : ℚ)) ∧
    Is.Pairwise (· < ·) ∧ ∀ I ∈ Is, I ≤ b

/-- The input of a frame in which the right button is released at the pixel (210, 220)
while the modifier keys given by `mods` are held. -/
def selectExampleInputWith (mods : ℕ) : ImGuiInput ℚ :=
  { selectExampleInput with KeyMods := mods }

/-- A BoxSelect plot whose x axis is being dragged; no selection or query is in
progress. -/
def dragSelectExamplePlot : ImPlotState ℚ :=
  (examplePlot ImPlotFlags_BoxSelect (exampleAxis 0 10 7) (exampleAxis (-5) 5 7) :
    ImPlotState ℚ).setXDragging true

/-- A plot with the BoxSelect and Query flags (24 = 8 + 16) on which a query, started at
the pixel (110, 120), is in progress and no selection is. -/
def querySelectExamplePlot : ImPlotState ℚ :=
  { (examplePlot 24 (exampleAxis 0 10 7) (exampleAxis (-5) 5 7) : ImPlotState ℚ) with
    Querying := true
    Queried := true
    QueryStart := { x := 110, y := 120 } }

/-- The input of a frame in which the button `held` is still down and the right button is
clicked at the pixel (210, 220), the pointer at rest and no modifier key held. -/
def selectClickInputHolding (held : ℕ) : ImGuiInput ℚ :=
  { MousePos := { x := 210, y := 220 }, MouseDelta := { x := 0, y := 0 }, MouseWheel := 0,
    MouseDown := fun b => b == held || b == ImGuiMouseButton_Right,
    MouseClicked := fun b => b == ImGuiMouseButton_Right,
    MouseReleased := fun _ => false,
    MouseDoubleClicked := fun _ => false, KeyMods := ImGuiKeyModFlags_None }

/-! ### The fit accumulator -/

/-- The comparison `a < b` of two `double`s under IEEE arithmetic: false when either is
NaN, and the infinities below and above every number. -/
def ImDouble.lt {K : Type} [LinearOrder K] : ImDouble K → ImDouble K → Bool
  | ImDouble.nan, _ => false
  | _, ImDouble.nan => false
  | ImDouble.finite a, ImDouble.finite b => decide (a < b)
  | ImDouble.finite _, ImDouble.posInf => true
  | ImDouble.finite _, ImDouble.negInf => false
  | ImDouble.posInf, _ => false
  | ImDouble.negInf, ImDouble.negInf => false
  | ImDouble.negInf, _ => true

/-- `FitPoint(p)` (implot.cpp, 260-272); `plot` is the current plot `*gp.CurrentPlot`,
whose `CurrentYAxis` selects the y extents. -/
def FitPoint {K : Type} [LinearOrder K] (gp : ImPlotContext K) (plot : ImPlotState K)
    (p : ImPlotPoint (ImDouble K)) : ImPlotContext K :=
  let extents_x := gp.ExtentsX
  let extents_y := gp.ExtentsY plot.CurrentYAxis
  let new_x : ImPlotRange (ImDouble K) :=
    { Min := if ImDouble.lt p.x extents_x.Min then p.x else extents_x.Min
      Max := if ImDouble.lt extents_x.Max p.x then p.x else extents_x.Max }
  let new_y : ImPlotRange (ImDouble K) :=
    { Min := if ImDouble.lt p.y extents_y.Min then p.y else extents_y.Min
      Max := if ImDouble.lt extents_y.Max p.y then p.y else extents_y.Max }
  let gp : ImPlotContext K := if !NanOrInf p.x then { gp with ExtentsX := new_x } else gp
  if !NanOrInf p.y then
    { gp with ExtentsY := Function.update gp.ExtentsY plot.CurrentYAxis new_y }
  else gp

/-- The calls `FitPoint(p1)`, ..., `FitPoint(pn)` in turn, on the same current plot. -/
def FitPoints {K : Type} [LinearOrder K] (gp : ImPlotContext K) (plot : ImPlotState K)
    (ps : List (ImPlotPoint (ImDouble K))) : ImPlotContext K :=
  ps.foldl (fun gp p => FitPoint gp plot p) gp

/-- The number held by a `double`, when it is neither NaN nor infinite. -/
def ImDouble.toNumber {K : Type} : ImDouble K → Option K
  | ImDouble.finite v => some v
  | _ => none

/-- The value `d` is the least of the numbers `xs`, or plus infinity when there is
none. -/
def IsRunningMin {K : Type} [LinearOrder K] (xs : List K) (d : ImDouble K) : Prop :=
  (xs = [] ∧ d = ImDouble.posInf) ∨ ∃ m ∈ xs, (∀ x ∈ xs, m ≤ x) ∧ d = ImDouble.finite m

/-- The value `d` is the greatest of the numbers `xs`, or minus infinity when there is
none. -/
def IsRunningMax {K : Type} [LinearOrder K] (xs : List K) (d : ImDouble K) : Prop :=
  (xs = [] ∧ d = ImDouble.negInf) ∨ ∃ m ∈ xs, (∀ x ∈ xs, x ≤ m) ∧ d = ImDouble.finite m

/-- Four points for the fit: a plain one, one with a NaN `x`, one with an infinite `y`,
and one with both coordinates plain. -/
def fitPointsExample : List (ImPlotPoint (ImDouble ℚ)) :=
  [{ x := ImDouble.finite 3, y := ImDouble.finite 1 },
   { x := ImDouble.nan, y := ImDouble.finite (-2) },
   { x := ImDouble.finite 7, y := ImDouble.posInf },
   { x := ImDouble.finite (-1), y := ImDouble.finite 4 }]

/-- The example plot after the flags section of its first BeginPlot, called with no plot
flags and the axis flags 7 (grid lines, tick marks, tick labels) for every axis. -/
def flagsExamplePlot : ImPlotState ℚ :=
  BeginPlot.updateFlags true 0 7 7 7 7 fitExamplePlot

/-! ### The choice of the x ticks and of their labels -/

/-- The text of a tick label: either the result of `sprintf` with a numeric conversion,
kept as the conversion and the value, or the characters of a calendar string. -/
inductive ImPlotLabelText where
  | sprintf (format : String) (value : ℚ)
  | calendar (text : List Char)
  deriving DecidableEq

/-- The text that `LabelTicks` writes for a tick at `PlotPos` with the display unit
`DisplayUnit` (implot.cpp, 463-474). -/
def LabelTicks.text (t : ImTimeEnv) (scientific time_series : Bool) (PlotPos : ℚ)
    (DisplayUnit : ℕ) : ImPlotLabelText :=
  if scientific then ImPlotLabelText.sprintf "%.0e" PlotPos
  else if time_series then
    ImPlotLabelText.calendar
      ((ImTimeFormatter.new t PlotPos).GetRangeFormattedString t DisplayUnit)
  else ImPlotLabelText.sprintf "%.10g" PlotPos

/-- `ImVec4` of Dear ImGui: a colour as red, green, blue and alpha. -/
structure ImVec4 (K : Type) where
  x : K
  y : K
  z : K
  w : K
  deriving DecidableEq

/-- `ImLerp(a, b, t)` of Dear ImGui on `ImVec4`: the interpolation of each component. -/
def ImVec4.lerp {K : Type} [Add K] [Sub K] [Mul K] (a b : ImVec4 K) (t : K) : ImVec4 K :=
  { x := ImLerp a.x b.x t, y := ImLerp a.y b.y t, z := ImLerp a.z b.z t,
    w := ImLerp a.w b.w t }

/-- `ImClamp(v, mn, mx)` of Dear ImGui: `(v < mn) ? mn : (v > mx) ? mx : v`. -/
def ImClamp {K : Type} [LinearOrder K] (v mn mx : K) : K :=
  if v < mn then mn else if v > mx then mx else v

/-- `LerpColormap(t)` (implot.cpp, 1859-1870) on the colormap of the context, the array
`Colormap` of `ColormapSize` colours. -/
def LerpColormap (Colormap : ℕ → ImVec4 ℚ) (ColormapSize : ℤ) (t : ℚ) : ImVec4 ℚ :=
  let tc : ℚ := ImClamp t 0 1
  let i1 : ℤ := truncToInt (((ColormapSize - 1 : ℤ) : ℚ) * tc)
  let i2 : ℤ := i1 + 1
  if i2 = ColormapSize then Colormap i1.toNat
  else
    let t1 : ℚ := (i1 : ℚ) / ((ColormapSize - 1 : ℤ) : ℚ)
    let t2 : ℚ := (i2 : ℚ) / ((ColormapSize - 1 : ℤ) : ℚ)
    let tr : ℚ := ImRemap t t1 t2 0 1
    ImVec4.lerp (Colormap i1.toNat) (Colormap i2.toNat) tr

/-- A colormap of two colours, opaque black and opaque white. -/
def exampleColormap : ℕ → ImVec4 ℚ := fun i =>
  if i = 0 then { x := 0, y := 0, z := 0, w := 1 } else { x := 1, y := 1, z := 1, w := 1 }

/-- One bound of a time x axis after lines 608-609 and 615-621 of BeginPlot: NaN and
infinities replaced, the log floor applied under the LogScale flag, and the value clamped
in seconds to the supported window. -/
def BeginPlot.timeBound {K : Type} [LinearOrderedField K] (c : ImPlotLimitConsts K)
    (t : ImTimeEnv) (flags : ℕ) (v : ImDouble K) : K :=
  let v : K := (ConstrainNan (ConstrainInf c.DBL_MAX v)).value
  let v : K := if ImHasFlag flags ImPlotAxisFlags_LogScale then ConstrainLog c.LogFloor v else v
  BeginPlot.clampTime c t v

/-- The plot that one call of BeginPlot works on (implot.cpp, 536-538):
`gp.Plots.GetOrAddByKey(ID)`, the plot of the pool when the ID has been added and a new
plot otherwise. -/
def BeginPlot.getPlot {K : Type} (e : ImPlotInternal K) (g : ImPlotGlobal K) (ID : ℕ) :
    ImPlotState K :=
  if !g.PlotExists ID then e.NewPlot else g.Plots ID

/-! ### The linear ticks in binary64 -/

/-- Body of the loop of `AddDefaultTicks` in linear mode (implot.cpp, 433-439) in the
arithmetic of `double`: the product, the quotient and the sum of
`major + i * interval / nMinor` are each rounded. -/
def AddDefaultTicks.linearBody64 (range : ImPlotRange ℚ) (interval : ℚ) (nMinor : ℤ)
    (major : ℚ) : List (ImPlotTick ℚ) :=
  (if range.Contains major then [ImPlotTick.new major true true] else []) ++
  (intRange 1 nMinor).flatMap (fun i =>
    let minor : ℚ :=
      F64.round (major + F64.round (F64.round ((i : ℚ) * interval) / (nMinor : ℚ)))
    if range.Contains minor then [ImPlotTick.new minor false true] else [])

/-- The loop `for (double major = graphmin; major < bound; major += interval)` of
`AddDefaultTicks` (implot.cpp, 432) in the arithmetic of `double`, the sum
`major + interval` rounded, with fuel: `none` when the loop has not ended after `fuel`
rounds. -/
def AddDefaultTicks.linearLoop64 (range : ImPlotRange ℚ) (interval : ℚ) (nMinor : ℤ)
    (bound : ℚ) : ℕ → ℚ → List (ImPlotTick ℚ) → Option (List (ImPlotTick ℚ))
  | 0, _, _ => none
  | fuel + 1, major, out =>
    if major < bound then
      AddDefaultTicks.linearLoop64 range interval nMinor bound fuel
        (F64.round (major + interval))
        (out ++ AddDefaultTicks.linearBody64 range interval nMinor major)
    else some out

/-- The linear branch of `AddDefaultTicks` (implot.cpp, 427-441) in the arithmetic of
`double`, on the C library `m`: every product, quotient, sum and difference is rounded,
`0.99` is the `double` nearest to it, and `NiceNum` is the one of binary64.  The loop is
given `fuel` rounds; the result is `none` when it has not ended by then, or when
`NiceNum` has no result. -/
def AddDefaultTicks.linear64 (m : ImMath ℚ) (range : ImPlotRange ℚ) (nMajor nMinor : ℤ)
    (fuel : ℕ) (out : List (ImPlotTick ℚ)) : Option (List (ImPlotTick ℚ)) :=
  match NiceNum64 m (F64.round (F64.round (range.Max - range.Min) * F64.round (99 / 100)))
      false with
  | none => none
  | some nice_range =>
    match NiceNum64 m (F64.round (nice_range / ((nMajor - 1 : ℤ) : ℚ))) true with
    | none => none
    | some interval =>
      let graphmin : ℚ := F64.round ((⌊F64.round (range.Min / interval)⌋ : ℚ) * interval)
      let graphmax : ℚ := F64.round ((⌈F64.round (range.Max / interval)⌉ : ℚ) * interval)
      AddDefaultTicks.linearLoop64 range interval nMinor
        (F64.round (graphmax + F64.round (1 / 2 * interval))) fuel graphmin out

/-! ## Part 2: theorems -/

/-! ### Binary64 rounding -/

theorem F64.pow2_eq (e : ℤ) : F64.pow2 e = (2 : ℚ) ^ e := by
  unfold F64.pow2
  split_ifs with h
  · obtain ⟨n, rfl⟩ := Int.eq_ofNat_of_zero_le h
    simp
  · obtain ⟨n, hn⟩ : ∃ n : ℕ, e = -(n : ℤ) := ⟨(-e).toNat, by omega⟩
    subst hn
    simp

theorem F64.bitLength_spec :
    ∀ (fuel n : ℕ), n ≠ 0 → n ≤ fuel →
      2 ^ (F64.bitLength fuel n - 1) ≤ n ∧ n < 2 ^ F64.bitLength fuel n ∧
        1 ≤ F64.bitLength fuel n := by
  intro fuel
  induction fuel with
  | zero =>
    intro n hn hle
    omega
  | succ fuel ih =>
    intro n hn hle
    rw [F64.bitLength, if_neg hn]
    by_cases h2 : n / 2 = 0
    · have h1 : n = 1 := by omega
      subst h1
      cases fuel <;> simp [F64.bitLength]
    · obtain ⟨i1, i2, i3⟩ := ih (n / 2) h2 (by omega)
      refine ⟨?_, ?_, by omega⟩
      · have e : F64.bitLength fuel (n / 2) + 1 - 1
            = (F64.bitLength fuel (n / 2) - 1) + 1 := by omega
        rw [e, pow_succ]
        omega
      · rw [pow_succ]
        omega

/-- The exponent of a positive number brackets it between two powers of two. -/
theorem F64.exponent_spec (x : ℚ) (hx : 0 < x) :
    (2 : ℚ) ^ F64.exponent x ≤ x ∧ x < (2 : ℚ) ^ (F64.exponent x + 1) := by
  have hnum : 0 < x.num := Rat.num_pos.2 hx
  have hden : 0 < x.den := x.den_pos
  obtain ⟨a1, a2, a3⟩ := F64.bitLength_spec x.num.natAbs x.num.natAbs
    (by omega) (le_refl _)
  obtain ⟨b1, b2, b3⟩ := F64.bitLength_spec x.den x.den (by omega) (le_refl _)
  generalize hla0 : F64.bitLength x.num.natAbs x.num.natAbs = la at a1 a2 a3
  generalize hlb0 : F64.bitLength x.den x.den = lb at b1 b2 b3
  have hxe : x = (x.num.natAbs : ℚ) / (x.den : ℚ) := by
    have h := (Rat.num_div_den x).symm
    have e : (x.num : ℚ) = ((x.num.natAbs : ℕ) : ℚ) := by
      have : ((x.num.natAbs : ℕ) : ℤ) = x.num := Int.natAbs_of_nonneg (le_of_lt hnum)
      rw [← Int.cast_natCast, this]
    rw [e] at h
    exact h
  have hb0 : (0 : ℚ) < (x.den : ℚ) := by exact_mod_cast hden
  have A1 : (2 : ℚ) ^ (la - 1) ≤ (x.num.natAbs : ℚ) := by exact_mod_cast a1
  have A2 : (x.num.natAbs : ℚ) < (2 : ℚ) ^ la := by exact_mod_cast a2
  have B1 : (2 : ℚ) ^ (lb - 1) ≤ (x.den : ℚ) := by exact_mod_cast b1
  have B2 : (x.den : ℚ) < (2 : ℚ) ^ lb := by exact_mod_cast b2
  have hla : (2 : ℚ) ^ la = 2 * (2 : ℚ) ^ (la - 1) := by
    have : la = (la - 1) + 1 := by omega
    conv_lhs => rw [this, pow_succ]
    ring
  have hlb : (2 : ℚ) ^ lb = 2 * (2 : ℚ) ^ (lb - 1) := by
    have : lb = (lb - 1) + 1 := by omega
    conv_lhs => rw [this, pow_succ]
    ring
  have z0 : ((2 : ℚ) ^ ((la : ℤ) - (lb : ℤ))) * (2 : ℚ) ^ lb = (2 : ℚ) ^ la := by
    rw [← zpow_natCast (2 : ℚ) lb, ← zpow_add₀ (by norm_num : (2 : ℚ) ≠ 0),
      ← zpow_natCast (2 : ℚ) la]
    congr 1
    ring
  have hpos : (0 : ℚ) < (2 : ℚ) ^ ((la : ℤ) - (lb : ℤ)) := zpow_pos (by norm_num) _
  have hPlb : (0 : ℚ) < (2 : ℚ) ^ (lb - 1) := pow_pos (by norm_num) _
  -- x lies strictly between 2^(e0-1) and 2^(e0+1)
  have lo : (2 : ℚ) ^ ((la : ℤ) - (lb : ℤ) - 1) < x := by
    have e1 : (2 : ℚ) ^ ((la : ℤ) - (lb : ℤ) - 1) = (2 : ℚ) ^ ((la : ℤ) - (lb : ℤ)) / 2 := by
      rw [zpow_sub_one₀ (by norm_num : (2 : ℚ) ≠ 0)]
      rfl
    rw [e1, hxe, div_lt_div_iff₀ (by norm_num) hb0]
    rw [hla] at z0
    nlinarith
  have hi : x < (2 : ℚ) ^ ((la : ℤ) - (lb : ℤ) + 1) := by
    rw [zpow_add_one₀ (by norm_num : (2 : ℚ) ≠ 0), hxe, div_lt_iff₀ hb0]
    rw [hlb] at z0
    nlinarith
  unfold F64.exponent
  simp only [F64.pow2_eq, hla0, hlb0]
  split_ifs with h
  · refine ⟨le_of_lt lo, ?_⟩
    have : (la : ℤ) - (lb : ℤ) - 1 + 1 = (la : ℤ) - (lb : ℤ) := by ring
    rw [this]
    exact h
  · exact ⟨not_lt.1 h, hi⟩

theorem F64.roundHalfEven_err (q : ℚ) : |(F64.roundHalfEven q : ℚ) - q| ≤ 1 / 2 := by
  have h1 : ((⌊q⌋ : ℤ) : ℚ) ≤ q := Int.floor_le q
  have h2 : q < ((⌊q⌋ : ℤ) : ℚ) + 1 := Int.lt_floor_add_one q
  unfold F64.roundHalfEven
  simp only
  split_ifs with a b c
  · rw [abs_le]
    constructor <;> linarith
  · rw [abs_le]
    push_cast
    constructor <;> linarith
  · rw [abs_le]
    constructor <;> linarith
  · rw [abs_le]
    push_cast
    have : q - ((⌊q⌋ : ℤ) : ℚ) = 1 / 2 := le_antisymm (not_lt.1 b) (not_lt.1 a)
    constructor <;> linarith

theorem F64.roundHalfEven_int (n : ℤ) : F64.roundHalfEven (n : ℚ) = n := by
  unfold F64.roundHalfEven
  simp

/-- The exponent used by `F64.round` for a number of at least `2 ^ -1022` in size. -/
theorem F64.round_normal (x : ℚ) (hx : (2 : ℚ) ^ (-1022 : ℤ) ≤ |x|) :
    F64.round x = (F64.roundHalfEven (x / (2 : ℚ) ^ (F64.exponent |x| - 52)) : ℚ)
      * (2 : ℚ) ^ (F64.exponent |x| - 52) := by
  have hpos : 0 < |x| := lt_of_lt_of_le (zpow_pos (by norm_num) _) hx
  have hx0 : x ≠ 0 := abs_pos.1 hpos
  obtain ⟨-, s2⟩ := F64.exponent_spec |x| hpos
  have he : (-1022 : ℤ) ≤ F64.exponent |x| := by
    have h := lt_of_le_of_lt hx s2
    have := (zpow_lt_zpow_iff_right₀ (by norm_num : (1 : ℚ) < 2)).1 h
    omega
  unfold F64.round
  rw [if_neg hx0]
  simp only [F64.pow2_eq, max_eq_left he]

/-- The relative error of one rounding is at most `2 ^ -53` in the normal range. -/
theorem F64.round_err (x : ℚ) (hx : (2 : ℚ) ^ (-1022 : ℤ) ≤ |x|) :
    |F64.round x - x| ≤ |x| / 2 ^ 53 := by
  have hpos : 0 < |x| := lt_of_lt_of_le (zpow_pos (by norm_num) _) hx
  obtain ⟨s1, -⟩ := F64.exponent_spec |x| hpos
  rw [F64.round_normal x hx]
  generalize F64.exponent |x| = e at s1
  have hq : (0 : ℚ) < (2 : ℚ) ^ (e - 52) := zpow_pos (by norm_num) _
  have herr := F64.roundHalfEven_err (x / (2 : ℚ) ^ (e - 52))
  generalize (F64.roundHalfEven (x / (2 : ℚ) ^ (e - 52)) : ℚ) = r at herr
  have e1 : r * (2 : ℚ) ^ (e - 52) - x = (r - x / (2 : ℚ) ^ (e - 52)) * (2 : ℚ) ^ (e - 52) := by
    field_simp
  rw [e1, abs_mul, abs_of_pos hq]
  have e2 : (2 : ℚ) ^ e = (2 : ℚ) ^ (e - 52) * 2 ^ 52 := by
    rw [← zpow_natCast (2 : ℚ) 52, ← zpow_add₀ (by norm_num : (2 : ℚ) ≠ 0)]
    congr 1
    norm_num
  rw [e2] at s1
  rw [le_div_iff₀ (by norm_num)]
  have : |r - x / (2 : ℚ) ^ (e - 52)| * (2 : ℚ) ^ (e - 52) ≤ 1 / 2 * (2 : ℚ) ^ (e - 52) :=
    mul_le_mul_of_nonneg_right herr hq.le
  nlinarith

/-- Whole numbers below `2 ^ 53` in size are `double`s. -/
theorem F64.round_int (n : ℤ) (hn : |n| < 2 ^ 53) : F64.round (n : ℚ) = n := by
  by_cases h0 : n = 0
  · subst h0
    simp [F64.round]
  have h1 : (1 : ℚ) ≤ |(n : ℚ)| := by
    have : (1 : ℤ) ≤ |n| := Int.one_le_abs h0
    exact_mod_cast this
  have hx : (2 : ℚ) ^ (-1022 : ℤ) ≤ |(n : ℚ)| := by
    refine le_trans ?_ h1
    exact zpow_le_one_of_nonpos₀ (by norm_num) (by norm_num)
  have hpos : 0 < |(n : ℚ)| := lt_of_lt_of_le (by norm_num) h1
  obtain ⟨s1, -⟩ := F64.exponent_spec |(n : ℚ)| hpos
  rw [F64.round_normal _ hx]
  generalize F64.exponent |(n : ℚ)| = e at s1
  have hlt : |(n : ℚ)| < (2 : ℚ) ^ (53 : ℤ) := by
    have : ((|n| : ℤ) : ℚ) < ((2 ^ 53 : ℤ) : ℚ) := by exact_mod_cast hn
    rw [Int.cast_abs] at this
    have e53 : ((2 ^ 53 : ℤ) : ℚ) = (2 : ℚ) ^ (53 : ℤ) := by norm_num
    rw [e53] at this
    exact this
  have he : e < 53 := by
    have := lt_of_le_of_lt s1 hlt
    exact (zpow_lt_zpow_iff_right₀ (by norm_num : (1 : ℚ) < 2)).1 this
  obtain ⟨k, hk⟩ : ∃ k : ℕ, e - 52 = -(k : ℤ) := ⟨(52 - e).toNat, by omega⟩
  rw [hk, zpow_neg, zpow_natCast]
  have e3 : (n : ℚ) / ((2 : ℚ) ^ k)⁻¹ = ((n * 2 ^ k : ℤ) : ℚ) := by
    push_cast
    field_simp
  rw [e3, F64.roundHalfEven_int]
  push_cast
  field_simp

/-- Rounding to the nearest whole number keeps the order. -/
theorem F64.roundHalfEven_mono (q1 q2 : ℚ) (h : q1 ≤ q2) :
    F64.roundHalfEven q1 ≤ F64.roundHalfEven q2 := by
  by_contra hc
  have hc' : F64.roundHalfEven q2 + 1 ≤ F64.roundHalfEven q1 := by omega
  have hq : ((F64.roundHalfEven q2 : ℤ) : ℚ) + 1 ≤ (F64.roundHalfEven q1 : ℚ) := by
    exact_mod_cast hc'
  have h1 := abs_le.1 (F64.roundHalfEven_err q1)
  have h2 := abs_le.1 (F64.roundHalfEven_err q2)
  have e : q1 = q2 := by linarith [h1.2, h2.1]
  subst e
  omega

/-- At a tie the nearest whole number chosen is even. -/
theorem F64.roundHalfEven_tie (q : ℚ) (h : |(F64.roundHalfEven q : ℚ) - q| = 1 / 2) :
    F64.roundHalfEven q % 2 = 0 := by
  have h1 : ((⌊q⌋ : ℤ) : ℚ) ≤ q := Int.floor_le q
  have h2 : q < ((⌊q⌋ : ℤ) : ℚ) + 1 := Int.lt_floor_add_one q
  unfold F64.roundHalfEven at h ⊢
  simp only at h ⊢
  split_ifs at h ⊢ with a b c
  · rw [abs_of_nonpos (by linarith)] at h
    linarith
  · push_cast at h
    rw [abs_of_nonneg (by linarith)] at h
    linarith
  · exact c
  · omega

/-- The nearest whole number, with ties to the even one, is determined by these two
properties. -/
theorem F64.roundHalfEven_unique (q : ℚ) (a : ℤ) (h1 : |(a : ℚ) - q| ≤ 1 / 2)
    (h2 : |(a : ℚ) - q| = 1 / 2 → a % 2 = 0) : F64.roundHalfEven q = a := by
  have e1 := F64.roundHalfEven_err q
  have t1 := F64.roundHalfEven_tie q
  generalize F64.roundHalfEven q = b at e1 t1 ⊢
  rw [abs_le] at h1 e1
  have hd : ((b - a : ℤ) : ℚ) ≤ 1 ∧ (-1 : ℚ) ≤ ((b - a : ℤ) : ℚ) := by
    push_cast
    constructor <;> linarith [h1.1, h1.2, e1.1, e1.2]
  have hd1 : b - a ≤ 1 := by exact_mod_cast hd.1
  have hd2 : -1 ≤ b - a := by exact_mod_cast hd.2
  rcases (by omega : b - a = 0 ∨ b - a = 1 ∨ b - a = -1) with h | h | h
  · omega
  · exfalso
    have hq : (b : ℚ) - a = 1 := by exact_mod_cast h
    have ea : |(a : ℚ) - q| = 1 / 2 := by
      rw [abs_of_nonpos (by linarith [e1.2])]
      linarith [e1.2, h1.1]
    have eb : |(b : ℚ) - q| = 1 / 2 := by
      rw [abs_of_nonneg (by linarith [h1.1])]
      linarith [e1.2, h1.1]
    have := h2 ea
    have := t1 eb
    omega
  · exfalso
    have hq : (b : ℚ) - a = -1 := by exact_mod_cast h
    have ea : |(a : ℚ) - q| = 1 / 2 := by
      rw [abs_of_nonneg (by linarith [e1.1])]
      linarith [e1.1, h1.2]
    have eb : |(b : ℚ) - q| = 1 / 2 := by
      rw [abs_of_nonpos (by linarith [h1.2])]
      linarith [e1.1, h1.2]
    have := h2 ea
    have := t1 eb
    omega

theorem F64.roundHalfEven_neg (q : ℚ) : F64.roundHalfEven (-q) = -F64.roundHalfEven q := by
  apply F64.roundHalfEven_unique
  · have := F64.roundHalfEven_err q
    have e : ((-F64.roundHalfEven q : ℤ) : ℚ) - -q = -((F64.roundHalfEven q : ℚ) - q) := by
      push_cast
      ring
    rw [e, abs_neg]
    exact this
  · intro h
    have e : ((-F64.roundHalfEven q : ℤ) : ℚ) - -q = -((F64.roundHalfEven q : ℚ) - q) := by
      push_cast
      ring
    rw [e, abs_neg] at h
    have := F64.roundHalfEven_tie q h
    omega

/-- Rounding to a `double` commutes with the change of sign. -/
theorem F64.round_neg (x : ℚ) : F64.round (-x) = -F64.round x := by
  unfold F64.round
  by_cases hx : x = 0
  · subst hx
    simp
  · rw [if_neg hx, if_neg (neg_ne_zero.2 hx), abs_neg]
    simp only
    rw [neg_div, F64.roundHalfEven_neg]
    push_cast
    ring

theorem F64.round_zero : F64.round 0 = 0 := by
  unfold F64.round
  rw [if_pos rfl]

theorem F64.exponent_mono (x y : ℚ) (hx : 0 < x) (h : x ≤ y) :
    F64.exponent x ≤ F64.exponent y := by
  obtain ⟨a1, -⟩ := F64.exponent_spec x hx
  obtain ⟨-, b2⟩ := F64.exponent_spec y (lt_of_lt_of_le hx h)
  have := lt_of_le_of_lt (le_trans a1 h) b2
  have := (zpow_lt_zpow_iff_right₀ (by norm_num : (1 : ℚ) < 2)).1 this
  omega

/-- The value of `F64.round` at a positive number, with the exponent named. -/
theorem F64.round_pos_eq (x : ℚ) (hx : 0 < x) :
    F64.round x = (F64.roundHalfEven (x / (2 : ℚ) ^ (max (F64.exponent x) (-1022) - 52)) : ℚ)
      * (2 : ℚ) ^ (max (F64.exponent x) (-1022) - 52) := by
  unfold F64.round
  rw [if_neg (ne_of_gt hx), abs_of_pos hx]
  simp only [F64.pow2_eq]

/-- Rounding to a `double` keeps the order of positive numbers. -/
theorem F64.round_mono_pos (x y : ℚ) (hx : 0 < x) (h : x ≤ y) : F64.round x ≤ F64.round y := by
  have hy : 0 < y := lt_of_lt_of_le hx h
  have hexp := F64.exponent_mono x y hx h
  obtain ⟨-, x2⟩ := F64.exponent_spec x hx
  obtain ⟨y1, -⟩ := F64.exponent_spec y hy
  rw [F64.round_pos_eq x hx, F64.round_pos_eq y hy]
  generalize hex : max (F64.exponent x) (-1022) = ex
  generalize hey : max (F64.exponent y) (-1022) = ey
  have hle : ex ≤ ey := by
    rw [← hex, ← hey]
    exact max_le_max hexp (le_refl _)
  have hqx : (0 : ℚ) < (2 : ℚ) ^ (ex - 52) := zpow_pos (by norm_num) _
  have hqy : (0 : ℚ) < (2 : ℚ) ^ (ey - 52) := zpow_pos (by norm_num) _
  rcases eq_or_lt_of_le hle with heq | hlt
  · subst heq
    apply mul_le_mul_of_nonneg_right _ hqx.le
    have : F64.roundHalfEven (x / (2 : ℚ) ^ (ex - 52))
        ≤ F64.roundHalfEven (y / (2 : ℚ) ^ (ex - 52)) :=
      F64.roundHalfEven_mono _ _ (div_le_div_of_nonneg_right h hqx.le)
    exact_mod_cast this
  · have hey' : ey = F64.exponent y := by
      rw [← hey]
      apply max_eq_left
      have : -1022 ≤ ex := by rw [← hex]; exact le_max_right _ _
      by_contra hc
      rw [max_eq_right (by omega)] at hey
      omega
    have hx' : F64.exponent x + 1 ≤ ex + 1 := by
      have : F64.exponent x ≤ ex := by rw [← hex]; exact le_max_left _ _
      omega
    have split : ∀ e : ℤ, (2 : ℚ) ^ e = (2 : ℚ) ^ (e - 52) * 2 ^ 52 := by
      intro e
      rw [← zpow_natCast (2 : ℚ) 52, ← zpow_add₀ (by norm_num : (2 : ℚ) ≠ 0)]
      congr 1
      norm_num
    have ux : x / (2 : ℚ) ^ (ex - 52) ≤ ((2 ^ 53 : ℤ) : ℚ) := by
      rw [div_le_iff₀ hqx]
      have h1 : x < (2 : ℚ) ^ (ex + 1) :=
        lt_of_lt_of_le x2 ((zpow_le_zpow_iff_right₀ (by norm_num : (1 : ℚ) < 2)).2 hx')
      have h2 : (2 : ℚ) ^ (ex + 1) = (2 : ℚ) ^ (ex - 52) * 2 ^ 53 := by
        rw [← zpow_natCast (2 : ℚ) 53, ← zpow_add₀ (by norm_num : (2 : ℚ) ≠ 0)]
        congr 1
        push_cast
        ring
      rw [h2] at h1
      push_cast
      linarith
    have uy : ((2 ^ 52 : ℤ) : ℚ) ≤ y / (2 : ℚ) ^ (ey - 52) := by
      rw [le_div_iff₀ hqy]
      rw [← hey', split ey] at y1
      push_cast
      linarith
    have rx := F64.roundHalfEven_mono _ _ ux
    have ry := F64.roundHalfEven_mono _ _ uy
    rw [F64.roundHalfEven_int] at rx ry
    have rx' : (F64.roundHalfEven (x / (2 : ℚ) ^ (ex - 52)) : ℚ) ≤ 2 ^ 53 := by
      exact_mod_cast rx
    have ry' : (2 : ℚ) ^ 52 ≤ (F64.roundHalfEven (y / (2 : ℚ) ^ (ey - 52)) : ℚ) := by
      exact_mod_cast ry
    have hpow : (2 : ℚ) ^ (ex - 52) * 2 ^ 53 ≤ (2 : ℚ) ^ (ey - 52) * 2 ^ 52 := by
      rw [← split ey]
      have h2 : (2 : ℚ) ^ (ex + 1) = (2 : ℚ) ^ (ex - 52) * 2 ^ 53 := by
        rw [← zpow_natCast (2 : ℚ) 53, ← zpow_add₀ (by norm_num : (2 : ℚ) ≠ 0)]
        congr 1
        push_cast
        ring
      rw [← h2]
      exact (zpow_le_zpow_iff_right₀ (by norm_num : (1 : ℚ) < 2)).2 (by omega)
    calc (F64.roundHalfEven (x / (2 : ℚ) ^ (ex - 52)) : ℚ) * (2 : ℚ) ^ (ex - 52)
        ≤ 2 ^ 53 * (2 : ℚ) ^ (ex - 52) := mul_le_mul_of_nonneg_right rx' hqx.le
      _ ≤ 2 ^ 52 * (2 : ℚ) ^ (ey - 52) := by linarith
      _ ≤ (F64.roundHalfEven (y / (2 : ℚ) ^ (ey - 52)) : ℚ) * (2 : ℚ) ^ (ey - 52) :=
        mul_le_mul_of_nonneg_right ry' hqy.le

theorem F64.round_nonneg (x : ℚ) (hx : 0 ≤ x) : 0 ≤ F64.round x := by
  rcases eq_or_lt_of_le hx with h | h
  · rw [← h, F64.round_zero]
  · rw [F64.round_pos_eq x h]
    apply mul_nonneg _ (zpow_pos (by norm_num) _).le
    have := F64.roundHalfEven_mono 0 (x / (2 : ℚ) ^ (max (F64.exponent x) (-1022) - 52))
      (div_nonneg hx (zpow_pos (by norm_num) _).le)
    have h0 : F64.roundHalfEven 0 = 0 := by
      have := F64.roundHalfEven_int 0
      simpa using this
    rw [h0] at this
    exact_mod_cast this

/-- Rounding to a `double` keeps the order. -/
theorem F64.round_mono (x y : ℚ) (h : x ≤ y) : F64.round x ≤ F64.round y := by
  rcases lt_trichotomy 0 x with hx | hx | hx
  · exact F64.round_mono_pos x y hx h
  · rw [← hx, F64.round_zero]
    exact F64.round_nonneg y (by linarith)
  · rcases le_or_lt 0 y with hy | hy
    · have h1 := F64.round_nonneg (-x) (by linarith)
      rw [F64.round_neg] at h1
      have h2 := F64.round_nonneg y hy
      linarith
    · have := F64.round_mono_pos (-y) (-x) (by linarith) (by linarith)
      rw [F64.round_neg, F64.round_neg] at this
      linarith

/-- A whole number rounds below the rounding of four times its size plus four. -/
theorem F64.round_lt_bound (g : ℤ) :
    F64.round (g : ℚ) < F64.round ((4 * |g| + 4 : ℤ) : ℚ) := by
  have hsmall : (2 : ℚ) ^ (-1022 : ℤ) ≤ 1 :=
    zpow_le_one_of_nonpos₀ (by norm_num) (by norm_num)
  have hg0 : (0 : ℚ) ≤ |(g : ℚ)| := abs_nonneg _
  have ecast : ((4 * |g| + 4 : ℤ) : ℚ) = 4 * |(g : ℚ)| + 4 := by push_cast; ring
  rw [ecast]
  have hUpos : (0 : ℚ) ≤ 4 * |(g : ℚ)| + 4 := by linarith
  have hU : (2 : ℚ) ^ (-1022 : ℤ) ≤ |4 * |(g : ℚ)| + 4| := by
    rw [abs_of_nonneg hUpos]
    linarith
  have eU := abs_le.1 (F64.round_err _ hU)
  rw [abs_of_nonneg hUpos] at eU
  have hupper : F64.round (g : ℚ) ≤ |(g : ℚ)| + |(g : ℚ)| / 2 ^ 53 := by
    by_cases h0 : g = 0
    · subst h0
      simp [F64.round_zero]
    · have h1 : (1 : ℚ) ≤ |(g : ℚ)| := by
        have : (1 : ℤ) ≤ |g| := Int.one_le_abs h0
        exact_mod_cast this
      have eg := abs_le.1 (F64.round_err (g : ℚ) (le_trans hsmall h1))
      have hle : (g : ℚ) ≤ |(g : ℚ)| := le_abs_self _
      linarith [eg.2]
  generalize |(g : ℚ)| = a at *
  have : a + a / 2 ^ 53 < (4 * a + 4) - (4 * a + 4) / 2 ^ 53 := by
    norm_num
    linarith
  linarith [eU.1]

/-! ### Logarithms -/

theorem intLog_eq_of_bounds {R : Type} [LinearOrderedSemifield R] [FloorSemiring R] {b : ℕ}
    (hb : 1 < b) {r : R} (hr : 0 < r) {e : ℤ} (h1 : (b : R) ^ e ≤ r)
    (h2 : r < (b : R) ^ (e + 1)) : Int.log b r = e := by
  apply le_antisymm
  · have := (Int.lt_zpow_iff_log_lt hb hr).1 h2
    omega
  · exact (Int.zpow_le_iff_le_log hb hr).1 h1

theorem floorLog10_le (x : ℚ) (hx : 0 < x) : (10 : ℚ) ^ floorLog10 x ≤ x := by
  have h := Int.zpow_log_le_self (R := ℚ) (b := 10) (by norm_num) hx
  simpa [floorLog10] using h

theorem lt_floorLog10_succ (x : ℚ) : x < (10 : ℚ) ^ (floorLog10 x + 1) := by
  have h := Int.lt_zpow_succ_log_self (R := ℚ) (b := 10) (by norm_num) x
  simpa [floorLog10] using h

theorem floorLog10_eq (x : ℚ) (e : ℤ) (h1 : (10 : ℚ) ^ e ≤ x) (h2 : x < (10 : ℚ) ^ (e + 1)) :
    floorLog10 x = e := by
  have hx : 0 < x := lt_of_lt_of_le (zpow_pos (by norm_num) e) h1
  unfold floorLog10
  apply intLog_eq_of_bounds (by norm_num) hx
  · simpa using h1
  · simpa using h2

/-- The model of `(int)floor(ImLog10(x))` is the floor of the real base ten logarithm. -/
theorem floorLog10_eq_floor_logb (x : ℚ) (hx : 0 < x) :
    floorLog10 x = ⌊Real.logb 10 (x : ℝ)⌋ := by
  have hxr : (0 : ℝ) < (x : ℝ) := by exact_mod_cast hx
  have h := Real.floor_logb_natCast (b := 10) (r := (x : ℝ)) hxr.le
  have h10 : ((10 : ℕ) : ℝ) = 10 := by norm_num
  rw [h10] at h
  rw [h]
  symm
  apply intLog_eq_of_bounds (by norm_num) hxr
  · have h2 := (Rat.cast_le (K := ℝ)).2 (floorLog10_le x hx)
    push_cast at h2
    simpa using h2
  · have h2 := (Rat.cast_lt (K := ℝ)).2 (lt_floorLog10_succ x)
    push_cast at h2
    simpa using h2

/-! ### NiceNum -/

theorem pow10_pos (e : ℤ) : (0 : ℚ) < (10 : ℚ) ^ e := zpow_pos (by norm_num) e

theorem pow10_succ (e : ℤ) : (10 : ℚ) ^ (e + 1) = 10 * (10 : ℚ) ^ e := by
  rw [zpow_add_one₀ (by norm_num : (10 : ℚ) ≠ 0)]; ring

theorem NiceNum_isNice (x : ℚ) (round : Bool) : IsNice (NiceNum x round) := by
  simp only [NiceNum]
  cases round
  · simp only [Bool.false_eq_true, if_false]
    split_ifs
    · exact ⟨1, _, Or.inl rfl, rfl⟩
    · exact ⟨2, _, Or.inr (Or.inl rfl), rfl⟩
    · exact ⟨5, _, Or.inr (Or.inr (Or.inl rfl)), rfl⟩
    · exact ⟨10, _, Or.inr (Or.inr (Or.inr rfl)), rfl⟩
  · simp only [if_true]
    split_ifs
    · exact ⟨1, _, Or.inl rfl, rfl⟩
    · exact ⟨2, _, Or.inr (Or.inl rfl), rfl⟩
    · exact ⟨5, _, Or.inr (Or.inr (Or.inl rfl)), rfl⟩
    · exact ⟨10, _, Or.inr (Or.inr (Or.inr rfl)), rfl⟩

theorem NiceNum_pos (x : ℚ) (round : Bool) : 0 < NiceNum x round := by
  have hP := pow10_pos (floorLog10 x)
  simp only [NiceNum]
  cases round
  · simp only [Bool.false_eq_true, if_false]
    split_ifs <;> linarith
  · simp only [if_true]
    split_ifs <;> linarith

/-- Number of iterations of the linear loop started at `major`. -/
theorem linearLoop_closed (range : ImPlotRange ℚ) (interval : ℚ) (nMinor : ℤ) (bound : ℚ)
    (hI : 0 < interval) :
    ∀ (n : ℕ) (major : ℚ) (out : List (ImPlotTick ℚ)), bound - major ≤ (n : ℚ) * interval →
      AddDefaultTicks.linearLoop range interval nMinor bound (n + 1) major out
        = some (out ++ (List.range (⌈(bound - major) / interval⌉).toNat).flatMap
            (fun j => AddDefaultTicks.linearBody range interval nMinor
              (major + (j : ℚ) * interval))) := by
  intro n
  induction n with
  | zero =>
    intro major out h
    have h0 : ¬ major < bound := by simp at h; linarith
    have hc : ⌈(bound - major) / interval⌉ ≤ 0 := by
      rw [Int.ceil_le]
      simp only [Int.cast_zero]
      apply div_nonpos_of_nonpos_of_nonneg <;> linarith
    have hk : (⌈(bound - major) / interval⌉).toNat = 0 := by omega
    simp [AddDefaultTicks.linearLoop, h0, hk]
  | succ n ih =>
    intro major out h
    by_cases hlt : major < bound
    · have hrec : bound - (major + interval) ≤ (n : ℚ) * interval := by
        push_cast at h; linarith
      have hstep : AddDefaultTicks.linearLoop range interval nMinor bound (n + 1 + 1) major out
          = AddDefaultTicks.linearLoop range interval nMinor bound (n + 1) (major + interval)
              (out ++ AddDefaultTicks.linearBody range interval nMinor major) := by
        rw [AddDefaultTicks.linearLoop, if_pos hlt]
      rw [hstep, ih _ _ hrec]
      have hdiv : (bound - (major + interval)) / interval = (bound - major) / interval - 1 := by
        field_simp
        ring
      have hpos : 0 < ⌈(bound - major) / interval⌉ := by
        rw [Int.ceil_pos]
        apply div_pos <;> linarith
      have hk : (⌈(bound - major) / interval⌉).toNat
          = (⌈(bound - (major + interval)) / interval⌉).toNat + 1 := by
        rw [hdiv, Int.ceil_sub_one]
        omega
      rw [hk, List.range_succ_eq_map, List.flatMap_cons, List.flatMap_map]
      simp only [List.append_assoc, Nat.cast_zero, zero_mul, add_zero]
      congr 4
      funext j
      simp only [Nat.succ_eq_add_one]
      congr 1
      push_cast
      ring
    · have hc : ⌈(bound - major) / interval⌉ ≤ 0 := by
        rw [Int.ceil_le]
        simp only [Int.cast_zero]
        apply div_nonpos_of_nonpos_of_nonneg <;> linarith
      have hk : (⌈(bound - major) / interval⌉).toNat = 0 := by omega
      simp [AddDefaultTicks.linearLoop, hlt, hk]

theorem mem_intRange (a b i : ℤ) : i ∈ intRange a b ↔ a ≤ i ∧ i < b := by
  simp only [intRange, List.mem_map, List.mem_range]
  constructor
  · rintro ⟨k, hk, rfl⟩
    have h := Int.lt_toNat.1 hk
    omega
  · rintro ⟨h1, h2⟩
    have h := Int.toNat_of_nonneg (by omega : 0 ≤ i - a)
    refine ⟨(i - a).toNat, ?_, by omega⟩
    apply Int.lt_toNat.2
    omega

theorem pairwise_intRange (a b : ℤ) : (intRange a b).Pairwise (fun i j => i < j) := by
  simp only [intRange, List.pairwise_map]
  refine (List.pairwise_lt_range _).imp ?_
  intro x y h
  omega

theorem pairwise_flatMap_of_pairwise {α β : Type} (R : β → β → Prop) (S : α → α → Prop)
    (l : List α) (f : α → List β) (hl : l.Pairwise S) (h1 : ∀ a ∈ l, (f a).Pairwise R)
    (h2 : ∀ a ∈ l, ∀ b ∈ l, S a b → ∀ x ∈ f a, ∀ y ∈ f b, R x y) :
    (l.flatMap f).Pairwise R :=
  List.pairwise_flatMap.2 ⟨h1, hl.imp_of_mem (fun {a b} ha hb h => h2 a ha b hb h)⟩

theorem contains_iff {K : Type} [LinearOrder K] (r : ImPlotRange K) (v : K) :
    r.Contains v = true ↔ r.Min ≤ v ∧ v ≤ r.Max := by
  simp [ImPlotRange.Contains]

/-- What the body of the linear loop emits at `major`. -/
theorem mem_linearBody (range : ImPlotRange ℚ) (interval : ℚ) (nMinor : ℤ) (major : ℚ)
    (t : ImPlotTick ℚ) :
    t ∈ AddDefaultTicks.linearBody range interval nMinor major ↔
      (range.Contains major = true ∧ t = ImPlotTick.new major true true) ∨
      ∃ i : ℤ, 1 ≤ i ∧ i < nMinor ∧
        range.Contains (major + (i : ℚ) * interval / (nMinor : ℚ)) = true ∧
        t = ImPlotTick.new (major + (i : ℚ) * interval / (nMinor : ℚ)) false true := by
  simp only [AddDefaultTicks.linearBody, List.mem_append, List.mem_flatMap, mem_intRange]
  constructor
  · rintro (h | ⟨i, ⟨h1, h2⟩, h⟩)
    · left
      split_ifs at h with hc
      · exact ⟨hc, by simpa using h⟩
      · simp at h
    · right
      split_ifs at h with hc
      · exact ⟨i, h1, h2, hc, by simpa using h⟩
      · simp at h
  · rintro (⟨hc, rfl⟩ | ⟨i, h1, h2, hc, rfl⟩)
    · left; simp [hc]
    · right; exact ⟨i, ⟨h1, h2⟩, by simp [hc]⟩

/-- Every tick of the body at `major` lies in the range and in `[major, major + interval)`. -/
theorem linearBody_bounds (range : ImPlotRange ℚ) (interval : ℚ) (nMinor : ℤ) (major : ℚ)
    (hI : 0 < interval) (t : ImPlotTick ℚ)
    (ht : t ∈ AddDefaultTicks.linearBody range interval nMinor major) :
    range.Min ≤ t.PlotPos ∧ t.PlotPos ≤ range.Max ∧ major ≤ t.PlotPos ∧
      t.PlotPos < major + interval := by
  rw [mem_linearBody] at ht
  rcases ht with ⟨hc, rfl⟩ | ⟨i, h1, h2, hc, rfl⟩
  · rw [contains_iff] at hc
    simp only [ImPlotTick.new]
    exact ⟨hc.1, hc.2, le_refl _, by linarith⟩
  · rw [contains_iff] at hc
    simp only [ImPlotTick.new]
    have hn : (0 : ℚ) < (nMinor : ℚ) := by exact_mod_cast (by omega : (0 : ℤ) < nMinor)
    have hi0 : (0 : ℚ) < (i : ℚ) := by exact_mod_cast (by omega : (0 : ℤ) < i)
    have hin : (i : ℚ) < (nMinor : ℚ) := by exact_mod_cast h2
    have hq0 : 0 < (i : ℚ) * interval / (nMinor : ℚ) := div_pos (mul_pos hi0 hI) hn
    have hq1 : (i : ℚ) * interval / (nMinor : ℚ) < interval := by
      rw [div_lt_iff₀ hn]
      nlinarith
    exact ⟨hc.1, hc.2, by linarith, by linarith⟩

theorem linearBody_pairwise (range : ImPlotRange ℚ) (interval : ℚ) (nMinor : ℤ) (major : ℚ)
    (hI : 0 < interval) :
    (AddDefaultTicks.linearBody range interval nMinor major).Pairwise
      (fun a b => a.PlotPos < b.PlotPos) := by
  unfold AddDefaultTicks.linearBody
  rw [List.pairwise_append]
  refine ⟨?_, ?_, ?_⟩
  · split_ifs <;> simp
  · apply pairwise_flatMap_of_pairwise _ _ _ _ (pairwise_intRange 1 nMinor)
    · intro i _
      simp only
      split_ifs <;> simp
    · intro i hi j _ hij x hx y hy
      rw [mem_intRange] at hi
      simp only at hx hy
      split_ifs at hx with hcx
      · split_ifs at hy with hcy
        · simp only [List.mem_singleton] at hx hy
          subst hx; subst hy
          simp only [ImPlotTick.new]
          have hlt : (i : ℚ) < (j : ℚ) := by exact_mod_cast hij
          have hn : (0 : ℚ) < (nMinor : ℚ) := by exact_mod_cast (by omega : (0 : ℤ) < nMinor)
          have : (i : ℚ) * interval / (nMinor : ℚ) < (j : ℚ) * interval / (nMinor : ℚ) :=
            div_lt_div_of_pos_right (mul_lt_mul_of_pos_right hlt hI) hn
          linarith
        · simp at hy
      · simp at hx
  · intro a ha b hb
    split_ifs at ha with hc
    · simp only [List.mem_singleton] at ha
      subst ha
      simp only [List.mem_flatMap, mem_intRange] at hb
      obtain ⟨i, ⟨h1, h2⟩, hb⟩ := hb
      split_ifs at hb with hcb
      · simp only [List.mem_singleton] at hb
        subst hb
        simp only [ImPlotTick.new]
        have hn : (0 : ℚ) < (nMinor : ℚ) := by exact_mod_cast (by omega : (0 : ℤ) < nMinor)
        have hi0 : (0 : ℚ) < (i : ℚ) := by exact_mod_cast (by omega : (0 : ℤ) < i)
        have : 0 < (i : ℚ) * interval / (nMinor : ℚ) := div_pos (mul_pos hi0 hI) hn
        linarith
      · simp at hb
    · simp at ha

/-- The linear mode of `AddDefaultTicks` ends and appends the bodies at
`graphmin + j * interval` for `j` below the iteration count. -/
theorem AddDefaultTicks_linear_eq (range : ImPlotRange ℚ) (nMajor nMinor : ℤ)
    (out : List (ImPlotTick ℚ)) :
    AddDefaultTicks range nMajor nMinor false out
      = some (out ++ (List.range (⌈((⌈range.Max / linearStep range nMajor⌉ : ℚ)
              * linearStep range nMajor + 0.5 * linearStep range nMajor
              - (⌊range.Min / linearStep range nMajor⌋ : ℚ) * linearStep range nMajor)
              / linearStep range nMajor⌉).toNat).flatMap
          (fun j => AddDefaultTicks.linearBody range (linearStep range nMajor) nMinor
            ((⌊range.Min / linearStep range nMajor⌋ : ℚ) * linearStep range nMajor
              + (j : ℚ) * linearStep range nMajor))) := by
  have hI : 0 < linearStep range nMajor := NiceNum_pos _ _
  simp only [AddDefaultTicks, Bool.false_eq_true, if_false, AddDefaultTicks.linearFuel]
  rw [← linearStep]
  apply linearLoop_closed _ _ _ _ hI
  rw [← div_le_iff₀ hI]
  refine le_trans (Int.le_ceil _) ?_
  have h := Int.self_le_toNat ⌈((⌈range.Max / linearStep range nMajor⌉ : ℚ)
              * linearStep range nMajor + 0.5 * linearStep range nMajor
              - (⌊range.Min / linearStep range nMajor⌋ : ℚ) * linearStep range nMajor)
              / linearStep range nMajor⌉
  exact_mod_cast h

/-- Bodies at `m0 + j * interval` for increasing `j` give strictly increasing ticks. -/
theorem linearBodies_pairwise (range : ImPlotRange ℚ) (interval : ℚ) (nMinor : ℤ) (m0 : ℚ)
    (hI : 0 < interval) (k : ℕ) :
    ((List.range k).flatMap (fun j => AddDefaultTicks.linearBody range interval nMinor
        (m0 + (j : ℚ) * interval))).Pairwise (fun a b => a.PlotPos < b.PlotPos) := by
  apply pairwise_flatMap_of_pairwise _ _ _ _ (List.pairwise_lt_range k)
  · intro j _
    exact linearBody_pairwise range interval nMinor _ hI
  · intro i _ j _ hij x hx y hy
    have hx2 := linearBody_bounds range interval nMinor _ hI x hx
    have hy2 := linearBody_bounds range interval nMinor _ hI y hy
    have hij2 : (i : ℚ) + 1 ≤ (j : ℚ) := by exact_mod_cast hij
    nlinarith [hx2.2.2.2, hy2.2.2.1]

theorem linearBodies_in_range (range : ImPlotRange ℚ) (interval : ℚ) (nMinor : ℤ) (m0 : ℚ)
    (hI : 0 < interval) (k : ℕ) (t : ImPlotTick ℚ)
    (ht : t ∈ (List.range k).flatMap (fun j => AddDefaultTicks.linearBody range interval nMinor
        (m0 + (j : ℚ) * interval))) :
    range.Min ≤ t.PlotPos ∧ t.PlotPos ≤ range.Max := by
  rw [List.mem_flatMap] at ht
  obtain ⟨j, _, hj⟩ := ht
  have h := linearBody_bounds range interval nMinor _ hI t hj
  exact ⟨h.1, h.2.1⟩

/-- In exact arithmetic, for every range with `Min < Max`, every `nMajor ≥ 2` and
`nMinor ≥ 0`, the linear mode of `AddDefaultTicks` on an empty list returns ticks whose
positions are strictly increasing and all lie in `[range.Min, range.Max]`. -/
theorem linear_ticks_exact_increasing_in_range (range : ImPlotRange ℚ) (nMajor nMinor : ℤ)
    (_hr : range.Min < range.Max) (_hM : 2 ≤ nMajor) (_hm : 0 ≤ nMinor) :
    ∃ ticks : List (ImPlotTick ℚ),
      AddDefaultTicks range nMajor nMinor false [] = some ticks ∧
      ticks.Pairwise (fun a b => a.PlotPos < b.PlotPos) ∧
      ∀ t ∈ ticks, range.Min ≤ t.PlotPos ∧ t.PlotPos ≤ range.Max := by
  have hI : 0 < linearStep range nMajor := NiceNum_pos _ _
  refine ⟨_, AddDefaultTicks_linear_eq range nMajor nMinor [], ?_, ?_⟩
  · rw [List.nil_append]
    exact linearBodies_pairwise range _ nMinor _ hI _
  · rw [List.nil_append]
    intro t ht
    exact linearBodies_in_range range _ nMinor _ hI _ t ht

theorem mem_majorPositions {K : Type} (ticks : List (ImPlotTick K)) (p : K) :
    p ∈ majorPositions ticks ↔ ∃ t ∈ ticks, t.Major = true ∧ t.PlotPos = p := by
  simp only [majorPositions, List.mem_map, List.mem_filter]
  constructor
  · rintro ⟨t, ⟨h1, h2⟩, h3⟩
    exact ⟨t, h1, h2, h3⟩
  · rintro ⟨t, h1, h2, h3⟩
    exact ⟨t, ⟨h1, h2⟩, h3⟩

theorem majorPositions_pairwise (ticks : List (ImPlotTick ℚ))
    (h : ticks.Pairwise (fun a b => a.PlotPos < b.PlotPos)) :
    (majorPositions ticks).Pairwise (fun a b => a < b) := by
  unfold majorPositions
  rw [List.pairwise_map]
  exact h.filter _

/-- Two strictly increasing lists with the same members are equal. -/
theorem eq_of_pairwise_lt_of_mem_iff (l₁ l₂ : List ℚ) (h₁ : l₁.Pairwise (fun a b => a < b))
    (h₂ : l₂.Pairwise (fun a b => a < b)) (h : ∀ p, p ∈ l₁ ↔ p ∈ l₂) : l₁ = l₂ := by
  have n₁ : l₁.Nodup := h₁.imp (fun hab => ne_of_lt hab)
  have n₂ : l₂.Nodup := h₂.imp (fun hab => ne_of_lt hab)
  exact List.eq_of_perm_of_sorted ((List.perm_ext_iff_of_nodup n₁ n₂).2 h) h₁ h₂

theorem ceil_int_add_half (z : ℤ) : ⌈(z : ℚ) + 0.5⌉ = z + 1 := by
  rw [Int.ceil_eq_iff]
  push_cast
  constructor <;> norm_num

/-- The major ticks among the bodies at `fl * interval + j * interval`, `j < k`. -/
theorem mem_majorPositions_bodies (range : ImPlotRange ℚ) (interval : ℚ) (nMinor : ℤ) (m0 : ℚ)
    (k : ℕ) (p : ℚ) :
    p ∈ majorPositions ((List.range k).flatMap (fun j =>
        AddDefaultTicks.linearBody range interval nMinor (m0 + (j : ℚ) * interval))) ↔
      ∃ j : ℕ, j < k ∧ p = m0 + (j : ℚ) * interval ∧ range.Min ≤ p ∧ p ≤ range.Max := by
  rw [mem_majorPositions]
  simp only [List.mem_flatMap, List.mem_range]
  constructor
  · rintro ⟨t, ⟨j, hj, ht⟩, hM, rfl⟩
    rw [mem_linearBody] at ht
    rcases ht with ⟨hc, rfl⟩ | ⟨i, _, _, _, rfl⟩
    · rw [contains_iff] at hc
      exact ⟨j, hj, rfl, hc.1, hc.2⟩
    · simp [ImPlotTick.new] at hM
  · rintro ⟨j, hj, rfl, h1, h2⟩
    refine ⟨ImPlotTick.new (m0 + (j : ℚ) * interval) true true, ⟨j, hj, ?_⟩, rfl, rfl⟩
    rw [mem_linearBody]
    left
    exact ⟨(contains_iff _ _).2 ⟨h1, h2⟩, rfl⟩

/-- The multiples of `step` in `[Min, Max]`, in increasing order. -/
theorem mem_multiples (range : ImPlotRange ℚ) (step : ℚ) (hI : 0 < step) (p : ℚ) :
    p ∈ (intRange ⌈range.Min / step⌉ (⌊range.Max / step⌋ + 1)).map (fun (k : ℤ) => (k : ℚ) * step) ↔
      ∃ k : ℤ, p = (k : ℚ) * step ∧ range.Min ≤ p ∧ p ≤ range.Max := by
  simp only [List.mem_map, mem_intRange]
  constructor
  · rintro ⟨k, ⟨h1, h2⟩, rfl⟩
    refine ⟨k, rfl, ?_, ?_⟩
    · have := Int.ceil_le.1 h1
      rwa [div_le_iff₀ hI] at this
    · have := Int.le_floor.1 (by omega : k ≤ ⌊range.Max / step⌋)
      rwa [le_div_iff₀ hI] at this
  · rintro ⟨k, rfl, h1, h2⟩
    refine ⟨k, ⟨?_, ?_⟩, rfl⟩
    · rw [Int.ceil_le, div_le_iff₀ hI]
      exact h1
    · have : k ≤ ⌊range.Max / step⌋ := by
        rw [Int.le_floor, le_div_iff₀ hI]
        exact h2
      omega

theorem multiples_pairwise (a b : ℤ) (step : ℚ) (hI : 0 < step) :
    ((intRange a b).map (fun (k : ℤ) => (k : ℚ) * step)).Pairwise (fun x y => x < y) := by
  rw [List.pairwise_map]
  refine (pairwise_intRange a b).imp ?_
  intro x y h
  have : (x : ℚ) < (y : ℚ) := by exact_mod_cast h
  exact mul_lt_mul_of_pos_right this hI

/-- The major ticks of the linear mode are the multiples of the step in the range. -/
theorem linear_major_mem (range : ImPlotRange ℚ) (nMajor nMinor : ℤ) (p : ℚ) :
    p ∈ majorPositions ((List.range (⌈((⌈range.Max / linearStep range nMajor⌉ : ℚ)
              * linearStep range nMajor + 0.5 * linearStep range nMajor
              - (⌊range.Min / linearStep range nMajor⌋ : ℚ) * linearStep range nMajor)
              / linearStep range nMajor⌉).toNat).flatMap
          (fun j => AddDefaultTicks.linearBody range (linearStep range nMajor) nMinor
            ((⌊range.Min / linearStep range nMajor⌋ : ℚ) * linearStep range nMajor
              + (j : ℚ) * linearStep range nMajor))) ↔
      ∃ k : ℤ, p = (k : ℚ) * linearStep range nMajor ∧ range.Min ≤ p ∧ p ≤ range.Max := by
  have hI : 0 < linearStep range nMajor := NiceNum_pos _ _
  rw [mem_majorPositions_bodies]
  generalize linearStep range nMajor = I at *
  have hk : ((⌈range.Max / I⌉ : ℚ) * I + 0.5 * I - (⌊range.Min / I⌋ : ℚ) * I) / I
      = ((⌈range.Max / I⌉ - ⌊range.Min / I⌋ : ℤ) : ℚ) + 0.5 := by
    push_cast
    field_simp
    ring
  rw [hk, ceil_int_add_half]
  constructor
  · rintro ⟨j, _, rfl, h1, h2⟩
    refine ⟨⌊range.Min / I⌋ + (j : ℤ), ?_, h1, h2⟩
    push_cast
    ring
  · rintro ⟨k, rfl, h1, h2⟩
    have hfl : ⌊range.Min / I⌋ ≤ k := by
      have h := Int.floor_le (range.Min / I)
      have h3 : range.Min / I ≤ (k : ℚ) := by rwa [div_le_iff₀ hI]
      exact_mod_cast le_trans h h3
    have hce : k ≤ ⌈range.Max / I⌉ := by
      have h := Int.le_ceil (range.Max / I)
      have h3 : (k : ℚ) ≤ range.Max / I := by rwa [le_div_iff₀ hI]
      exact_mod_cast le_trans h3 h
    have hj := Int.toNat_of_nonneg (by omega : 0 ≤ k - ⌊range.Min / I⌋)
    refine ⟨(k - ⌊range.Min / I⌋).toNat, ?_, ?_, h1, h2⟩
    · apply Int.lt_toNat.2
      omega
    · have : (((k - ⌊range.Min / I⌋).toNat : ℤ) : ℚ) = (k : ℚ) - (⌊range.Min / I⌋ : ℚ) := by
        rw [hj]; push_cast; ring
      rw [Int.cast_natCast] at this
      rw [this]
      ring

/-- In exact arithmetic and linear mode, for `Min < Max` and `nMajor ≥ 2`, with
`step = NiceNum(NiceNum(0.99 * (Max - Min), false) / (nMajor - 1), true)`, the major
ticks emitted by `AddDefaultTicks` are exactly the multiples `k * step` (`k` an integer)
with `Min ≤ k * step ≤ Max`, in increasing order and each once: the list of their
positions is `k * step` for `k` from `ceil(Min / step)` to `floor(Max / step)`, so
consecutive major ticks are one step apart. -/
theorem linear_major_ticks_exact_multiples (range : ImPlotRange ℚ) (nMajor nMinor : ℤ)
    (_hr : range.Min < range.Max) (_hM : 2 ≤ nMajor) :
    ∃ ticks : List (ImPlotTick ℚ),
      AddDefaultTicks range nMajor nMinor false [] = some ticks ∧
      (∀ p : ℚ, p ∈ majorPositions ticks ↔
        ∃ k : ℤ, p = (k : ℚ) * linearStep range nMajor ∧ range.Min ≤ p ∧ p ≤ range.Max) ∧
      (majorPositions ticks).Pairwise (fun a b => a < b) ∧
      majorPositions ticks
        = (intRange ⌈range.Min / linearStep range nMajor⌉
            (⌊range.Max / linearStep range nMajor⌋ + 1)).map
              (fun (k : ℤ) => (k : ℚ) * linearStep range nMajor) := by
  have hI : 0 < linearStep range nMajor := NiceNum_pos _ _
  refine ⟨_, AddDefaultTicks_linear_eq range nMajor nMinor [], ?_⟩
  rw [List.nil_append]
  have hmem := linear_major_mem range nMajor nMinor
  have hsort := majorPositions_pairwise _
    (linearBodies_pairwise range (linearStep range nMajor) nMinor
      ((⌊range.Min / linearStep range nMajor⌋ : ℚ) * linearStep range nMajor) hI
      (⌈((⌈range.Max / linearStep range nMajor⌉ : ℚ)
              * linearStep range nMajor + 0.5 * linearStep range nMajor
              - (⌊range.Min / linearStep range nMajor⌋ : ℚ) * linearStep range nMajor)
              / linearStep range nMajor⌉).toNat)
  refine ⟨hmem, hsort, ?_⟩
  apply eq_of_pairwise_lt_of_mem_iff _ _ hsort (multiples_pairwise _ _ _ hI)
  intro p
  rw [hmem p, mem_multiples range _ hI p]

/-! ### Logarithmic ticks -/

theorem intClog_eq_of_bounds {R : Type} [LinearOrderedSemifield R] [FloorSemiring R] {b : ℕ}
    (hb : 1 < b) {r : R} (hr : 0 < r) {e : ℤ} (h1 : (b : R) ^ (e - 1) < r)
    (h2 : r ≤ (b : R) ^ e) : Int.clog b r = e := by
  apply le_antisymm
  · exact (Int.le_zpow_iff_clog_le hb hr).1 h2
  · have := (Int.zpow_lt_iff_lt_clog hb hr).1 h1
    omega

theorem le_pow_ceilLog10 (x : ℚ) : x ≤ (10 : ℚ) ^ ceilLog10 x := by
  have h := Int.self_le_zpow_clog (R := ℚ) (b := 10) (by norm_num) x
  simpa [ceilLog10] using h

theorem pow_ceilLog10_pred_lt (x : ℚ) (hx : 0 < x) : (10 : ℚ) ^ (ceilLog10 x - 1) < x := by
  have h := Int.zpow_pred_clog_lt_self (R := ℚ) (b := 10) (by norm_num) hx
  simpa [ceilLog10] using h

theorem ceilLog10_eq (x : ℚ) (e : ℤ) (h1 : (10 : ℚ) ^ (e - 1) < x) (h2 : x ≤ (10 : ℚ) ^ e) :
    ceilLog10 x = e := by
  have hx : 0 < x := lt_trans (zpow_pos (by norm_num) (e - 1)) h1
  unfold ceilLog10
  apply intClog_eq_of_bounds (by norm_num) hx
  · simpa using h1
  · simpa using h2

/-- The model of `(int)ceil(ImLog10(x))` is the ceiling of the real base ten logarithm. -/
theorem ceilLog10_eq_ceil_logb (x : ℚ) (hx : 0 < x) :
    ceilLog10 x = ⌈Real.logb 10 (x : ℝ)⌉ := by
  have hxr : (0 : ℝ) < (x : ℝ) := by exact_mod_cast hx
  have h := Real.ceil_logb_natCast (b := 10) (r := (x : ℝ)) hxr.le
  have h10 : ((10 : ℕ) : ℝ) = 10 := by norm_num
  rw [h10] at h
  rw [h]
  symm
  apply intClog_eq_of_bounds (by norm_num) hxr
  · have h2 := (Rat.cast_lt (K := ℝ)).2 (pow_ceilLog10_pred_lt x hx)
    push_cast at h2
    simpa using h2
  · have h2 := (Rat.cast_le (K := ℝ)).2 (le_pow_ceilLog10 x)
    push_cast at h2
    simpa using h2

/-- The model of `(int)ImLog10(x)` is the real base ten logarithm with its fractional
part dropped. -/
theorem truncLog10_eq_trunc_logb (x : ℚ) (hx : 0 < x) :
    truncLog10 x = if 0 ≤ Real.logb 10 (x : ℝ) then ⌊Real.logb 10 (x : ℝ)⌋
      else ⌈Real.logb 10 (x : ℝ)⌉ := by
  have hxr : (0 : ℝ) < (x : ℝ) := by exact_mod_cast hx
  unfold truncLog10
  by_cases h1 : 1 ≤ x
  · have h1r : (1 : ℝ) ≤ (x : ℝ) := by exact_mod_cast h1
    rw [if_pos h1, if_pos (Real.logb_nonneg (by norm_num) h1r)]
    exact floorLog10_eq_floor_logb x hx
  · have h1r : (x : ℝ) < 1 := by exact_mod_cast not_le.1 h1
    rw [if_neg h1, if_neg (not_le.2 (Real.logb_neg (by norm_num) hxr h1r))]
    exact ceilLog10_eq_ceil_logb x hx

theorem pow10_le_iff {a b : ℤ} : (10 : ℚ) ^ a ≤ (10 : ℚ) ^ b ↔ a ≤ b :=
  zpow_le_zpow_iff_right₀ (by norm_num)

theorem pow10_lt_iff {a b : ℤ} : (10 : ℚ) ^ a < (10 : ℚ) ^ b ↔ a < b :=
  zpow_lt_zpow_iff_right₀ (by norm_num)

/-- The loop bounds of the log mode cover every power of ten in the range. -/
theorem log_bounds_cover (range : ImPlotRange ℚ) (hmin : 0 < range.Min) (k : ℤ)
    (h1 : range.Min ≤ (10 : ℚ) ^ k) (h2 : (10 : ℚ) ^ k ≤ range.Max) :
    k ∈ intRange (truncLog10 range.Min - 1) (ceilLog10 range.Max + 1) := by
  rw [mem_intRange]
  constructor
  · unfold truncLog10
    split_ifs
    · have := pow10_le_iff.1 (le_trans (floorLog10_le _ hmin) h1)
      omega
    · have := pow10_lt_iff.1 (lt_of_lt_of_le (pow_ceilLog10_pred_lt _ hmin) h1)
      omega
  · have := pow10_le_iff.1 (le_trans h2 (le_pow_ceilLog10 range.Max))
    omega

/-- The major ticks of one decade. -/
theorem majorPositions_logDecade (range : ImPlotRange ℚ) (e : ℤ) :
    majorPositions (AddDefaultTicks.logDecade range e)
      = if (10 : ℚ) ^ e ≥ range.Min - DBL_EPSILON ∧ (10 : ℚ) ^ e ≤ range.Max + DBL_EPSILON
          then [(10 : ℚ) ^ e] else [] := by
  unfold majorPositions AddDefaultTicks.logDecade
  simp only [List.filter_append, List.map_append]
  have hminor : List.filter (fun t : ImPlotTick ℚ => t.Major)
      ((intRange 1 9).flatMap (fun i =>
        let minor : ℚ := (10 : ℚ) ^ e + (i : ℚ) * (((10 : ℚ) ^ (e + 1) - (10 : ℚ) ^ e) / 9)
        if minor ≥ range.Min - DBL_EPSILON ∧ minor ≤ range.Max + DBL_EPSILON
          then [ImPlotTick.new minor false false] else [])) = [] := by
    rw [List.filter_eq_nil_iff]
    intro t ht
    rw [List.mem_flatMap] at ht
    obtain ⟨i, _, hi⟩ := ht
    simp only at hi
    split_ifs at hi
    · simp only [List.mem_singleton] at hi
      subst hi
      simp [ImPlotTick.new]
    · simp at hi
  rw [hminor]
  split_ifs <;> simp [ImPlotTick.new]

theorem majorPositions_flatMap {α K : Type} (l : List α) (f : α → List (ImPlotTick K)) :
    majorPositions (l.flatMap f) = l.flatMap (fun a => majorPositions (f a)) := by
  unfold majorPositions
  rw [List.filter_flatMap, List.map_flatMap]

/-- The log mode of `AddDefaultTicks` on a positive range. -/
theorem AddDefaultTicks_log_eq (range : ImPlotRange ℚ) (nMajor nMinor : ℤ)
    (hmin : 0 < range.Min) (hmax : 0 < range.Max) (out : List (ImPlotTick ℚ)) :
    AddDefaultTicks range nMajor nMinor true out
      = some (out ++ (intRange (truncLog10 range.Min - 1) (ceilLog10 range.Max + 1)).flatMap
          (AddDefaultTicks.logDecade range)) := by
  simp only [AddDefaultTicks, if_true]
  rw [if_neg]
  rintro (h | h) <;> linarith

theorem log_major_mem (range : ImPlotRange ℚ) (l : List ℤ) (p : ℚ) :
    p ∈ majorPositions (l.flatMap (AddDefaultTicks.logDecade range)) ↔
      ∃ e ∈ l, p = (10 : ℚ) ^ e ∧ range.Min - DBL_EPSILON ≤ p ∧ p ≤ range.Max + DBL_EPSILON := by
  rw [majorPositions_flatMap, List.mem_flatMap]
  constructor
  · rintro ⟨e, he, hp⟩
    rw [majorPositions_logDecade] at hp
    split_ifs at hp with hc
    · simp only [List.mem_singleton] at hp
      subst hp
      exact ⟨e, he, rfl, hc.1, hc.2⟩
    · simp at hp
  · rintro ⟨e, he, rfl, h1, h2⟩
    refine ⟨e, he, ?_⟩
    rw [majorPositions_logDecade, if_pos ⟨h1, h2⟩]
    simp

theorem log_major_pairwise (range : ImPlotRange ℚ) (a b : ℤ) :
    (majorPositions ((intRange a b).flatMap (AddDefaultTicks.logDecade range))).Pairwise
      (fun x y => x < y) := by
  rw [majorPositions_flatMap]
  apply pairwise_flatMap_of_pairwise _ _ _ _ (pairwise_intRange a b)
  · intro e _
    rw [majorPositions_logDecade]
    split_ifs <;> simp
  · intro i _ j _ hij x hx y hy
    rw [majorPositions_logDecade] at hx hy
    split_ifs at hx
    · split_ifs at hy
      · simp only [List.mem_singleton] at hx hy
        subst hx; subst hy
        exact pow10_lt_iff.2 hij
      · simp at hy
    · simp at hx

/-- C7. In log mode, for every range with `0 < Min ≤ Max`, `AddDefaultTicks` emits a major
tick at every integer power of ten in `[Min, Max]`, the major ticks are strictly
increasing (so each is emitted once), and every major tick is an integer power of ten
inside `[Min - DBL_EPSILON, Max + DBL_EPSILON]`. -/
theorem C7_log_major_ticks_are_powers_of_ten (range : ImPlotRange ℚ) (nMajor nMinor : ℤ)
    (hmin : 0 < range.Min) (hle : range.Min ≤ range.Max) :
    ∃ ticks : List (ImPlotTick ℚ),
      AddDefaultTicks range nMajor nMinor true [] = some ticks ∧
      (∀ k : ℤ, range.Min ≤ (10 : ℚ) ^ k → (10 : ℚ) ^ k ≤ range.Max →
        (10 : ℚ) ^ k ∈ majorPositions ticks) ∧
      (majorPositions ticks).Pairwise (fun a b => a < b) ∧
      (∀ p ∈ majorPositions ticks, (∃ k : ℤ, p = (10 : ℚ) ^ k) ∧
        range.Min - DBL_EPSILON ≤ p ∧ p ≤ range.Max + DBL_EPSILON) := by
  have hmax : 0 < range.Max := lt_of_lt_of_le hmin hle
  have heps : (0 : ℚ) < DBL_EPSILON := by norm_num [DBL_EPSILON]
  refine ⟨_, AddDefaultTicks_log_eq range nMajor nMinor hmin hmax [], ?_, ?_, ?_⟩
  · intro k h1 h2
    rw [List.nil_append, log_major_mem]
    exact ⟨k, log_bounds_cover range hmin k h1 h2, rfl, by linarith, by linarith⟩
  · rw [List.nil_append]
    exact log_major_pairwise range _ _
  · intro p hp
    rw [List.nil_append, log_major_mem] at hp
    obtain ⟨e, _, rfl, h1, h2⟩ := hp
    exact ⟨⟨e, rfl⟩, h1, h2⟩

theorem intRange_neg_one_four : intRange (-1) 4 = [-1, 0, 1, 2, 3] := by decide

/-- On `[1, 1000]` the major ticks of the log mode are 1, 10, 100 and 1000. -/
theorem log_majors_one_thousand (nMajor nMinor : ℤ) (ticks : List (ImPlotTick ℚ))
    (h : AddDefaultTicks ⟨1, 1000⟩ nMajor nMinor true [] = some ticks) :
    majorPositions ticks = [1, 10, 100, 1000] := by
  rw [AddDefaultTicks_log_eq _ _ _ (by norm_num) (by norm_num)] at h
  have h0 : truncLog10 (1 : ℚ) = 0 := by
    unfold truncLog10
    rw [if_pos (le_refl _)]
    exact floorLog10_eq _ 0 (by norm_num) (by norm_num)
  have h3 : ceilLog10 (1000 : ℚ) = 3 := ceilLog10_eq _ 3 (by norm_num) (by norm_num)
  simp only [h0, h3, List.nil_append, Option.some.injEq] at h
  subst h
  rw [majorPositions_flatMap]
  norm_num [intRange_neg_one_four, majorPositions_logDecade, DBL_EPSILON]

/-- Witness of C7: the range `[1, 1000]`, whose major ticks are exactly 1, 10, 100, 1000. -/
theorem C7_log_major_ticks_are_powers_of_ten_witness :
    (0 : ℚ) < 1 ∧ (1 : ℚ) ≤ 1000 ∧
    ∃ ticks : List (ImPlotTick ℚ),
      AddDefaultTicks ⟨1, 1000⟩ 3 10 true [] = some ticks ∧
      majorPositions ticks = [1, 10, 100, 1000] := by
  obtain ⟨ticks, h, -, -, -⟩ :=
    C7_log_major_ticks_are_powers_of_ten ⟨1, 1000⟩ 3 10 (by norm_num) (by norm_num)
  exact ⟨by norm_num, by norm_num, ticks, h, log_majors_one_thousand 3 10 ticks h⟩

theorem linearStep_zero_ten : linearStep ⟨0, 10⟩ 3 = 5 := by
  have h1 : floorLog10 (99 / 10 : ℚ) = 0 := floorLog10_eq _ 0 (by norm_num) (by norm_num)
  have h2 : floorLog10 (5 : ℚ) = 0 := floorLog10_eq _ 0 (by norm_num) (by norm_num)
  have e1 : NiceNum (99 / 10) false = 10 := by
    simp only [NiceNum, h1]
    norm_num
  have e2 : NiceNum 5 true = 5 := by
    simp only [NiceNum, h2]
    norm_num
  unfold linearStep ImPlotRange.Size
  norm_num [e1, e2]

/-- The exact linear ticks of the range `[0, 10]` with three major divisions and two
minor ones. -/
theorem linear_ticks_exact_example :
    (0 : ℚ) < 10 ∧ (2 : ℤ) ≤ 3 ∧ (0 : ℤ) ≤ 2 ∧
    ∃ ticks : List (ImPlotTick ℚ),
      AddDefaultTicks ⟨0, 10⟩ 3 2 false [] = some ticks ∧
      ticks.Pairwise (fun a b => a.PlotPos < b.PlotPos) ∧
      ∀ t ∈ ticks, (0 : ℚ) ≤ t.PlotPos ∧ t.PlotPos ≤ 10 :=
  ⟨by norm_num, by norm_num, by norm_num,
    linear_ticks_exact_increasing_in_range ⟨0, 10⟩ 3 2 (by norm_num) (by norm_num) (by norm_num)⟩

/-- In exact arithmetic, on `[0, 10]` with three major divisions the step is 5 and the
major ticks are 0, 5 and 10. -/
theorem linear_major_ticks_exact_example :
    (0 : ℚ) < 10 ∧ (2 : ℤ) ≤ 3 ∧
    ∃ ticks : List (ImPlotTick ℚ),
      AddDefaultTicks ⟨0, 10⟩ 3 2 false [] = some ticks ∧
      majorPositions ticks = [0, 5, 10] := by
  obtain ⟨ticks, h, -, -, h3⟩ :=
    linear_major_ticks_exact_multiples ⟨0, 10⟩ 3 2 (by norm_num) (by norm_num)
  refine ⟨by norm_num, by norm_num, ticks, h, ?_⟩
  rw [h3, linearStep_zero_ten]
  have hr : intRange ⌈(0 : ℚ) / 5⌉ (⌊(10 : ℚ) / 5⌋ + 1) = [0, 1, 2] := by
    have hc : ⌈(0 : ℚ) / 5⌉ = 0 := by norm_num
    have hf : ⌊(10 : ℚ) / 5⌋ = 2 := by
      rw [Int.floor_eq_iff]; norm_num
    rw [hc, hf]
    decide
  simp only [hr]
  norm_num

/-! ### The pixel transform -/

/-- One coordinate of the round trip through a linear axis. -/
theorem linear_roundtrip {K : Type} [LinearOrderedField K] (P M R x : K) (hM : M ≠ 0) :
    P + M * ((x - P) / M + R - R) = x := by
  field_simp
  ring

/-- One coordinate of the round trip through a log-scaled axis. -/
theorem log_roundtrip {K : Type} [LinearOrderedField K] (m : ImMath K) (hm : m.Exact)
    (P M Rmin Rmax x : K) (hM : M ≠ 0) (h0 : 0 < Rmin) (hlt : Rmin < Rmax) :
    P + M * (ImLerp Rmin Rmax
        (m.ImLog10 (m.ImPow 10 (((x - P) / M + Rmin - Rmin) / (Rmax - Rmin)
            * m.ImLog10 (Rmax / Rmin)) * Rmin / Rmin) / m.ImLog10 (Rmax / Rmin)) - Rmin) = x := by
  obtain ⟨h1, -, -, h4⟩ := hm
  have hL : m.ImLog10 (Rmax / Rmin) ≠ 0 := ne_of_gt (h4 _ ((one_lt_div h0).2 hlt))
  have hR : Rmin ≠ 0 := ne_of_gt h0
  have hS : Rmax - Rmin ≠ 0 := sub_ne_zero.2 (ne_of_gt hlt)
  rw [mul_div_assoc, div_self hR, mul_one, h1, mul_div_assoc, div_self hL, mul_one]
  unfold ImLerp
  field_simp
  ring

theorem transform_roundtrip {K : Type} [LinearOrderedField K] (m : ImMath K) (hm : m.Exact)
    (gp0 : ImPlotContext K) (plot : ImPlotState K) (a : Fin 3) (px py : K)
    (hw : gp0.BB_Plot.Min.x ≠ gp0.BB_Plot.Max.x) (hh : gp0.BB_Plot.Min.y ≠ gp0.BB_Plot.Max.y)
    (hX : plot.XAxis.Range.Min < plot.XAxis.Range.Max)
    (hY : (plot.YAxis a).Range.Min < (plot.YAxis a).Range.Max)
    (hXlog : ImHasFlag plot.XAxis.Flags ImPlotAxisFlags_LogScale = true →
      0 < plot.XAxis.Range.Min)
    (hYlog : ImHasFlag (plot.YAxis a).Flags ImPlotAxisFlags_LogScale = true →
      0 < (plot.YAxis a).Range.Min) :
    PlotToPixelsPt m (UpdateTransformCache m gp0 plot) plot
      (PixelsToPlot m (UpdateTransformCache m gp0 plot) plot px py a) a
      = { x := px, y := py } := by
  have hSX : plot.XAxis.Range.Max - plot.XAxis.Range.Min ≠ 0 := sub_ne_zero.2 (ne_of_gt hX)
  have hSY : (plot.YAxis a).Range.Max - (plot.YAxis a).Range.Min ≠ 0 :=
    sub_ne_zero.2 (ne_of_gt hY)
  have hw1 : gp0.BB_Plot.Max.x - gp0.BB_Plot.Min.x ≠ 0 := sub_ne_zero.2 (Ne.symm hw)
  have hw2 : gp0.BB_Plot.Min.x - gp0.BB_Plot.Max.x ≠ 0 := sub_ne_zero.2 hw
  have hh1 : gp0.BB_Plot.Max.y - gp0.BB_Plot.Min.y ≠ 0 := sub_ne_zero.2 (Ne.symm hh)
  have hh2 : gp0.BB_Plot.Min.y - gp0.BB_Plot.Max.y ≠ 0 := sub_ne_zero.2 hh
  simp only [PlotToPixelsPt, PlotToPixels, PixelsToPlot, UpdateTransformCache, ImRect.ofCoords,
    ImPlotRange.Size, ImVec2.mk.injEq]
  constructor
  · by_cases hl : ImHasFlag plot.XAxis.Flags ImPlotAxisFlags_LogScale = true
    · by_cases hi : ImHasFlag plot.XAxis.Flags ImPlotAxisFlags_Invert = true
      · simp only [if_pos hl, if_pos hi]
        exact log_roundtrip m hm _ _ _ _ _ (div_ne_zero hw2 hSX) (hXlog hl) hX
      · simp only [if_pos hl, if_neg hi]
        exact log_roundtrip m hm _ _ _ _ _ (div_ne_zero hw1 hSX) (hXlog hl) hX
    · by_cases hi : ImHasFlag plot.XAxis.Flags ImPlotAxisFlags_Invert = true
      · simp only [if_neg hl, if_pos hi]
        exact linear_roundtrip _ _ _ _ (div_ne_zero hw2 hSX)
      · simp only [if_neg hl, if_neg hi]
        exact linear_roundtrip _ _ _ _ (div_ne_zero hw1 hSX)
  · by_cases hl : ImHasFlag (plot.YAxis a).Flags ImPlotAxisFlags_LogScale = true
    · by_cases hi : ImHasFlag (plot.YAxis a).Flags ImPlotAxisFlags_Invert = true
      · simp only [if_pos hl, if_pos hi]
        exact log_roundtrip m hm _ _ _ _ _ (div_ne_zero hh1 hSY) (hYlog hl) hY
      · simp only [if_pos hl, if_neg hi]
        exact log_roundtrip m hm _ _ _ _ _ (div_ne_zero hh2 hSY) (hYlog hl) hY
    · by_cases hi : ImHasFlag (plot.YAxis a).Flags ImPlotAxisFlags_Invert = true
      · simp only [if_neg hl, if_pos hi]
        exact linear_roundtrip _ _ _ _ (div_ne_zero hh1 hSY)
      · simp only [if_neg hl, if_neg hi]
        exact linear_roundtrip _ _ _ _ (div_ne_zero hh2 hSY)

/-- The real base ten logarithm and the real power are exact. -/
theorem realMath_exact :
    ImMath.Exact (ImMath.mk (Real.logb 10) (fun u v : ℝ => u ^ v)) := by
  refine ⟨?_, ?_, ?_, ?_⟩
  · intro t
    exact Real.logb_rpow (by norm_num) (by norm_num)
  · intro y hy
    exact Real.rpow_logb (by norm_num) (by norm_num) hy
  · exact Real.logb_one
  · intro y hy
    exact Real.logb_pos (by norm_num) hy

/-- C1. Pixel to plot to pixel round trip over the real numbers, with the real base ten
logarithm and power: after `UpdateTransformCache` on a plot rectangle of non-zero width
and height and ranges with `Min < Max` (and `Min > 0` on log-scaled axes),
`PlotToPixels(PixelsToPlot(p, a), a) = p` for every pixel point `p` and every y axis `a`,
whatever the LogScale and Invert flags of the axes. -/
theorem C1_pixel_roundtrip (gp0 : ImPlotContext ℝ) (plot : ImPlotState ℝ) (a : Fin 3)
    (p : ImVec2 ℝ)
    (hw : gp0.BB_Plot.Min.x ≠ gp0.BB_Plot.Max.x) (hh : gp0.BB_Plot.Min.y ≠ gp0.BB_Plot.Max.y)
    (hX : plot.XAxis.Range.Min < plot.XAxis.Range.Max)
    (hY : ∀ i : Fin 3, (plot.YAxis i).Range.Min < (plot.YAxis i).Range.Max)
    (hXlog : ImHasFlag plot.XAxis.Flags ImPlotAxisFlags_LogScale = true →
      0 < plot.XAxis.Range.Min)
    (hYlog : ∀ i : Fin 3, ImHasFlag (plot.YAxis i).Flags ImPlotAxisFlags_LogScale = true →
      0 < (plot.YAxis i).Range.Min) :
    PlotToPixelsPt (ImMath.mk (Real.logb 10) (fun u v : ℝ => u ^ v))
      (UpdateTransformCache (ImMath.mk (Real.logb 10) (fun u v : ℝ => u ^ v)) gp0 plot) plot
      (PixelsToPlotVec (ImMath.mk (Real.logb 10) (fun u v : ℝ => u ^ v))
        (UpdateTransformCache (ImMath.mk (Real.logb 10) (fun u v : ℝ => u ^ v)) gp0 plot)
        plot p a) a = p :=
  transform_roundtrip _ realMath_exact gp0 plot a p.x p.y hw hh hX (hY a) hXlog (hYlog a)

theorem hasFlag_zero_logScale : ImHasFlag 0 ImPlotAxisFlags_LogScale = false := by
  decide

/-- Witness of C1: a 400 by 300 pixel plot with a log-scaled x axis on `[1, 1000]` and
linear y axes on `[-5, 5]`, at the pixel (110, 170) of the first y axis. -/
theorem C1_pixel_roundtrip_witness :
    PlotToPixelsPt (ImMath.mk (Real.logb 10) (fun u v : ℝ => u ^ v))
      (UpdateTransformCache (ImMath.mk (Real.logb 10) (fun u v : ℝ => u ^ v)) exampleContext
        (examplePlot 0 (exampleAxis 1 1000 ImPlotAxisFlags_LogScale) (exampleAxis (-5) 5 0)))
      (examplePlot 0 (exampleAxis 1 1000 ImPlotAxisFlags_LogScale) (exampleAxis (-5) 5 0))
      (PixelsToPlotVec (ImMath.mk (Real.logb 10) (fun u v : ℝ => u ^ v))
        (UpdateTransformCache (ImMath.mk (Real.logb 10) (fun u v : ℝ => u ^ v)) exampleContext
          (examplePlot 0 (exampleAxis 1 1000 ImPlotAxisFlags_LogScale) (exampleAxis (-5) 5 0)))
        (examplePlot 0 (exampleAxis 1 1000 ImPlotAxisFlags_LogScale) (exampleAxis (-5) 5 0))
        { x := 110, y := 170 } 0) 0 = { x := 110, y := 170 } :=
  C1_pixel_roundtrip exampleContext
    (examplePlot 0 (exampleAxis 1 1000 ImPlotAxisFlags_LogScale) (exampleAxis (-5) 5 0)) 0
    { x := 110, y := 170 }
    (by norm_num [exampleContext, ImRect.ofCoords])
    (by norm_num [exampleContext, ImRect.ofCoords])
    (by norm_num [examplePlot, exampleAxis])
    (fun _ => by norm_num [examplePlot, exampleAxis])
    (fun _ => by norm_num [examplePlot, exampleAxis])
    (fun _ h => by
      rw [show (examplePlot 0 (exampleAxis (1 : ℝ) 1000 ImPlotAxisFlags_LogScale)
        (exampleAxis (-5) 5 0)).YAxis _ = exampleAxis (-5) 5 0 from rfl] at h
      rw [show (exampleAxis (-5 : ℝ) 5 0).Flags = 0 from rfl, hasFlag_zero_logScale] at h
      exact absurd h (by decide))

@[simp]
theorem setXMin_XAxis {K : Type} (plot : ImPlotState K) (v : K) :
    (plot.setXMin v).XAxis = { plot.XAxis with Range := { plot.XAxis.Range with Min := v } } :=
  rfl

@[simp]
theorem setXMax_XAxis {K : Type} (plot : ImPlotState K) (v : K) :
    (plot.setXMax v).XAxis = { plot.XAxis with Range := { plot.XAxis.Range with Max := v } } :=
  rfl

@[simp]
theorem setXMin_YAxis {K : Type} (plot : ImPlotState K) (v : K) :
    (plot.setXMin v).YAxis = plot.YAxis := rfl

@[simp]
theorem setXMax_YAxis {K : Type} (plot : ImPlotState K) (v : K) :
    (plot.setXMax v).YAxis = plot.YAxis := rfl

@[simp]
theorem setYMin_XAxis {K : Type} (plot : ImPlotState K) (i : Fin 3) (v : K) :
    (plot.setYMin i v).XAxis = plot.XAxis := rfl

@[simp]
theorem setYMax_XAxis {K : Type} (plot : ImPlotState K) (i : Fin 3) (v : K) :
    (plot.setYMax i v).XAxis = plot.XAxis := rfl

@[simp]
theorem setYMin_YAxis_same {K : Type} (plot : ImPlotState K) (i : Fin 3) (v : K) :
    (plot.setYMin i v).YAxis i
      = { (plot.YAxis i) with Range := { (plot.YAxis i).Range with Min := v } } := by
  simp [ImPlotState.setYMin]

@[simp]
theorem setYMax_YAxis_same {K : Type} (plot : ImPlotState K) (i : Fin 3) (v : K) :
    (plot.setYMax i v).YAxis i
      = { (plot.YAxis i) with Range := { (plot.YAxis i).Range with Max := v } } := by
  simp [ImPlotState.setYMax]

theorem setYMin_YAxis_other {K : Type} (plot : ImPlotState K) (i j : Fin 3) (v : K)
    (h : j ≠ i) : (plot.setYMin i v).YAxis j = plot.YAxis j := by
  simp [ImPlotState.setYMin, Function.update_noteq h]

theorem setYMax_YAxis_other {K : Type} (plot : ImPlotState K) (i j : Fin 3) (v : K)
    (h : j ≠ i) : (plot.setYMax i v).YAxis j = plot.YAxis j := by
  simp [ImPlotState.setYMax, Function.update_noteq h]

@[simp]
theorem setXMin_Queried {K : Type} (plot : ImPlotState K) (v : K) :
    (plot.setXMin v).Queried = plot.Queried := rfl

@[simp]
theorem setXMax_Queried {K : Type} (plot : ImPlotState K) (v : K) :
    (plot.setXMax v).Queried = plot.Queried := rfl

/-! ### Fit to data -/

theorem fitY_XAxis {K : Type} [Zero K] (gp : ImPlotContext K) (i : Fin 3)
    (plot : ImPlotState K) : (EndPlot.fitY gp i plot).XAxis = plot.XAxis := by
  unfold EndPlot.fitY
  simp only
  split_ifs <;> simp

theorem fitY_other {K : Type} [Zero K] (gp : ImPlotContext K) (i j : Fin 3)
    (plot : ImPlotState K) (h : j ≠ i) : (EndPlot.fitY gp i plot).YAxis j = plot.YAxis j := by
  unfold EndPlot.fitY
  simp only
  split_ifs <;> simp [setYMin_YAxis_other _ _ _ _ h, setYMax_YAxis_other _ _ _ _ h]

theorem fitBound_true {K : Type} [Zero K] (marked locked : Bool) (extent : ImDouble K)
    (old : K) :
    fitBound true marked locked extent old
      = if (marked && !locked && !NanOrInf extent) = true then extent.value else old := by
  cases marked <;> cases locked <;> cases extent <;>
    simp [fitBound, NanOrInf, ImDouble.value, ImDouble.finiteOr]

theorem fitBound_false {K : Type} (marked locked : Bool) (extent : ImDouble K) (old : K) :
    fitBound false marked locked extent old = old := by
  simp [fitBound]

theorem fitY_same {K : Type} [Zero K] (gp : ImPlotContext K) (i : Fin 3)
    (plot : ImPlotState K) :
    ((EndPlot.fitY gp i plot).YAxis i).Flags = (plot.YAxis i).Flags ∧
    ((EndPlot.fitY gp i plot).YAxis i).Range.Min
      = fitBound true (gp.FitY i) (ImHasFlag (plot.YAxis i).Flags ImPlotAxisFlags_LockMin)
          (gp.ExtentsY i).Min (plot.YAxis i).Range.Min ∧
    ((EndPlot.fitY gp i plot).YAxis i).Range.Max
      = fitBound true (gp.FitY i) (ImHasFlag (plot.YAxis i).Flags ImPlotAxisFlags_LockMax)
          (gp.ExtentsY i).Max (plot.YAxis i).Range.Max := by
  unfold EndPlot.fitY
  simp only [fitBound_true]
  by_cases h1 : (gp.FitY i && !ImHasFlag (plot.YAxis i).Flags ImPlotAxisFlags_LockMin &&
        !NanOrInf (gp.ExtentsY i).Min) = true
  · simp only [if_pos h1, setYMin_YAxis_same]
    by_cases h2 : (gp.FitY i && !ImHasFlag (plot.YAxis i).Flags ImPlotAxisFlags_LockMax &&
        !NanOrInf (gp.ExtentsY i).Max) = true
    · simp only [if_pos h2, setYMax_YAxis_same, setYMin_YAxis_same, and_self]
    · simp only [if_neg h2, setYMin_YAxis_same, and_self]
  · simp only [if_neg h1]
    by_cases h2 : (gp.FitY i && !ImHasFlag (plot.YAxis i).Flags ImPlotAxisFlags_LockMax &&
        !NanOrInf (gp.ExtentsY i).Max) = true
    · simp only [if_pos h2, setYMax_YAxis_same, and_self]
    · simp only [if_neg h2, and_self]

/-- The three iterations of the fit loop, seen from y axis `i`. -/
theorem forYAxes_fitY {K : Type} [Zero K] (gp : ImPlotContext K) (plot : ImPlotState K)
    (i : Fin 3) :
    (forYAxes (EndPlot.fitY gp) plot).XAxis = plot.XAxis ∧
    ((forYAxes (EndPlot.fitY gp) plot).YAxis i).Flags = (plot.YAxis i).Flags ∧
    ((forYAxes (EndPlot.fitY gp) plot).YAxis i).Range.Min
      = fitBound true (gp.FitY i) (ImHasFlag (plot.YAxis i).Flags ImPlotAxisFlags_LockMin)
          (gp.ExtentsY i).Min (plot.YAxis i).Range.Min ∧
    ((forYAxes (EndPlot.fitY gp) plot).YAxis i).Range.Max
      = fitBound true (gp.FitY i) (ImHasFlag (plot.YAxis i).Flags ImPlotAxisFlags_LockMax)
          (gp.ExtentsY i).Max (plot.YAxis i).Range.Max := by
  unfold forYAxes
  refine ⟨by simp only [fitY_XAxis], ?_⟩
  fin_cases i
  · have h := fitY_same gp 0 plot
    simp only [Fin.zero_eta, fitY_other gp 2 0 _ (by decide), fitY_other gp 1 0 _ (by decide)]
    exact h
  · have h := fitY_same gp 1 (EndPlot.fitY gp 0 plot)
    simp only [fitY_other gp 0 1 _ (by decide)] at h
    simp only [Fin.mk_one, fitY_other gp 2 1 _ (by decide)]
    exact h
  · have h := fitY_same gp 2 (EndPlot.fitY gp 1 (EndPlot.fitY gp 0 plot))
    simp only [fitY_other gp 1 2 _ (by decide), fitY_other gp 0 2 _ (by decide)] at h
    exact h

theorem fitX_YAxis {K : Type} [Zero K] (gp : ImPlotContext K) (plot : ImPlotState K) :
    (EndPlot.fitX gp plot).YAxis = plot.YAxis := by
  unfold EndPlot.fitX
  simp only
  split_ifs <;> rfl

theorem fitX_same {K : Type} [Zero K] (gp : ImPlotContext K) (plot : ImPlotState K) :
    (EndPlot.fitX gp plot).XAxis.Flags = plot.XAxis.Flags ∧
    (EndPlot.fitX gp plot).XAxis.Range.Min
      = fitBound true gp.FitX (ImHasFlag plot.XAxis.Flags ImPlotAxisFlags_LockMin)
          gp.ExtentsX.Min plot.XAxis.Range.Min ∧
    (EndPlot.fitX gp plot).XAxis.Range.Max
      = fitBound true gp.FitX (ImHasFlag plot.XAxis.Flags ImPlotAxisFlags_LockMax)
          gp.ExtentsX.Max plot.XAxis.Range.Max := by
  unfold EndPlot.fitX
  simp only [fitBound_true]
  by_cases h1 : (gp.FitX && !ImHasFlag plot.XAxis.Flags ImPlotAxisFlags_LockMin &&
        !NanOrInf gp.ExtentsX.Min) = true
  · simp only [if_pos h1, setXMin_XAxis]
    by_cases h2 : (gp.FitX && !ImHasFlag plot.XAxis.Flags ImPlotAxisFlags_LockMax &&
        !NanOrInf gp.ExtentsX.Max) = true
    · simp only [if_pos h2, setXMax_XAxis, setXMin_XAxis, and_self]
    · simp only [if_neg h2, setXMin_XAxis, and_self]
  · simp only [if_neg h1]
    by_cases h2 : (gp.FitX && !ImHasFlag plot.XAxis.Flags ImPlotAxisFlags_LockMax &&
        !NanOrInf gp.ExtentsX.Max) = true
    · simp only [if_pos h2, setXMax_XAxis, and_self]
    · simp only [if_neg h2, and_self]

/-- Every bound after the fit of EndPlot is the fit of that bound, and the flags stay. -/
theorem fitData_bounds {K : Type} [Zero K] (gp : ImPlotContext K) (plot : ImPlotState K) :
    ((EndPlot.fitData gp plot).XAxis.Flags = plot.XAxis.Flags ∧
    (EndPlot.fitData gp plot).XAxis.Range.Min
      = fitBound (gp.FitThisFrame && (decide (gp.VisibleItemCount > 0) || plot.Queried))
          gp.FitX (ImHasFlag plot.XAxis.Flags ImPlotAxisFlags_LockMin)
          gp.ExtentsX.Min plot.XAxis.Range.Min ∧
    (EndPlot.fitData gp plot).XAxis.Range.Max
      = fitBound (gp.FitThisFrame && (decide (gp.VisibleItemCount > 0) || plot.Queried))
          gp.FitX (ImHasFlag plot.XAxis.Flags ImPlotAxisFlags_LockMax)
          gp.ExtentsX.Max plot.XAxis.Range.Max) ∧
    (∀ i : Fin 3,
      ((EndPlot.fitData gp plot).YAxis i).Flags = (plot.YAxis i).Flags ∧
      ((EndPlot.fitData gp plot).YAxis i).Range.Min
        = fitBound (gp.FitThisFrame && (decide (gp.VisibleItemCount > 0) || plot.Queried))
            (gp.FitY i) (ImHasFlag (plot.YAxis i).Flags ImPlotAxisFlags_LockMin)
            (gp.ExtentsY i).Min (plot.YAxis i).Range.Min ∧
      ((EndPlot.fitData gp plot).YAxis i).Range.Max
        = fitBound (gp.FitThisFrame && (decide (gp.VisibleItemCount > 0) || plot.Queried))
            (gp.FitY i) (ImHasFlag (plot.YAxis i).Flags ImPlotAxisFlags_LockMax)
            (gp.ExtentsY i).Max (plot.YAxis i).Range.Max) := by
  unfold EndPlot.fitData
  by_cases hreq : (gp.FitThisFrame && (decide (gp.VisibleItemCount > 0) || plot.Queried)) = true
  · rw [if_pos hreq, hreq]
    refine ⟨?_, ?_⟩
    · rw [(forYAxes_fitY gp _ 0).1]
      exact fitX_same gp plot
    · intro i
      have h := (forYAxes_fitY gp (EndPlot.fitX gp plot) i).2
      rw [fitX_YAxis] at h
      exact h
  · have hreq2 : (gp.FitThisFrame && (decide (gp.VisibleItemCount > 0) || plot.Queried))
        = false := by simpa using hreq
    rw [if_neg hreq, hreq2]
    simp only [fitBound_false, and_self, implies_true]

theorem commitY_XAxis {K : Type} [LinearOrderedField K] (m : ImMath K) (inp : ImGuiInput K)
    (gp : ImPlotContext K) (i : Fin 3) (plot : ImPlotState K) :
    (BeginPlot.commitY m inp gp i plot).XAxis = plot.XAxis := by
  unfold BeginPlot.commitY
  simp only
  split_ifs <;> simp

theorem PlotKept.refl {K : Type} (lx : Bool) (ly : Fin 3 → Bool) (p : ImPlotState K) :
    PlotKept lx ly p p :=
  ⟨⟨rfl, fun _ => rfl⟩, fun _ => ⟨rfl, fun _ => rfl⟩⟩

theorem PlotKept.trans {K : Type} {lx : Bool} {ly : Fin 3 → Bool} {p q r : ImPlotState K}
    (h1 : PlotKept lx ly p q) (h2 : PlotKept lx ly q r) : PlotKept lx ly p r :=
  ⟨⟨h2.1.1.trans h1.1.1, fun h => (h2.1.2 h).trans (h1.1.2 h)⟩,
    fun i => ⟨(h2.2 i).1.trans (h1.2 i).1, fun h => ((h2.2 i).2 h).trans ((h1.2 i).2 h)⟩⟩

theorem PlotKept.of_axes_eq {K : Type} (lx : Bool) (ly : Fin 3 → Bool) (p q : ImPlotState K)
    (hx : q.XAxis = p.XAxis) (hy : q.YAxis = p.YAxis) : PlotKept lx ly p q := by
  refine ⟨⟨by rw [hx], fun _ => by rw [hx]⟩, fun i => ⟨by rw [hy], fun _ => by rw [hy]⟩⟩

theorem keep_setXMin {K : Type} (lx : Bool) (ly : Fin 3 → Bool) (p : ImPlotState K) (v : K)
    (h : lx = false) : PlotKept lx ly p (p.setXMin v) := by
  refine ⟨⟨rfl, fun h' => ?_⟩, fun i => ⟨rfl, fun _ => rfl⟩⟩
  rw [h] at h'
  exact absurd h' (by decide)

theorem keep_setXMax {K : Type} (lx : Bool) (ly : Fin 3 → Bool) (p : ImPlotState K) (v : K) :
    PlotKept lx ly p (p.setXMax v) :=
  ⟨⟨rfl, fun _ => rfl⟩, fun _ => ⟨rfl, fun _ => rfl⟩⟩

theorem keep_setXDragging {K : Type} (lx : Bool) (ly : Fin 3 → Bool) (p : ImPlotState K)
    (b : Bool) : PlotKept lx ly p (p.setXDragging b) :=
  ⟨⟨rfl, fun _ => rfl⟩, fun _ => ⟨rfl, fun _ => rfl⟩⟩

theorem keep_setYMin {K : Type} (lx : Bool) (ly : Fin 3 → Bool) (p : ImPlotState K) (i : Fin 3)
    (v : K) (h : ly i = false) : PlotKept lx ly p (p.setYMin i v) := by
  refine ⟨⟨rfl, fun _ => rfl⟩, fun j => ?_⟩
  by_cases hj : j = i
  · subst hj
    rw [setYMin_YAxis_same]
    refine ⟨rfl, fun h' => ?_⟩
    rw [h] at h'
    exact absurd h' (by decide)
  · rw [setYMin_YAxis_other _ _ _ _ hj]
    exact ⟨rfl, fun _ => rfl⟩

theorem keep_setYMax {K : Type} (lx : Bool) (ly : Fin 3 → Bool) (p : ImPlotState K) (i : Fin 3)
    (v : K) : PlotKept lx ly p (p.setYMax i v) := by
  refine ⟨⟨rfl, fun _ => rfl⟩, fun j => ?_⟩
  by_cases hj : j = i
  · subst hj
    rw [setYMax_YAxis_same]
    exact ⟨rfl, fun _ => rfl⟩
  · rw [setYMax_YAxis_other _ _ _ _ hj]
    exact ⟨rfl, fun _ => rfl⟩

theorem keep_setYDragging {K : Type} (lx : Bool) (ly : Fin 3 → Bool) (p : ImPlotState K)
    (i : Fin 3) (b : Bool) : PlotKept lx ly p (p.setYDragging i b) := by
  refine ⟨⟨rfl, fun _ => rfl⟩, fun j => ?_⟩
  by_cases hj : j = i
  · subst hj
    simp only [ImPlotState.setYDragging, Function.update_same]
    exact ⟨rfl, fun _ => rfl⟩
  · simp only [ImPlotState.setYDragging, Function.update_noteq hj]
    exact ⟨rfl, fun _ => rfl⟩

theorem keep_forYAxes {K : Type} (lx : Bool) (ly : Fin 3 → Bool)
    (body : Fin 3 → ImPlotState K → ImPlotState K)
    (h : ∀ i p, PlotKept lx ly p (body i p)) (p : ImPlotState K) :
    PlotKept lx ly p (forYAxes body p) :=
  ((h 0 p).trans (h 1 _)).trans (h 2 _)

theorem keep_doDragX {K : Type} [LinearOrderedField K] (m : ImMath K) (inp : ImGuiInput K)
    (gp : ImPlotContext K) (ly : Fin 3 → Bool) (plot : ImPlotState K) :
    PlotKept gp.X.LockMin ly plot (BeginPlot.doDragX m inp gp plot) := by
  unfold BeginPlot.doDragX
  by_cases hl : gp.X.LockMin = true
  · simp only [hl, Bool.not_true, Bool.false_eq_true, if_false]
    split_ifs <;> exact PlotKept.refl _ _ _
  · have hl' : gp.X.LockMin = false := by simpa using hl
    simp only [hl', Bool.not_false, if_true]
    split_ifs <;> first
      | exact PlotKept.refl _ _ _
      | exact keep_setXMin _ _ _ _ rfl
      | exact (keep_setXMin _ _ _ _ rfl).trans (keep_setXMax _ _ _ _)

theorem keep_doDragY {K : Type} [LinearOrderedField K] (m : ImMath K) (inp : ImGuiInput K)
    (gp : ImPlotContext K) (lx : Bool) (i : Fin 3) (plot : ImPlotState K) :
    PlotKept lx (fun j => (gp.Y j).LockMin) plot (BeginPlot.doDragY m inp gp i plot) := by
  unfold BeginPlot.doDragY
  by_cases hl : (gp.Y i).LockMin = true
  · simp only [hl, Bool.not_true, Bool.false_eq_true, if_false]
    split_ifs <;> first
      | exact PlotKept.refl _ _ _
      | exact keep_setYMax _ _ _ _ _
  · have hl' : (gp.Y i).LockMin = false := by simpa using hl
    simp only [hl', Bool.not_false, if_true]
    split_ifs <;> first
      | exact PlotKept.refl _ _ _
      | exact keep_setYMin _ _ _ _ _ hl'
      | exact (keep_setYMin _ _ _ _ _ hl').trans (keep_setYMax _ _ _ _ _)

theorem keep_scrollY {K : Type} [LinearOrderedField K] (env : ImPlotEnv K)
    (gp : ImPlotContext K) (tx ty zoom_rate : K) (lx : Bool) (i : Fin 3)
    (plot : ImPlotState K) :
    PlotKept lx (fun j => (gp.Y j).LockMin) plot
      (BeginPlot.scrollY env gp tx ty zoom_rate i plot) := by
  unfold BeginPlot.scrollY
  by_cases hl : (gp.Y i).LockMin = true
  · simp only [hl, Bool.not_true, Bool.false_eq_true, if_false]
    split_ifs <;> first
      | exact PlotKept.refl _ _ _
      | exact keep_setYMax _ _ _ _ _
  · have hl' : (gp.Y i).LockMin = false := by simpa using hl
    simp only [hl', Bool.not_false, if_true]
    split_ifs <;> first
      | exact PlotKept.refl _ _ _
      | exact keep_setYMin _ _ _ _ _ hl'
      | exact (keep_setYMin _ _ _ _ _ hl').trans (keep_setYMax _ _ _ _ _)

theorem keep_commitY {K : Type} [LinearOrderedField K] (m : ImMath K) (inp : ImGuiInput K)
    (gp : ImPlotContext K) (lx : Bool) (i : Fin 3) (plot : ImPlotState K) :
    PlotKept lx (fun j => (gp.Y j).LockMin) plot (BeginPlot.commitY m inp gp i plot) := by
  unfold BeginPlot.commitY
  by_cases hl : (gp.Y i).LockMin = true
  · simp only [hl, Bool.not_true, Bool.false_and, Bool.false_eq_true, if_false]
    split_ifs <;> first
      | exact PlotKept.refl _ _ _
      | exact keep_setYMax _ _ _ _ _
  · have hl' : (gp.Y i).LockMin = false := by simpa using hl
    simp only [hl', Bool.not_false, Bool.true_and]
    split_ifs <;> first
      | exact PlotKept.refl _ _ _
      | exact keep_setYMax _ _ _ _ _
      | exact keep_setYMin _ _ _ _ _ hl'
      | exact (keep_setYMin _ _ _ _ _ hl').trans (keep_setYMax _ _ _ _ _)

theorem keep_endDrags {K : Type} (inp : ImGuiInput K) (gp : ImPlotContext K) (lx : Bool)
    (ly : Fin 3 → Bool) (plot : ImPlotState K) :
    PlotKept lx ly plot (BeginPlot.endDrags inp gp plot) := by
  unfold BeginPlot.endDrags
  refine PlotKept.trans (q := if (plot.XAxis.Dragging &&
        (inp.MouseReleased gp.InputMap.PanButton || !inp.MouseDown gp.InputMap.PanButton)) = true
      then plot.setXDragging false else plot) ?_ ?_
  · split_ifs
    · exact keep_setXDragging _ _ _ _
    · exact PlotKept.refl _ _ _
  · apply keep_forYAxes
    intro i p
    split_ifs
    · exact keep_setYDragging _ _ _ _ _
    · exact PlotKept.refl _ _ _

theorem keep_queryDrag {K : Type} [LinearOrderedField K] (inp : ImGuiInput K)
    (hov_legend hov_query : Bool) (gp : ImPlotContext K) (lx : Bool) (ly : Fin 3 → Bool)
    (plot : ImPlotState K) :
    PlotKept lx ly plot (BeginPlot.queryDrag inp hov_legend hov_query gp plot) := by
  apply PlotKept.of_axes_eq
  · unfold BeginPlot.queryDrag
    simp only
    split_ifs <;> rfl
  · unfold BeginPlot.queryDrag
    simp only
    split_ifs <;> rfl

theorem keep_ite {K : Type} {lx : Bool} {ly : Fin 3 → Bool} {p q r : ImPlotState K}
    (c : Prop) [Decidable c] (hq : PlotKept lx ly p q) (hr : PlotKept lx ly p r) :
    PlotKept lx ly p (if c then q else r) := by
  split_ifs
  · exact hq
  · exact hr

theorem dragInput_kept {K : Type} [LinearOrderedField K] (m : ImMath K) (inp : ImGuiInput K)
    (hov_legend hov_query : Bool) (gp : ImPlotContext K) (plot : ImPlotState K) :
    (BeginPlot.dragInput m inp hov_legend hov_query gp plot).1.X = gp.X ∧
    (BeginPlot.dragInput m inp hov_legend hov_query gp plot).1.Y = gp.Y ∧
    PlotKept gp.X.LockMin (fun j => (gp.Y j).LockMin) plot
      (BeginPlot.dragInput m inp hov_legend hov_query gp plot).2 := by
  unfold BeginPlot.dragInput
  have h0 := keep_endDrags inp gp gp.X.LockMin (fun j => (gp.Y j).LockMin) plot
  generalize BeginPlot.endDrags inp gp plot = p0 at h0 ⊢
  simp only
  by_cases hd : (p0.XAxis.Dragging || BeginPlot.anyYDragging p0) = true
  · simp only [hd, if_true, Bool.not_true, Bool.false_and, Bool.false_eq_true, if_false]
    refine ⟨rfl, rfl, h0.trans ?_⟩
    exact (keep_doDragX m inp (UpdateTransformCache m gp p0) _ p0).trans
      (keep_forYAxes _ _ _ (fun i p => keep_doDragY m inp (UpdateTransformCache m gp p0) _ i p) _)
  · have hd' : (p0.XAxis.Dragging || BeginPlot.anyYDragging p0) = false := by simpa using hd
    rw [hd']
    refine ⟨rfl, rfl, h0.trans ?_⟩
    simp only [Bool.false_eq_true, if_false]
    apply keep_ite
    · refine PlotKept.trans (q := if p0.XAxis.HoveredTot = true then p0.setXDragging true
        else p0) ?_ ?_
      · exact keep_ite _ (keep_setXDragging _ _ _ _) (PlotKept.refl _ _ _)
      · apply keep_forYAxes
        intro i p
        exact keep_ite _ (keep_setYDragging _ _ _ _ _) (PlotKept.refl _ _ _)
    · exact PlotKept.refl _ _ _

theorem scrollX_kept {K : Type} (gp : ImPlotContext K) (ly : Fin 3 → Bool)
    (plot : ImPlotState K) (c : Bool) (tl br : ImPlotPoint K) :
    PlotKept gp.X.LockMin ly plot
      (if (c && !gp.X.Lock) = true then
        (if (!gp.X.LockMax) = true then
          (if (!gp.X.LockMin) = true then
              plot.setXMin (if gp.X.Invert = true then br.x else tl.x)
            else plot).setXMax (if gp.X.Invert = true then tl.x else br.x)
        else
          (if (!gp.X.LockMin) = true then
              plot.setXMin (if gp.X.Invert = true then br.x else tl.x)
            else plot))
      else plot) := by
  apply keep_ite _ _ (PlotKept.refl _ _ _)
  have h1 : PlotKept gp.X.LockMin ly plot
      (if (!gp.X.LockMin) = true then
        plot.setXMin (if gp.X.Invert = true then br.x else tl.x) else plot) := by
    by_cases hl : gp.X.LockMin = true
    · simp only [hl, Bool.not_true, Bool.false_eq_true, if_false]
      exact PlotKept.refl _ _ _
    · have hl' : gp.X.LockMin = false := by simpa using hl
      simp only [hl', Bool.not_false, if_true]
      exact keep_setXMin _ _ _ _ rfl
  exact keep_ite _ (h1.trans (keep_setXMax _ _ _ _)) h1

theorem scrollInput_kept {K : Type} [LinearOrderedField K] (env : ImPlotEnv K)
    (inp : ImGuiInput K) (any_hov : Bool) (gp : ImPlotContext K) (plot : ImPlotState K) :
    (BeginPlot.scrollInput env inp any_hov gp plot).1.X = gp.X ∧
    (BeginPlot.scrollInput env inp any_hov gp plot).1.Y = gp.Y ∧
    PlotKept gp.X.LockMin (fun j => (gp.Y j).LockMin) plot
      (BeginPlot.scrollInput env inp any_hov gp plot).2 := by
  unfold BeginPlot.scrollInput
  by_cases hc : (gp.Hov_Frame && (plot.XAxis.HoveredTot || any_hov) &&
      decide (inp.MouseWheel ≠ 0)) = true
  · rw [if_pos hc]
    refine ⟨rfl, rfl, ?_⟩
    simp only
    refine PlotKept.trans ?_ (keep_forYAxes _ _ _
      (fun i p => keep_scrollY env (UpdateTransformCache env.math gp plot) _ _ _ _ i p) _)
    exact scrollX_kept (UpdateTransformCache env.math gp plot) _ plot _ _ _
  · rw [if_neg hc]
    exact ⟨rfl, rfl, PlotKept.refl _ _ _⟩

theorem commitX_kept {K : Type} (gp : ImPlotContext K) (ly : Fin 3 → Bool)
    (plot : ImPlotState K) (c : Bool) (v w : K) :
    PlotKept gp.X.LockMin ly plot
      (if (!gp.X.LockMax && c) = true then
        (if (!gp.X.LockMin && c) = true then plot.setXMin v else plot).setXMax w
      else (if (!gp.X.LockMin && c) = true then plot.setXMin v else plot)) := by
  have h1 : PlotKept gp.X.LockMin ly plot
      (if (!gp.X.LockMin && c) = true then plot.setXMin v else plot) := by
    by_cases hl : gp.X.LockMin = true
    · simp only [hl, Bool.not_true, Bool.false_and, Bool.false_eq_true, if_false]
      exact PlotKept.refl _ _ _
    · have hl' : gp.X.LockMin = false := by simpa using hl
      simp only [hl']
      exact keep_ite _ (keep_setXMin _ _ _ _ rfl) (PlotKept.refl _ _ _)
  exact keep_ite _ (h1.trans (keep_setXMax _ _ _ _)) h1

theorem confirmSelection_kept {K : Type} [LinearOrderedField K] (m : ImMath K)
    (inp : ImGuiInput K) (gp : ImPlotContext K) (plot : ImPlotState K) :
    (BeginPlot.confirmSelection m inp gp plot).1.X = gp.X ∧
    (BeginPlot.confirmSelection m inp gp plot).1.Y = gp.Y ∧
    PlotKept gp.X.LockMin (fun j => (gp.Y j).LockMin) plot
      (BeginPlot.confirmSelection m inp gp plot).2 := by
  unfold BeginPlot.confirmSelection
  by_cases hc : (plot.Selecting && (inp.MouseReleased gp.InputMap.BoxSelectButton ||
      !inp.MouseDown gp.InputMap.BoxSelectButton)) = true
  · rw [if_pos hc]
    refine ⟨rfl, rfl, ?_⟩
    simp only
    refine PlotKept.trans (q := if (ImHasFlag plot.Flags ImPlotFlags_BoxSelect &&
        decide (|(plot.SelectStart.sub inp.MousePos).x| > 2) &&
        decide (|(plot.SelectStart.sub inp.MousePos).y| > 2)) = true then _ else plot) ?_
      (PlotKept.of_axes_eq _ _ _ _ rfl rfl)
    apply keep_ite _ _ (PlotKept.refl _ _ _)
    refine PlotKept.trans ?_ (keep_forYAxes _ _ _
      (fun i p => keep_commitY m inp (UpdateTransformCache m gp plot) _ i p) _)
    exact commitX_kept (UpdateTransformCache m gp plot) _ plot _ _ _
  · rw [if_neg hc]
    exact ⟨rfl, rfl, PlotKept.refl _ _ _⟩

theorem cancelSelection_axes {K : Type} (inp : ImGuiInput K) (gp : ImPlotContext K)
    (plot : ImPlotState K) :
    (BeginPlot.cancelSelection inp gp plot).XAxis = plot.XAxis ∧
    (BeginPlot.cancelSelection inp gp plot).YAxis = plot.YAxis := by
  unfold BeginPlot.cancelSelection
  split_ifs <;> exact ⟨rfl, rfl⟩

theorem beginSelection_axes {K : Type} (inp : ImGuiInput K) (gp : ImPlotContext K)
    (plot : ImPlotState K) :
    (BeginPlot.beginSelection inp gp plot).XAxis = plot.XAxis ∧
    (BeginPlot.beginSelection inp gp plot).YAxis = plot.YAxis := by
  unfold BeginPlot.beginSelection
  split_ifs <;> exact ⟨rfl, rfl⟩

theorem updateQuery_axes {K : Type} [LinearOrderedField K] (m : ImMath K) (inp : ImGuiInput K)
    (gp : ImPlotContext K) (plot : ImPlotState K) :
    (BeginPlot.updateQuery m inp gp plot).1.X = gp.X ∧
    (BeginPlot.updateQuery m inp gp plot).1.Y = gp.Y ∧
    (BeginPlot.updateQuery m inp gp plot).2.XAxis = plot.XAxis ∧
    (BeginPlot.updateQuery m inp gp plot).2.YAxis = plot.YAxis := by
  unfold BeginPlot.updateQuery
  split_ifs <;> exact ⟨rfl, rfl, rfl, rfl⟩

theorem endQuery_axes {K : Type} [LinearOrderedField K] (inp : ImGuiInput K)
    (gp : ImPlotContext K) (plot : ImPlotState K) :
    (BeginPlot.endQuery inp gp plot).XAxis = plot.XAxis ∧
    (BeginPlot.endQuery inp gp plot).YAxis = plot.YAxis := by
  unfold BeginPlot.endQuery
  split_ifs <;> exact ⟨rfl, rfl⟩

theorem beginQuery_axes {K : Type} [LinearOrderedField K] (inp : ImGuiInput K)
    (gp : ImPlotContext K) (plot : ImPlotState K) :
    (BeginPlot.beginQuery inp gp plot).XAxis = plot.XAxis ∧
    (BeginPlot.beginQuery inp gp plot).YAxis = plot.YAxis := by
  unfold BeginPlot.beginQuery
  split_ifs <;> exact ⟨rfl, rfl⟩

theorem toggleToQuery_axes {K : Type} [LinearOrderedField K] (inp : ImGuiInput K)
    (gp : ImPlotContext K) (plot : ImPlotState K) :
    (BeginPlot.toggleToQuery inp gp plot).XAxis = plot.XAxis ∧
    (BeginPlot.toggleToQuery inp gp plot).YAxis = plot.YAxis := by
  unfold BeginPlot.toggleToQuery
  split_ifs <;> exact ⟨rfl, rfl⟩

theorem toggleToSelect_axes {K : Type} [LinearOrderedField K] (inp : ImGuiInput K)
    (gp : ImPlotContext K) (plot : ImPlotState K) :
    (BeginPlot.toggleToSelect inp gp plot).XAxis = plot.XAxis ∧
    (BeginPlot.toggleToSelect inp gp plot).YAxis = plot.YAxis := by
  unfold BeginPlot.toggleToSelect
  split_ifs <;> exact ⟨rfl, rfl⟩

theorem clearQuery_axes {K : Type} [LinearOrderedField K] (plot : ImPlotState K) :
    (BeginPlot.clearQuery plot).XAxis = plot.XAxis ∧
    (BeginPlot.clearQuery plot).YAxis = plot.YAxis := by
  unfold BeginPlot.clearQuery
  split_ifs <;> exact ⟨rfl, rfl⟩

/-- The rest of the selection and query section leaves the axes alone. -/
theorem selectAndQuery_kept {K : Type} [LinearOrderedField K] (m : ImMath K)
    (inp : ImGuiInput K) (gp : ImPlotContext K) (plot : ImPlotState K) :
    (BeginPlot.selectAndQuery m inp gp plot).1.X = gp.X ∧
    (BeginPlot.selectAndQuery m inp gp plot).1.Y = gp.Y ∧
    (BeginPlot.selectAndQuery m inp gp plot).2.XAxis = plot.XAxis ∧
    (BeginPlot.selectAndQuery m inp gp plot).2.YAxis = plot.YAxis := by
  unfold BeginPlot.selectAndQuery
  simp only
  obtain ⟨u1, u2, u3, u4⟩ := updateQuery_axes m inp gp
    (BeginPlot.beginSelection inp gp (BeginPlot.cancelSelection inp gp plot))
  refine ⟨u1, u2, ?_, ?_⟩
  · rw [(clearQuery_axes _).1, (toggleToSelect_axes _ _ _).1, (toggleToQuery_axes _ _ _).1,
      (beginQuery_axes _ _ _).1, (endQuery_axes _ _ _).1, u3, (beginSelection_axes _ _ _).1,
      (cancelSelection_axes _ _ _).1]
  · rw [(clearQuery_axes _).2, (toggleToSelect_axes _ _ _).2, (toggleToQuery_axes _ _ _).2,
      (beginQuery_axes _ _ _).2, (endQuery_axes _ _ _).2, u4, (beginSelection_axes _ _ _).2,
      (cancelSelection_axes _ _ _).2]

/-- The interaction pass of BeginPlot keeps the flags of every axis and the minimum of
every axis whose state has `LockMin`. -/
theorem interaction_kept {K : Type} [LinearOrderedField K] (env : ImPlotEnv K)
    (inp : ImGuiInput K) (gp : ImPlotContext K) (plot : ImPlotState K) :
    PlotKept gp.X.LockMin (fun j => (gp.Y j).LockMin) plot
      (BeginPlot.interaction env inp gp plot).2 := by
  unfold BeginPlot.interaction
  simp only
  have hq := keep_queryDrag inp (BeginPlot.hovLegend inp gp plot) (BeginPlot.hovQuery inp gp plot)
    gp gp.X.LockMin (fun j => (gp.Y j).LockMin) plot
  generalize BeginPlot.queryDrag inp (BeginPlot.hovLegend inp gp plot)
    (BeginPlot.hovQuery inp gp plot) gp plot = p1 at hq ⊢
  obtain ⟨dX, dY, dK⟩ := dragInput_kept env.math inp (BeginPlot.hovLegend inp gp plot)
    (BeginPlot.hovQuery inp gp plot) gp p1
  generalize BeginPlot.dragInput env.math inp (BeginPlot.hovLegend inp gp plot)
    (BeginPlot.hovQuery inp gp plot) gp p1 = drag at dX dY dK ⊢
  obtain ⟨sX, sY, sK⟩ := scrollInput_kept env inp (BeginPlot.anyHovYAxisRegion plot)
    drag.1 drag.2
  generalize BeginPlot.scrollInput env inp (BeginPlot.anyHovYAxisRegion plot)
    drag.1 drag.2 = scroll at sX sY sK ⊢
  obtain ⟨cX, cY, cK⟩ := confirmSelection_kept env.math inp scroll.1 scroll.2
  generalize BeginPlot.confirmSelection env.math inp scroll.1 scroll.2 = confirm
    at cX cY cK ⊢
  obtain ⟨-, -, qx, qy⟩ := selectAndQuery_kept env.math inp confirm.1 confirm.2
  rw [dX, dY] at sK
  rw [sX, sY, dX, dY] at cK
  exact (((hq.trans dK).trans sK).trans cK).trans (PlotKept.of_axes_eq _ _ _ _ qx qy)

theorem hover_kept {K : Type} (gp : ImPlotContext K) (inX : Bool) (inY : Fin 3 → Bool)
    (lx : Bool) (ly : Fin 3 → Bool) (plot : ImPlotState K) :
    PlotKept lx ly plot (BeginPlot.hover gp inX inY plot) :=
  ⟨⟨rfl, fun _ => rfl⟩, fun _ => ⟨rfl, fun _ => rfl⟩⟩

/-- The axis states built by BeginPlot carry the LockMin flag of their axis. -/
theorem axisStates_lockMin {K : Type} (gp : ImPlotContext K) (plot : ImPlotState K)
    (hx : Bool) (cx : ℕ) (hy : Fin 3 → Bool) (cy : Fin 3 → ℕ) :
    (BeginPlot.axisStates gp plot hx cx hy cy).X.LockMin
      = ImHasFlag plot.XAxis.Flags ImPlotAxisFlags_LockMin ∧
    ∀ i : Fin 3, ((BeginPlot.axisStates gp plot hx cx hy cy).Y i).LockMin
      = ImHasFlag (plot.YAxis i).Flags ImPlotAxisFlags_LockMin := by
  refine ⟨rfl, fun i => ?_⟩
  fin_cases i <;> rfl

theorem fitBound_locked {K : Type} (requested marked : Bool) (extent : ImDouble K) (old : K) :
    fitBound requested marked true extent old = old := by
  simp [fitBound]

/-- The fit of EndPlot keeps the flags of every axis and the minimum of every axis whose
flags include LockMin. -/
theorem fitData_kept {K : Type} [Zero K] (gp : ImPlotContext K) (plot : ImPlotState K) :
    PlotKept (ImHasFlag plot.XAxis.Flags ImPlotAxisFlags_LockMin)
      (fun i => ImHasFlag (plot.YAxis i).Flags ImPlotAxisFlags_LockMin) plot
      (EndPlot.fitData gp plot) := by
  obtain ⟨⟨fx, mx, -⟩, hy⟩ := fitData_bounds gp plot
  refine ⟨⟨fx, fun h => ?_⟩, fun i => ⟨(hy i).1, fun h => ?_⟩⟩
  · rw [mx, h, fitBound_locked]
  · have h' : ImHasFlag (plot.YAxis i).Flags ImPlotAxisFlags_LockMin = true := h
    rw [(hy i).2.1, h', fitBound_locked]

/-- One frame keeps the flags of every axis and the minimum of every axis whose flags
include LockMin. -/
theorem interactionFrame_kept {K : Type} [LinearOrderedField K] (env : ImPlotEnv K)
    (f : FrameInput K) (plot : ImPlotState K) :
    PlotKept (ImHasFlag plot.XAxis.Flags ImPlotAxisFlags_LockMin)
      (fun i => ImHasFlag (plot.YAxis i).Flags ImPlotAxisFlags_LockMin) plot
      (interactionFrame env f plot) := by
  unfold interactionFrame
  simp only
  obtain ⟨ax, ay⟩ := axisStates_lockMin f.gp plot f.HasXRange f.XRangeCond f.HasYRange
    f.YRangeCond
  have hh := hover_kept (BeginPlot.axisStates f.gp plot f.HasXRange f.XRangeCond f.HasYRange
    f.YRangeCond) f.inXRegion f.inYRegion
    (ImHasFlag plot.XAxis.Flags ImPlotAxisFlags_LockMin)
    (fun i => ImHasFlag (plot.YAxis i).Flags ImPlotAxisFlags_LockMin) plot
  have hi := interaction_kept env f.inp (BeginPlot.axisStates f.gp plot f.HasXRange
    f.XRangeCond f.HasYRange f.YRangeCond)
    (BeginPlot.hover (BeginPlot.axisStates f.gp plot f.HasXRange f.XRangeCond f.HasYRange
      f.YRangeCond) f.inXRegion f.inYRegion plot)
  rw [ax, funext ay] at hi
  have h12 := hh.trans hi
  generalize (BeginPlot.interaction env f.inp (BeginPlot.axisStates f.gp plot f.HasXRange
    f.XRangeCond f.HasYRange f.YRangeCond)
    (BeginPlot.hover (BeginPlot.axisStates f.gp plot f.HasXRange f.XRangeCond f.HasYRange
      f.YRangeCond) f.inXRegion f.inYRegion plot)) = r at h12 ⊢
  have hf := fitData_kept
    ({ r.1 with ExtentsX := f.ExtentsX, ExtentsY := f.ExtentsY,
                VisibleItemCount := f.VisibleItemCount } : ImPlotContext K) r.2
  rw [h12.1.1, funext (fun i => congrArg (fun fl => ImHasFlag fl ImPlotAxisFlags_LockMin)
    (h12.2 i).1)] at hf
  exact h12.trans hf

/-- Any sequence of frames keeps the flags of every axis and the minimum of every axis
whose flags include LockMin. -/
theorem interactionFrames_kept {K : Type} [LinearOrderedField K] (env : ImPlotEnv K)
    (frames : List (FrameInput K)) :
    ∀ plot : ImPlotState K,
      PlotKept (ImHasFlag plot.XAxis.Flags ImPlotAxisFlags_LockMin)
        (fun i => ImHasFlag (plot.YAxis i).Flags ImPlotAxisFlags_LockMin) plot
        (interactionFrames env frames plot) := by
  induction frames with
  | nil => intro plot; exact PlotKept.refl _ _ _
  | cons f fs ih =>
    intro plot
    have h1 := interactionFrame_kept env f plot
    have h2 := ih (interactionFrame env f plot)
    rw [h1.1.1, funext (fun i => congrArg (fun fl => ImHasFlag fl ImPlotAxisFlags_LockMin)
      (h1.2 i).1)] at h2
    exact h1.trans h2

/-- C8. Lock-min is honoured by every interaction: for every axis (X, Y0, Y1, Y2) whose
flags include LockMin and every sequence of frames, each with arbitrary pointer, wheel,
button and modifier input, layout and data extents, the drag, scroll zoom, box-select
commit and fit steps of the frames leave the `Range.Min` of that axis as it was. -/
theorem C8_lock_min_honoured {K : Type} [LinearOrderedField K] (env : ImPlotEnv K)
    (frames : List (FrameInput K)) (plot : ImPlotState K) (ax : ImPlotAxisId)
    (hlock : ImHasFlag (plot.axis ax).Flags ImPlotAxisFlags_LockMin = true) :
    ((interactionFrames env frames plot).axis ax).Range.Min = (plot.axis ax).Range.Min := by
  have h := interactionFrames_kept env frames plot
  cases ax with
  | X => exact h.1.2 hlock
  | Y i => exact (h.2 i).2 hlock

/-- Witness of C8: an x axis on `[0, 10]` with LockMin, dragged 40 pixels to the right in
each of two frames: the minimum stays 0 while the maximum moves to 9 and then to 81/10. -/
theorem C8_lock_min_honoured_witness :
    ImHasFlag (dragExamplePlot.axis ImPlotAxisId.X).Flags ImPlotAxisFlags_LockMin = true ∧
    ((interactionFrames exampleEnv [dragExampleFrame, dragExampleFrame]
        dragExamplePlot).axis ImPlotAxisId.X).Range.Min = 0 ∧
    (interactionFrames exampleEnv [dragExampleFrame] dragExamplePlot).XAxis.Range.Max = 9 ∧
    (interactionFrames exampleEnv [dragExampleFrame, dragExampleFrame]
        dragExamplePlot).XAxis.Range.Max = 81 / 10 :=
  ⟨by decide,
    C8_lock_min_honoured exampleEnv [dragExampleFrame, dragExampleFrame] dragExamplePlot
      ImPlotAxisId.X (by decide),
    by with_unfolding_all decide, by with_unfolding_all decide⟩


/-! ### Selection, query and the legend -/

theorem NoNewDrag.same {K : Type} (p : ImPlotState K) : NoNewDrag p p :=
  ⟨rfl, id, id, fun _ => id⟩

theorem NoNewDrag.step {K : Type} {p q r : ImPlotState K} (h1 : NoNewDrag p q)
    (h2 : NoNewDrag q r) : NoNewDrag p r :=
  ⟨Eq.trans h2.1 h1.1, fun h => h1.2.1 (h2.2.1 h), fun h => h1.2.2.1 (h2.2.2.1 h),
    fun i h => h1.2.2.2 i (h2.2.2.2 i h)⟩

theorem NoNewDrag.of_eq {K : Type} (p q : ImPlotState K) (hf : q.Flags = p.Flags)
    (hq : q.DraggingQuery = p.DraggingQuery) (hx : q.XAxis.Dragging = p.XAxis.Dragging)
    (hy : ∀ i : Fin 3, (q.YAxis i).Dragging = (p.YAxis i).Dragging) : NoNewDrag p q :=
  ⟨hf, fun h => hq ▸ h, fun h => hx ▸ h, fun i h => hy i ▸ h⟩

theorem NoNewDrag.ite {K : Type} {p q r : ImPlotState K} (c : Prop) [Decidable c]
    (hq : NoNewDrag p q) (hr : NoNewDrag p r) : NoNewDrag p (if c then q else r) := by
  split_ifs
  · exact hq
  · exact hr

theorem NoNewDrag.forYAxes {K : Type} (body : Fin 3 → ImPlotState K → ImPlotState K)
    (h : ∀ i p, NoNewDrag p (body i p)) (p : ImPlotState K) :
    NoNewDrag p (forYAxes body p) :=
  ((h 0 p).step (h 1 _)).step (h 2 _)

theorem noNewDrag_setXMin {K : Type} (p : ImPlotState K) (v : K) :
    NoNewDrag p (p.setXMin v) :=
  NoNewDrag.of_eq _ _ rfl rfl rfl (fun _ => rfl)

theorem noNewDrag_setXMax {K : Type} (p : ImPlotState K) (v : K) :
    NoNewDrag p (p.setXMax v) :=
  NoNewDrag.of_eq _ _ rfl rfl rfl (fun _ => rfl)

theorem noNewDrag_setYMin {K : Type} (p : ImPlotState K) (i : Fin 3) (v : K) :
    NoNewDrag p (p.setYMin i v) := by
  refine NoNewDrag.of_eq _ _ rfl rfl rfl (fun j => ?_)
  by_cases hj : j = i
  · subst hj
    rw [setYMin_YAxis_same]
  · rw [setYMin_YAxis_other _ _ _ _ hj]

theorem noNewDrag_setYMax {K : Type} (p : ImPlotState K) (i : Fin 3) (v : K) :
    NoNewDrag p (p.setYMax i v) := by
  refine NoNewDrag.of_eq _ _ rfl rfl rfl (fun j => ?_)
  by_cases hj : j = i
  · subst hj
    rw [setYMax_YAxis_same]
  · rw [setYMax_YAxis_other _ _ _ _ hj]

theorem noNewDrag_setXDragging_false {K : Type} (p : ImPlotState K) :
    NoNewDrag p (p.setXDragging false) :=
  ⟨rfl, id, fun h => absurd h (by simp [ImPlotState.setXDragging]), fun _ => id⟩

theorem noNewDrag_setYDragging_false {K : Type} (p : ImPlotState K) (i : Fin 3) :
    NoNewDrag p (p.setYDragging i false) := by
  refine ⟨rfl, id, id, fun j h => ?_⟩
  by_cases hj : j = i
  · subst hj
    simp [ImPlotState.setYDragging] at h
  · simpa [ImPlotState.setYDragging, Function.update_noteq hj] using h

theorem forYAxes_flags {K : Type} (body : Fin 3 → ImPlotState K → ImPlotState K)
    (h : ∀ i p, (body i p).Flags = p.Flags) (p : ImPlotState K) :
    (forYAxes body p).Flags = p.Flags := by
  unfold forYAxes
  rw [h, h, h]

theorem queryDrag_flags {K : Type} [LinearOrderedField K] (inp : ImGuiInput K)
    (hov_legend hov_query : Bool) (gp : ImPlotContext K) (plot : ImPlotState K) :
    (BeginPlot.queryDrag inp hov_legend hov_query gp plot).Flags = plot.Flags := by
  unfold BeginPlot.queryDrag
  simp only
  split_ifs <;> rfl

theorem queryDrag_noNewDrag {K : Type} [LinearOrderedField K] (inp : ImGuiInput K)
    (hov_query : Bool) (gp : ImPlotContext K) (plot : ImPlotState K) :
    NoNewDrag plot (BeginPlot.queryDrag inp true hov_query gp plot) := by
  unfold BeginPlot.queryDrag
  simp only [Bool.not_true, Bool.and_false, Bool.false_eq_true, if_false]
  split_ifs with h1 h2 h3
  · exact absurd h2 (by simp)
  · refine ⟨rfl, fun h => absurd h (by simp), id, fun _ => id⟩
  · exact NoNewDrag.of_eq _ _ rfl rfl rfl (fun _ => rfl)
  · exact NoNewDrag.same _

theorem endDrags_noNewDrag {K : Type} (inp : ImGuiInput K) (gp : ImPlotContext K)
    (plot : ImPlotState K) : NoNewDrag plot (BeginPlot.endDrags inp gp plot) := by
  unfold BeginPlot.endDrags
  refine NoNewDrag.step (q := if (plot.XAxis.Dragging &&
        (inp.MouseReleased gp.InputMap.PanButton || !inp.MouseDown gp.InputMap.PanButton)) = true
      then plot.setXDragging false else plot) ?_ ?_
  · exact NoNewDrag.ite _ (noNewDrag_setXDragging_false _) (NoNewDrag.same _)
  · apply NoNewDrag.forYAxes
    intro i p
    exact NoNewDrag.ite _ (noNewDrag_setYDragging_false _ _) (NoNewDrag.same _)

theorem doDragX_noNewDrag {K : Type} [LinearOrderedField K] (m : ImMath K) (inp : ImGuiInput K)
    (gp : ImPlotContext K) (plot : ImPlotState K) :
    NoNewDrag plot (BeginPlot.doDragX m inp gp plot) := by
  unfold BeginPlot.doDragX
  simp only
  split_ifs <;> exact NoNewDrag.of_eq _ _ rfl rfl rfl (fun _ => rfl)

theorem doDragY_noNewDrag {K : Type} [LinearOrderedField K] (m : ImMath K) (inp : ImGuiInput K)
    (gp : ImPlotContext K) (i : Fin 3) (plot : ImPlotState K) :
    NoNewDrag plot (BeginPlot.doDragY m inp gp i plot) := by
  unfold BeginPlot.doDragY
  simp only
  split_ifs <;> first
    | exact NoNewDrag.same _
    | exact noNewDrag_setYMin _ _ _
    | exact noNewDrag_setYMax _ _ _
    | exact (noNewDrag_setYMin _ _ _).step (noNewDrag_setYMax _ _ _)

theorem scrollY_noNewDrag {K : Type} [LinearOrderedField K] (env : ImPlotEnv K)
    (gp : ImPlotContext K) (tx ty zoom_rate : K) (i : Fin 3) (plot : ImPlotState K) :
    NoNewDrag plot (BeginPlot.scrollY env gp tx ty zoom_rate i plot) := by
  unfold BeginPlot.scrollY
  simp only
  split_ifs <;> first
    | exact NoNewDrag.same _
    | exact noNewDrag_setYMin _ _ _
    | exact noNewDrag_setYMax _ _ _
    | exact (noNewDrag_setYMin _ _ _).step (noNewDrag_setYMax _ _ _)

theorem commitY_noNewDrag {K : Type} [LinearOrderedField K] (m : ImMath K) (inp : ImGuiInput K)
    (gp : ImPlotContext K) (i : Fin 3) (plot : ImPlotState K) :
    NoNewDrag plot (BeginPlot.commitY m inp gp i plot) := by
  unfold BeginPlot.commitY
  simp only
  split_ifs <;> first
    | exact NoNewDrag.same _
    | exact noNewDrag_setYMin _ _ _
    | exact noNewDrag_setYMax _ _ _
    | exact (noNewDrag_setYMin _ _ _).step (noNewDrag_setYMax _ _ _)

/-- The drag section keeps the input map and the plot flags, and starts no drag while
the legend is hovered. -/
theorem dragInput_noNewDrag {K : Type} [LinearOrderedField K] (m : ImMath K)
    (inp : ImGuiInput K) (hov_legend hov_query : Bool) (gp : ImPlotContext K)
    (plot : ImPlotState K) :
    (BeginPlot.dragInput m inp hov_legend hov_query gp plot).1.InputMap = gp.InputMap ∧
    (BeginPlot.dragInput m inp hov_legend hov_query gp plot).2.Flags = plot.Flags ∧
    (hov_legend = true →
      NoNewDrag plot (BeginPlot.dragInput m inp hov_legend hov_query gp plot).2) := by
  unfold BeginPlot.dragInput
  have h0 := endDrags_noNewDrag inp gp plot
  generalize BeginPlot.endDrags inp gp plot = p0 at h0 ⊢
  simp only
  by_cases hd : (p0.XAxis.Dragging || BeginPlot.anyYDragging p0) = true
  · simp only [hd, if_true, Bool.not_true, Bool.false_and, Bool.false_eq_true, if_false]
    have h1 : NoNewDrag p0 (forYAxes (BeginPlot.doDragY m inp (UpdateTransformCache m gp p0))
        (BeginPlot.doDragX m inp (UpdateTransformCache m gp p0) p0)) :=
      (doDragX_noNewDrag m inp _ p0).step
        (NoNewDrag.forYAxes _ (fun i p => doDragY_noNewDrag m inp _ i p) _)
    exact ⟨rfl, (h0.step h1).1, fun _ => h0.step h1⟩
  · have hd' : (p0.XAxis.Dragging || BeginPlot.anyYDragging p0) = false := by simpa using hd
    rw [hd']
    simp only [Bool.false_eq_true, if_false]
    refine ⟨?_, ?_, fun hl => ?_⟩
    · trivial
    · rw [← h0.1]
      have e : ∀ q : ImPlotState K, (forYAxes (fun i plot =>
          if (plot.YAxis i).HoveredTot = true then plot.setYDragging i true else plot) q).Flags
            = q.Flags := by
        intro q
        apply forYAxes_flags
        intro i p
        by_cases hy : (p.YAxis i).HoveredTot = true
        · rw [if_pos hy]
          rfl
        · rw [if_neg hy]
      split_ifs
      · rw [e]
        rfl
      · rw [e]
      · rfl
    · subst hl
      simp only [Bool.not_true, Bool.and_false, Bool.false_and, Bool.false_eq_true, if_false]
      exact h0

theorem scrollInput_noNewDrag {K : Type} [LinearOrderedField K] (env : ImPlotEnv K)
    (inp : ImGuiInput K) (any_hov : Bool) (gp : ImPlotContext K) (plot : ImPlotState K) :
    (BeginPlot.scrollInput env inp any_hov gp plot).1.InputMap = gp.InputMap ∧
    NoNewDrag plot (BeginPlot.scrollInput env inp any_hov gp plot).2 := by
  unfold BeginPlot.scrollInput
  by_cases hc : (gp.Hov_Frame && (plot.XAxis.HoveredTot || any_hov) &&
      decide (inp.MouseWheel ≠ 0)) = true
  · rw [if_pos hc]
    refine ⟨rfl, ?_⟩
    simp only
    refine NoNewDrag.step ?_ (NoNewDrag.forYAxes _
      (fun i p => scrollY_noNewDrag env (UpdateTransformCache env.math gp plot) _ _ _ i p) _)
    split_ifs <;> exact NoNewDrag.of_eq _ _ rfl rfl rfl (fun _ => rfl)
  · rw [if_neg hc]
    exact ⟨rfl, NoNewDrag.same _⟩

theorem confirmSelection_noNewDrag {K : Type} [LinearOrderedField K] (m : ImMath K)
    (inp : ImGuiInput K) (gp : ImPlotContext K) (plot : ImPlotState K) :
    (BeginPlot.confirmSelection m inp gp plot).1.InputMap = gp.InputMap ∧
    NoNewDrag plot (BeginPlot.confirmSelection m inp gp plot).2 := by
  unfold BeginPlot.confirmSelection
  by_cases hc : (plot.Selecting && (inp.MouseReleased gp.InputMap.BoxSelectButton ||
      !inp.MouseDown gp.InputMap.BoxSelectButton)) = true
  · rw [if_pos hc]
    refine ⟨rfl, ?_⟩
    simp only
    refine NoNewDrag.step (q := if (ImHasFlag plot.Flags ImPlotFlags_BoxSelect &&
        decide (|(plot.SelectStart.sub inp.MousePos).x| > 2) &&
        decide (|(plot.SelectStart.sub inp.MousePos).y| > 2)) = true then _ else plot) ?_
      (NoNewDrag.of_eq _ _ rfl rfl rfl (fun _ => rfl))
    apply NoNewDrag.ite _ _ (NoNewDrag.same _)
    refine NoNewDrag.step ?_ (NoNewDrag.forYAxes _
      (fun i p => commitY_noNewDrag m inp (UpdateTransformCache m gp plot) i p) _)
    split_ifs <;> exact NoNewDrag.of_eq _ _ rfl rfl rfl (fun _ => rfl)
  · rw [if_neg hc]
    exact ⟨rfl, NoNewDrag.same _⟩

theorem cancelSelection_mode {K : Type} (inp : ImGuiInput K) (gp : ImPlotContext K)
    (plot : ImPlotState K) :
    (BeginPlot.cancelSelection inp gp plot).Flags = plot.Flags ∧
    (BeginPlot.cancelSelection inp gp plot).DraggingQuery = plot.DraggingQuery := by
  unfold BeginPlot.cancelSelection
  split_ifs <;> exact ⟨rfl, rfl⟩

theorem beginSelection_mode {K : Type} (inp : ImGuiInput K) (gp : ImPlotContext K)
    (plot : ImPlotState K) :
    (BeginPlot.beginSelection inp gp plot).Flags = plot.Flags ∧
    (BeginPlot.beginSelection inp gp plot).DraggingQuery = plot.DraggingQuery := by
  unfold BeginPlot.beginSelection
  split_ifs <;> exact ⟨rfl, rfl⟩

theorem endQuery_mode {K : Type} [LinearOrderedField K] (inp : ImGuiInput K) (gp : ImPlotContext K)
    (plot : ImPlotState K) :
    (BeginPlot.endQuery inp gp plot).Flags = plot.Flags ∧
    (BeginPlot.endQuery inp gp plot).DraggingQuery = plot.DraggingQuery := by
  unfold BeginPlot.endQuery
  split_ifs <;> exact ⟨rfl, rfl⟩

theorem beginQuery_mode {K : Type} [LinearOrderedField K] (inp : ImGuiInput K) (gp : ImPlotContext K)
    (plot : ImPlotState K) :
    (BeginPlot.beginQuery inp gp plot).Flags = plot.Flags ∧
    (BeginPlot.beginQuery inp gp plot).DraggingQuery = plot.DraggingQuery := by
  unfold BeginPlot.beginQuery
  split_ifs <;> exact ⟨rfl, rfl⟩

theorem toggleToQuery_mode {K : Type} [LinearOrderedField K] (inp : ImGuiInput K) (gp : ImPlotContext K)
    (plot : ImPlotState K) :
    (BeginPlot.toggleToQuery inp gp plot).Flags = plot.Flags ∧
    (BeginPlot.toggleToQuery inp gp plot).DraggingQuery = plot.DraggingQuery := by
  unfold BeginPlot.toggleToQuery
  split_ifs <;> exact ⟨rfl, rfl⟩

theorem toggleToSelect_mode {K : Type} [LinearOrderedField K] (inp : ImGuiInput K) (gp : ImPlotContext K)
    (plot : ImPlotState K) :
    (BeginPlot.toggleToSelect inp gp plot).Flags = plot.Flags ∧
    (BeginPlot.toggleToSelect inp gp plot).DraggingQuery = plot.DraggingQuery := by
  unfold BeginPlot.toggleToSelect
  split_ifs <;> exact ⟨rfl, rfl⟩

theorem clearQuery_mode {K : Type} [LinearOrderedField K]
    (plot : ImPlotState K) :
    (BeginPlot.clearQuery plot).Flags = plot.Flags ∧
    (BeginPlot.clearQuery plot).DraggingQuery = plot.DraggingQuery := by
  unfold BeginPlot.clearQuery
  split_ifs <;> exact ⟨rfl, rfl⟩

theorem updateQuery_mode {K : Type} [LinearOrderedField K] (m : ImMath K) (inp : ImGuiInput K)
    (gp : ImPlotContext K) (plot : ImPlotState K) :
    (BeginPlot.updateQuery m inp gp plot).1.InputMap = gp.InputMap ∧
    (BeginPlot.updateQuery m inp gp plot).2.Flags = plot.Flags ∧
    (BeginPlot.updateQuery m inp gp plot).2.DraggingQuery = plot.DraggingQuery := by
  unfold BeginPlot.updateQuery
  split_ifs <;> exact ⟨rfl, rfl, rfl⟩

/-- The selection and query section keeps the plot flags and starts no drag. -/
theorem selectAndQuery_noNewDrag {K : Type} [LinearOrderedField K] (m : ImMath K)
    (inp : ImGuiInput K) (gp : ImPlotContext K) (plot : ImPlotState K) :
    NoNewDrag plot (BeginPlot.selectAndQuery m inp gp plot).2 := by
  obtain ⟨-, -, hx, hy⟩ := selectAndQuery_kept m inp gp plot
  refine NoNewDrag.of_eq _ _ ?_ ?_ (by rw [hx]) (fun i => by rw [hy])
  · unfold BeginPlot.selectAndQuery
    simp only
    rw [(clearQuery_mode _).1, (toggleToSelect_mode _ _ _).1, (toggleToQuery_mode _ _ _).1,
      (beginQuery_mode _ _ _).1, (endQuery_mode _ _ _).1, (updateQuery_mode _ _ _ _).2.1,
      (beginSelection_mode _ _ _).1, (cancelSelection_mode _ _ _).1]
  · unfold BeginPlot.selectAndQuery
    simp only
    rw [(clearQuery_mode _).2, (toggleToSelect_mode _ _ _).2, (toggleToQuery_mode _ _ _).2,
      (beginQuery_mode _ _ _).2, (endQuery_mode _ _ _).2, (updateQuery_mode _ _ _ _).2.2,
      (beginSelection_mode _ _ _).2, (cancelSelection_mode _ _ _).2]

/-- While the legend is hovered the interaction pass starts no drag. -/
theorem interaction_noNewDrag {K : Type} [LinearOrderedField K] (env : ImPlotEnv K)
    (inp : ImGuiInput K) (gp : ImPlotContext K) (plot : ImPlotState K)
    (hov : BeginPlot.hovLegend inp gp plot = true) :
    NoNewDrag plot (BeginPlot.interaction env inp gp plot).2 := by
  unfold BeginPlot.interaction
  simp only
  rw [hov]
  have hq := queryDrag_noNewDrag inp (BeginPlot.hovQuery inp gp plot) gp plot
  generalize BeginPlot.queryDrag inp true (BeginPlot.hovQuery inp gp plot) gp plot = p1 at hq ⊢
  obtain ⟨-, -, dK⟩ := dragInput_noNewDrag env.math inp true (BeginPlot.hovQuery inp gp plot)
    gp p1
  generalize BeginPlot.dragInput env.math inp true (BeginPlot.hovQuery inp gp plot) gp p1 = drag
    at dK ⊢
  obtain ⟨-, sK⟩ := scrollInput_noNewDrag env inp (BeginPlot.anyHovYAxisRegion plot)
    drag.1 drag.2
  generalize BeginPlot.scrollInput env inp (BeginPlot.anyHovYAxisRegion plot)
    drag.1 drag.2 = scroll at sK ⊢
  obtain ⟨-, cK⟩ := confirmSelection_noNewDrag env.math inp scroll.1 scroll.2
  generalize BeginPlot.confirmSelection env.math inp scroll.1 scroll.2 = confirm at cK ⊢
  exact (((hq.step (dK rfl)).step sK).step cK).step
    (selectAndQuery_noNewDrag env.math inp confirm.1 confirm.2)

/-- The interaction pass keeps the plot flags. -/
theorem interaction_flags {K : Type} [LinearOrderedField K] (env : ImPlotEnv K)
    (inp : ImGuiInput K) (gp : ImPlotContext K) (plot : ImPlotState K) :
    (BeginPlot.interaction env inp gp plot).2.Flags = plot.Flags := by
  unfold BeginPlot.interaction
  simp only
  rw [(selectAndQuery_noNewDrag _ _ _ _).1, (confirmSelection_noNewDrag _ _ _ _).2.1,
    (scrollInput_noNewDrag _ _ _ _ _).2.1, (dragInput_noNewDrag _ _ _ _ _ _).2.1,
    queryDrag_flags]

/-- C17 (counterexample). The pointer is over the legend (`hov_legend` is true), no
selection is in progress, and the right button is clicked: the interaction pass of
BeginPlot sets Selecting, since "begin selection" (implot.cpp, 956-959) does not test
`hov_legend`. -/
theorem C17_legend_hover_counterexample :
    BeginPlot.hovLegend legendClickInput hoveredContext legendExamplePlot = true ∧
    legendExamplePlot.Selecting = false ∧
    (BeginPlot.interaction exampleEnv legendClickInput hoveredContext
      legendExamplePlot).2.Selecting = true := by
  with_unfolding_all decide

/-- C17 (amended). In every BeginPlot frame in which the pointer is over the legend
(`hov_legend` is true), the interaction pass changes no axis's Dragging flag and not the
DraggingQuery flag from false to true, and requests no fit. -/
theorem C17_legend_hover_starts_no_drag {K : Type} [LinearOrderedField K] (env : ImPlotEnv K)
    (inp : ImGuiInput K) (gp : ImPlotContext K) (plot : ImPlotState K)
    (hov : BeginPlot.hovLegend inp gp plot = true) :
    (plot.XAxis.Dragging = false →
      (BeginPlot.interaction env inp gp plot).2.XAxis.Dragging = false) ∧
    (∀ i : Fin 3, (plot.YAxis i).Dragging = false →
      ((BeginPlot.interaction env inp gp plot).2.YAxis i).Dragging = false) ∧
    (plot.DraggingQuery = false →
      (BeginPlot.interaction env inp gp plot).2.DraggingQuery = false) ∧
    (BeginPlot.interaction env inp gp plot).1.FitThisFrame = false := by
  obtain ⟨-, hq, hx, hy⟩ := interaction_noNewDrag env inp gp plot hov
  refine ⟨fun h => ?_, fun i h => ?_, fun h => ?_, ?_⟩
  · by_contra hc
    rw [Bool.not_eq_false] at hc
    rw [hx hc] at h
    exact absurd h (by decide)
  · by_contra hc
    rw [Bool.not_eq_false] at hc
    rw [hy i hc] at h
    exact absurd h (by decide)
  · by_contra hc
    rw [Bool.not_eq_false] at hc
    rw [hq hc] at h
    exact absurd h (by decide)
  · unfold BeginPlot.interaction BeginPlot.doubleClick
    simp only [hov, Bool.not_true, Bool.and_false, Bool.false_and, Bool.false_eq_true, if_false]

/-- Witness of C17: on the example plot, hovered, with the pointer over the legend and
the left (pan) button clicked, no axis starts to be dragged. -/
theorem C17_legend_hover_starts_no_drag_witness :
    BeginPlot.hovLegend legendPanInput hoveredContext
      (BeginPlot.hover hoveredContext false (fun _ => false) legendExamplePlot) = true ∧
    (BeginPlot.hover hoveredContext false (fun _ => false) legendExamplePlot).XAxis.HoveredTot
      = true ∧
    (BeginPlot.interaction exampleEnv legendPanInput hoveredContext
      (BeginPlot.hover hoveredContext false (fun _ => false)
        legendExamplePlot)).2.XAxis.Dragging = false :=
  ⟨by with_unfolding_all decide, by with_unfolding_all decide,
    (C17_legend_hover_starts_no_drag exampleEnv legendPanInput hoveredContext
      (BeginPlot.hover hoveredContext false (fun _ => false) legendExamplePlot)
      (by with_unfolding_all decide)).1 rfl⟩

/-- The two toggles and the reset at the end of the selection and query section leave at
most one of Selecting and Querying set when the Query flag is off, or the toggle modifier
is held, or the BoxSelect flag is on and the query button is up. -/
theorem toggles_exclusive {K : Type} [LinearOrderedField K] (inp : ImGuiInput K)
    (gp : ImPlotContext K) (p : ImPlotState K)
    (h : ImHasFlag p.Flags ImPlotFlags_Query = false ∨
      ImHasFlag inp.KeyMods gp.InputMap.QueryToggleMod = true ∨
      (ImHasFlag p.Flags ImPlotFlags_BoxSelect = true ∧
        inp.MouseDown gp.InputMap.QueryButton = false)) :
    ¬ ((BeginPlot.clearQuery (BeginPlot.toggleToSelect inp gp
          (BeginPlot.toggleToQuery inp gp p))).Selecting = true ∧
       (BeginPlot.clearQuery (BeginPlot.toggleToSelect inp gp
          (BeginPlot.toggleToQuery inp gp p))).Querying = true) := by
  unfold BeginPlot.clearQuery BeginPlot.toggleToSelect BeginPlot.toggleToQuery
  cases ha : ImHasFlag p.Flags ImPlotFlags_Query <;>
  cases hb : ImHasFlag p.Flags ImPlotFlags_BoxSelect <;>
  cases ht : ImHasFlag inp.KeyMods gp.InputMap.QueryToggleMod <;>
  cases hd : inp.MouseDown gp.InputMap.QueryButton <;>
  cases hs : p.Selecting <;>
  cases hq : p.Querying <;>
  simp_all

theorem selectAndQuery_exclusive {K : Type} [LinearOrderedField K] (m : ImMath K)
    (inp : ImGuiInput K) (gp : ImPlotContext K) (plot : ImPlotState K)
    (h : ImHasFlag plot.Flags ImPlotFlags_Query = false ∨
      ImHasFlag inp.KeyMods gp.InputMap.QueryToggleMod = true ∨
      (ImHasFlag plot.Flags ImPlotFlags_BoxSelect = true ∧
        inp.MouseDown gp.InputMap.QueryButton = false)) :
    ¬ ((BeginPlot.selectAndQuery m inp gp plot).2.Selecting = true ∧
       (BeginPlot.selectAndQuery m inp gp plot).2.Querying = true) := by
  unfold BeginPlot.selectAndQuery
  simp only
  apply toggles_exclusive
  rw [(beginQuery_mode _ _ _).1, (endQuery_mode _ _ _).1, (updateQuery_mode _ _ _ _).2.1,
    (beginSelection_mode _ _ _).1, (cancelSelection_mode _ _ _).1,
    (updateQuery_mode _ _ _ _).1]
  exact h

/-- C16 (counterexample). A box selection is in progress (Selecting is set, Querying is
not), the right button is still held and the middle (query) button is clicked over the
plot with no modifier: after the interaction pass both Selecting and Querying are set,
since "begin query" (implot.cpp, 981-986) does not clear Selecting and the toggle back to
selection waits for the query button to be released. -/
theorem C16_select_and_query_counterexample :
    ¬ (queryExamplePlot.Selecting = true ∧ queryExamplePlot.Querying = true) ∧
    (BeginPlot.interaction exampleEnv queryClickInput hoveredContext
      queryExamplePlot).2.Selecting = true ∧
    (BeginPlot.interaction exampleEnv queryClickInput hoveredContext
      queryExamplePlot).2.Querying = true := by
  with_unfolding_all decide

/-- C16 (amended). After the interaction pass of a BeginPlot frame, Selecting and
Querying are not both true whenever the Query flag is off, or the query-toggle modifier
is held, or the BoxSelect flag is on and the query button is not down, whatever the
state before and the rest of the input. -/
theorem C16_select_query_exclusive_when_toggled {K : Type} [LinearOrderedField K]
    (env : ImPlotEnv K) (inp : ImGuiInput K) (gp : ImPlotContext K) (plot : ImPlotState K)
    (h : ImHasFlag plot.Flags ImPlotFlags_Query = false ∨
      ImHasFlag inp.KeyMods gp.InputMap.QueryToggleMod = true ∨
      (ImHasFlag plot.Flags ImPlotFlags_BoxSelect = true ∧
        inp.MouseDown gp.InputMap.QueryButton = false)) :
    ¬ ((BeginPlot.interaction env inp gp plot).2.Selecting = true ∧
       (BeginPlot.interaction env inp gp plot).2.Querying = true) := by
  unfold BeginPlot.interaction
  simp only
  apply selectAndQuery_exclusive
  rw [(confirmSelection_noNewDrag _ _ _ _).2.1, (scrollInput_noNewDrag _ _ _ _ _).2.1,
    (dragInput_noNewDrag _ _ _ _ _ _).2.1, queryDrag_flags,
    (confirmSelection_noNewDrag _ _ _ _).1, (scrollInput_noNewDrag _ _ _ _ _).1,
    (dragInput_noNewDrag _ _ _ _ _ _).1]
  exact h

/-- Witness of C16: on the example plot with a selection in progress, the frame in which
the right button is released with no modifier (BoxSelect flag on, query button up) ends
with neither Selecting nor Querying set. -/
theorem C16_select_query_exclusive_when_toggled_witness :
    (ImHasFlag queryExamplePlot.Flags ImPlotFlags_BoxSelect = true ∧
      selectExampleInput.MouseDown hoveredContext.InputMap.QueryButton = false) ∧
    ¬ ((BeginPlot.interaction exampleEnv selectExampleInput hoveredContext
          queryExamplePlot).2.Selecting = true ∧
       (BeginPlot.interaction exampleEnv selectExampleInput hoveredContext
          queryExamplePlot).2.Querying = true) :=
  ⟨by decide,
    C16_select_query_exclusive_when_toggled exampleEnv selectExampleInput hoveredContext
      queryExamplePlot (Or.inr (Or.inr (by decide)))⟩


/-! ### The constraint pass -/

theorem DBL_EPSILON_cast_pos {K : Type} [LinearOrderedField K] : (0 : K) < (DBL_EPSILON : K) := by
  have h : (0 : ℚ) < DBL_EPSILON := by
    unfold DBL_EPSILON
    positivity
  exact_mod_cast h

/-- One rounding of a number below 2 in size moves it by at most `2 ^ -53`. -/
theorem F64.round_err_small (x : ℚ) (hx : |x| < 2) : |F64.round x - x| ≤ 1 / 2 ^ 53 := by
  by_cases hx0 : x = 0
  · subst hx0
    simp [F64.round]
  have hpos : 0 < |x| := abs_pos.2 hx0
  obtain ⟨s1, -⟩ := F64.exponent_spec |x| hpos
  have he : F64.exponent |x| < 1 := by
    have h : (2 : ℚ) ^ F64.exponent |x| < (2 : ℚ) ^ (1 : ℤ) := by
      rw [zpow_one]
      exact lt_of_le_of_lt s1 hx
    exact (zpow_lt_zpow_iff_right₀ (by norm_num : (1 : ℚ) < 2)).1 h
  unfold F64.round
  rw [if_neg hx0]
  simp only [F64.pow2_eq]
  generalize hmax : max (F64.exponent |x|) (-1022) = e
  have he0 : e ≤ 0 := by
    rw [← hmax]
    exact max_le (by omega) (by norm_num)
  have hq : (0 : ℚ) < (2 : ℚ) ^ (e - 52) := zpow_pos (by norm_num) _
  have hq2 : (2 : ℚ) ^ (e - 52) ≤ (2 : ℚ) ^ (-52 : ℤ) :=
    (zpow_le_zpow_iff_right₀ (by norm_num : (1 : ℚ) < 2)).2 (by omega)
  have herr := F64.roundHalfEven_err (x / (2 : ℚ) ^ (e - 52))
  generalize (F64.roundHalfEven (x / (2 : ℚ) ^ (e - 52)) : ℚ) = r at herr
  have e1 : r * (2 : ℚ) ^ (e - 52) - x = (r - x / (2 : ℚ) ^ (e - 52)) * (2 : ℚ) ^ (e - 52) := by
    field_simp
  rw [e1, abs_mul, abs_of_pos hq]
  have h3 : |r - x / (2 : ℚ) ^ (e - 52)| * (2 : ℚ) ^ (e - 52) ≤ 1 / 2 * (2 : ℚ) ^ (e - 52) :=
    mul_le_mul_of_nonneg_right herr hq.le
  have h4 : (2 : ℚ) ^ (-52 : ℤ) = 1 / 2 ^ 52 := by norm_num
  rw [h4] at hq2
  have h5 : (1 : ℚ) / 2 * (1 / 2 ^ 52) = 1 / 2 ^ 53 := by norm_num
  linarith

theorem constrainOrder_of_lt {K : Type} [LinearOrderedField K] (c : ImPlotLimitConsts K)
    (r : ImPlotRange K) (h : r.Min < r.Max) : BeginPlot.constrainOrder c r = r := by
  unfold BeginPlot.constrainOrder
  rw [if_neg (not_le.2 h)]

theorem constrainOrder_Min {K : Type} [LinearOrderedField K] (c : ImPlotLimitConsts K)
    (r : ImPlotRange K) : (BeginPlot.constrainOrder c r).Min = r.Min := by
  unfold BeginPlot.constrainOrder
  split_ifs <;> rfl

/-- The bump by `DBL_EPSILON` leaves `Min < Max` when the rounding of a sum below 2 in
size is off by less than `DBL_EPSILON` and the bumped bound is below 2 in size. -/
theorem constrainOrder_lt_of_small {K : Type} [LinearOrderedField K] (c : ImPlotLimitConsts K)
    (r : ImPlotRange K)
    (hfl : ∀ x : K, |x| < 2 → |c.fl x - x| < (DBL_EPSILON : K))
    (hsmall : |r.Min + (DBL_EPSILON : K)| < 2) :
    (BeginPlot.constrainOrder c r).Min < (BeginPlot.constrainOrder c r).Max := by
  unfold BeginPlot.constrainOrder
  split_ifs with h
  · have h1 := hfl _ hsmall
    rw [abs_lt] at h1
    show r.Min < c.fl (r.Min + (DBL_EPSILON : K))
    linarith [h1.1]
  · exact lt_of_not_le h

/-- C12 (counterexample). Two calls of BeginPlot that return with `Max <= Min` on the
x axis, in IEEE 754 binary64.  First, a new plot whose pending x range is the empty range
`[5, 5]`: the bump of lines 635-636 stores `5 + DBL_EPSILON`, which rounds to 5, and the
range stays `[5, 5]`.  Second, an existing plot whose x axis shows `[0, 10]` with the
LockMin flag and is being dragged, the pointer having moved 440 pixels, more than the
width of the plot: BeginPlot returns true and leaves the x range with `Min = 0` and
`Max = -1`, because the drag (implot.cpp, 837-844) writes the free bound without
comparing it to the locked one. -/
theorem C12_range_invariant_counterexample :
    (BeginPlot.ranges exampleLimits exampleTimeEnv true
        { (ImPlotNextPlotData.new : ImPlotNextPlotData ℚ) with
          HasXRange := true
          X := { Min := ImDouble.finite 5, Max := ImDouble.finite 5 } }
        fitExamplePlot).XAxis.Range.Min = 5 ∧
    (BeginPlot.ranges exampleLimits exampleTimeEnv true
        { (ImPlotNextPlotData.new : ImPlotNextPlotData ℚ) with
          HasXRange := true
          X := { Min := ImDouble.finite 5, Max := ImDouble.finite 5 } }
        fitExamplePlot).XAxis.Range.Max = 5 ∧
    (BeginPlot exampleInternal dragExampleHost 1 0 23 7 7 7 dragExampleGlobal).toOption.map
      (fun r => (r.1, (r.2.Plots 1).XAxis.Range.Min, (r.2.Plots 1).XAxis.Range.Max))
      = some (true, 0, -1) := by
  refine ⟨?_, ?_, ?_⟩
  · decide!
  · decide!
  · with_unfolding_all decide

/-- C12 (the part that holds). At the end of the constraint pass of BeginPlot, for every
pending range (NaN and infinities included), every stored range and every axis (X, Y0,
Y1, Y2): when a rounded sum below 2 in size is off by less than `DBL_EPSILON`, as in
binary64, and `Range.Min + DBL_EPSILON` is below 2 in size, then `Range.Max > Range.Min`
strictly. -/
theorem C12_constraint_pass_orders_small_ranges {K : Type} [LinearOrderedField K]
    (c : ImPlotLimitConsts K) (t : ImTimeEnv) (just_created : Bool)
    (npd : ImPlotNextPlotData K) (plot : ImPlotState K) (ax : ImPlotAxisId)
    (hfl : ∀ x : K, |x| < 2 → |c.fl x - x| < (DBL_EPSILON : K))
    (hsmall : |((BeginPlot.ranges c t just_created npd plot).axis ax).Range.Min
      + (DBL_EPSILON : K)| < 2) :
    ((BeginPlot.ranges c t just_created npd plot).axis ax).Range.Min
      < ((BeginPlot.ranges c t just_created npd plot).axis ax).Range.Max := by
  cases ax with
  | X =>
    refine constrainOrder_lt_of_small c _ hfl ?_
    rw [← constrainOrder_Min c]
    exact hsmall
  | Y i =>
    refine constrainOrder_lt_of_small c _ hfl ?_
    rw [← constrainOrder_Min c]
    exact hsmall

/-- Witness of C12: in binary64 a new plot whose pending x range is the empty range
`[1, 1]` leaves the constraint pass with the x range `[1, 1 + DBL_EPSILON]`. -/
theorem C12_constraint_pass_orders_small_ranges_witness :
    ((BeginPlot.ranges exampleLimits exampleTimeEnv true
        { (ImPlotNextPlotData.new : ImPlotNextPlotData ℚ) with
          HasXRange := true
          X := { Min := ImDouble.finite 1, Max := ImDouble.finite 1 } }
        fitExamplePlot).axis ImPlotAxisId.X).Range.Min
      < ((BeginPlot.ranges exampleLimits exampleTimeEnv true
        { (ImPlotNextPlotData.new : ImPlotNextPlotData ℚ) with
          HasXRange := true
          X := { Min := ImDouble.finite 1, Max := ImDouble.finite 1 } }
        fitExamplePlot).axis ImPlotAxisId.X).Range.Max ∧
    (BeginPlot.ranges exampleLimits exampleTimeEnv true
        { (ImPlotNextPlotData.new : ImPlotNextPlotData ℚ) with
          HasXRange := true
          X := { Min := ImDouble.finite 1, Max := ImDouble.finite 1 } }
        fitExamplePlot).XAxis.Range.Max = 1 + DBL_EPSILON :=
  ⟨C12_constraint_pass_orders_small_ranges exampleLimits exampleTimeEnv true
      { (ImPlotNextPlotData.new : ImPlotNextPlotData ℚ) with
        HasXRange := true
        X := { Min := ImDouble.finite 1, Max := ImDouble.finite 1 } }
      fitExamplePlot ImPlotAxisId.X
      (fun x hx => lt_of_le_of_lt (F64.round_err_small x hx) (by decide!))
      (by decide!),
    by decide!⟩

/-- C13 (counterexample). An x axis with the Time flag (263 = 7 + 256) and the incoming
range from 1 600 000 000 000 000 to 1 600 000 000 000 001.5 microseconds, inside the
time window: the span is more than one microsecond, so the constraint pass leaves the
range as it is, with a span of 1.5 microseconds. -/
theorem C13_time_span_counterexample :
    ImHasFlag 263 ImPlotAxisFlags_Time = true ∧
    (BeginPlot.constrainX exampleLimits exampleTimeEnv 263
        { Min := ImDouble.finite 1600000000000000,
          Max := ImDouble.finite (1600000000000000 + 3 / 2) }).Max
      - (BeginPlot.constrainX exampleLimits exampleTimeEnv 263
        { Min := ImDouble.finite 1600000000000000,
          Max := ImDouble.finite (1600000000000000 + 3 / 2) }).Min = 3 / 2 := by
  decide!

/-- In binary64 the widening fails where the spacing of the doubles exceeds 2: on a time
x axis the empty range at `2 ^ 54` microseconds, inside the time window, stays empty,
since both `Min + 2` and `Min + DBL_EPSILON` round back to `Min`. -/
theorem constrainX_time_span_zero_example :
    (BeginPlot.constrainX exampleLimits exampleTimeEnv 263
        { Min := ImDouble.finite 18014398509481984,
          Max := ImDouble.finite 18014398509481984 }).Min = 18014398509481984 ∧
    (BeginPlot.constrainX exampleLimits exampleTimeEnv 263
        { Min := ImDouble.finite 18014398509481984,
          Max := ImDouble.finite 18014398509481984 }).Max = 18014398509481984 := by
  constructor <;> decide!

/-- C13 (amended). After the constraint pass of BeginPlot on an x axis with the Time
flag, the time unit of a microsecond having size 1, for every incoming range (NaN and
infinities included) whose clamped lower bound `lo` has the sums `lo + 1` and `lo + 2`
stored exactly: `Range.Min` is `lo`; when the clamped upper bound is at most `lo + 1`,
`Range.Max` is exactly `lo + 2`; otherwise `Range.Max` is the clamped upper bound; and in
both cases `Range.Max - Range.Min > 1` microsecond. -/
theorem C13_time_span_widened_to_two_microseconds {K : Type} [LinearOrderedField K]
    (c : ImPlotLimitConsts K) (t : ImTimeEnv) (flags : ℕ) (r : ImPlotRange (ImDouble K))
    (htime : ImHasFlag flags ImPlotAxisFlags_Time = true)
    (hus : t.ImTimeUnits_Size ImTimeUnit_US = 1)
    (h1 : c.fl (BeginPlot.timeBound c t flags r.Min + 1)
      = BeginPlot.timeBound c t flags r.Min + 1)
    (h2 : c.fl (BeginPlot.timeBound c t flags r.Min + 2)
      = BeginPlot.timeBound c t flags r.Min + 2) :
    (BeginPlot.constrainX c t flags r).Min = BeginPlot.timeBound c t flags r.Min ∧
    (BeginPlot.timeBound c t flags r.Max ≤ BeginPlot.timeBound c t flags r.Min + 1 →
      (BeginPlot.constrainX c t flags r).Max = BeginPlot.timeBound c t flags r.Min + 2) ∧
    (BeginPlot.timeBound c t flags r.Min + 1 < BeginPlot.timeBound c t flags r.Max →
      (BeginPlot.constrainX c t flags r).Max = BeginPlot.timeBound c t flags r.Max) ∧
    (BeginPlot.constrainX c t flags r).Max - (BeginPlot.constrainX c t flags r).Min > 1 := by
  have hX : BeginPlot.constrainX c t flags r
      = BeginPlot.constrainOrder c
        { Min := BeginPlot.timeBound c t flags r.Min,
          Max := if BeginPlot.timeBound c t flags r.Max
              ≤ c.fl (BeginPlot.timeBound c t flags r.Min + 1)
            then c.fl (BeginPlot.timeBound c t flags r.Min + 2)
            else BeginPlot.timeBound c t flags r.Max } := by
    unfold BeginPlot.constrainX BeginPlot.constrainTimeRange BeginPlot.timeBound
    simp only [htime, if_true, hus]
    norm_num
  rw [h1, h2] at hX
  by_cases h : BeginPlot.timeBound c t flags r.Max ≤ BeginPlot.timeBound c t flags r.Min + 1
  · rw [if_pos h, constrainOrder_of_lt c _ (by show _ < _ + 2; linarith)] at hX
    rw [hX]
    refine ⟨rfl, fun _ => rfl, fun h3 => absurd h (not_le.2 h3), ?_⟩
    show _ + 2 - _ > 1
    linarith
  · rw [if_neg h, constrainOrder_of_lt c _ (by
      show BeginPlot.timeBound c t flags r.Min < BeginPlot.timeBound c t flags r.Max
      linarith [not_le.1 h])] at hX
    rw [hX]
    refine ⟨rfl, fun h3 => absurd h3 h, fun _ => rfl, ?_⟩
    show BeginPlot.timeBound c t flags r.Max - BeginPlot.timeBound c t flags r.Min > 1
    linarith [not_le.1 h]

/-- Witness of C13: in binary64 an x axis with the Time flag whose incoming range is the
empty range at 1 600 000 000 000 000 microseconds ends as that bound and the bound plus
exactly 2 microseconds. -/
theorem C13_time_span_widened_to_two_microseconds_witness :
    ImHasFlag 263 ImPlotAxisFlags_Time = true ∧
    exampleTimeEnv.ImTimeUnits_Size ImTimeUnit_US = 1 ∧
    BeginPlot.timeBound exampleLimits exampleTimeEnv 263
      (ImDouble.finite 1600000000000000) = 1600000000000000 ∧
    ((BeginPlot.constrainX exampleLimits exampleTimeEnv 263
        { Min := ImDouble.finite 1600000000000000,
          Max := ImDouble.finite 1600000000000000 }).Min
      = BeginPlot.timeBound exampleLimits exampleTimeEnv 263 (ImDouble.finite 1600000000000000) ∧
    (BeginPlot.timeBound exampleLimits exampleTimeEnv 263 (ImDouble.finite 1600000000000000)
        ≤ BeginPlot.timeBound exampleLimits exampleTimeEnv 263
          (ImDouble.finite 1600000000000000) + 1 →
      (BeginPlot.constrainX exampleLimits exampleTimeEnv 263
        { Min := ImDouble.finite 1600000000000000,
          Max := ImDouble.finite 1600000000000000 }).Max
      = BeginPlot.timeBound exampleLimits exampleTimeEnv 263
          (ImDouble.finite 1600000000000000) + 2) ∧
    (BeginPlot.timeBound exampleLimits exampleTimeEnv 263
          (ImDouble.finite 1600000000000000) + 1
        < BeginPlot.timeBound exampleLimits exampleTimeEnv 263
          (ImDouble.finite 1600000000000000) →
      (BeginPlot.constrainX exampleLimits exampleTimeEnv 263
        { Min := ImDouble.finite 1600000000000000,
          Max := ImDouble.finite 1600000000000000 }).Max
      = BeginPlot.timeBound exampleLimits exampleTimeEnv 263
          (ImDouble.finite 1600000000000000)) ∧
    (BeginPlot.constrainX exampleLimits exampleTimeEnv 263
        { Min := ImDouble.finite 1600000000000000,
          Max := ImDouble.finite 1600000000000000 }).Max
      - (BeginPlot.constrainX exampleLimits exampleTimeEnv 263
        { Min := ImDouble.finite 1600000000000000,
          Max := ImDouble.finite 1600000000000000 }).Min > 1) :=
  ⟨by decide, by decide, by decide!,
    C13_time_span_widened_to_two_microseconds exampleLimits exampleTimeEnv 263
      { Min := ImDouble.finite 1600000000000000, Max := ImDouble.finite 1600000000000000 }
      (by decide) (by decide) (by decide!) (by decide!)⟩


/-! ### The Begin/End bracket -/

theorem Reset_CurrentPlot {K : Type} (g : ImPlotGlobal K) : (Reset g).CurrentPlot = none := rfl

theorem Reset_NextPlotData {K : Type} (g : ImPlotGlobal K) :
    (Reset g).NextPlotData = ImPlotNextPlotData.new := rfl

theorem Reset_XTicks {K : Type} (g : ImPlotGlobal K) : (Reset g).XTicks = [] := rfl

theorem Reset_YTicks {K : Type} (g : ImPlotGlobal K) (i : Fin 3) : (Reset g).YTicks i = [] := rfl

/-- BeginPlot inside a bracket fails its check. -/
theorem BeginPlot_nested {K : Type} [LinearOrderedField K] (e : ImPlotInternal K)
    (h : BeginPlotHost K) (ID flags x_flags y_flags y2_flags y3_flags : ℕ) (g : ImPlotGlobal K)
    (hc : g.CurrentPlot ≠ none) :
    BeginPlot e h ID flags x_flags y_flags y2_flags y3_flags g
      = Except.error (ImPlotFault.usage "Mismatched BeginPlot()/EndPlot()!") := by
  unfold BeginPlot IM_ASSERT_USER_ERROR
  cases hcp : g.CurrentPlot with
  | none => exact absurd hcp hc
  | some ID => rfl

/-- BeginPlot outside a bracket returns: false with the context reset when the window
skips items or the item is not added, and true with the plot current otherwise. -/
theorem BeginPlot_returns {K : Type} [LinearOrderedField K] (e : ImPlotInternal K)
    (h : BeginPlotHost K) (ID flags x_flags y_flags y2_flags y3_flags : ℕ) (g : ImPlotGlobal K)
    (hc : g.CurrentPlot = none) :
    ∃ g' : ImPlotGlobal K,
      BeginPlot e h ID flags x_flags y_flags y2_flags y3_flags g
        = Except.ok (!h.SkipItems && h.ItemAdd, g') ∧
      g'.CurrentPlot = (if (!h.SkipItems && h.ItemAdd) = true then some ID else none) ∧
      ((!h.SkipItems && h.ItemAdd) = false →
        g'.NextPlotData = ImPlotNextPlotData.new ∧ g'.XTicks = [] ∧ ∀ i, g'.YTicks i = []) ∧
      ((!h.SkipItems && h.ItemAdd) = true →
        g'.NextPlotData = g.NextPlotData ∧
        (∀ tk ∈ g.XTicks, tk.PlotPos ∈ g'.XTicks.map (fun tk => tk.PlotPos)) ∧
        (∀ i, ∀ tk ∈ g.YTicks i, tk.PlotPos ∈ (g'.YTicks i).map (fun tk => tk.PlotPos))) := by
  unfold BeginPlot IM_ASSERT_USER_ERROR
  rw [hc]
  simp only [Option.isNone_none, if_true]
  cases hs : h.SkipItems with
  | true =>
    refine ⟨_, rfl, rfl, fun _ => ⟨rfl, rfl, fun _ => rfl⟩, fun hh => absurd hh (by simp)⟩
  | false =>
    cases hi : h.ItemAdd with
    | false =>
      refine ⟨_, rfl, rfl, fun _ => ⟨rfl, rfl, fun _ => rfl⟩, fun hh => absurd hh (by simp)⟩
    | true =>
      refine ⟨_, rfl, rfl, fun hh => absurd hh (by simp), fun _ => ⟨rfl, ?_, ?_⟩⟩
      · intro tk htk
        simp only [ImPlotGlobal.setPlot, LabelTicks]
        split_ifs <;> simp only [List.map_map, List.map_append, List.mem_append, List.mem_map,
          Function.comp] <;> first
          | exact ⟨tk, htk, rfl⟩
          | exact Or.inl ⟨tk, htk, rfl⟩
          | exact ⟨tk, htk, by split_ifs <;> rfl⟩
          | exact Or.inl ⟨tk, htk, by split_ifs <;> rfl⟩
      · intro i tk htk
        simp only [ImPlotGlobal.setPlot, LabelTicks]
        split_ifs <;> simp only [List.map_map, List.map_append, List.mem_append, List.mem_map,
          Function.comp] <;> first
          | exact ⟨tk, htk, rfl⟩
          | exact Or.inl ⟨tk, htk, rfl⟩
          | exact ⟨tk, htk, by split_ifs <;> rfl⟩
          | exact Or.inl ⟨tk, htk, by split_ifs <;> rfl⟩

/-- EndPlot outside a bracket fails its check; inside a bracket it returns and leaves
the context reset. -/
theorem EndPlot_returns {K : Type} [LinearOrderedField K] (h : EndPlotHost K)
    (g : ImPlotGlobal K) :
    (g.CurrentPlot = none →
      EndPlot h g = Except.error (ImPlotFault.usage "Mismatched BeginPlot()/EndPlot()!")) ∧
    (g.CurrentPlot ≠ none →
      ∃ g' : ImPlotGlobal K, EndPlot h g = Except.ok g' ∧ g'.CurrentPlot = none ∧
        g'.NextPlotData = ImPlotNextPlotData.new ∧ g'.XTicks = [] ∧ ∀ i, g'.YTicks i = []) := by
  unfold EndPlot
  cases hcp : g.CurrentPlot with
  | none => exact ⟨fun _ => rfl, fun hh => absurd rfl hh⟩
  | some ID =>
    exact ⟨fun hh => absurd hh (by simp), fun _ => ⟨_, rfl, rfl, rfl, rfl, fun _ => rfl⟩⟩

theorem SetNextPlotLimitsX_ok {K : Type} (x_min x_max : ImDouble K) (cond : ℕ)
    (g : ImPlotGlobal K) (hc : g.CurrentPlot = none)
    (hcond : (cond == 0 || ImIsPowerOfTwo cond) = true) :
    SetNextPlotLimitsX x_min x_max cond g
      = Except.ok { g with NextPlotData := { g.NextPlotData with
          HasXRange := true
          XRangeCond := cond
          X := { Min := x_min, Max := x_max } } } := by
  unfold SetNextPlotLimitsX IM_ASSERT_USER_ERROR
  rw [hc, hcond]
  rfl

theorem yAxisEntry_fin {α : Type} (arr : Fin 3 → α) (i : Fin 3) :
    yAxisEntry arr ((i : ℕ) : ℤ) = Except.ok (arr i) := by
  fin_cases i <;> rfl

theorem SetNextPlotLimitsY_ok {K : Type} (y_min y_max : ImDouble K) (cond : ℕ) (i : Fin 3)
    (g : ImPlotGlobal K) (hc : g.CurrentPlot = none)
    (hcond : (cond == 0 || ImIsPowerOfTwo cond) = true) :
    SetNextPlotLimitsY y_min y_max cond ((i : ℕ) : ℤ) g
      = Except.ok { g with NextPlotData := { g.NextPlotData with
          HasYRange := Function.update g.NextPlotData.HasYRange i true
          YRangeCond := Function.update g.NextPlotData.YRangeCond i cond
          Y := Function.update g.NextPlotData.Y i { Min := y_min, Max := y_max } } } := by
  unfold SetNextPlotLimitsY IM_ASSERT_USER_ERROR
  rw [hc, hcond, yAxisEntry_fin]
  have h1 : (decide (((i : ℕ) : ℤ) ≥ 0) && decide (((i : ℕ) : ℤ) < 3)) = true := by
    fin_cases i <;> decide
  simp only [Option.isNone_none, if_true, h1]

theorem nextRange_eq {K : Type} (just_created : Bool) (cond : ℕ)
    (pending stored : ImPlotRange (ImDouble K)) :
    BeginPlot.nextRange just_created true cond pending stored
      = if just_created = true ∨ cond = ImGuiCond_Always then pending else stored := by
  unfold BeginPlot.nextRange
  cases just_created <;> by_cases hc : cond = ImGuiCond_Always <;> simp [hc]

theorem nextRange_none {K : Type} (just_created : Bool) (cond : ℕ)
    (pending stored : ImPlotRange (ImDouble K)) :
    BeginPlot.nextRange just_created false cond pending stored = stored := by
  unfold BeginPlot.nextRange
  simp


/-- C14. The Begin/End bracket on the context.  Inside a bracket (`CurrentPlot` not
null) BeginPlot fails the usage check and EndPlot returns and leaves `CurrentPlot` null;
outside a bracket EndPlot fails the usage check and BeginPlot returns, with `CurrentPlot`
non-null exactly when it returns true (it returns false, with `CurrentPlot` null, when the
window skips items or the item is not added).  The set-next calls work outside a bracket
only and SetPlotYAxis inside only, and they leave `CurrentPlot` as it is. -/
theorem C14_bracket_state_machine {K : Type} [LinearOrderedField K] (e : ImPlotInternal K)
    (h : BeginPlotHost K) (he : EndPlotHost K)
    (ID flags x_flags y_flags y2_flags y3_flags : ℕ) (g : ImPlotGlobal K) :
    (g.CurrentPlot ≠ none →
      BeginPlot e h ID flags x_flags y_flags y2_flags y3_flags g
        = Except.error (ImPlotFault.usage "Mismatched BeginPlot()/EndPlot()!") ∧
      ∃ g' : ImPlotGlobal K, EndPlot he g = Except.ok g' ∧ g'.CurrentPlot = none) ∧
    (g.CurrentPlot = none →
      EndPlot he g = Except.error (ImPlotFault.usage "Mismatched BeginPlot()/EndPlot()!") ∧
      ∃ (b : Bool) (g' : ImPlotGlobal K),
        BeginPlot e h ID flags x_flags y_flags y2_flags y3_flags g = Except.ok (b, g') ∧
        b = (!h.SkipItems && h.ItemAdd) ∧ (g'.CurrentPlot ≠ none ↔ b = true)) ∧
    (∀ (x_min x_max : ImDouble K) (cond : ℕ) (y_axis : ℤ) (g' : ImPlotGlobal K),
      (SetNextPlotLimitsX x_min x_max cond g = Except.ok g' ∨
        SetNextPlotLimitsY x_min x_max cond y_axis g = Except.ok g') →
      g.CurrentPlot = none ∧ g'.CurrentPlot = none) ∧
    (∀ (values : List K) (labels show_default : Bool) (y_axis : ℤ) (g' : ImPlotGlobal K),
      (SetNextPlotTicksX values labels show_default g = Except.ok g' ∨
        SetNextPlotTicksY values labels show_default y_axis g = Except.ok g') →
      g.CurrentPlot = none ∧ g'.CurrentPlot = none) ∧
    (∀ (y_axis : ℤ) (g' : ImPlotGlobal K), SetPlotYAxis y_axis g = Except.ok g' →
      g.CurrentPlot ≠ none ∧ g'.CurrentPlot = g.CurrentPlot) := by
  refine ⟨fun hc => ⟨BeginPlot_nested e h ID flags x_flags y_flags y2_flags y3_flags g hc, ?_⟩,
    fun hc => ⟨(EndPlot_returns he g).1 hc, ?_⟩, ?_, ?_, ?_⟩
  · obtain ⟨g', h1, h2, -⟩ := (EndPlot_returns he g).2 hc
    exact ⟨g', h1, h2⟩
  · obtain ⟨g', h1, h2, -⟩ :=
      BeginPlot_returns e h ID flags x_flags y_flags y2_flags y3_flags g hc
    refine ⟨_, g', h1, rfl, ?_⟩
    rw [h2]
    cases (!h.SkipItems && h.ItemAdd) <;> simp
  · intro x_min x_max cond y_axis g' hh
    cases hcp : g.CurrentPlot with
    | some ID' =>
      rcases hh with hh | hh
      · simp [SetNextPlotLimitsX, IM_ASSERT_USER_ERROR, hcp] at hh
      · simp [SetNextPlotLimitsY, IM_ASSERT_USER_ERROR, hcp] at hh
    | none =>
      refine ⟨rfl, ?_⟩
      rcases hh with hh | hh
      · unfold SetNextPlotLimitsX IM_ASSERT_USER_ERROR at hh
        rw [hcp] at hh
        simp only [Option.isNone_none, if_true] at hh
        split at hh
        · exact absurd hh (by simp)
        · injection hh with hh
          rw [← hh]
      · unfold SetNextPlotLimitsY IM_ASSERT_USER_ERROR at hh
        rw [hcp] at hh
        simp only [Option.isNone_none, if_true] at hh
        split at hh
        · exact absurd hh (by simp)
        · split at hh
          · exact absurd hh (by simp)
          · split at hh
            · exact absurd hh (by simp)
            · injection hh with hh
              rw [← hh]
  · intro values labels show_default y_axis g' hh
    cases hcp : g.CurrentPlot with
    | some ID' =>
      rcases hh with hh | hh
      · simp [SetNextPlotTicksX, IM_ASSERT_USER_ERROR, hcp] at hh
      · simp [SetNextPlotTicksY, IM_ASSERT_USER_ERROR, hcp] at hh
    | none =>
      refine ⟨rfl, ?_⟩
      rcases hh with hh | hh
      · unfold SetNextPlotTicksX IM_ASSERT_USER_ERROR at hh
        rw [hcp] at hh
        simp only [Option.isNone_none, if_true] at hh
        injection hh with hh
        rw [← hh]
      · unfold SetNextPlotTicksY IM_ASSERT_USER_ERROR at hh
        rw [hcp] at hh
        simp only [Option.isNone_none, if_true] at hh
        split at hh
        · exact absurd hh (by simp)
        · split at hh
          · exact absurd hh (by simp)
          · injection hh with hh
            rw [← hh]
  · intro y_axis g' hh
    unfold SetPlotYAxis at hh
    cases hcp : g.CurrentPlot with
    | none =>
      rw [hcp] at hh
      exact absurd hh (by simp)
    | some ID' =>
      rw [hcp] at hh
      refine ⟨by simp, ?_⟩
      simp only at hh
      split at hh
      · exact absurd hh (by simp)
      · split at hh
        · exact absurd hh (by simp)
        · injection hh with hh
          rw [← hh]
          exact hcp.symm ▸ rfl

/-- Witness of C14: on the example context outside a bracket EndPlot fails its check and
BeginPlot returns; on the example context inside a bracket BeginPlot fails its check and
EndPlot returns. -/
theorem C14_bracket_state_machine_witness :
    (exampleGlobal.CurrentPlot = none ∧
      EndPlot exampleEndHost exampleGlobal
        = Except.error (ImPlotFault.usage "Mismatched BeginPlot()/EndPlot()!") ∧
      ∃ (b : Bool) (g' : ImPlotGlobal ℚ),
        BeginPlot exampleInternal exampleHost 1 0 7 7 7 7 exampleGlobal = Except.ok (b, g') ∧
        b = (!exampleHost.SkipItems && exampleHost.ItemAdd) ∧
        (g'.CurrentPlot ≠ none ↔ b = true)) ∧
    (insideExampleGlobal.CurrentPlot ≠ none ∧
      BeginPlot exampleInternal exampleHost 1 0 7 7 7 7 insideExampleGlobal
        = Except.error (ImPlotFault.usage "Mismatched BeginPlot()/EndPlot()!") ∧
      ∃ g' : ImPlotGlobal ℚ, EndPlot exampleEndHost insideExampleGlobal = Except.ok g' ∧
        g'.CurrentPlot = none) :=
  ⟨⟨rfl, (C14_bracket_state_machine exampleInternal exampleHost exampleEndHost 1 0 7 7 7 7
      exampleGlobal).2.1 rfl⟩,
    ⟨by decide, (C14_bracket_state_machine exampleInternal exampleHost exampleEndHost 1 0 7 7 7 7
      insideExampleGlobal).1 (by decide)⟩⟩

/-- The query drag leaves the axes and the selection flag alone. -/
theorem queryDrag_quiet {K : Type} [LinearOrderedField K] (inp : ImGuiInput K)
    (hov_legend hov_query : Bool) (gp : ImPlotContext K) (plot : ImPlotState K) :
    (BeginPlot.queryDrag inp hov_legend hov_query gp plot).XAxis = plot.XAxis ∧
    (BeginPlot.queryDrag inp hov_legend hov_query gp plot).YAxis = plot.YAxis ∧
    (BeginPlot.queryDrag inp hov_legend hov_query gp plot).Selecting = plot.Selecting := by
  unfold BeginPlot.queryDrag
  simp only
  refine ⟨?_, ?_, ?_⟩ <;> split_ifs <;> rfl

theorem setYDragging_quiet {K : Type} (p : ImPlotState K) (i : Fin 3) (b : Bool) :
    (p.setYDragging i b).XAxis = p.XAxis ∧
    (∀ j, ((p.setYDragging i b).YAxis j).Range = (p.YAxis j).Range) ∧
    (p.setYDragging i b).Selecting = p.Selecting := by
  refine ⟨rfl, fun j => ?_, rfl⟩
  by_cases hj : j = i
  · subst hj
    simp only [ImPlotState.setYDragging, Function.update_same]
  · simp only [ImPlotState.setYDragging, Function.update_noteq hj]

/-- With no axis being dragged, the drag section leaves the context, the ranges and the
selection flag alone. -/
theorem dragInput_quiet {K : Type} [LinearOrderedField K] (m : ImMath K) (inp : ImGuiInput K)
    (hov_legend hov_query : Bool) (gp : ImPlotContext K) (plot : ImPlotState K)
    (hdx : plot.XAxis.Dragging = false) (hdy : ∀ i, (plot.YAxis i).Dragging = false) :
    (BeginPlot.dragInput m inp hov_legend hov_query gp plot).1 = gp ∧
    (BeginPlot.dragInput m inp hov_legend hov_query gp plot).2.XAxis.Range
      = plot.XAxis.Range ∧
    (∀ i, ((BeginPlot.dragInput m inp hov_legend hov_query gp plot).2.YAxis i).Range
      = (plot.YAxis i).Range) ∧
    (BeginPlot.dragInput m inp hov_legend hov_query gp plot).2.Selecting = plot.Selecting := by
  have he : BeginPlot.endDrags inp gp plot = plot := by
    unfold BeginPlot.endDrags forYAxes
    simp only [hdx, hdy, Bool.false_and, Bool.false_eq_true, if_false]
  have ha : BeginPlot.anyYDragging plot = false := by
    unfold BeginPlot.anyYDragging
    simp only [hdy, Bool.or_self]
  unfold BeginPlot.dragInput
  simp only [he, ha, hdx, Bool.or_self, Bool.false_eq_true, if_false, Bool.not_false,
    Bool.true_and]
  generalize (gp.Hov_Frame && inp.MouseClicked gp.InputMap.PanButton &&
    ImHasFlag inp.KeyMods gp.InputMap.PanMod && !plot.Selecting && !hov_legend &&
    !hov_query && !plot.DraggingQuery) = c
  cases c
  · exact ⟨trivial, rfl, fun _ => rfl, rfl⟩
  · simp only [if_true]
    unfold forYAxes
    dsimp only
    generalize hp1 : (if plot.XAxis.HoveredTot = true then plot.setXDragging true else plot)
      = p1
    have h1 : p1.XAxis.Range = plot.XAxis.Range ∧
        (∀ i, (p1.YAxis i).Range = (plot.YAxis i).Range) ∧ p1.Selecting = plot.Selecting := by
      rw [← hp1]
      split_ifs
      · exact ⟨rfl, fun _ => rfl, rfl⟩
      · exact ⟨rfl, fun _ => rfl, rfl⟩
    have step : ∀ (i : Fin 3) (p : ImPlotState K),
        (if (p.YAxis i).HoveredTot = true then p.setYDragging i true else p).XAxis.Range
          = p.XAxis.Range ∧
        (∀ j, ((if (p.YAxis i).HoveredTot = true then p.setYDragging i true else p).YAxis
          j).Range = (p.YAxis j).Range) ∧
        (if (p.YAxis i).HoveredTot = true then p.setYDragging i true else p).Selecting
          = p.Selecting := by
      intro i p
      split_ifs
      · obtain ⟨a, b, c⟩ := setYDragging_quiet p i true
        exact ⟨by rw [a], b, c⟩
      · exact ⟨rfl, fun _ => rfl, rfl⟩
    obtain ⟨a0, b0, c0⟩ := step 0 p1
    generalize (if (p1.YAxis 0).HoveredTot = true then p1.setYDragging 0 true else p1) = p2
      at a0 b0 c0 ⊢
    obtain ⟨a1, b1, c1⟩ := step 1 p2
    generalize (if (p2.YAxis 1).HoveredTot = true then p2.setYDragging 1 true else p2) = p3
      at a1 b1 c1 ⊢
    obtain ⟨a2, b2, c2⟩ := step 2 p3
    refine ⟨trivial, ?_, fun i => ?_, ?_⟩
    · rw [a2, a1, a0, h1.1]
    · rw [b2, b1, b0, h1.2.1]
    · rw [c2, c1, c0, h1.2.2]

/-- Without a turn of the wheel the scroll section does nothing. -/
theorem scrollInput_quiet {K : Type} [LinearOrderedField K] (env : ImPlotEnv K)
    (inp : ImGuiInput K) (b : Bool) (gp : ImPlotContext K) (plot : ImPlotState K)
    (hw : inp.MouseWheel = 0) :
    BeginPlot.scrollInput env inp b gp plot = (gp, plot) := by
  unfold BeginPlot.scrollInput
  simp [hw]

/-- Without a selection in progress the confirmation of a selection does nothing. -/
theorem confirmSelection_quiet {K : Type} [LinearOrderedField K] (m : ImMath K)
    (inp : ImGuiInput K) (gp : ImPlotContext K) (plot : ImPlotState K)
    (hsel : plot.Selecting = false) :
    BeginPlot.confirmSelection m inp gp plot = (gp, plot) := by
  unfold BeginPlot.confirmSelection
  simp [hsel]

/-- In a call without a turn of the wheel, on a plot with no selection in progress and
no axis being dragged, the interaction pass of BeginPlot leaves every range as it is. -/
theorem interaction_ranges_quiet {K : Type} [LinearOrderedField K] (env : ImPlotEnv K)
    (inp : ImGuiInput K) (gp : ImPlotContext K) (plot : ImPlotState K)
    (hw : inp.MouseWheel = 0) (hsel : plot.Selecting = false)
    (hdx : plot.XAxis.Dragging = false) (hdy : ∀ i, (plot.YAxis i).Dragging = false) :
    (BeginPlot.interaction env inp gp plot).2.XAxis.Range = plot.XAxis.Range ∧
    ∀ i, ((BeginPlot.interaction env inp gp plot).2.YAxis i).Range = (plot.YAxis i).Range := by
  unfold BeginPlot.interaction
  simp only
  obtain ⟨q1, q2, q3⟩ := queryDrag_quiet inp (BeginPlot.hovLegend inp gp plot)
    (BeginPlot.hovQuery inp gp plot) gp plot
  generalize BeginPlot.queryDrag inp (BeginPlot.hovLegend inp gp plot)
    (BeginPlot.hovQuery inp gp plot) gp plot = p1 at q1 q2 q3 ⊢
  obtain ⟨d0, d1, d2, d3⟩ := dragInput_quiet env.math inp (BeginPlot.hovLegend inp gp plot)
    (BeginPlot.hovQuery inp gp plot) gp p1 (by rw [q1]; exact hdx)
    (fun i => by rw [q2]; exact hdy i)
  generalize BeginPlot.dragInput env.math inp (BeginPlot.hovLegend inp gp plot)
    (BeginPlot.hovQuery inp gp plot) gp p1 = drag at d0 d1 d2 d3 ⊢
  rw [scrollInput_quiet env inp _ drag.1 drag.2 hw,
    confirmSelection_quiet env.math inp drag.1 drag.2 (by rw [d3, q3]; exact hsel)]
  obtain ⟨-, -, s1, s2⟩ := selectAndQuery_kept env.math inp drag.1 drag.2
  refine ⟨?_, fun i => ?_⟩
  · rw [s1, d1, q1]
  · rw [s2, d2, q2]

/-- The flags section of BeginPlot leaves the ranges, the selection flag and the drag
flags alone. -/
theorem updateFlags_quiet {K : Type} (jc : Bool) (flags x_flags y_flags y2_flags y3_flags : ℕ)
    (p : ImPlotState K) :
    (BeginPlot.updateFlags jc flags x_flags y_flags y2_flags y3_flags p).XAxis.Range
      = p.XAxis.Range ∧
    (∀ i, ((BeginPlot.updateFlags jc flags x_flags y_flags y2_flags y3_flags p).YAxis i).Range
      = (p.YAxis i).Range) ∧
    (BeginPlot.updateFlags jc flags x_flags y_flags y2_flags y3_flags p).Selecting
      = p.Selecting ∧
    (BeginPlot.updateFlags jc flags x_flags y_flags y2_flags y3_flags p).XAxis.Dragging
      = p.XAxis.Dragging ∧
    (∀ i, ((BeginPlot.updateFlags jc flags x_flags y_flags y2_flags y3_flags p).YAxis
      i).Dragging = (p.YAxis i).Dragging) := by
  unfold BeginPlot.updateFlags
  cases jc
  · simp only [Bool.false_eq_true, if_false]
    refine ⟨?_, fun i => ?_, ?_, ?_, fun i => ?_⟩
    · split_ifs <;> rfl
    · have hi : i = 0 ∨ i = 1 ∨ i = 2 := by fin_cases i <;> simp
      rcases hi with rfl | rfl | rfl <;> split_ifs <;> rfl
    · split_ifs <;> rfl
    · split_ifs <;> rfl
    · have hi : i = 0 ∨ i = 1 ∨ i = 2 := by fin_cases i <;> simp
      rcases hi with rfl | rfl | rfl <;> split_ifs <;> rfl
  · simp only [if_true]
    refine ⟨rfl, fun i => ?_, rfl, rfl, fun i => ?_⟩
    · have hi : i = 0 ∨ i = 1 ∨ i = 2 := by fin_cases i <;> simp
      rcases hi with rfl | rfl | rfl <;> rfl
    · have hi : i = 0 ∨ i = 1 ∨ i = 2 := by fin_cases i <;> simp
      rcases hi with rfl | rfl | rfl <;> rfl

/-- BeginPlot outside a bracket, in a window that does not skip items: it returns the
result of `ItemAdd`, and the ranges of the plot it leaves in the pool are those of its
NextPlotData section and constraint pass, under the flags the plot has then.  When the
item is added this needs a call whose interaction pass has nothing to do: no turn of the
wheel, no selection in progress and no axis being dragged. -/
theorem BeginPlot_ranges_quiet {K : Type} [LinearOrderedField K] (e : ImPlotInternal K)
    (h : BeginPlotHost K) (ID flags x_flags y_flags y2_flags y3_flags : ℕ) (g : ImPlotGlobal K)
    (hc : g.CurrentPlot = none) (hs : h.SkipItems = false)
    (hq : h.ItemAdd = true → h.inp.MouseWheel = 0 ∧
      (BeginPlot.getPlot e g ID).Selecting = false ∧
      (BeginPlot.getPlot e g ID).XAxis.Dragging = false ∧
      ∀ i, ((BeginPlot.getPlot e g ID).YAxis i).Dragging = false) :
    ∃ g2 : ImPlotGlobal K,
      BeginPlot e h ID flags x_flags y_flags y2_flags y3_flags g = Except.ok (h.ItemAdd, g2) ∧
      (g2.Plots ID).XAxis.Range
        = BeginPlot.constrainX e.limits e.time (g2.Plots ID).XAxis.Flags
            (BeginPlot.nextRange (!g.PlotExists ID) g.NextPlotData.HasXRange
              g.NextPlotData.XRangeCond g.NextPlotData.X
              (BeginPlot.getPlot e g ID).XAxis.Range.ofNumbers) ∧
      (∀ i : Fin 3, ((g2.Plots ID).YAxis i).Range
        = BeginPlot.constrainY e.limits ((g2.Plots ID).YAxis i).Flags
            (BeginPlot.nextRange (!g.PlotExists ID) (g.NextPlotData.HasYRange i)
              (g.NextPlotData.YRangeCond i) (g.NextPlotData.Y i)
              ((BeginPlot.getPlot e g ID).YAxis i).Range.ofNumbers)) ∧
      g2.NextPlotData = (if h.ItemAdd = true then g.NextPlotData else ImPlotNextPlotData.new) ∧
      g2.CurrentPlot = (if h.ItemAdd = true then some ID else none) := by
  obtain ⟨u1, u2, u3, u4, u5⟩ := updateFlags_quiet (!g.PlotExists ID) flags x_flags y_flags
    y2_flags y3_flags ({ BeginPlot.getPlot e g ID with CurrentYAxis := 0 })
  have hP : BeginPlot.updateFlags (!g.PlotExists ID) flags x_flags y_flags y2_flags y3_flags
      ({ (if (!g.PlotExists ID) = true then e.NewPlot else g.Plots ID) with CurrentYAxis := 0 })
      = BeginPlot.updateFlags (!g.PlotExists ID) flags x_flags y_flags y2_flags y3_flags
      ({ BeginPlot.getPlot e g ID with CurrentYAxis := 0 }) := rfl
  unfold BeginPlot IM_ASSERT_USER_ERROR
  rw [hc]
  simp only [Option.isNone_none, if_true, hs, Bool.false_eq_true, if_false]
  rw [hP]
  generalize BeginPlot.updateFlags (!g.PlotExists ID) flags x_flags y_flags y2_flags y3_flags
      ({ BeginPlot.getPlot e g ID with CurrentYAxis := 0 }) = P at u1 u2 u3 u4 u5 ⊢
  have r1 : (BeginPlot.ranges e.limits e.time (!g.PlotExists ID) g.NextPlotData P).XAxis.Range
      = BeginPlot.constrainX e.limits e.time P.XAxis.Flags
          (BeginPlot.nextRange (!g.PlotExists ID) g.NextPlotData.HasXRange
            g.NextPlotData.XRangeCond g.NextPlotData.X
            (BeginPlot.getPlot e g ID).XAxis.Range.ofNumbers) := by
    show BeginPlot.constrainX _ _ _ _ = _
    rw [u1]
  have r2 : ∀ i : Fin 3,
      ((BeginPlot.ranges e.limits e.time (!g.PlotExists ID) g.NextPlotData P).YAxis i).Range
      = BeginPlot.constrainY e.limits (P.YAxis i).Flags
          (BeginPlot.nextRange (!g.PlotExists ID) (g.NextPlotData.HasYRange i)
            (g.NextPlotData.YRangeCond i) (g.NextPlotData.Y i)
            ((BeginPlot.getPlot e g ID).YAxis i).Range.ofNumbers) := by
    intro i
    show BeginPlot.constrainY _ _ _ = _
    rw [u2]
  have r3 : (BeginPlot.ranges e.limits e.time (!g.PlotExists ID) g.NextPlotData P).XAxis.Flags
      = P.XAxis.Flags := rfl
  have r4 : ∀ i : Fin 3,
      ((BeginPlot.ranges e.limits e.time (!g.PlotExists ID) g.NextPlotData P).YAxis i).Flags
      = (P.YAxis i).Flags := fun _ => rfl
  have r5 : (BeginPlot.ranges e.limits e.time (!g.PlotExists ID) g.NextPlotData P).Selecting
      = P.Selecting := rfl
  have r6 : (BeginPlot.ranges e.limits e.time (!g.PlotExists ID) g.NextPlotData P).XAxis.Dragging
      = P.XAxis.Dragging := rfl
  have r7 : ∀ i : Fin 3,
      ((BeginPlot.ranges e.limits e.time (!g.PlotExists ID) g.NextPlotData P).YAxis i).Dragging
      = (P.YAxis i).Dragging := fun _ => rfl
  generalize BeginPlot.ranges e.limits e.time (!g.PlotExists ID) g.NextPlotData P = R
    at r1 r2 r3 r4 r5 r6 r7 ⊢
  cases hi : h.ItemAdd with
  | false =>
    simp only [Bool.not_false, if_true, Bool.false_eq_true, if_false]
    refine ⟨_, rfl, ?_, fun i => ?_, rfl, rfl⟩
    · simp only [Reset, ImPlotGlobal.setPlot, Function.update_same]
      rw [r3]
      exact r1
    · simp only [Reset, ImPlotGlobal.setPlot, Function.update_same]
      rw [r4]
      exact r2 i
  | true =>
    obtain ⟨hw, q1, q2, q3⟩ := hq hi
    simp only [Bool.not_true, Bool.false_eq_true, if_false, if_true]
    generalize hgp : ({ BeginPlot.axisStates g.gp P g.NextPlotData.HasXRange
        g.NextPlotData.XRangeCond g.NextPlotData.HasYRange g.NextPlotData.YRangeCond with
        Hov_Frame := h.Hov_Frame, BB_Plot := h.BB_Plot,
        Hov_Plot := h.BB_Plot.Contains h.inp.MousePos } : ImPlotContext K) = gp1
    have hI := interaction_ranges_quiet e.env h.inp gp1
      (BeginPlot.hover gp1 h.inXRegion h.inYRegion R) hw
      (by show R.Selecting = false; rw [r5, u3]; exact q1)
      (by show R.XAxis.Dragging = false; rw [r6, u4]; exact q2)
      (fun i => by show (R.YAxis i).Dragging = false; rw [r7, u5]; exact q3 i)
    have hK := interaction_kept e.env h.inp gp1 (BeginPlot.hover gp1 h.inXRegion h.inYRegion R)
    refine ⟨_, rfl, ?_, fun i => ?_, rfl, rfl⟩
    · simp only [ImPlotGlobal.setPlot, Function.update_same]
      rw [hI.1, hK.1.1]
      show R.XAxis.Range = BeginPlot.constrainX _ _ R.XAxis.Flags _
      rw [r3]
      exact r1
    · simp only [ImPlotGlobal.setPlot, Function.update_same]
      rw [hI.2 i, (hK.2 i).1]
      show (R.YAxis i).Range = BeginPlot.constrainY _ (R.YAxis i).Flags _
      rw [r4]
      exact r2 i

/-- C11. Set-next-range persistence.  `SetNextPlotLimitsX(min, max, cond)`, and
`SetNextPlotLimitsY(min, max, cond, i)` for the y axis `i`, is called outside a bracket
with a valid condition, and BeginPlot follows for the plot `ID` in a window that does not
skip items.  BeginPlot returns the result of `ItemAdd`, and the range of that axis which
it leaves in the pool is the sanitised `{min, max}` when the plot was just created or
`cond` is `ImGuiCond_Always`, and the sanitised stored range otherwise.  When the item is
added the interaction pass of the same call runs after the replacement, so the call is one
in which it has nothing to do: no turn of the wheel, no selection in progress, no axis
being dragged.  The pending data are those of a new `ImPlotNextPlotData` after a BeginPlot
that returns false, whatever the reason, and after the EndPlot that follows a BeginPlot
that returns true; and a BeginPlot with nothing pending leaves every axis with its
sanitised stored range. -/
theorem C11_set_next_range_persistence {K : Type} [LinearOrderedField K]
    (e : ImPlotInternal K) (h : BeginPlotHost K) (he : EndPlotHost K)
    (ID flags x_flags y_flags y2_flags y3_flags : ℕ)
    (min max : ImDouble K) (cond : ℕ) (g : ImPlotGlobal K)
    (hc : g.CurrentPlot = none) (hcond : (cond == 0 || ImIsPowerOfTwo cond) = true)
    (hs : h.SkipItems = false)
    (hq : h.ItemAdd = true → h.inp.MouseWheel = 0 ∧
      (BeginPlot.getPlot e g ID).Selecting = false ∧
      (BeginPlot.getPlot e g ID).XAxis.Dragging = false ∧
      ∀ i, ((BeginPlot.getPlot e g ID).YAxis i).Dragging = false) :
    (∃ g1 g2 : ImPlotGlobal K, SetNextPlotLimitsX min max cond g = Except.ok g1 ∧
      BeginPlot e h ID flags x_flags y_flags y2_flags y3_flags g1 = Except.ok (h.ItemAdd, g2) ∧
      (g2.Plots ID).XAxis.Range
        = BeginPlot.constrainX e.limits e.time (g2.Plots ID).XAxis.Flags
            (if g.PlotExists ID = false ∨ cond = ImGuiCond_Always then { Min := min, Max := max }
              else (g.Plots ID).XAxis.Range.ofNumbers) ∧
      (h.ItemAdd = false → g2.NextPlotData = ImPlotNextPlotData.new) ∧
      (h.ItemAdd = true → ∃ g3 : ImPlotGlobal K, EndPlot he g2 = Except.ok g3 ∧
        g3.NextPlotData = ImPlotNextPlotData.new)) ∧
    (∀ i : Fin 3, ∃ g1 g2 : ImPlotGlobal K,
      SetNextPlotLimitsY min max cond ((i : ℕ) : ℤ) g = Except.ok g1 ∧
      BeginPlot e h ID flags x_flags y_flags y2_flags y3_flags g1 = Except.ok (h.ItemAdd, g2) ∧
      ((g2.Plots ID).YAxis i).Range
        = BeginPlot.constrainY e.limits ((g2.Plots ID).YAxis i).Flags
            (if g.PlotExists ID = false ∨ cond = ImGuiCond_Always then { Min := min, Max := max }
              else ((g.Plots ID).YAxis i).Range.ofNumbers) ∧
      (h.ItemAdd = false → g2.NextPlotData = ImPlotNextPlotData.new) ∧
      (h.ItemAdd = true → ∃ g3 : ImPlotGlobal K, EndPlot he g2 = Except.ok g3 ∧
        g3.NextPlotData = ImPlotNextPlotData.new)) ∧
    (∀ (h1 : BeginPlotHost K) (ID1 f1 xf1 yf1 y2f1 y3f1 : ℕ) (g1 g2 : ImPlotGlobal K),
      BeginPlot e h1 ID1 f1 xf1 yf1 y2f1 y3f1 g1 = Except.ok (false, g2) →
        g2.NextPlotData = ImPlotNextPlotData.new) ∧
    (g.NextPlotData = ImPlotNextPlotData.new →
      ∃ g2 : ImPlotGlobal K,
        BeginPlot e h ID flags x_flags y_flags y2_flags y3_flags g = Except.ok (h.ItemAdd, g2) ∧
        (g2.Plots ID).XAxis.Range
          = BeginPlot.constrainX e.limits e.time (g2.Plots ID).XAxis.Flags
              (BeginPlot.getPlot e g ID).XAxis.Range.ofNumbers ∧
        ∀ i : Fin 3, ((g2.Plots ID).YAxis i).Range
          = BeginPlot.constrainY e.limits ((g2.Plots ID).YAxis i).Flags
              ((BeginPlot.getPlot e g ID).YAxis i).Range.ofNumbers) := by
  have hstored : ∀ (r : ImPlotState K → ImPlotRange K) (pending : ImPlotRange (ImDouble K)),
      (if (!g.PlotExists ID) = true ∨ cond = ImGuiCond_Always then pending
        else (r (BeginPlot.getPlot e g ID)).ofNumbers)
      = (if g.PlotExists ID = false ∨ cond = ImGuiCond_Always then pending
        else (r (g.Plots ID)).ofNumbers) := by
    intro r pending
    unfold BeginPlot.getPlot
    cases hpe : g.PlotExists ID <;> simp
  have hend : ∀ g2 : ImPlotGlobal K, g2.CurrentPlot = (if h.ItemAdd = true then some ID else none) →
      h.ItemAdd = true → ∃ g3 : ImPlotGlobal K, EndPlot he g2 = Except.ok g3 ∧
        g3.NextPlotData = ImPlotNextPlotData.new := by
    intro g2 hcp hi
    rw [if_pos hi] at hcp
    obtain ⟨g3, a, -, b, -⟩ := (EndPlot_returns he g2).2 (by rw [hcp]; simp)
    exact ⟨g3, a, b⟩
  refine ⟨?_, fun i => ?_, ?_, fun hnew => ?_⟩
  · obtain ⟨g2, b1, b2, -, b4, b5⟩ := BeginPlot_ranges_quiet e h ID flags x_flags y_flags
      y2_flags y3_flags
      ({ g with NextPlotData := { g.NextPlotData with
          HasXRange := true
          XRangeCond := cond
          X := { Min := min, Max := max } } }) hc hs hq
    refine ⟨_, g2, SetNextPlotLimitsX_ok min max cond g hc hcond, b1, ?_, fun hi => ?_,
      hend g2 b5⟩
    · rw [b2]
      simp only [nextRange_eq]
      exact congrArg _ (hstored (fun p => p.XAxis.Range) _)
    · rw [b4, if_neg (by rw [hi]; simp)]
  · obtain ⟨g2, b1, -, b3, b4, b5⟩ := BeginPlot_ranges_quiet e h ID flags x_flags y_flags
      y2_flags y3_flags
      ({ g with NextPlotData := { g.NextPlotData with
          HasYRange := Function.update g.NextPlotData.HasYRange i true
          YRangeCond := Function.update g.NextPlotData.YRangeCond i cond
          Y := Function.update g.NextPlotData.Y i { Min := min, Max := max } } }) hc hs hq
    refine ⟨_, g2, SetNextPlotLimitsY_ok min max cond i g hc hcond, b1, ?_, fun hi => ?_,
      hend g2 b5⟩
    · rw [b3 i]
      simp only [Function.update_same, nextRange_eq]
      exact congrArg _ (hstored (fun p => (p.YAxis i).Range) _)
    · rw [b4, if_neg (by rw [hi]; simp)]
  · intro h1 ID1 f1 xf1 yf1 y2f1 y3f1 g1 g2 hb
    cases hcp : g1.CurrentPlot with
    | some ID' =>
      rw [BeginPlot_nested e h1 ID1 f1 xf1 yf1 y2f1 y3f1 g1 (by simp [hcp])] at hb
      exact absurd hb (by simp)
    | none =>
      obtain ⟨g', a1, -, a3, -⟩ := BeginPlot_returns e h1 ID1 f1 xf1 yf1 y2f1 y3f1 g1 hcp
      rw [a1] at hb
      injection hb with hb
      injection hb with hb1 hb2
      rw [← hb2]
      exact (a3 hb1).1
  · obtain ⟨g2, b1, b2, b3, -, -⟩ := BeginPlot_ranges_quiet e h ID flags x_flags y_flags
      y2_flags y3_flags g hc hs hq
    refine ⟨g2, b1, ?_, fun i => ?_⟩
    · rw [b2, hnew]
      simp only [ImPlotNextPlotData.new, nextRange_none]
    · rw [b3 i, hnew]
      simp only [ImPlotNextPlotData.new, nextRange_none]

/-- Witness of C11: on the example context, where the plot `1` is new, a pending x range
`[2, 8]` with the condition `ImGuiCond_Once` is accepted and the BeginPlot of a quiet
frame returns true with the x range `[2, 8]`; on the same context with the plot `1` in
the pool, whose x axis shows `[0, 1]`, the same calls leave the x range `[0, 1]`. -/
theorem C11_set_next_range_persistence_witness :
    exampleGlobal.CurrentPlot = none ∧
    (ImGuiCond_Once == 0 || ImIsPowerOfTwo ImGuiCond_Once) = true ∧
    exampleHost.SkipItems = false ∧
    (∃ g1 g2 : ImPlotGlobal ℚ,
      SetNextPlotLimitsX (ImDouble.finite 2) (ImDouble.finite 8) ImGuiCond_Once exampleGlobal
        = Except.ok g1 ∧
      BeginPlot exampleInternal exampleHost 1 0 7 7 7 7 g1
        = Except.ok (exampleHost.ItemAdd, g2) ∧
      (g2.Plots 1).XAxis.Range
        = BeginPlot.constrainX exampleInternal.limits exampleInternal.time
            (g2.Plots 1).XAxis.Flags
            (if exampleGlobal.PlotExists 1 = false ∨ ImGuiCond_Once = ImGuiCond_Always then
              { Min := ImDouble.finite 2, Max := ImDouble.finite 8 }
              else (exampleGlobal.Plots 1).XAxis.Range.ofNumbers) ∧
      (exampleHost.ItemAdd = false → g2.NextPlotData = ImPlotNextPlotData.new) ∧
      (exampleHost.ItemAdd = true → ∃ g3 : ImPlotGlobal ℚ,
        EndPlot exampleEndHost g2 = Except.ok g3 ∧
        g3.NextPlotData = ImPlotNextPlotData.new)) ∧
    ((SetNextPlotLimitsX (ImDouble.finite 2) (ImDouble.finite 8) ImGuiCond_Once
        exampleGlobal).toOption.bind (fun g1 =>
      (BeginPlot exampleInternal exampleHost 1 0 7 7 7 7 g1).toOption.map (fun r =>
        (r.1, (r.2.Plots 1).XAxis.Range.Min, (r.2.Plots 1).XAxis.Range.Max))))
      = some (true, 2, 8) ∧
    ((SetNextPlotLimitsX (ImDouble.finite 2) (ImDouble.finite 8) ImGuiCond_Once
        { exampleGlobal with PlotExists := fun ID => ID == 1 }).toOption.bind (fun g1 =>
      (BeginPlot exampleInternal exampleHost 1 0 7 7 7 7 g1).toOption.map (fun r =>
        (r.1, (r.2.Plots 1).XAxis.Range.Min, (r.2.Plots 1).XAxis.Range.Max))))
      = some (true, 0, 1) :=
  ⟨rfl, by decide, rfl,
    (C11_set_next_range_persistence exampleInternal exampleHost exampleEndHost 1 0 7 7 7 7
      (ImDouble.finite 2) (ImDouble.finite 8) ImGuiCond_Once exampleGlobal rfl (by decide) rfl
      (fun _ => ⟨rfl, rfl, rfl, fun _ => rfl⟩)).1,
    by decide!, by decide!⟩

set_option maxRecDepth 4000 in
/-- C19 (counterexample). Custom ticks at 1/2 and 3/4 are set for the x axis before the
BeginPlot of one frame: BeginPlot returns true and the tick list holds them (with the
default ticks at 0 and 1); the EndPlot of that frame leaves the list empty, and after
the BeginPlot of the next frame the list holds the default ticks only. -/
theorem C19_custom_ticks_counterexample :
    (customTicksExample [1 / 2, 3 / 4]).toOption
      = some (true, [1 / 2, 3 / 4, 0, 1], [], [0, 1]) := by
  with_unfolding_all decide

/-- C19 (amended). Ticks supplied with SetNextPlotTicksX, or with SetNextPlotTicksY for
the y axis `i`, outside a bracket are in the tick list of that axis after the next
BeginPlot when it returns true, and EndPlot then empties the tick list of every axis: the
ticks last for one plot. -/
theorem C19_custom_ticks_last_one_plot {K : Type} [LinearOrderedField K]
    (e : ImPlotInternal K) (h : BeginPlotHost K) (he : EndPlotHost K)
    (ID flags x_flags y_flags y2_flags y3_flags : ℕ) (values : List K)
    (labels show_default : Bool) (g : ImPlotGlobal K)
    (hc : g.CurrentPlot = none) (hs : h.SkipItems = false) (hi : h.ItemAdd = true) :
    (∃ g1 g2 g3 : ImPlotGlobal K,
      SetNextPlotTicksX values labels show_default g = Except.ok g1 ∧
      BeginPlot e h ID flags x_flags y_flags y2_flags y3_flags g1 = Except.ok (true, g2) ∧
      (∀ v ∈ values, v ∈ g2.XTicks.map (fun tk => tk.PlotPos)) ∧
      EndPlot he g2 = Except.ok g3 ∧ g3.XTicks = [] ∧ ∀ j, g3.YTicks j = []) ∧
    (∀ i : Fin 3, ∃ g1 g2 g3 : ImPlotGlobal K,
      SetNextPlotTicksY values labels show_default ((i : ℕ) : ℤ) g = Except.ok g1 ∧
      BeginPlot e h ID flags x_flags y_flags y2_flags y3_flags g1 = Except.ok (true, g2) ∧
      (∀ v ∈ values, v ∈ (g2.YTicks i).map (fun tk => tk.PlotPos)) ∧
      EndPlot he g2 = Except.ok g3 ∧ g3.XTicks = [] ∧ ∀ j, g3.YTicks j = []) := by
  have hb : (!h.SkipItems && h.ItemAdd) = true := by rw [hs, hi]; rfl
  constructor
  · have h1 : SetNextPlotTicksX values labels show_default g = Except.ok
        { g with
          NextPlotData := { g.NextPlotData with ShowDefaultTicksX := show_default }
          XTicks := AddCustomTicks values labels g.XTicks } := by
      unfold SetNextPlotTicksX IM_ASSERT_USER_ERROR
      rw [hc]
      rfl
    obtain ⟨g2, b1, b2, -, b4⟩ := BeginPlot_returns e h ID flags x_flags y_flags y2_flags
      y3_flags { g with
          NextPlotData := { g.NextPlotData with ShowDefaultTicksX := show_default }
          XTicks := AddCustomTicks values labels g.XTicks } hc
    rw [hb] at b1 b2
    obtain ⟨g3, e1, -, -, e4, e5⟩ := (EndPlot_returns he g2).2 (by rw [b2]; simp)
    refine ⟨_, g2, g3, h1, b1, fun v hv => ?_, e1, e4, e5⟩
    exact (b4 hb).2.1 { (ImPlotTick.new v false true : ImPlotTick K) with Labeled := labels }
      (by
        simp only [AddCustomTicks, List.mem_append, List.mem_map]
        exact Or.inr ⟨v, hv, rfl⟩)
  · intro i
    have h1 : SetNextPlotTicksY values labels show_default ((i : ℕ) : ℤ) g = Except.ok
        { g with
          NextPlotData := { g.NextPlotData with
            ShowDefaultTicksY := Function.update g.NextPlotData.ShowDefaultTicksY i show_default }
          YTicks := Function.update g.YTicks i (AddCustomTicks values labels (g.YTicks i)) } := by
      unfold SetNextPlotTicksY IM_ASSERT_USER_ERROR
      rw [hc, yAxisEntry_fin]
      have h1 : (decide (((i : ℕ) : ℤ) ≥ 0) && decide (((i : ℕ) : ℤ) < 3)) = true := by
        fin_cases i <;> decide
      simp only [Option.isNone_none, if_true, h1]
    obtain ⟨g2, b1, b2, -, b4⟩ := BeginPlot_returns e h ID flags x_flags y_flags y2_flags
      y3_flags { g with
          NextPlotData := { g.NextPlotData with
            ShowDefaultTicksY := Function.update g.NextPlotData.ShowDefaultTicksY i show_default }
          YTicks := Function.update g.YTicks i (AddCustomTicks values labels (g.YTicks i)) } hc
    rw [hb] at b1 b2
    obtain ⟨g3, e1, -, -, e4, e5⟩ := (EndPlot_returns he g2).2 (by rw [b2]; simp)
    refine ⟨_, g2, g3, h1, b1, fun v hv => ?_, e1, e4, e5⟩
    exact (b4 hb).2.2 i { (ImPlotTick.new v false true : ImPlotTick K) with Labeled := labels }
      (by
        simp only [Function.update_same, AddCustomTicks, List.mem_append, List.mem_map]
        exact Or.inr ⟨v, hv, rfl⟩)

/-- Witness of C19: on the example context and host, custom ticks at 1/2 and 3/4 of the x
axis are in the tick list after BeginPlot and gone after EndPlot. -/
theorem C19_custom_ticks_last_one_plot_witness :
    exampleGlobal.CurrentPlot = none ∧ exampleHost.SkipItems = false ∧
    exampleHost.ItemAdd = true ∧
    ∃ g1 g2 g3 : ImPlotGlobal ℚ,
      SetNextPlotTicksX [1 / 2, 3 / 4] false true exampleGlobal = Except.ok g1 ∧
      BeginPlot exampleInternal exampleHost 1 0 7 7 7 7 g1 = Except.ok (true, g2) ∧
      (∀ v ∈ [(1 / 2 : ℚ), 3 / 4], v ∈ g2.XTicks.map (fun tk => tk.PlotPos)) ∧
      EndPlot exampleEndHost g2 = Except.ok g3 ∧ g3.XTicks = [] ∧ ∀ j, g3.YTicks j = [] :=
  ⟨rfl, rfl, rfl,
    (C19_custom_ticks_last_one_plot exampleInternal exampleHost exampleEndHost 1 0 7 7 7 7
      [1 / 2, 3 / 4] false true exampleGlobal rfl rfl rfl).1⟩


/-! ### The y-axis index of the public calls -/

theorem query_index_check (y : ℤ) (h : y < -1 ∨ 2 < y) :
    (decide (y ≥ -1) && decide (y < 3)) = false := by
  rcases h with h | h
  · have : ¬ y ≥ -1 := by omega
    simp [this]
  · have : ¬ y < 3 := by omega
    simp [this]

theorem setter_index_check (y : ℤ) (h : y < 0 ∨ 2 < y) :
    (decide (y ≥ 0) && decide (y < 3)) = false := by
  rcases h with h | h
  · have : ¬ y ≥ 0 := by omega
    simp [this]
  · have : ¬ y < 3 := by omega
    simp [this]

theorem yAxisEntry_large {α : Type} (arr : Fin 3 → α) (y : ℤ) (h : 2 < y) :
    yAxisEntry arr y = Except.error ImPlotFault.outOfBounds := by
  unfold yAxisEntry
  rw [if_neg (by omega), if_neg (by omega), if_neg (by omega)]

/-- An index that has passed the check `-1..2` selects an entry of the array. -/
theorem yAxisEntry_resolved {α : Type} (arr : Fin 3 → α) (y : ℤ) (c : Fin 3)
    (h : (decide (y ≥ -1) && decide (y < 3)) = true) :
    ∃ i : Fin 3, yAxisEntry arr (if y ≥ 0 then y else ((c : ℕ) : ℤ)) = Except.ok (arr i) := by
  simp only [Bool.and_eq_true, decide_eq_true_eq] at h
  by_cases h0 : y ≥ 0
  · rw [if_pos h0]
    obtain ⟨h1, h2⟩ := h
    interval_cases y
    · exact ⟨0, rfl⟩
    · exact ⟨1, rfl⟩
    · exact ⟨2, rfl⟩
  · rw [if_neg h0]
    exact ⟨c, yAxisEntry_fin arr c⟩

/-- An index that has passed the check `0..2` selects an entry of the array. -/
theorem yAxisEntry_checked {α : Type} (arr : Fin 3 → α) (y : ℤ)
    (h : (decide (y ≥ 0) && decide (y < 3)) = true) :
    ∃ i : Fin 3, yAxisEntry arr y = Except.ok (arr i) := by
  simp only [Bool.and_eq_true, decide_eq_true_eq] at h
  obtain ⟨h1, h2⟩ := h
  interval_cases y
  · exact ⟨0, rfl⟩
  · exact ⟨1, rfl⟩
  · exact ⟨2, rfl⟩

theorem PixelsToPlot_unchecked {K : Type} [LinearOrderedField K] (m : ImMath K)
    (g : ImPlotGlobal K) (x y : K) (y_axis : ℤ) (hc : g.CurrentPlot ≠ none) (h : 2 < y_axis) :
    g.PixelsToPlot m x y y_axis = Except.error ImPlotFault.outOfBounds := by
  unfold ImPlotGlobal.PixelsToPlot
  cases hcp : g.CurrentPlot with
  | none => exact absurd hcp hc
  | some ID =>
    simp only
    rw [if_pos (by omega), yAxisEntry_large _ _ h]

theorem PlotToPixels_unchecked {K : Type} [LinearOrderedField K] (m : ImMath K)
    (g : ImPlotGlobal K) (x y : K) (y_axis : ℤ) (hc : g.CurrentPlot ≠ none) (h : 2 < y_axis) :
    g.PlotToPixels m x y y_axis = Except.error ImPlotFault.outOfBounds := by
  unfold ImPlotGlobal.PlotToPixels
  cases hcp : g.CurrentPlot with
  | none => exact absurd hcp hc
  | some ID =>
    simp only
    rw [if_pos (by omega), yAxisEntry_large _ _ h]

theorem IsPlotYAxisHovered_safe {K : Type} (y_axis : ℤ) (g : ImPlotGlobal K) :
    IsPlotYAxisHovered y_axis g ≠ Except.error ImPlotFault.outOfBounds := by
  unfold IsPlotYAxisHovered IM_ASSERT_USER_ERROR
  cases hchk : (decide (y_axis ≥ -1) && decide (y_axis < 3)) with
  | false => simp
  | true =>
    cases hcp : g.CurrentPlot with
    | none => simp
    | some ID =>
      obtain ⟨i, hi⟩ := yAxisEntry_resolved (g.Plots ID).YAxis y_axis (g.Plots ID).CurrentYAxis hchk
      simp [hi]

theorem GetPlotMousePos_safe {K : Type} (y_axis : ℤ) (g : ImPlotGlobal K) :
    GetPlotMousePos y_axis g ≠ Except.error ImPlotFault.outOfBounds := by
  unfold GetPlotMousePos IM_ASSERT_USER_ERROR
  cases hchk : (decide (y_axis ≥ -1) && decide (y_axis < 3)) with
  | false => simp
  | true =>
    cases hcp : g.CurrentPlot with
    | none => simp
    | some ID =>
      obtain ⟨i, hi⟩ := yAxisEntry_resolved g.LastMousePos y_axis (g.Plots ID).CurrentYAxis hchk
      simp [hi]

theorem GetPlotLimits_safe {K : Type} (y_axis : ℤ) (g : ImPlotGlobal K) :
    GetPlotLimits y_axis g ≠ Except.error ImPlotFault.outOfBounds := by
  unfold GetPlotLimits IM_ASSERT_USER_ERROR
  cases hchk : (decide (y_axis ≥ -1) && decide (y_axis < 3)) with
  | false => simp
  | true =>
    cases hcp : g.CurrentPlot with
    | none => simp
    | some ID =>
      obtain ⟨i, hi⟩ := yAxisEntry_resolved (g.Plots ID).YAxis y_axis (g.Plots ID).CurrentYAxis hchk
      simp [hi]

theorem GetPlotQuery_safe {K : Type} [LinearOrderedField K] (m : ImMath K) (y_axis : ℤ)
    (g : ImPlotGlobal K) : GetPlotQuery m y_axis g ≠ Except.error ImPlotFault.outOfBounds := by
  unfold GetPlotQuery IM_ASSERT_USER_ERROR
  cases hchk : (decide (y_axis ≥ -1) && decide (y_axis < 3)) with
  | false => simp
  | true =>
    cases hcp : g.CurrentPlot with
    | none => simp
    | some ID =>
      obtain ⟨i, hi⟩ := yAxisEntry_resolved (fun i : Fin 3 => i) y_axis
        (g.Plots ID).CurrentYAxis hchk
      have hge : (if y_axis ≥ 0 then y_axis else (((g.Plots ID).CurrentYAxis : ℕ) : ℤ)) ≥ 0 := by
        split_ifs with h0
        · exact h0
        · exact Int.natCast_nonneg _
      simp [ImPlotGlobal.PixelsToPlot, hcp, hge, hi]

theorem SetPlotYAxis_safe {K : Type} (y_axis : ℤ) (g : ImPlotGlobal K) :
    SetPlotYAxis y_axis g ≠ Except.error ImPlotFault.outOfBounds := by
  unfold SetPlotYAxis IM_ASSERT_USER_ERROR
  cases hcp : g.CurrentPlot with
  | none => simp
  | some ID =>
    cases hchk : (decide (y_axis ≥ 0) && decide (y_axis < 3)) with
    | false => simp
    | true =>
      obtain ⟨i, hi⟩ := yAxisEntry_checked (fun i : Fin 3 => i) y_axis hchk
      simp [hi]

theorem SetNextPlotLimitsY_safe {K : Type} (y_min y_max : ImDouble K) (cond : ℕ) (y_axis : ℤ)
    (g : ImPlotGlobal K) :
    SetNextPlotLimitsY y_min y_max cond y_axis g ≠ Except.error ImPlotFault.outOfBounds := by
  unfold SetNextPlotLimitsY IM_ASSERT_USER_ERROR
  cases hcp : g.CurrentPlot.isNone with
  | false => simp
  | true =>
    cases hchk : (decide (y_axis ≥ 0) && decide (y_axis < 3)) with
    | false => simp
    | true =>
      obtain ⟨i, hi⟩ := yAxisEntry_checked (fun i : Fin 3 => i) y_axis hchk
      cases hcond : (cond == 0 || ImIsPowerOfTwo cond) <;> simp [hi]

theorem SetNextPlotTicksY_safe {K : Type} (values : List K) (labels show_default : Bool)
    (y_axis : ℤ) (g : ImPlotGlobal K) :
    SetNextPlotTicksY values labels show_default y_axis g
      ≠ Except.error ImPlotFault.outOfBounds := by
  unfold SetNextPlotTicksY IM_ASSERT_USER_ERROR
  cases hcp : g.CurrentPlot.isNone with
  | false => simp
  | true =>
    cases hchk : (decide (y_axis ≥ 0) && decide (y_axis < 3)) with
    | false => simp
    | true =>
      obtain ⟨i, hi⟩ := yAxisEntry_checked (fun i : Fin 3 => i) y_axis hchk
      simp [hi]

/-- C15. The y-axis index of the public calls.  IsPlotYAxisHovered, GetPlotMousePos,
GetPlotLimits and GetPlotQuery report an index outside `-1..2`, and SetPlotYAxis,
SetNextPlotLimitsY and SetNextPlotTicksY report an index outside `0..2` (or the wrong
side of the bracket, which they check first); none of the seven indexes an array outside
`0..2`.  PixelsToPlot and PlotToPixels check the bracket only: inside a bracket an index
above 2 reaches the per-axis arrays unreported, and an index below -1 is taken for the
current axis like -1. -/
theorem C15_axis_index_checks {K : Type} [LinearOrderedField K] (m : ImMath K)
    (g : ImPlotGlobal K) (y_axis : ℤ) :
    (IsPlotYAxisHovered y_axis g ≠ Except.error ImPlotFault.outOfBounds ∧
      GetPlotMousePos y_axis g ≠ Except.error ImPlotFault.outOfBounds ∧
      GetPlotLimits y_axis g ≠ Except.error ImPlotFault.outOfBounds ∧
      GetPlotQuery m y_axis g ≠ Except.error ImPlotFault.outOfBounds ∧
      SetPlotYAxis y_axis g ≠ Except.error ImPlotFault.outOfBounds ∧
      (∀ (y_min y_max : ImDouble K) (cond : ℕ),
        SetNextPlotLimitsY y_min y_max cond y_axis g ≠ Except.error ImPlotFault.outOfBounds) ∧
      (∀ (values : List K) (labels show_default : Bool),
        SetNextPlotTicksY values labels show_default y_axis g
          ≠ Except.error ImPlotFault.outOfBounds)) ∧
    ((y_axis < -1 ∨ 2 < y_axis) →
      IsPlotYAxisHovered y_axis g
        = Except.error (ImPlotFault.usage "y_axis needs to between -1 and IMPLOT_Y_AXES") ∧
      GetPlotMousePos y_axis g
        = Except.error (ImPlotFault.usage "y_axis needs to between -1 and IMPLOT_Y_AXES") ∧
      GetPlotLimits y_axis g
        = Except.error (ImPlotFault.usage "y_axis needs to between -1 and IMPLOT_Y_AXES") ∧
      GetPlotQuery m y_axis g
        = Except.error (ImPlotFault.usage "y_axis needs to between -1 and IMPLOT_Y_AXES")) ∧
    ((y_axis < 0 ∨ 2 < y_axis) →
      (∃ msg, SetPlotYAxis y_axis g = Except.error (ImPlotFault.usage msg)) ∧
      (∀ (y_min y_max : ImDouble K) (cond : ℕ),
        ∃ msg, SetNextPlotLimitsY y_min y_max cond y_axis g
          = Except.error (ImPlotFault.usage msg)) ∧
      (∀ (values : List K) (labels show_default : Bool),
        ∃ msg, SetNextPlotTicksY values labels show_default y_axis g
          = Except.error (ImPlotFault.usage msg))) ∧
    (g.CurrentPlot ≠ none → 2 < y_axis → ∀ x y : K,
      g.PixelsToPlot m x y y_axis = Except.error ImPlotFault.outOfBounds ∧
      g.PlotToPixels m x y y_axis = Except.error ImPlotFault.outOfBounds) ∧
    (y_axis < -1 → ∀ x y : K,
      g.PixelsToPlot m x y y_axis = g.PixelsToPlot m x y (-1) ∧
      g.PlotToPixels m x y y_axis = g.PlotToPixels m x y (-1)) := by
  refine ⟨⟨IsPlotYAxisHovered_safe _ _, GetPlotMousePos_safe _ _, GetPlotLimits_safe _ _,
    GetPlotQuery_safe _ _ _, SetPlotYAxis_safe _ _, fun _ _ _ => SetNextPlotLimitsY_safe _ _ _ _ _,
    fun _ _ _ => SetNextPlotTicksY_safe _ _ _ _ _⟩, fun h => ?_, fun h => ?_, fun hc h x y => ?_,
    fun h x y => ?_⟩
  · have hq := query_index_check y_axis h
    refine ⟨?_, ?_, ?_, ?_⟩
    · unfold IsPlotYAxisHovered IM_ASSERT_USER_ERROR
      rw [hq]
      rfl
    · unfold GetPlotMousePos IM_ASSERT_USER_ERROR
      rw [hq]
      rfl
    · unfold GetPlotLimits IM_ASSERT_USER_ERROR
      rw [hq]
      rfl
    · unfold GetPlotQuery IM_ASSERT_USER_ERROR
      rw [hq]
      rfl
  · have hs := setter_index_check y_axis h
    refine ⟨?_, fun y_min y_max cond => ?_, fun values labels show_default => ?_⟩
    · unfold SetPlotYAxis IM_ASSERT_USER_ERROR
      cases hcp : g.CurrentPlot with
      | none => exact ⟨_, rfl⟩
      | some ID =>
        simp only [hs]
        exact ⟨_, rfl⟩
    · unfold SetNextPlotLimitsY IM_ASSERT_USER_ERROR
      cases hcp : g.CurrentPlot.isNone with
      | false => exact ⟨_, rfl⟩
      | true =>
        simp only [hs]
        exact ⟨_, rfl⟩
    · unfold SetNextPlotTicksY IM_ASSERT_USER_ERROR
      cases hcp : g.CurrentPlot.isNone with
      | false => exact ⟨_, rfl⟩
      | true =>
        simp only [hs]
        exact ⟨_, rfl⟩
  · exact ⟨PixelsToPlot_unchecked m g x y y_axis hc h, PlotToPixels_unchecked m g x y y_axis hc h⟩
  · unfold ImPlotGlobal.PixelsToPlot ImPlotGlobal.PlotToPixels
    cases hcp : g.CurrentPlot with
    | none => exact ⟨rfl, rfl⟩
    | some ID =>
      simp only
      rw [if_neg (by omega), if_neg (by decide)]
      exact ⟨rfl, rfl⟩

/-- Witness of C15: inside a bracket of the example context, `PixelsToPlot(0, 0, 3)`
indexes the per-axis arrays at 3 with no check, while `GetPlotLimits(3)` is reported. -/
theorem C15_axis_index_checks_witness :
    insideExampleGlobal.CurrentPlot ≠ none ∧ (2 : ℤ) < 3 ∧
    insideExampleGlobal.PixelsToPlot linearOnlyMath 0 0 3
      = Except.error ImPlotFault.outOfBounds ∧
    GetPlotLimits 3 insideExampleGlobal
      = Except.error (ImPlotFault.usage "y_axis needs to between -1 and IMPLOT_Y_AXES") :=
  ⟨by decide, by decide,
    ((C15_axis_index_checks linearOnlyMath insideExampleGlobal 3).2.2.2.1 (by decide)
      (by decide) 0 0).1,
    ((C15_axis_index_checks linearOnlyMath insideExampleGlobal 3).2.1 (Or.inr (by decide))).2.2.1⟩


/-! ### The time formatter -/

theorem truncToInt_le_neg (x : ℚ) (n : ℤ) (hn : 0 < n) (h : x ≤ -(n : ℚ)) :
    truncToInt x ≤ -n := by
  unfold truncToInt
  have hx : ¬ (0 : ℚ) ≤ x := by
    have : (0 : ℚ) < n := by exact_mod_cast hn
    linarith
  rw [if_neg hx]
  rw [Int.ceil_le]
  push_cast
  exact h

theorem truncToInt_gt_neg (x : ℚ) (n : ℤ) (hn : 0 < n) (h : -(n : ℚ) < x) :
    -n < truncToInt x := by
  unfold truncToInt
  split_ifs with hx
  · have h0 : 0 ≤ ⌊x⌋ := Int.floor_nonneg.2 hx
    omega
  · rw [Int.lt_ceil]
    push_cast
    exact h

theorem tdiv_neg_of_le_neg (x n : ℤ) (hn : 0 < n) (h : x ≤ -n) : x.tdiv n < 0 := by
  have h1 : x = -(-x) := by ring
  rw [h1, Int.neg_tdiv, Int.tdiv_eq_ediv (by omega) (le_of_lt hn)]
  have h2 : 1 ≤ (-x) / n := Int.le_ediv_of_mul_le hn (by omega)
  omega

theorem tdiv_nonneg_of_gt_neg (x n : ℤ) (hn : 0 < n) (h : -n < x) : 0 ≤ x.tdiv n := by
  by_cases hx : 0 ≤ x
  · exact Int.tdiv_nonneg hx (le_of_lt hn)
  · have h1 : x = -(-x) := by ring
    rw [h1, Int.neg_tdiv, Int.tdiv_eq_zero_of_lt (by omega) (by omega)]
    simp

/-- The seconds of a formatter are negative exactly for timestamps of one second before
the epoch or earlier. -/
theorem formatter_seconds (t : ImTimeEnv) (hus : 0 < t.US_IN_SEC) (ts : ℚ) :
    ((ImTimeFormatter.new t ts)._s < 0 ↔ ts ≤ -(t.US_IN_SEC : ℚ)) := by
  unfold ImTimeFormatter.new
  simp only
  constructor
  · intro h
    by_contra hc
    rw [not_le] at hc
    have := tdiv_nonneg_of_gt_neg _ _ hus (truncToInt_gt_neg ts _ hus hc)
    omega
  · intro h
    exact tdiv_neg_of_le_neg _ _ hus (truncToInt_le_neg ts _ hus h)

theorem toDigitsCore_ne_nil (b : ℕ) :
    ∀ (fuel n : ℕ) (ds : List Char), ds ≠ [] → Nat.toDigitsCore b fuel n ds ≠ [] := by
  intro fuel
  induction fuel with
  | zero =>
    intro n ds h
    simpa [Nat.toDigitsCore] using h
  | succ k ih =>
    intro n ds h
    unfold Nat.toDigitsCore
    simp only
    split_ifs
    · simp
    · exact ih _ _ (by simp)

theorem toDigits_ne_nil (b n : ℕ) : Nat.toDigits b n ≠ [] := by
  unfold Nat.toDigits Nat.toDigitsCore
  simp only
  split_ifs
  · simp
  · exact toDigitsCore_ne_nil b _ _ _ (by simp)

theorem formatPadded_ne_nil (width : ℕ) (v : ℤ) : formatPadded width v ≠ [] := by
  unfold formatPadded
  simp only
  split_ifs
  · simp
  · intro h
    rw [List.append_eq_nil] at h
    exact toDigits_ne_nil _ _ h.2

theorem writeAtIndex_ne_nil (f : ImTimeFormatter) (chars : List Char) (hc : chars ≠ [])
    (hp : f.ptr_index = 0 ∨ (f.ptr_index = f.buf.length ∧ f.buf ≠ [])) :
    (f.writeAtIndex chars).buf ≠ [] := by
  unfold ImTimeFormatter.writeAtIndex
  simp only
  intro h
  rw [List.append_eq_nil] at h
  rcases hp with hp | ⟨hp, hb⟩
  · rw [hp] at h
    cases chars with
    | nil => exact hc rfl
    | cons c cs => simp at h
  · rw [hp, List.take_length] at h
    exact hb h.1

/-- A formatter whose seconds are not negative yields a full string that is not empty. -/
theorem fullString_ne_nil (t : ImTimeEnv) (f : ImTimeFormatter) (hs : ¬ f._s < 0) :
    f.GetFullFormattedString t ≠ [] := by
  unfold ImTimeFormatter.GetFullFormattedString
  simp only [ImTimeFormatter.ResetBuf, if_neg hs]
  unfold ImTimeFormatter.WritePaddedMicroSecondsToBuf
  apply writeAtIndex_ne_nil _ _ (formatPadded_ne_nil _ _)
  unfold ImTimeFormatter.WriteFormattedTimeToBuf
  simp only
  cases t.localtime f._s with
  | none => exact Or.inl rfl
  | some tm =>
    simp only
    split_ifs with h
    · right
      refine ⟨rfl, fun hh => h ?_⟩
      have hh' : t.strftime 80 "%Y/%m/%e %I:%M:%S." tm = [] := hh
      rw [hh']
      rfl
    · exact Or.inl rfl

/-- C18 (counterexample). The timestamp of 500 microseconds before the epoch is
negative, its seconds part truncates to 0, and the full formatted string (on a platform
in the time zone UTC) is "1970/01/ 1 12:00:00.-00500"; the range string at the unit of a
microsecond is not empty either. -/
theorem C18_negative_timestamp_counterexample :
    (-500 : ℚ) < 0 ∧
    (ImTimeFormatter.new exampleTimeEnv (-500)).GetFullFormattedString exampleTimeEnv
      = "1970/01/ 1 12:00:00.-00500".toList ∧
    (ImTimeFormatter.new exampleTimeEnv (-500)).GetRangeFormattedString exampleTimeEnv
      ImTimeUnit_US ≠ [] := by
  refine ⟨by norm_num, by with_unfolding_all decide, by with_unfolding_all decide⟩

/-- C18 (amended). For every microsecond timestamp `t` of one second before the epoch
or earlier (`t ≤ -US_IN_SEC`), GetFullFormattedString, GetRangeFormatterPrefixString and
GetRangeFormattedString each return the empty string, for every unit, on every platform;
for every later timestamp, the negative ones above `-US_IN_SEC` included, the guard
`_s < 0` does not fire and GetFullFormattedString is not empty. -/
theorem C18_formatter_guards_from_minus_one_second (t : ImTimeEnv) (ts : ℚ) (unit : ℕ)
    (hus : 0 < t.US_IN_SEC) :
    (ts ≤ -(t.US_IN_SEC : ℚ) →
      (ImTimeFormatter.new t ts).GetFullFormattedString t = [] ∧
      (ImTimeFormatter.new t ts).GetRangeFormatterPrefixString t unit = [] ∧
      (ImTimeFormatter.new t ts).GetRangeFormattedString t unit = []) ∧
    (-(t.US_IN_SEC : ℚ) < ts → (ImTimeFormatter.new t ts).GetFullFormattedString t ≠ []) := by
  constructor
  · intro h
    have hs := (formatter_seconds t hus ts).2 h
    unfold ImTimeFormatter.GetFullFormattedString ImTimeFormatter.GetRangeFormatterPrefixString
      ImTimeFormatter.GetRangeFormattedString
    simp only [ImTimeFormatter.ResetBuf, if_pos hs, and_self]
  · intro h
    apply fullString_ne_nil
    intro hs
    have := (formatter_seconds t hus ts).1 hs
    linarith

/-- Witness of C18: with a second of 1 000 000 microseconds, the timestamp of exactly
one second before the epoch yields the empty string. -/
theorem C18_formatter_guards_from_minus_one_second_witness :
    0 < exampleTimeEnv.US_IN_SEC ∧ (-1000000 : ℚ) ≤ -(exampleTimeEnv.US_IN_SEC : ℚ) ∧
    (ImTimeFormatter.new exampleTimeEnv (-1000000)).GetFullFormattedString exampleTimeEnv = [] :=
  ⟨by decide, by with_unfolding_all decide,
    ((C18_formatter_guards_from_minus_one_second exampleTimeEnv (-1000000) ImTimeUnit_SEC
      (by decide)).1 (by with_unfolding_all decide)).1⟩


/-! ### Time-scale ticks -/

theorem Step_unit (t : ImTimeEnv) (st : ImTimeStepper) (n : ℤ) :
    (st.Step t n).unit = st.unit := by
  unfold ImTimeStepper.Step
  split_ifs <;> rfl

theorem stepSize_pos (t : ImTimeEnv) (ht : t.WholeUnits) (u : ℕ) (hu : u < ImTimeUnit_COUNT)
    (n : ℤ) (hn : 1 ≤ n) : 0 < ImTimeStepper.stepSize t u n := by
  obtain ⟨hsec, hsub, hsup⟩ := ht
  unfold ImTimeStepper.stepSize
  split_ifs with h
  · exact Int.mul_pos (hsub u h) (by omega)
  · exact Int.mul_pos (Int.mul_pos (by omega) (hsup u hu (not_lt.1 h))) hsec

theorem Floor_unit (t : ImTimeEnv) (st : ImTimeStepper) (step_size : ℤ) :
    (st.Floor t step_size).unit = st.unit := by
  unfold ImTimeStepper.Floor
  by_cases hs : st._s < 0
  · rw [if_pos hs]
  · rw [if_neg hs]
    cases t.localtime st._s with
    | none => rfl
    | some base_time =>
      simp only
      split_ifs <;> rfl

theorem new_unit (t : ImTimeEnv) (ts : ℚ) (u : ℕ) (r : ℤ) :
    (ImTimeStepper.new t ts u r).unit = u := by
  unfold ImTimeStepper.new
  simp only
  rw [Floor_unit]

theorem DetermineTimeScaleUnit_lt (t : ImTimeEnv) (min max : ℚ) (capacity : ℤ) :
    DetermineTimeScaleUnitForAutoTicks t min max capacity < ImTimeUnit_COUNT := by
  unfold DetermineTimeScaleUnitForAutoTicks
  split
  · rename_i i hi
    have := List.mem_of_find?_eq_some hi
    rw [List.mem_range'_1] at this
    have h1 : ImTimeUnit_US + (ImTimeUnit_COUNT - ImTimeUnit_US) = ImTimeUnit_COUNT := by decide
    omega
  · decide

theorem exactTicksBelow_nil (b : ℤ) : ExactTicksBelow b [] [] :=
  ⟨rfl, List.Pairwise.nil, fun _ h => by cases h⟩

theorem ExactTicksBelow.upTo {b : ℤ} {Is : List ℤ} {out : List (ImPlotTick ℚ)}
    (h : ExactTicksBelow b Is out) : ExactTicksUpTo b Is out :=
  ⟨h.1, h.2.1, fun I hI => le_of_lt (h.2.2 I hI)⟩

theorem ExactTicksUpTo.below {b c : ℤ} {Is : List ℤ} {out : List (ImPlotTick ℚ)}
    (h : ExactTicksUpTo b Is out) (hbc : b < c) : ExactTicksBelow c Is out :=
  ⟨h.1, h.2.1, fun I hI => lt_of_le_of_lt (h.2.2 I hI) hbc⟩

theorem ExactTicksBelow.push {c : ℤ} {Is : List ℤ} {out : List (ImPlotTick ℚ)}
    (h : ExactTicksBelow c Is out) (major show_label : Bool) :
    ExactTicksUpTo c (Is ++ [c])
      (out ++ [ImPlotTick.new (F64.round (c : ℚ)) major show_label]) := by
  refine ⟨?_, ?_, ?_⟩
  · rw [List.map_append, List.map_append, h.1]
    rfl
  · rw [List.pairwise_append]
    refine ⟨h.2.1, by simp, ?_⟩
    intro a ha b hb
    rw [List.mem_singleton] at hb
    rw [hb]
    exact h.2.2 a ha
  · intro I hI
    rw [List.mem_append, List.mem_singleton] at hI
    rcases hI with hI | hI
    · exact le_of_lt (h.2.2 I hI)
    · rw [hI]

/-- `Step(n)` moves the whole number of microseconds of a stepper by the size of `n`
steps of its unit. -/
theorem Step_integral (t : ImTimeEnv) (st : ImTimeStepper) (n : ℤ) :
    (st.Step t n).integral t = st.integral t + ImTimeStepper.stepSize t st.unit n := by
  unfold ImTimeStepper.Step ImTimeStepper.stepSize ImTimeStepper.integral
  split_ifs
  · simp only
    ring
  · simp only
    ring

/-- A rounded time above another one comes from a whole number above the other. -/
theorem F64.lt_of_round_lt (a b : ℤ) (h : F64.round (a : ℚ) < F64.round (b : ℚ)) : a < b := by
  by_contra hc
  have : (b : ℚ) ≤ (a : ℚ) := by exact_mod_cast not_lt.1 hc
  have := F64.round_mono _ _ this
  linarith

/-- Enough fuel: the number of rounds computed for a loop covers the distance. -/
theorem fuel_enough (start bound step : ℤ) (hs : 0 < step) :
    ∃ n : ℕ, AddDefaultTimeScaleTicks.fuel start bound step = n + 1 ∧
      bound - start < (n : ℤ) * step := by
  refine ⟨(⌈((bound - start : ℤ) : ℚ) / (step : ℚ)⌉ : ℤ).toNat + 1, rfl, ?_⟩
  have hsq : (0 : ℚ) < (step : ℚ) := by exact_mod_cast hs
  have h1 : ((bound - start : ℤ) : ℚ) / (step : ℚ)
      ≤ ((⌈((bound - start : ℤ) : ℚ) / (step : ℚ)⌉ : ℤ) : ℚ) := Int.le_ceil _
  generalize (⌈((bound - start : ℤ) : ℚ) / (step : ℚ)⌉ : ℤ) = c at h1 ⊢
  have h2 : c ≤ (c.toNat : ℤ) := Int.self_le_toNat c
  rw [div_le_iff₀ hsq] at h1
  have h3 : bound - start ≤ c * step := by exact_mod_cast h1
  have h4 : c * step ≤ (c.toNat : ℤ) * step := Int.mul_le_mul_of_nonneg_right h2 (le_of_lt hs)
  push_cast
  linarith

/-- The inner loop returns, and its ticks are the rounded values of whole numbers that
stay in increasing order below the next major tick. -/
theorem minorLoop_returns (t : ImTimeEnv) (last next : ℤ) (m : ℤ) (u : ℕ)
    (hd : 0 < ImTimeStepper.stepSize t u m) :
    ∀ (n : ℕ) (cur : ImTimeStepper) (out : List (ImPlotTick ℚ)) (Is : List ℤ) (B : ℤ),
      cur.unit = u →
      next - cur.integral t ≤ (n : ℤ) * ImTimeStepper.stepSize t u m →
      ExactTicksUpTo B Is out → (B ≤ last ∨ B < cur.integral t) → B < next →
      ∃ (out' : List (ImPlotTick ℚ)) (Is' : List ℤ), AddDefaultTimeScaleTicks.minorLoop t (F64.round (last : ℚ))
          (F64.round (next : ℚ)) m (n + 1) cur out = some out' ∧
        ExactTicksBelow next Is' out' := by
  intro n
  induction n with
  | zero =>
    intro cur out Is B hu hn hB hBc hBn
    rw [AddDefaultTimeScaleTicks.minorLoop]
    simp only
    have hge : cur.GetIntegral t ≥ F64.round (next : ℚ) := by
      simp only [Nat.cast_zero, zero_mul] at hn
      unfold ImTimeStepper.GetIntegral
      exact F64.round_mono _ _ (by exact_mod_cast (by omega : next ≤ cur.integral t))
    rw [if_pos hge]
    exact ⟨out, Is, rfl, hB.below hBn⟩
  | succ k ih =>
    intro cur out Is B hu hn hB hBc hBn
    rw [AddDefaultTimeScaleTicks.minorLoop]
    simp only
    by_cases hge : cur.GetIntegral t ≥ F64.round (next : ℚ)
    · rw [if_pos hge]
      exact ⟨out, Is, rfl, hB.below hBn⟩
    · rw [if_neg hge]
      have hst : (cur.Step t m).integral t
          = cur.integral t + ImTimeStepper.stepSize t u m := by
        rw [Step_integral, hu]
      have hfuel : next - (cur.Step t m).integral t
          ≤ (k : ℤ) * ImTimeStepper.stepSize t u m := by
        rw [hst]
        push_cast at hn
        linarith
      by_cases hp : cur.GetIntegral t > F64.round (last : ℚ) ∧
          cur.GetIntegral t < F64.round (next : ℚ)
      · rw [if_pos hp]
        have h1 : last < cur.integral t := F64.lt_of_round_lt _ _ hp.1
        have h2 : cur.integral t < next := F64.lt_of_round_lt _ _ hp.2
        have hBlt : B < cur.integral t := by
          rcases hBc with h | h
          · exact lt_of_le_of_lt h h1
          · exact h
        refine ih (cur.Step t m) _ _ (cur.integral t) ((Step_unit t cur m).trans hu) hfuel
          ((hB.below hBlt).push false false) (Or.inr ?_) h2
        rw [hst]
        linarith
      · rw [if_neg hp]
        refine ih (cur.Step t m) _ Is B ((Step_unit t cur m).trans hu) hfuel hB ?_ hBn
        rcases hBc with h | h
        · exact Or.inl h
        · right
          rw [hst]
          linarith

theorem majorLoop_succ (t : ImTimeEnv) (range : ImPlotRange ℚ) (nMinor : ℤ)
    (baseUnit : ℕ) (step_size : ℤ) (graphMaxIntegral : ℚ) (fuel : ℕ) (graphMin : ImTimeStepper)
    (out : List (ImPlotTick ℚ)) :
    AddDefaultTimeScaleTicks.majorLoop t range nMinor baseUnit step_size graphMaxIntegral
        (fuel + 1) graphMin out
      = if graphMin.GetIntegral t > graphMaxIntegral then some out
        else
          if nMinor > 1 then
            if AddDefaultTimeScaleTicks.minorStep step_size < 1 then
              AddDefaultTimeScaleTicks.majorLoop t range nMinor baseUnit step_size
                graphMaxIntegral fuel (graphMin.Step t step_size)
                (if graphMin.GetIntegral t ≥ range.Min ∧ graphMin.GetIntegral t ≤ range.Max then
                  out ++ [ImPlotTick.new (graphMin.GetIntegral t) true true]
                else out)
            else
              match AddDefaultTimeScaleTicks.minorLoop t (graphMin.GetIntegral t)
                  ((graphMin.Step t step_size).GetIntegral t)
                  (AddDefaultTimeScaleTicks.minorStep step_size)
                  (AddDefaultTimeScaleTicks.fuel
                    ((ImTimeStepper.new t (graphMin.GetIntegral t) baseUnit step_size).integral t)
                    ((graphMin.Step t step_size).integral t)
                    (ImTimeStepper.stepSize t
                      (ImTimeStepper.new t (graphMin.GetIntegral t) baseUnit step_size).unit
                      (AddDefaultTimeScaleTicks.minorStep step_size)))
                  (ImTimeStepper.new t (graphMin.GetIntegral t) baseUnit step_size)
                  (if graphMin.GetIntegral t ≥ range.Min ∧ graphMin.GetIntegral t ≤ range.Max then
                    out ++ [ImPlotTick.new (graphMin.GetIntegral t) true true]
                  else out) with
              | none => none
              | some out2 =>
                AddDefaultTimeScaleTicks.majorLoop t range nMinor baseUnit step_size
                  graphMaxIntegral fuel (graphMin.Step t step_size) out2
          else
            AddDefaultTimeScaleTicks.majorLoop t range nMinor baseUnit step_size
              graphMaxIntegral fuel (graphMin.Step t step_size)
              (if graphMin.GetIntegral t ≥ range.Min ∧ graphMin.GetIntegral t ≤ range.Max then
                out ++ [ImPlotTick.new (graphMin.GetIntegral t) true true]
              else out) := rfl

/-- The outer loop returns, and its ticks are the rounded values of strictly increasing
whole numbers.  `U` is a whole number whose rounded value is above the rounded last
time. -/
theorem majorLoop_returns (t : ImTimeEnv) (ht : t.WholeUnits) (range : ImPlotRange ℚ)
    (nMinor : ℤ) (baseUnit : ℕ) (hu : baseUnit < ImTimeUnit_COUNT) (step_size : ℤ)
    (hs : 1 ≤ step_size) (gmax : ℚ) (U : ℤ) (hU : gmax < F64.round (U : ℚ)) :
    ∀ (n : ℕ) (graphMin : ImTimeStepper) (out : List (ImPlotTick ℚ)) (Is : List ℤ),
      graphMin.unit = baseUnit →
      U - graphMin.integral t < (n : ℤ) * ImTimeStepper.stepSize t baseUnit step_size →
      ExactTicksBelow (graphMin.integral t) Is out →
      ∃ (out' : List (ImPlotTick ℚ)) (Is' : List ℤ), AddDefaultTimeScaleTicks.majorLoop t range nMinor baseUnit step_size gmax
          (n + 1) graphMin out = some out' ∧
        out'.map (fun tk => tk.PlotPos) = Is'.map (fun (I : ℤ) => F64.round (I : ℚ)) ∧
        Is'.Pairwise (· < ·) := by
  have hd : 0 < ImTimeStepper.stepSize t baseUnit step_size :=
    stepSize_pos t ht baseUnit hu step_size hs
  intro n
  induction n with
  | zero =>
    intro graphMin out Is hg hn hB
    rw [majorLoop_succ]
    have hgt : graphMin.GetIntegral t > gmax := by
      simp only [Nat.cast_zero, zero_mul] at hn
      unfold ImTimeStepper.GetIntegral
      have : (U : ℚ) ≤ (graphMin.integral t : ℚ) := by
        exact_mod_cast (by omega : U ≤ graphMin.integral t)
      exact lt_of_lt_of_le hU (F64.round_mono _ _ this)
    rw [if_pos hgt]
    exact ⟨out, Is, rfl, hB.1, hB.2.1⟩
  | succ k ih =>
    intro graphMin out Is hg hn hB
    rw [majorLoop_succ]
    by_cases hgt : graphMin.GetIntegral t > gmax
    · rw [if_pos hgt]
      exact ⟨out, Is, rfl, hB.1, hB.2.1⟩
    · rw [if_neg hgt]
      have hst : (graphMin.Step t step_size).integral t
          = graphMin.integral t + ImTimeStepper.stepSize t baseUnit step_size := by
        rw [Step_integral, hg]
      have hnext : graphMin.integral t < (graphMin.Step t step_size).integral t := by
        rw [hst]
        linarith
      have hfuel : U - (graphMin.Step t step_size).integral t
          < (k : ℤ) * ImTimeStepper.stepSize t baseUnit step_size := by
        rw [hst]
        push_cast at hn
        linarith
      have hunit : (graphMin.Step t step_size).unit = baseUnit :=
        (Step_unit t graphMin step_size).trans hg
      have hout : ∃ Is1, ExactTicksUpTo (graphMin.integral t) Is1
          (if graphMin.GetIntegral t ≥ range.Min ∧ graphMin.GetIntegral t ≤ range.Max then
            out ++ [ImPlotTick.new (graphMin.GetIntegral t) true true]
          else out) := by
        split_ifs
        · exact ⟨_, hB.push true true⟩
        · exact ⟨_, hB.upTo⟩
      obtain ⟨Is1, hout⟩ := hout
      generalize (if graphMin.GetIntegral t ≥ range.Min ∧ graphMin.GetIntegral t ≤ range.Max then
            out ++ [ImPlotTick.new (graphMin.GetIntegral t) true true]
          else out) = out1 at hout ⊢
      by_cases hm : nMinor > 1
      · rw [if_pos hm]
        rcases lt_or_le (AddDefaultTimeScaleTicks.minorStep step_size) 1 with hlt | hge
        · rw [if_pos hlt]
          exact ih _ _ _ hunit hfuel (hout.below hnext)
        · rw [if_neg (not_lt.2 hge)]
          have hcu : (ImTimeStepper.new t (graphMin.GetIntegral t) baseUnit step_size).unit
              = baseUnit := new_unit _ _ _ _
          have hdm : 0 < ImTimeStepper.stepSize t baseUnit
              (AddDefaultTimeScaleTicks.minorStep step_size) :=
            stepSize_pos t ht baseUnit hu _ hge
          rw [hcu]
          obtain ⟨n', hf, hn'⟩ := fuel_enough
            ((ImTimeStepper.new t (graphMin.GetIntegral t) baseUnit step_size).integral t)
            ((graphMin.Step t step_size).integral t) _ hdm
          rw [hf]
          obtain ⟨out2, Is2, h2, hb2⟩ := minorLoop_returns t (graphMin.integral t)
            ((graphMin.Step t step_size).integral t)
            (AddDefaultTimeScaleTicks.minorStep step_size) baseUnit hdm n'
            (ImTimeStepper.new t (graphMin.GetIntegral t) baseUnit step_size) out1 Is1
            (graphMin.integral t) hcu (le_of_lt hn') hout (Or.inl (le_refl _)) hnext
          have h2' : AddDefaultTimeScaleTicks.minorLoop t (graphMin.GetIntegral t)
              ((graphMin.Step t step_size).GetIntegral t)
              (AddDefaultTimeScaleTicks.minorStep step_size) (n' + 1)
              (ImTimeStepper.new t (graphMin.GetIntegral t) baseUnit step_size) out1
              = some out2 := h2
          rw [h2']
          exact ih _ _ _ hunit hfuel hb2
      · rw [if_neg hm]
        exact ih _ _ _ hunit hfuel (hout.below hnext)

theorem F64.round_two_pow_53 : F64.round 9007199254740992 = 9007199254740992 := by decide!

/-- A whole number whose rounded value is below `2 ^ 53` in size is below `2 ^ 53` in
size, and is its own rounded value. -/
theorem F64.round_eq_of_abs_lt (I : ℤ) (h : |F64.round (I : ℚ)| < 2 ^ 53) :
    F64.round (I : ℚ) = I := by
  apply F64.round_int
  by_contra hc
  have hc' : (2 : ℤ) ^ 53 ≤ |I| := not_lt.1 hc
  rcases le_or_lt 0 I with h0 | h0
  · rw [abs_of_nonneg h0] at hc'
    have : (9007199254740992 : ℚ) ≤ (I : ℚ) := by exact_mod_cast hc'
    have := F64.round_mono _ _ this
    rw [F64.round_two_pow_53] at this
    have h1 := le_abs_self (F64.round (I : ℚ))
    norm_num at h
    linarith
  · rw [abs_of_neg h0] at hc'
    have : (9007199254740992 : ℚ) ≤ ((-I : ℤ) : ℚ) := by exact_mod_cast hc'
    have := F64.round_mono _ _ this
    rw [F64.round_two_pow_53] at this
    push_cast at this
    rw [F64.round_neg] at this
    have h1 := neg_abs_le (F64.round (I : ℚ))
    norm_num at h
    linarith

/-- `AddDefaultTimeScaleTicks` on an empty list returns when the conversions to `int` of
`NiceNumTime` are in range, and its ticks are the rounded values of strictly increasing
whole numbers of microseconds. -/
theorem AddDefaultTimeScaleTicks_exact (t : ImTimeEnv) (ht : t.WholeUnits)
    (range : ImPlotRange ℚ) (nMajor nMinor : ℤ)
    (hint : F64.round range.Size < (t.ImTimeUnits_Size ImTimeUnit_US : ℚ) ∨
      (NiceNumTime t
        (F64.round (F64.round (F64.round (range.Max - range.Min)
          / (t.ImTimeUnits_Size
              (DetermineTimeScaleUnitForAutoTicks t range.Min range.Max nMajor) : ℚ))
          / ((nMajor - 1 : ℤ) : ℚ)))
        (DetermineTimeScaleUnitForAutoTicks t range.Min range.Max nMajor)).isSome = true) :
    ∃ (ticks : List (ImPlotTick ℚ)) (Is : List ℤ),
      AddDefaultTimeScaleTicks t range nMajor nMinor [] = some ticks ∧
      ticks.map (fun tk => tk.PlotPos) = Is.map (fun (I : ℤ) => F64.round (I : ℚ)) ∧
      Is.Pairwise (· < ·) := by
  unfold AddDefaultTimeScaleTicks
  simp only
  by_cases hr : F64.round range.Size < (t.ImTimeUnits_Size ImTimeUnit_US : ℚ)
  · rw [if_pos hr]
    exact ⟨[], [], rfl, rfl, List.Pairwise.nil⟩
  · rw [if_neg hr]
    have hint' := hint.resolve_left hr
    have hu := DetermineTimeScaleUnit_lt t range.Min range.Max nMajor
    generalize DetermineTimeScaleUnitForAutoTicks t range.Min range.Max nMajor = baseUnit
      at hu hint' ⊢
    obtain ⟨s0, hs0⟩ := Option.isSome_iff_exists.1 hint'
    rw [hs0]
    simp only
    generalize hss : (if s0 < 1 then 1 else s0) = step_size
    have hs : 1 ≤ step_size := by
      rw [← hss]
      split_ifs with h
      · exact le_refl _
      · omega
    have hgu : (ImTimeStepper.new t range.Min baseUnit step_size).unit = baseUnit :=
      new_unit _ _ _ _
    have hd : 0 < ImTimeStepper.stepSize t baseUnit step_size :=
      stepSize_pos t ht baseUnit hu step_size hs
    rw [hgu]
    obtain ⟨n, hf, hn⟩ := fuel_enough
      ((ImTimeStepper.new t range.Min baseUnit step_size).integral t)
      (4 * |((ImTimeStepper.new t range.Max baseUnit step_size).Step t step_size).integral t| + 4)
      _ hd
    rw [hf]
    exact majorLoop_returns t ht range nMinor baseUnit hu step_size hs _ _
      (F64.round_lt_bound _) n _ [] [] hgu hn (exactTicksBelow_nil _)

/-- C20 (counterexample). The range from 10 000 000 000 000 000 to
10 000 000 000 000 004 microseconds, four microseconds wide, with `nMajor = 5`, the
example table and the time zone UTC: the unit is the microsecond and the step 1, the
stepper passes through every whole microsecond, and the `double`s returned by
`GetIntegral` are two apart there, so the six ticks pushed are at three positions
only. -/
theorem C20_time_ticks_counterexample :
    (AddDefaultTimeScaleTicks exampleTimeEnv
        { Min := 10000000000000000, Max := 10000000000000004 } 5 2 []).map
      (fun ticks => ticks.map (fun tk => tk.PlotPos))
      = some [10000000000000000, 10000000000000000, 10000000000000002,
          10000000000000004, 10000000000000004, 10000000000000004] := by
  decide!

/-- C20 (amended). For every table of unit sizes in which every unit below the second
holds at least one microsecond and every unit from the second on at least one second,
every `localtime` and `mktime`, every range, every `nMinor` and every `nMajor ≥ 2`, when
the range is below one microsecond or the conversions to `int` of `NiceNumTime` are in
range: `AddDefaultTimeScaleTicks` on an empty list returns, the positions of its ticks,
major and minor, are the `double`s nearest to a strictly increasing sequence of whole
numbers of microseconds, and so they are strictly increasing when every position is below
`2 ^ 53` microseconds in size. -/
theorem C20_time_ticks_rounded_increasing (t : ImTimeEnv) (range : ImPlotRange ℚ)
    (nMajor nMinor : ℤ) (ht : t.WholeUnits) (_hM : 2 ≤ nMajor)
    (hint : F64.round range.Size < (t.ImTimeUnits_Size ImTimeUnit_US : ℚ) ∨
      (NiceNumTime t
        (F64.round (F64.round (F64.round (range.Max - range.Min)
          / (t.ImTimeUnits_Size
              (DetermineTimeScaleUnitForAutoTicks t range.Min range.Max nMajor) : ℚ))
          / ((nMajor - 1 : ℤ) : ℚ)))
        (DetermineTimeScaleUnitForAutoTicks t range.Min range.Max nMajor)).isSome = true) :
    ∃ (ticks : List (ImPlotTick ℚ)) (Is : List ℤ),
      AddDefaultTimeScaleTicks t range nMajor nMinor [] = some ticks ∧
      ticks.map (fun tk => tk.PlotPos) = Is.map (fun (I : ℤ) => F64.round (I : ℚ)) ∧
      Is.Pairwise (· < ·) ∧
      ((∀ tk ∈ ticks, |tk.PlotPos| < 2 ^ 53) →
        (ticks.map (fun tk => tk.PlotPos)).Pairwise (· < ·)) := by
  obtain ⟨ticks, Is, h1, h2, h3⟩ := AddDefaultTimeScaleTicks_exact t ht range nMajor nMinor hint
  refine ⟨ticks, Is, h1, h2, h3, fun hb => ?_⟩
  have hex : ∀ I ∈ Is, F64.round (I : ℚ) = (I : ℚ) := by
    intro I hI
    apply F64.round_eq_of_abs_lt
    have hmem : F64.round (I : ℚ) ∈ ticks.map (fun tk => tk.PlotPos) := by
      rw [h2]
      exact List.mem_map.2 ⟨I, hI, rfl⟩
    obtain ⟨tk, htk, he⟩ := List.mem_map.1 hmem
    rw [← he]
    exact hb tk htk
  rw [h2, List.pairwise_map]
  refine h3.imp_of_mem ?_
  intro a b ha hb' hab
  rw [hex a ha, hex b hb']
  exact_mod_cast hab

theorem exampleTimeEnv_wholeUnits : exampleTimeEnv.WholeUnits := by
  unfold ImTimeEnv.WholeUnits
  decide

/-- Witness of C20: the range of exactly 60 000 000 microseconds from the epoch at
`nMajor = 5`, with the example table and the time zone UTC: the unit is the second, the
step 15 seconds, and the major ticks are at 0, 15, 30, 45 and 60 seconds. -/
theorem C20_time_ticks_rounded_increasing_witness :
    exampleTimeEnv.WholeUnits ∧ (2 : ℤ) ≤ 5 ∧
    (NiceNumTime exampleTimeEnv
        (F64.round (F64.round (F64.round (60000000 - 0)
          / (exampleTimeEnv.ImTimeUnits_Size
              (DetermineTimeScaleUnitForAutoTicks exampleTimeEnv 0 60000000 5) : ℚ))
          / ((5 - 1 : ℤ) : ℚ)))
        (DetermineTimeScaleUnitForAutoTicks exampleTimeEnv 0 60000000 5)) = some 15 ∧
    (∃ (ticks : List (ImPlotTick ℚ)) (Is : List ℤ),
      AddDefaultTimeScaleTicks exampleTimeEnv { Min := 0, Max := 60000000 } 5 2 []
        = some ticks ∧
      ticks.map (fun tk => tk.PlotPos) = Is.map (fun (I : ℤ) => F64.round (I : ℚ)) ∧
      Is.Pairwise (· < ·) ∧
      ((∀ tk ∈ ticks, |tk.PlotPos| < 2 ^ 53) →
        (ticks.map (fun tk => tk.PlotPos)).Pairwise (· < ·))) ∧
    (AddDefaultTimeScaleTicks exampleTimeEnv { Min := 0, Max := 60000000 } 5 2 []).map
        (fun ticks => (ticks.filter (fun tk => tk.Major)).map (fun tk => tk.PlotPos))
      = some [0, 15000000, 30000000, 45000000, 60000000] :=
  ⟨exampleTimeEnv_wholeUnits, by decide, by decide!,
    C20_time_ticks_rounded_increasing exampleTimeEnv { Min := 0, Max := 60000000 } 5 2
      exampleTimeEnv_wholeUnits (by decide) (Or.inr (by decide!)),
    by decide!⟩

/-! ### C21: the modifier overrides of the box-select commit -/

/-- The commit to y axis `i` changes nothing when the held modifiers are exactly the
vertical modifier. -/
theorem commitY_vertical {K : Type} [LinearOrderedField K] (m : ImMath K)
    (inp : ImGuiInput K) (gp : ImPlotContext K) (i : Fin 3) (plot : ImPlotState K)
    (hv : inp.KeyMods = gp.InputMap.VerticalMod) :
    BeginPlot.commitY m inp gp i plot = plot := by
  unfold BeginPlot.commitY
  simp [hv]

/-- The commit loop leaves the x axis as it is. -/
theorem forYAxes_commitY_XAxis {K : Type} [LinearOrderedField K] (m : ImMath K)
    (inp : ImGuiInput K) (gp : ImPlotContext K) (plot : ImPlotState K) :
    (forYAxes (BeginPlot.commitY m inp gp) plot).XAxis = plot.XAxis := by
  simp only [forYAxes, commitY_XAxis]

/-- C21 (the horizontal modifier held with another key): in a 400 by 300 pixel plot
showing `x` in `[0, 10]`, a box selection from the pixel (110, 120) to the pixel (210, 220)
confirmed while Alt (the horizontal modifier) and Ctrl are both held commits
`X = [5/2, 5]`; confirmed while Shift (the vertical modifier) and Ctrl are both held it
commits `Y[0] = [-5/3, 5/3]` in place of `[-5, 5]`. -/
theorem C21_modifier_with_other_key_counterexample :
    ImHasFlag (selectExampleInputWith 5).KeyMods
        (exampleContext : ImPlotContext ℚ).InputMap.HorizontalMod = true ∧
    selectExamplePlot.XAxis.Range.Min = 0 ∧ selectExamplePlot.XAxis.Range.Max = 10 ∧
    (BeginPlot.confirmSelection linearOnlyMath (selectExampleInputWith 5) exampleContext
        selectExamplePlot).2.XAxis.Range.Min = 5 / 2 ∧
    (BeginPlot.confirmSelection linearOnlyMath (selectExampleInputWith 5) exampleContext
        selectExamplePlot).2.XAxis.Range.Max = 5 ∧
    ImHasFlag (selectExampleInputWith 3).KeyMods
        (exampleContext : ImPlotContext ℚ).InputMap.VerticalMod = true ∧
    (selectExamplePlot.YAxis 0).Range.Min = -5 ∧ (selectExamplePlot.YAxis 0).Range.Max = 5 ∧
    ((BeginPlot.confirmSelection linearOnlyMath (selectExampleInputWith 3) exampleContext
        selectExamplePlot).2.YAxis 0).Range.Min = -5 / 3 ∧
    ((BeginPlot.confirmSelection linearOnlyMath (selectExampleInputWith 3) exampleContext
        selectExamplePlot).2.YAxis 0).Range.Max = 5 / 3 := by
  with_unfolding_all decide

/-- C21 (the modifier held alone): a box selection confirmed while the held modifier
keys are exactly the horizontal modifier leaves the X axis range unchanged, and one
confirmed while they are exactly the vertical modifier leaves every Y axis range
unchanged, whatever the rest of the input, the locks and the state of the plot. -/
theorem C21_box_select_modifier_alone {K : Type} [LinearOrderedField K] (m : ImMath K)
    (inp : ImGuiInput K) (gp : ImPlotContext K) (plot : ImPlotState K) :
    (inp.KeyMods = gp.InputMap.HorizontalMod →
      (BeginPlot.confirmSelection m inp gp plot).2.XAxis.Range = plot.XAxis.Range) ∧
    (inp.KeyMods = gp.InputMap.VerticalMod →
      ∀ i : Fin 3, ((BeginPlot.confirmSelection m inp gp plot).2.YAxis i).Range
        = (plot.YAxis i).Range) := by
  constructor
  · intro hh
    unfold BeginPlot.confirmSelection
    by_cases hc : (plot.Selecting && (inp.MouseReleased gp.InputMap.BoxSelectButton ||
        !inp.MouseDown gp.InputMap.BoxSelectButton)) = true
    · rw [if_pos hc]
      have e : (UpdateTransformCache m gp plot).InputMap = gp.InputMap := rfl
      simp only [e, hh, bne_self_eq_false, Bool.and_false, Bool.false_eq_true, if_false]
      split_ifs
      · rw [forYAxes_commitY_XAxis]
      · rfl
    · rw [if_neg hc]
  · intro hv i
    unfold BeginPlot.confirmSelection
    by_cases hc : (plot.Selecting && (inp.MouseReleased gp.InputMap.BoxSelectButton ||
        !inp.MouseDown gp.InputMap.BoxSelectButton)) = true
    · rw [if_pos hc]
      have e : (UpdateTransformCache m gp plot).InputMap = gp.InputMap := rfl
      have hY : ∀ p : ImPlotState K,
          forYAxes (BeginPlot.commitY m inp (UpdateTransformCache m gp plot)) p = p := by
        intro p
        have hv2 : inp.KeyMods = (UpdateTransformCache m gp plot).InputMap.VerticalMod := hv
        simp only [forYAxes, commitY_vertical m inp (UpdateTransformCache m gp plot) _ _ hv2]
      simp only [hY]
      split_ifs <;> simp [setXMin_YAxis, setXMax_YAxis]
    · rw [if_neg hc]

/-- Witness of C21: in the example plot, the selection confirmed with Alt alone keeps
`X = [0, 10]`, and the one confirmed with Shift alone keeps every `Y[i] = [-5, 5]`. -/
theorem C21_box_select_modifier_alone_witness :
    (BeginPlot.confirmSelection linearOnlyMath (selectExampleInputWith 4) exampleContext
        selectExamplePlot).2.XAxis.Range = selectExamplePlot.XAxis.Range ∧
    (∀ i : Fin 3, ((BeginPlot.confirmSelection linearOnlyMath (selectExampleInputWith 2)
        exampleContext selectExamplePlot).2.YAxis i).Range
          = (selectExamplePlot.YAxis i).Range) :=
  ⟨(C21_box_select_modifier_alone linearOnlyMath (selectExampleInputWith 4) exampleContext
      selectExamplePlot).1 rfl,
   (C21_box_select_modifier_alone linearOnlyMath (selectExampleInputWith 2) exampleContext
      selectExamplePlot).2 rfl⟩

/-! ### C22: the start of a box selection during a drag or a query -/

theorem dragInput_hover {K : Type} [LinearOrderedField K] (m : ImMath K)
    (inp : ImGuiInput K) (hov_legend hov_query : Bool) (gp : ImPlotContext K)
    (plot : ImPlotState K) :
    (BeginPlot.dragInput m inp hov_legend hov_query gp plot).1.Hov_Frame = gp.Hov_Frame ∧
    (BeginPlot.dragInput m inp hov_legend hov_query gp plot).1.Hov_Plot = gp.Hov_Plot := by
  unfold BeginPlot.dragInput
  simp only
  split_ifs <;> exact ⟨rfl, rfl⟩

theorem scrollInput_hover {K : Type} [LinearOrderedField K] (env : ImPlotEnv K)
    (inp : ImGuiInput K) (any_hov : Bool) (gp : ImPlotContext K) (plot : ImPlotState K) :
    (BeginPlot.scrollInput env inp any_hov gp plot).1.Hov_Frame = gp.Hov_Frame ∧
    (BeginPlot.scrollInput env inp any_hov gp plot).1.Hov_Plot = gp.Hov_Plot := by
  unfold BeginPlot.scrollInput
  by_cases hc : (gp.Hov_Frame && (plot.XAxis.HoveredTot || any_hov) &&
      decide (inp.MouseWheel ≠ 0)) = true
  · rw [if_pos hc]
    exact ⟨rfl, rfl⟩
  · rw [if_neg hc]
    exact ⟨rfl, rfl⟩

theorem confirmSelection_hover {K : Type} [LinearOrderedField K] (m : ImMath K)
    (inp : ImGuiInput K) (gp : ImPlotContext K) (plot : ImPlotState K) :
    (BeginPlot.confirmSelection m inp gp plot).1.Hov_Frame = gp.Hov_Frame ∧
    (BeginPlot.confirmSelection m inp gp plot).1.Hov_Plot = gp.Hov_Plot := by
  unfold BeginPlot.confirmSelection
  by_cases hc : (plot.Selecting && (inp.MouseReleased gp.InputMap.BoxSelectButton ||
      !inp.MouseDown gp.InputMap.BoxSelectButton)) = true
  · rw [if_pos hc]
    exact ⟨rfl, rfl⟩
  · rw [if_neg hc]
    exact ⟨rfl, rfl⟩

/-- The selection and query section after a click that begins a selection: Selecting is
set at its end unless the toggle to a query fires. -/
theorem selectAndQuery_begins {K : Type} [LinearOrderedField K] (m : ImMath K)
    (inp : ImGuiInput K) (gp : ImPlotContext K) (plot : ImPlotState K)
    (hf : gp.Hov_Frame = true) (hp : gp.Hov_Plot = true)
    (hc : inp.MouseClicked gp.InputMap.BoxSelectButton = true)
    (hm : ImHasFlag inp.KeyMods gp.InputMap.BoxSelectMod = true)
    (ht : (ImHasFlag plot.Flags ImPlotFlags_Query &&
      ImHasFlag inp.KeyMods gp.InputMap.QueryToggleMod) = false) :
    (BeginPlot.selectAndQuery m inp gp plot).2.Selecting = true := by
  unfold BeginPlot.selectAndQuery
  simp only
  have h1 : (BeginPlot.beginSelection inp gp (BeginPlot.cancelSelection inp gp plot)).Selecting
      = true := by
    unfold BeginPlot.beginSelection
    simp [hf, hp, hc, hm]
  have f1 : (BeginPlot.beginSelection inp gp (BeginPlot.cancelSelection inp gp plot)).Flags
      = plot.Flags := by
    rw [(beginSelection_mode _ _ _).1, (cancelSelection_mode _ _ _).1]
  generalize BeginPlot.beginSelection inp gp (BeginPlot.cancelSelection inp gp plot) = p1
    at h1 f1 ⊢
  have h2 : (BeginPlot.updateQuery m inp gp p1).2.Selecting = true := by
    unfold BeginPlot.updateQuery
    split_ifs <;> exact h1
  have f2 : (BeginPlot.updateQuery m inp gp p1).2.Flags = plot.Flags := by
    rw [(updateQuery_mode _ _ _ _).2.1, f1]
  have g2 : (BeginPlot.updateQuery m inp gp p1).1.InputMap = gp.InputMap :=
    (updateQuery_mode _ _ _ _).1
  generalize BeginPlot.updateQuery m inp gp p1 = r at h2 f2 g2 ⊢
  have h3 : (BeginPlot.endQuery inp r.1 r.2).Selecting = true := by
    unfold BeginPlot.endQuery
    split_ifs <;> exact h2
  have f3 : (BeginPlot.endQuery inp r.1 r.2).Flags = plot.Flags := by
    rw [(endQuery_mode _ _ _).1, f2]
  generalize BeginPlot.endQuery inp r.1 r.2 = p3 at h3 f3 ⊢
  have h4 : (BeginPlot.beginQuery inp r.1 p3).Selecting = true := by
    unfold BeginPlot.beginQuery
    split_ifs <;> exact h3
  have f4 : (BeginPlot.beginQuery inp r.1 p3).Flags = plot.Flags := by
    rw [(beginQuery_mode _ _ _).1, f3]
  generalize BeginPlot.beginQuery inp r.1 p3 = p4 at h4 f4 ⊢
  have e5 : BeginPlot.toggleToQuery inp r.1 p4 = p4 := by
    unfold BeginPlot.toggleToQuery
    rw [f4, g2]
    cases hq : ImHasFlag plot.Flags ImPlotFlags_Query
    · simp
    · rw [hq] at ht
      simp only [Bool.true_and] at ht
      simp [ht]
  rw [e5]
  have h6 : (BeginPlot.toggleToSelect inp r.1 p4).Selecting = true := by
    unfold BeginPlot.toggleToSelect
    split_ifs
    · rfl
    · exact h4
  generalize BeginPlot.toggleToSelect inp r.1 p4 = p6 at h6 ⊢
  unfold BeginPlot.clearQuery
  split_ifs <;> exact h6

/-- C22 (counterexample). The x axis is being dragged with the left button (and, in the
second plot, a query is in progress with the middle button), no selection is in
progress, and the right button is clicked over the plot area: the interaction pass of
BeginPlot sets Selecting while the drag (the query) goes on, since "begin selection"
(implot.cpp, 956-959) tests neither the Dragging flags nor Querying. -/
theorem C22_select_starts_during_drag_counterexample :
    dragSelectExamplePlot.XAxis.Dragging = true ∧
    dragSelectExamplePlot.Selecting = false ∧
    (BeginPlot.interaction exampleEnv (selectClickInputHolding ImGuiMouseButton_Left)
      hoveredContext dragSelectExamplePlot).2.XAxis.Dragging = true ∧
    (BeginPlot.interaction exampleEnv (selectClickInputHolding ImGuiMouseButton_Left)
      hoveredContext dragSelectExamplePlot).2.Selecting = true ∧
    querySelectExamplePlot.Querying = true ∧
    querySelectExamplePlot.Selecting = false ∧
    (BeginPlot.interaction exampleEnv (selectClickInputHolding ImGuiMouseButton_Middle)
      hoveredContext querySelectExamplePlot).2.Querying = true ∧
    (BeginPlot.interaction exampleEnv (selectClickInputHolding ImGuiMouseButton_Middle)
      hoveredContext querySelectExamplePlot).2.Selecting = true := by
  with_unfolding_all decide

/-- C22 (amended). In every BeginPlot frame in which the frame and the plot area are
hovered, the box-select button was clicked with the box-select modifier among the held
keys, and the toggle to a query does not fire (the Query flag is off or the query-toggle
modifier is not held), Selecting is true after the interaction pass, whether or not an
axis is being dragged or Querying is true, and whatever the rest of the input. -/
theorem C22_box_select_starts_on_click {K : Type} [LinearOrderedField K] (env : ImPlotEnv K)
    (inp : ImGuiInput K) (gp : ImPlotContext K) (plot : ImPlotState K)
    (hf : gp.Hov_Frame = true) (hp : gp.Hov_Plot = true)
    (hc : inp.MouseClicked gp.InputMap.BoxSelectButton = true)
    (hm : ImHasFlag inp.KeyMods gp.InputMap.BoxSelectMod = true)
    (ht : (ImHasFlag plot.Flags ImPlotFlags_Query &&
      ImHasFlag inp.KeyMods gp.InputMap.QueryToggleMod) = false) :
    (BeginPlot.interaction env inp gp plot).2.Selecting = true := by
  unfold BeginPlot.interaction
  simp only
  apply selectAndQuery_begins
  · rw [(confirmSelection_hover _ _ _ _).1, (scrollInput_hover _ _ _ _ _).1,
      (dragInput_hover _ _ _ _ _ _).1, hf]
  · rw [(confirmSelection_hover _ _ _ _).2, (scrollInput_hover _ _ _ _ _).2,
      (dragInput_hover _ _ _ _ _ _).2, hp]
  · rw [(confirmSelection_noNewDrag _ _ _ _).1, (scrollInput_noNewDrag _ _ _ _ _).1,
      (dragInput_noNewDrag _ _ _ _ _ _).1, hc]
  · rw [(confirmSelection_noNewDrag _ _ _ _).1, (scrollInput_noNewDrag _ _ _ _ _).1,
      (dragInput_noNewDrag _ _ _ _ _ _).1, hm]
  · rw [(confirmSelection_noNewDrag _ _ _ _).2.1, (scrollInput_noNewDrag _ _ _ _ _).2.1,
      (dragInput_noNewDrag _ _ _ _ _ _).2.1, queryDrag_flags,
      (confirmSelection_noNewDrag _ _ _ _).1, (scrollInput_noNewDrag _ _ _ _ _).1,
      (dragInput_noNewDrag _ _ _ _ _ _).1, ht]

/-- Witness of C22: the right click over the plot area while the x axis is being dragged
with the left button starts a selection. -/
theorem C22_box_select_starts_on_click_witness :
    dragSelectExamplePlot.XAxis.Dragging = true ∧
    (BeginPlot.interaction exampleEnv (selectClickInputHolding ImGuiMouseButton_Left)
      hoveredContext dragSelectExamplePlot).2.Selecting = true :=
  ⟨rfl, C22_box_select_starts_on_click exampleEnv
    (selectClickInputHolding ImGuiMouseButton_Left) hoveredContext dragSelectExamplePlot
    rfl rfl rfl (by decide) (by decide)⟩

/-! ### C25: the fit accumulator -/

theorem runningMin_push {K : Type} [LinearOrder K] (xs : List K) (d : ImDouble K) (v : K)
    (h : IsRunningMin xs d) :
    IsRunningMin (xs ++ [v])
      (if ImDouble.lt (ImDouble.finite v) d then ImDouble.finite v else d) := by
  rcases h with ⟨rfl, rfl⟩ | ⟨m, hm, hle, rfl⟩
  · right
    refine ⟨v, by simp, ?_, by simp [ImDouble.lt]⟩
    intro x hx
    simp only [List.nil_append, List.mem_singleton] at hx
    rw [hx]
  · right
    by_cases hv : v < m
    · refine ⟨v, by simp, ?_, by simp [ImDouble.lt, hv]⟩
      intro x hx
      rcases List.mem_append.1 hx with hx | hx
      · exact le_trans hv.le (hle x hx)
      · rw [List.mem_singleton.1 hx]
    · refine ⟨m, List.mem_append_left _ hm, ?_, by simp [ImDouble.lt, hv]⟩
      intro x hx
      rcases List.mem_append.1 hx with hx | hx
      · exact hle x hx
      · rw [List.mem_singleton.1 hx]
        exact not_lt.1 hv

theorem runningMax_push {K : Type} [LinearOrder K] (xs : List K) (d : ImDouble K) (v : K)
    (h : IsRunningMax xs d) :
    IsRunningMax (xs ++ [v])
      (if ImDouble.lt d (ImDouble.finite v) then ImDouble.finite v else d) := by
  rcases h with ⟨rfl, rfl⟩ | ⟨m, hm, hle, rfl⟩
  · right
    refine ⟨v, by simp, ?_, by simp [ImDouble.lt]⟩
    intro x hx
    simp only [List.nil_append, List.mem_singleton] at hx
    rw [hx]
  · right
    by_cases hv : m < v
    · refine ⟨v, by simp, ?_, by simp [ImDouble.lt, hv]⟩
      intro x hx
      rcases List.mem_append.1 hx with hx | hx
      · exact le_trans (hle x hx) hv.le
      · rw [List.mem_singleton.1 hx]
    · refine ⟨m, List.mem_append_left _ hm, ?_, by simp [ImDouble.lt, hv]⟩
      intro x hx
      rcases List.mem_append.1 hx with hx | hx
      · exact hle x hx
      · rw [List.mem_singleton.1 hx]
        exact not_lt.1 hv

/-- The x extents after one `FitPoint`. -/
theorem FitPoint_ExtentsX {K : Type} [LinearOrder K] (gp : ImPlotContext K)
    (plot : ImPlotState K) (p : ImPlotPoint (ImDouble K)) :
    (FitPoint gp plot p).ExtentsX
      = if NanOrInf p.x then gp.ExtentsX
        else { Min := if ImDouble.lt p.x gp.ExtentsX.Min then p.x else gp.ExtentsX.Min
               Max := if ImDouble.lt gp.ExtentsX.Max p.x then p.x else gp.ExtentsX.Max } := by
  unfold FitPoint
  cases hx : NanOrInf p.x <;> cases hy : NanOrInf p.y <;> simp

/-- The y extents after one `FitPoint`: those of the current axis. -/
theorem FitPoint_ExtentsY_current {K : Type} [LinearOrder K] (gp : ImPlotContext K)
    (plot : ImPlotState K) (p : ImPlotPoint (ImDouble K)) :
    (FitPoint gp plot p).ExtentsY plot.CurrentYAxis
      = if NanOrInf p.y then gp.ExtentsY plot.CurrentYAxis
        else { Min := if ImDouble.lt p.y (gp.ExtentsY plot.CurrentYAxis).Min then p.y
                      else (gp.ExtentsY plot.CurrentYAxis).Min
               Max := if ImDouble.lt (gp.ExtentsY plot.CurrentYAxis).Max p.y then p.y
                      else (gp.ExtentsY plot.CurrentYAxis).Max } := by
  unfold FitPoint
  cases hx : NanOrInf p.x <;> cases hy : NanOrInf p.y <;> simp

/-- The y extents after one `FitPoint`: those of the other axes. -/
theorem FitPoint_ExtentsY_other {K : Type} [LinearOrder K] (gp : ImPlotContext K)
    (plot : ImPlotState K) (p : ImPlotPoint (ImDouble K)) (j : Fin 3)
    (hj : j ≠ plot.CurrentYAxis) :
    (FitPoint gp plot p).ExtentsY j = gp.ExtentsY j := by
  unfold FitPoint
  cases hx : NanOrInf p.x <;> cases hy : NanOrInf p.y <;> simp [Function.update_noteq hj]

/-- One step of a running minimum and maximum: the accumulator after a value that may
be skipped. -/
theorem running_step {K : Type} [LinearOrder K] (xs : List K) (r : ImPlotRange (ImDouble K))
    (d : ImDouble K) (hmin : IsRunningMin xs r.Min) (hmax : IsRunningMax xs r.Max) :
    IsRunningMin (xs ++ (d.toNumber.toList))
      (if NanOrInf d then r
        else { Min := if ImDouble.lt d r.Min then d else r.Min
               Max := if ImDouble.lt r.Max d then d else r.Max }).Min ∧
    IsRunningMax (xs ++ (d.toNumber.toList))
      (if NanOrInf d then r
        else { Min := if ImDouble.lt d r.Min then d else r.Min
               Max := if ImDouble.lt r.Max d then d else r.Max }).Max := by
  cases d with
  | finite v =>
    simp only [NanOrInf, Bool.false_eq_true, if_false, ImDouble.toNumber, Option.toList]
    exact ⟨runningMin_push xs _ v hmin, runningMax_push xs _ v hmax⟩
  | posInf => simpa [NanOrInf, ImDouble.toNumber] using ⟨hmin, hmax⟩
  | negInf => simpa [NanOrInf, ImDouble.toNumber] using ⟨hmin, hmax⟩
  | nan => simpa [NanOrInf, ImDouble.toNumber] using ⟨hmin, hmax⟩

/-- The invariant of the calls of `FitPoint`, from any accumulator that holds the
running minimum and maximum of the numbers seen so far. -/
theorem FitPoints_running {K : Type} [LinearOrder K] (plot : ImPlotState K)
    (ps : List (ImPlotPoint (ImDouble K))) :
    ∀ (gp : ImPlotContext K) (xs ys : List K),
      IsRunningMin xs gp.ExtentsX.Min → IsRunningMax xs gp.ExtentsX.Max →
      IsRunningMin ys (gp.ExtentsY plot.CurrentYAxis).Min →
      IsRunningMax ys (gp.ExtentsY plot.CurrentYAxis).Max →
      IsRunningMin (xs ++ ps.filterMap (fun p => p.x.toNumber))
        (FitPoints gp plot ps).ExtentsX.Min ∧
      IsRunningMax (xs ++ ps.filterMap (fun p => p.x.toNumber))
        (FitPoints gp plot ps).ExtentsX.Max ∧
      IsRunningMin (ys ++ ps.filterMap (fun p => p.y.toNumber))
        ((FitPoints gp plot ps).ExtentsY plot.CurrentYAxis).Min ∧
      IsRunningMax (ys ++ ps.filterMap (fun p => p.y.toNumber))
        ((FitPoints gp plot ps).ExtentsY plot.CurrentYAxis).Max ∧
      ∀ j : Fin 3, j ≠ plot.CurrentYAxis → (FitPoints gp plot ps).ExtentsY j = gp.ExtentsY j := by
  induction ps with
  | nil =>
    intro gp xs ys h1 h2 h3 h4
    simp only [List.filterMap_nil, List.append_nil, FitPoints, List.foldl_nil]
    exact ⟨h1, h2, h3, h4, fun _ _ => trivial⟩
  | cons p ps ih =>
    intro gp xs ys h1 h2 h3 h4
    have hx := running_step xs gp.ExtentsX p.x h1 h2
    have hy := running_step ys (gp.ExtentsY plot.CurrentYAxis) p.y h3 h4
    rw [← FitPoint_ExtentsX gp plot p] at hx
    rw [← FitPoint_ExtentsY_current gp plot p] at hy
    obtain ⟨i1, i2, i3, i4, i5⟩ := ih (FitPoint gp plot p) _ _ hx.1 hx.2 hy.1 hy.2
    have ex : ∀ (f : ImPlotPoint (ImDouble K) → Option K) (l : List K),
        l ++ (p :: ps).filterMap f = (l ++ (f p).toList) ++ ps.filterMap f := by
      intro f l
      rw [List.filterMap_cons]
      cases f p <;> simp
    rw [ex, ex]
    have ef : FitPoints gp plot (p :: ps) = FitPoints (FitPoint gp plot p) plot ps := rfl
    rw [ef]
    refine ⟨i1, i2, i3, i4, fun j hj => ?_⟩
    rw [i5 j hj, FitPoint_ExtentsY_other gp plot p j hj]

/-- C25: starting from `Reset`, after `FitPoint` has been called on the points `ps`
(all on the same current y axis), `ExtentsX.Min` and `ExtentsX.Max` are the least and the
greatest of the x coordinates that are neither NaN nor infinite, and stay at plus and
minus infinity when there is none; `ExtentsY` of the current y axis holds the same for
the y coordinates; each coordinate is filtered on its own, and the extents of the other
y axes are as `Reset` left them. -/
theorem C25_fit_point_running_min_max {K : Type} [LinearOrder K] (g : ImPlotGlobal K)
    (plot : ImPlotState K) (ps : List (ImPlotPoint (ImDouble K))) :
    IsRunningMin (ps.filterMap (fun p => p.x.toNumber))
      (FitPoints (Reset g).gp plot ps).ExtentsX.Min ∧
    IsRunningMax (ps.filterMap (fun p => p.x.toNumber))
      (FitPoints (Reset g).gp plot ps).ExtentsX.Max ∧
    IsRunningMin (ps.filterMap (fun p => p.y.toNumber))
      ((FitPoints (Reset g).gp plot ps).ExtentsY plot.CurrentYAxis).Min ∧
    IsRunningMax (ps.filterMap (fun p => p.y.toNumber))
      ((FitPoints (Reset g).gp plot ps).ExtentsY plot.CurrentYAxis).Max ∧
    ∀ j : Fin 3, j ≠ plot.CurrentYAxis →
      (FitPoints (Reset g).gp plot ps).ExtentsY j
        = { Min := ImDouble.posInf, Max := ImDouble.negInf } := by
  have h := FitPoints_running plot ps (Reset g).gp [] []
    (Or.inl ⟨rfl, rfl⟩) (Or.inl ⟨rfl, rfl⟩) (Or.inl ⟨rfl, rfl⟩) (Or.inl ⟨rfl, rfl⟩)
  simp only [List.nil_append] at h
  obtain ⟨h1, h2, h3, h4, h5⟩ := h
  exact ⟨h1, h2, h3, h4, fun j hj => by rw [h5 j hj]; rfl⟩

/-- Witness of C25: after the four example points (one with a NaN `x`, one with an
infinite `y`) on y axis 0, the x extents are `[-1, 7]`, the y extents of axis 0 are
`[-2, 4]`, and those of axis 1 are still the sentinels. -/
theorem C25_fit_point_running_min_max_witness :
    (1 : Fin 3) ≠ fitExamplePlot.CurrentYAxis ∧
    (FitPoints (Reset exampleGlobal).gp fitExamplePlot fitPointsExample).ExtentsX
      = { Min := ImDouble.finite (-1), Max := ImDouble.finite 7 } ∧
    (FitPoints (Reset exampleGlobal).gp fitExamplePlot fitPointsExample).ExtentsY 0
      = { Min := ImDouble.finite (-2), Max := ImDouble.finite 4 } ∧
    (FitPoints (Reset exampleGlobal).gp fitExamplePlot fitPointsExample).ExtentsY 1
      = { Min := ImDouble.posInf, Max := ImDouble.negInf } :=
  ⟨by decide, by with_unfolding_all rfl, by with_unfolding_all rfl,
    (C25_fit_point_running_min_max exampleGlobal fitExamplePlot fitPointsExample).2.2.2.2 1
      (by decide)⟩

/-! ### C23: the choice of the time unit -/

theorem F64.toInt_intCast_eq (z : ℤ) :
    F64.toInt (z : ℚ) = if -2147483648 ≤ z ∧ z ≤ 2147483647 then some z else none := by
  unfold F64.toInt
  simp only [Int.floor_intCast, Int.ceil_intCast, ite_self]

/-- The whole part of a `double` that is at most 10 is at most 10. -/
theorem F64.toInt_le_ten (r : ℚ) (v : ℤ) (hr : r ≤ 10) (h : F64.toInt r = some v) : v ≤ 10 := by
  unfold F64.toInt at h
  simp only at h
  split_ifs at h with h1 h2
  · injection h with h
    rw [← h]
    have : ((⌊r⌋ : ℤ) : ℚ) ≤ ((10 : ℤ) : ℚ) := by
      push_cast
      exact le_trans (Int.floor_le r) hr
    exact_mod_cast this
  · injection h with h
    rw [← h]
    have : ⌈r⌉ ≤ 0 := Int.ceil_le.2 (by push_cast; linarith)
    omega

/-- The `int` made of a nice number in binary64 is at most 10 or a multiple of 5, when the
C library returns the exact power of ten for the exponents from 1 to 14 that occur and a
power of at most 1 for the others. -/
theorem toInt_NiceNum64 (m : ImMath ℚ) (x : ℚ) (round : Bool) (v : ℤ)
    (hpos : 0 < ⌊m.ImLog10 x⌋ → ⌊m.ImLog10 x⌋ ≤ 14 ∧
      m.ImPow 10 ((⌊m.ImLog10 x⌋ : ℤ) : ℚ) = ((10 ^ (⌊m.ImLog10 x⌋).toNat : ℕ) : ℚ))
    (hneg : ⌊m.ImLog10 x⌋ ≤ 0 → m.ImPow 10 ((⌊m.ImLog10 x⌋ : ℤ) : ℚ) ≤ 1)
    (h : (NiceNum64 m x round).bind F64.toInt = some v) :
    v ≤ 15 ∨ (5 : ℤ) ∣ v := by
  unfold NiceNum64 at h
  rw [F64.toInt_intCast_eq] at h
  by_cases hr : -2147483648 ≤ ⌊m.ImLog10 x⌋ ∧ ⌊m.ImLog10 x⌋ ≤ 2147483647
  · rw [if_pos hr] at h
    simp only [Option.some_bind] at h
    generalize hnf : (if round = true then
        if F64.round (x / m.ImPow 10 ((⌊m.ImLog10 x⌋ : ℤ) : ℚ)) < 1.5 then (1 : ℚ)
        else if F64.round (x / m.ImPow 10 ((⌊m.ImLog10 x⌋ : ℤ) : ℚ)) < 3 then 2
        else if F64.round (x / m.ImPow 10 ((⌊m.ImLog10 x⌋ : ℤ) : ℚ)) < 7 then 5 else 10
      else if F64.round (x / m.ImPow 10 ((⌊m.ImLog10 x⌋ : ℤ) : ℚ)) ≤ 1 then 1
        else if F64.round (x / m.ImPow 10 ((⌊m.ImLog10 x⌋ : ℤ) : ℚ)) ≤ 2 then 2
        else if F64.round (x / m.ImPow 10 ((⌊m.ImLog10 x⌋ : ℤ) : ℚ)) ≤ 5 then 5 else 10) = nf
      at h
    have hnfc : nf = 1 ∨ nf = 2 ∨ nf = 5 ∨ nf = 10 := by
      rw [← hnf]
      split_ifs <;> simp
    generalize ⌊m.ImLog10 x⌋ = e at hpos hneg h hr
    rcases le_or_lt e 0 with he | he
    · left
      have hp := hneg he
      have hle : nf * m.ImPow 10 (e : ℚ) ≤ 10 := by
        rcases hnfc with c | c | c | c <;> rw [c] <;> linarith
      have hR := F64.round_mono _ _ hle
      have h10 : F64.round 10 = 10 := by
        have := F64.round_int 10 (by norm_num)
        simpa using this
      rw [h10] at hR
      have := F64.toInt_le_ten _ v hR h
      omega
    · right
      obtain ⟨h14, hp⟩ := hpos he
      obtain ⟨k, hk⟩ : ∃ k : ℕ, e.toNat = k + 1 := ⟨e.toNat - 1, by omega⟩
      have hk14 : k + 1 ≤ 14 := by omega
      obtain ⟨ni, hni, hn10⟩ : ∃ ni : ℤ, nf = (ni : ℚ) ∧ 0 < ni ∧ ni ≤ 10 := by
        rcases hnfc with c | c | c | c
        · exact ⟨1, by rw [c]; norm_num, by norm_num, by norm_num⟩
        · exact ⟨2, by rw [c]; norm_num, by norm_num, by norm_num⟩
        · exact ⟨5, by rw [c]; norm_num, by norm_num, by norm_num⟩
        · exact ⟨10, by rw [c]; norm_num, by norm_num, by norm_num⟩
      have hval : nf * m.ImPow 10 (e : ℚ) = ((ni * 10 ^ (k + 1) : ℤ) : ℚ) := by
        rw [hp, hk, hni]
        push_cast
        ring
      have hpow : (10 : ℤ) ^ (k + 1) ≤ 10 ^ 14 :=
        pow_le_pow_right₀ (by norm_num) hk14
      have hpow0 : (0 : ℤ) < 10 ^ (k + 1) := by positivity
      have hbound : |ni * 10 ^ (k + 1)| < 2 ^ 53 := by
        rw [abs_of_pos (Int.mul_pos hn10.1 hpow0)]
        calc ni * 10 ^ (k + 1) ≤ 10 * 10 ^ 14 := Int.mul_le_mul hn10.2 hpow hpow0.le (by norm_num)
          _ < 2 ^ 53 := by norm_num
      rw [hval, F64.round_int _ hbound, F64.toInt_intCast_eq] at h
      split_ifs at h
      injection h with h
      rw [← h]
      exact Dvd.intro_left (ni * 2 * 10 ^ k) (by ring)
  · rw [if_neg hr] at h
    simp at h

/-- The minor step of a major step from 1 to 15 divides it when it is at least 1. -/
theorem minorStep_dvd_small (s : ℤ) (h1 : 1 ≤ s) (h15 : s ≤ 15)
    (hm : 1 ≤ AddDefaultTimeScaleTicks.minorStep s) :
    AddDefaultTimeScaleTicks.minorStep s ∣ s := by
  interval_cases s <;> revert hm <;> decide

/-- The minor step of a major step above 15 that is a multiple of 5 divides it. -/
theorem minorStep_dvd_five (s : ℤ) (h15 : 15 < s) (h5 : (5 : ℤ) ∣ s) :
    AddDefaultTimeScaleTicks.minorStep s ∣ s := by
  unfold AddDefaultTimeScaleTicks.minorStep
  rw [if_pos (by omega)]
  obtain ⟨k, rfl⟩ := h5
  rw [Int.mul_tdiv_cancel_left _ (by norm_num : (5 : ℤ) ≠ 0)]
  exact Dvd.intro_left 5 rfl

theorem F64.toInt_out_of_range (x : ℚ) (h : 2147483648 ≤ x) : F64.toInt x = none := by
  unfold F64.toInt
  simp only
  rw [if_pos (by linarith : (0 : ℚ) ≤ x), if_neg]
  intro hc
  have h1 : ((2147483648 : ℤ) : ℚ) ≤ x := by push_cast; exact h
  have := Int.le_floor.2 h1
  omega

/-- `NiceNumTime` is undefined from `2 ^ 31` on: the conversion `(int)x` is out of
range. -/
theorem NiceNumTime_out_of_range (t : ImTimeEnv) (x : ℚ) (unit : ℕ) (h : 2147483648 ≤ x) :
    NiceNumTime t x unit = none := by
  unfold NiceNumTime
  rw [F64.toInt_out_of_range x h]

/-- The values of `NiceNumTime`: at most 15, a multiple of 5, or 24, or, for the hour and
the month, a larger multiple of 24 or 12. -/
theorem NiceNumTime_shape (t : ImTimeEnv) (x : ℚ) (unit : ℕ) (v : ℤ)
    (hpos : 0 < ⌊t.math.ImLog10 x⌋ → ⌊t.math.ImLog10 x⌋ ≤ 14 ∧
      t.math.ImPow 10 ((⌊t.math.ImLog10 x⌋ : ℤ) : ℚ)
        = ((10 ^ (⌊t.math.ImLog10 x⌋).toNat : ℕ) : ℚ))
    (hneg : ⌊t.math.ImLog10 x⌋ ≤ 0 → t.math.ImPow 10 ((⌊t.math.ImLog10 x⌋ : ℤ) : ℚ) ≤ 1)
    (h : NiceNumTime t x unit = some v) :
    v ≤ 15 ∨ (5 : ℤ) ∣ v ∨ v = 24 ∨
      ((unit = ImTimeUnit_HR ∨ unit = ImTimeUnit_MON) ∧ 24 < v) := by
  have hq : ∀ (f c : ℤ), 0 < c → c ≤ f → 1 ≤ f.tdiv c := by
    intro f c hc hf
    rw [Int.tdiv_eq_ediv (by omega) (le_of_lt hc)]
    exact Int.le_ediv_of_mul_le hc (by omega)
  have hnice : ∀ w : ℤ, (NiceNum64 t.math x true).bind F64.toInt = some w →
      w ≤ 15 ∨ (5 : ℤ) ∣ w ∨ w = 24 ∨
        ((unit = ImTimeUnit_HR ∨ unit = ImTimeUnit_MON) ∧ 24 < w) := by
    intro w hw
    rcases toInt_NiceNum64 t.math x true w hpos hneg hw with c | c
    · exact Or.inl c
    · exact Or.inr (Or.inl c)
  unfold NiceNumTime at h
  cases hf : F64.toInt x with
  | none =>
    rw [hf] at h
    simp at h
  | some f =>
    rw [hf] at h
    simp only at h
    by_cases h1 : unit < ImTimeUnit_SEC
    · rw [if_pos h1] at h
      exact hnice v h
    rw [if_neg h1] at h
    by_cases h2 : unit = ImTimeUnit_SEC ∨ unit = ImTimeUnit_MIN
    · rw [if_pos h2] at h
      injection h with h
      rw [← h]
      split_ifs
      · left; norm_num
      · left; norm_num
      · left; norm_num
      · left; norm_num
      · left; norm_num
      · right; left; norm_num
      · right; left; norm_num
      · right; left
        exact Dvd.intro_left (f.tdiv 60 * 12) (by ring)
    rw [if_neg h2] at h
    by_cases h3 : unit = ImTimeUnit_HR
    · rw [if_pos h3] at h
      injection h with h
      rw [← h]
      split_ifs with a1 a2 a3 a4 a5
      · left; norm_num
      · left; norm_num
      · left; norm_num
      · left; norm_num
      · left; norm_num
      · have := hq f 24 (by norm_num) (by omega)
        rcases Nat.eq_or_lt_of_le (Int.toNat_le_toNat this) with e | e
        · right; right; left
          have : f.tdiv 24 = 1 := by omega
          rw [this]
          norm_num
        · right; right; right
          exact ⟨Or.inl h3, by omega⟩
    rw [if_neg h3] at h
    by_cases h4 : unit = ImTimeUnit_DAY
    · rw [if_pos h4] at h
      split_ifs at h
      · exact hnice v h
      · injection h with h
        rw [← h]
        right; left
        exact Dvd.intro_left (f.tdiv 30 * 6) (by ring)
    rw [if_neg h4] at h
    by_cases h5 : unit = ImTimeUnit_MON
    · rw [if_pos h5] at h
      injection h with h
      rw [← h]
      split_ifs with a1 a2 a3
      · left; norm_num
      · left; norm_num
      · left; norm_num
      · have := hq f 12 (by norm_num) (by omega)
        by_cases e1 : f.tdiv 12 = 1
        · left; rw [e1]; norm_num
        · by_cases e2 : f.tdiv 12 = 2
          · right; right; left; rw [e2]; norm_num
          · right; right; right
            exact ⟨Or.inr h5, by omega⟩
    rw [if_neg h5] at h
    exact hnice v h

/-- C24 (counterexample). For the hour unit and `x = 48` the major step is 48 and the
minor step is `48 / 5 = 9`, which leaves the remainder 3; for the month unit and `x = 36`
the major step is 36 and the minor step 7, which leaves the remainder 1. -/
theorem C24_minor_step_counterexample :
    NiceNumTime exampleTimeEnv 48 ImTimeUnit_HR = some 48 ∧
    AddDefaultTimeScaleTicks.minorStep (max 1 48) = 9 ∧
    ¬ (AddDefaultTimeScaleTicks.minorStep (max 1 48) ∣ max 1 (48 : ℤ)) ∧
    NiceNumTime exampleTimeEnv 36 ImTimeUnit_MON = some 36 ∧
    AddDefaultTimeScaleTicks.minorStep (max 1 36) = 7 ∧
    ¬ (AddDefaultTimeScaleTicks.minorStep (max 1 36) ∣ max 1 (36 : ℤ)) := by
  refine ⟨by decide!, by decide, by decide, by decide!, by decide, by decide⟩

/-- C24 (amended). For every unit and every `x > 0` for which `NiceNumTime(x, unit)`
is defined (its conversions to `int` are in range, so `x < 2 ^ 31`), with a C library
that returns the exact power of ten for the exponents from 1 to 14 and a power of at most
1 for the others, and with the major step `s = max(1, NiceNumTime(x, unit))`: when `s` is
at most 15 the table is read at an index from 1 to 15; and if the minor step chosen for
`s` is at least 1, it divides `s` exactly whenever the unit is neither the hour nor the
month, or `s` is at most 24, or `s` is a multiple of 5. -/
theorem C24_minor_step_divides (t : ImTimeEnv) (unit : ℕ) (x : ℚ) (n : ℤ) (_hx : 0 < x)
    (hpos : 0 < ⌊t.math.ImLog10 x⌋ → ⌊t.math.ImLog10 x⌋ ≤ 14 ∧
      t.math.ImPow 10 ((⌊t.math.ImLog10 x⌋ : ℤ) : ℚ)
        = ((10 ^ (⌊t.math.ImLog10 x⌋).toNat : ℕ) : ℚ))
    (hneg : ⌊t.math.ImLog10 x⌋ ≤ 0 → t.math.ImPow 10 ((⌊t.math.ImLog10 x⌋ : ℤ) : ℚ) ≤ 1)
    (hn : NiceNumTime t x unit = some n) :
    x < 2147483648 ∧
    (max 1 n ≤ 15 → 1 ≤ (max 1 n).toNat ∧ (max 1 n).toNat ≤ 15) ∧
    (1 ≤ AddDefaultTimeScaleTicks.minorStep (max 1 n) →
      ((unit ≠ ImTimeUnit_HR ∧ unit ≠ ImTimeUnit_MON) ∨ max 1 n ≤ 24 ∨
        (5 : ℤ) ∣ max 1 n) →
      AddDefaultTimeScaleTicks.minorStep (max 1 n) ∣ max 1 n) := by
  have hs := NiceNumTime_shape t x unit n hpos hneg hn
  have hx2 : x < 2147483648 := by
    by_contra hc
    rw [NiceNumTime_out_of_range t x unit (not_lt.1 hc)] at hn
    exact absurd hn (by simp)
  have h1 : (1 : ℤ) ≤ max 1 n := le_max_left _ _
  refine ⟨hx2, fun h15 => by omega, fun hm hc => ?_⟩
  by_cases h15 : max 1 n ≤ 15
  · exact minorStep_dvd_small _ h1 h15 hm
  · have hn' : max 1 n = n := max_eq_right (by
      rcases le_total 1 n with h | h
      · exact h
      · rw [max_eq_left h] at h15
        omega)
    rw [hn'] at h15 hc ⊢
    by_cases h5 : (5 : ℤ) ∣ n
    · exact minorStep_dvd_five n (by omega) h5
    · rcases hs with h | h | h | ⟨hu, h24⟩
      · omega
      · exact absurd h h5
      · rw [h]
        decide
      · rcases hc with ⟨c1, c2⟩ | c | c
        · rcases hu with hu | hu
          · exact absurd hu c1
          · exact absurd hu c2
        · omega
        · exact absurd c h5

/-- Witness of C24: for the millisecond unit and `x = 30` with the example C library,
the nice number is 50, the major step is 50 and the minor step `50 / 5 = 10` divides
it. -/
theorem C24_minor_step_divides_witness :
    (0 : ℚ) < 30 ∧ ⌊exampleTimeEnv.math.ImLog10 30⌋ = 1 ∧
    exampleTimeEnv.math.ImPow 10 ((1 : ℤ) : ℚ) = 10 ∧
    NiceNumTime exampleTimeEnv 30 ImTimeUnit_MS = some 50 ∧
    AddDefaultTimeScaleTicks.minorStep (max 1 50) = 10 ∧
    AddDefaultTimeScaleTicks.minorStep (max 1 50) ∣ max 1 (50 : ℤ) :=
  have he : ⌊exampleTimeEnv.math.ImLog10 30⌋ = 1 := by decide!
  have hp : exampleTimeEnv.math.ImPow 10 ((1 : ℤ) : ℚ) = 10 := by decide!
  have hn : NiceNumTime exampleTimeEnv 30 ImTimeUnit_MS = some 50 := by decide!
  ⟨by norm_num, he, hp, hn, by decide,
    (C24_minor_step_divides exampleTimeEnv ImTimeUnit_MS 30 50 (by norm_num)
      (fun _ => by rw [he]; exact ⟨by decide, by rw [hp]; norm_num⟩)
      (fun h => by rw [he] at h; exact absurd h (by decide)) hn).2.2
      (by decide) (Or.inr (Or.inr (by decide)))⟩

/-! ### C26: the detection of changed flags -/

/-- C26 (counterexample). The plot exists and its last BeginPlot was called with the
axis flags 7 for every axis; the next BeginPlot is called with `x_flags = y_flags = 71`
(the LogScale flag added): the stored flags of `Y[0]` become 71, those of the x axis
stay 7, while the new value is recorded in `XAxis.PreviousFlags`. -/
theorem C26_x_axis_flags_counterexample :
    flagsExamplePlot.XAxis.PreviousFlags = 7 ∧
    (flagsExamplePlot.YAxis 0).PreviousFlags = 7 ∧
    ((BeginPlot.updateFlags false 0 71 71 7 7 flagsExamplePlot).YAxis 0).Flags = 71 ∧
    (BeginPlot.updateFlags false 0 71 71 7 7 flagsExamplePlot).XAxis.Flags = 7 ∧
    (BeginPlot.updateFlags false 0 71 71 7 7 flagsExamplePlot).XAxis.PreviousFlags = 71 := by
  decide

/-- C26 (plot and y axes): in the flags section of BeginPlot for a plot that exists, the
stored plot flags and the stored flags of `Y[0]`, `Y[1]`, `Y[2]` become the passed flags
when these differ from the flags recorded at the previous BeginPlot and are left as they
are when equal; the stored flags of the x axis are left as they are in both cases; and
the passed flags of the plot and of all four axes are recorded for the next call. -/
theorem C26_flag_change_detection {K : Type} (flags x_flags y_flags y2_flags y3_flags : ℕ)
    (plot : ImPlotState K) :
    (BeginPlot.updateFlags false flags x_flags y_flags y2_flags y3_flags plot).Flags
      = (if flags = plot.PreviousFlags then plot.Flags else flags) ∧
    ((BeginPlot.updateFlags false flags x_flags y_flags y2_flags y3_flags plot).YAxis 0).Flags
      = (if y_flags = (plot.YAxis 0).PreviousFlags then (plot.YAxis 0).Flags else y_flags) ∧
    ((BeginPlot.updateFlags false flags x_flags y_flags y2_flags y3_flags plot).YAxis 1).Flags
      = (if y2_flags = (plot.YAxis 1).PreviousFlags then (plot.YAxis 1).Flags else y2_flags) ∧
    ((BeginPlot.updateFlags false flags x_flags y_flags y2_flags y3_flags plot).YAxis 2).Flags
      = (if y3_flags = (plot.YAxis 2).PreviousFlags then (plot.YAxis 2).Flags else y3_flags) ∧
    (BeginPlot.updateFlags false flags x_flags y_flags y2_flags y3_flags plot).XAxis.Flags
      = plot.XAxis.Flags ∧
    (BeginPlot.updateFlags false flags x_flags y_flags y2_flags y3_flags plot).PreviousFlags
      = flags ∧
    (BeginPlot.updateFlags false flags x_flags y_flags y2_flags y3_flags
      plot).XAxis.PreviousFlags = x_flags ∧
    ((BeginPlot.updateFlags false flags x_flags y_flags y2_flags y3_flags
      plot).YAxis 0).PreviousFlags = y_flags ∧
    ((BeginPlot.updateFlags false flags x_flags y_flags y2_flags y3_flags
      plot).YAxis 1).PreviousFlags = y2_flags ∧
    ((BeginPlot.updateFlags false flags x_flags y_flags y2_flags y3_flags
      plot).YAxis 2).PreviousFlags = y3_flags := by
  simp only [BeginPlot.updateFlags, ImPlotState.setYFlags, Bool.false_eq_true, if_false]
  by_cases h0 : flags = plot.PreviousFlags <;> by_cases h1 : y_flags = (plot.YAxis 0).PreviousFlags <;>
    by_cases h2 : y2_flags = (plot.YAxis 1).PreviousFlags <;>
    by_cases h3 : y3_flags = (plot.YAxis 2).PreviousFlags <;>
    simp [h0, h1, h2, h3, Function.update]

/-! ### C27: an x axis with both the LogScale and the Time flag -/

/-- `NiceNum` returns a number `m * 10 ^ e` with `m` one of 1, 2, 5 unchanged, in
either mode. -/
theorem NiceNum_of_nice (m : ℚ) (e : ℤ) (round : Bool) (hm : m = 1 ∨ m = 2 ∨ m = 5) :
    NiceNum (m * (10 : ℚ) ^ e) round = m * (10 : ℚ) ^ e := by
  have hP := pow10_pos e
  have h1 : 1 ≤ m := by rcases hm with h | h | h <;> rw [h] <;> norm_num
  have h5 : m ≤ 5 := by rcases hm with h | h | h <;> rw [h] <;> norm_num
  have hl : floorLog10 (m * (10 : ℚ) ^ e) = e := by
    apply floorLog10_eq
    · nlinarith
    · rw [pow10_succ]
      nlinarith
  have hf : m * (10 : ℚ) ^ e / (10 : ℚ) ^ e = m := by
    field_simp
  simp only [NiceNum, hl, hf]
  rcases hm with h | h | h <;> rw [h] <;> cases round <;> norm_num

/-- The fixed points of `NiceNum`: every result is returned unchanged. -/
theorem NiceNum_idempotent (x : ℚ) (round : Bool) :
    NiceNum (NiceNum x round) round = NiceNum x round := by
  obtain ⟨m, e, hm, hv⟩ := NiceNum_isNice x round
  rw [hv]
  rcases hm with h | h | h | h
  · exact NiceNum_of_nice m e round (Or.inl h)
  · exact NiceNum_of_nice m e round (Or.inr (Or.inl h))
  · exact NiceNum_of_nice m e round (Or.inr (Or.inr h))
  · have e10 : m * (10 : ℚ) ^ e = 1 * (10 : ℚ) ^ (e + 1) := by
      rw [h, pow10_succ]
      ring
    rw [e10]
    exact NiceNum_of_nice 1 (e + 1) round (Or.inl rfl)

/-- In exact arithmetic, for every `x > 0`, `x <= NiceNum(x, false) < 2.5 * x` and
`(2/3) * x < NiceNum(x, true) <= (5/3) * x`, and in both modes
`NiceNum(NiceNum(x, r), r) = NiceNum(x, r)`. -/
theorem NiceNum_exact_bounds_idempotent (x : ℚ) (hx : 0 < x) :
    (x ≤ NiceNum x false ∧ NiceNum x false < 2.5 * x) ∧
    ((2 / 3) * x < NiceNum x true ∧ NiceNum x true ≤ (5 / 3) * x) ∧
    ∀ round : Bool, NiceNum (NiceNum x round) round = NiceNum x round := by
  have hP := pow10_pos (floorLog10 x)
  have hlo := floorLog10_le x hx
  have hhi := lt_floorLog10_succ x
  rw [pow10_succ] at hhi
  refine ⟨?_, ?_, fun round => NiceNum_idempotent x round⟩
  · simp only [NiceNum, Bool.false_eq_true, if_false]
    generalize (10 : ℚ) ^ floorLog10 x = P at *
    have e1 : ∀ c : ℚ, x / P ≤ c ↔ x ≤ c * P := fun c => div_le_iff₀ hP
    simp only [e1]
    split_ifs with g1 g2 g3
    · constructor <;> linarith
    · constructor <;> linarith
    · constructor <;> linarith
    · constructor <;> linarith
  · simp only [NiceNum, if_true]
    generalize (10 : ℚ) ^ floorLog10 x = P at *
    have e1 : ∀ c : ℚ, x / P < c ↔ x < c * P := fun c => div_lt_iff₀ hP
    simp only [e1]
    split_ifs with g1 g2 g3
    · constructor <;> linarith
    · constructor <;> linarith
    · constructor <;> linarith
    · constructor <;> linarith

/-- The exact `NiceNum` at `x = 3.2`: `NiceNum(3.2, true)` is 5, between `(2/3) * 3.2` and
`(5/3) * 3.2`. -/
theorem NiceNum_exact_bounds_example :
    (3.2 : ℚ) ≤ NiceNum 3.2 false ∧ NiceNum 3.2 false < 2.5 * 3.2 ∧
    (2 / 3) * (3.2 : ℚ) < NiceNum 3.2 true ∧ NiceNum 3.2 true ≤ (5 / 3) * 3.2 ∧
    NiceNum (NiceNum 3.2 true) true = NiceNum 3.2 true :=
  ⟨(NiceNum_exact_bounds_idempotent 3.2 (by norm_num)).1.1,
   (NiceNum_exact_bounds_idempotent 3.2 (by norm_num)).1.2,
   (NiceNum_exact_bounds_idempotent 3.2 (by norm_num)).2.1.1,
   (NiceNum_exact_bounds_idempotent 3.2 (by norm_num)).2.1.2,
   (NiceNum_exact_bounds_idempotent 3.2 (by norm_num)).2.2 true⟩

/-! ### C28: NiceNum in binary64 -/

theorem truncToInt_intCast (i : ℤ) : truncToInt (i : ℚ) = i := by
  unfold truncToInt
  split_ifs <;> simp

theorem ImVec4.lerp_zero (a b : ImVec4 ℚ) : ImVec4.lerp a b 0 = a := by
  simp [ImVec4.lerp, ImLerp]

/-- `LerpColormap` from 1 on: the last colour. -/
theorem LerpColormap_above (Colormap : ℕ → ImVec4 ℚ) (n : ℤ) (t : ℚ) (ht : 1 ≤ t) :
    LerpColormap Colormap n t = Colormap (n - 1).toNat := by
  have hc : ImClamp t 0 1 = 1 := by
    unfold ImClamp
    rw [if_neg (by linarith)]
    split_ifs
    · rfl
    · linarith
  unfold LerpColormap
  simp only [hc, mul_one, truncToInt_intCast]
  rw [if_pos (by ring)]

/-- C30 (counterexample). On the colormap of black and white, `LerpColormap(-1)` is not
`LerpColormap(clamp(-1, 0, 1))` and not the first colour: its red component is -1, where
that of the first colour is 0. -/
theorem C30_negative_argument_counterexample :
    LerpColormap exampleColormap 2 (-1) ≠ LerpColormap exampleColormap 2 (ImClamp (-1) 0 1) ∧
    LerpColormap exampleColormap 2 (-1) ≠ exampleColormap 0 ∧
    (LerpColormap exampleColormap 2 (-1)).x = -1 ∧
    (LerpColormap exampleColormap 2 (ImClamp (-1) 0 1)).x = 0 := by
  decide!

/-- C30 (from 0 on): for every colormap of `n >= 2` colours, `LerpColormap(t)` is
`LerpColormap(clamp(t, 0, 1))` for every `t >= 0`, the last colour for every `t >= 1`,
and colour `i` at each knot `t = i / (n - 1)`; for `t < 0` it is the line through the
first two colours continued to `t * (n - 1)`, which is the first colour only when the
first two colours are equal. -/
theorem C30_lerp_colormap (Colormap : ℕ → ImVec4 ℚ) (n : ℤ) (hn : 2 ≤ n) (t : ℚ) :
    (0 ≤ t → LerpColormap Colormap n t = LerpColormap Colormap n (ImClamp t 0 1)) ∧
    (1 ≤ t → LerpColormap Colormap n t = Colormap (n - 1).toNat) ∧
    (∀ i : ℤ, 0 ≤ i → i ≤ n - 1 →
      LerpColormap Colormap n ((i : ℚ) / ((n - 1 : ℤ) : ℚ)) = Colormap i.toNat) ∧
    (t < 0 → LerpColormap Colormap n t
      = ImVec4.lerp (Colormap 0) (Colormap 1) (t * ((n - 1 : ℤ) : ℚ))) := by
  have hn1 : (0 : ℚ) < ((n - 1 : ℤ) : ℚ) := by
    have : (0 : ℤ) < n - 1 := by omega
    exact_mod_cast this
  refine ⟨fun h0 => ?_, fun h1 => LerpColormap_above Colormap n t h1, fun i hi0 hi1 => ?_,
    fun hneg => ?_⟩
  · by_cases h1 : t ≤ 1
    · have hc : ImClamp t 0 1 = t := by
        unfold ImClamp
        rw [if_neg (by linarith), if_neg (by linarith)]
      rw [hc]
    · have hc : ImClamp t 0 1 = 1 := by
        unfold ImClamp
        rw [if_neg (by linarith), if_pos (by linarith)]
      rw [hc, LerpColormap_above Colormap n t (by linarith),
        LerpColormap_above Colormap n 1 (le_refl _)]
  · have hi0q : (0 : ℚ) ≤ (i : ℚ) := by exact_mod_cast hi0
    have hi1q : (i : ℚ) ≤ ((n - 1 : ℤ) : ℚ) := by exact_mod_cast hi1
    have ht0 : (0 : ℚ) ≤ (i : ℚ) / ((n - 1 : ℤ) : ℚ) := div_nonneg hi0q hn1.le
    have ht1 : (i : ℚ) / ((n - 1 : ℤ) : ℚ) ≤ 1 := (div_le_one hn1).2 hi1q
    have hc : ImClamp ((i : ℚ) / ((n - 1 : ℤ) : ℚ)) 0 1 = (i : ℚ) / ((n - 1 : ℤ) : ℚ) := by
      unfold ImClamp
      rw [if_neg (by linarith), if_neg (by linarith)]
    have hm : ((n - 1 : ℤ) : ℚ) * ((i : ℚ) / ((n - 1 : ℤ) : ℚ)) = (i : ℚ) :=
      mul_div_cancel₀ _ (ne_of_gt hn1)
    unfold LerpColormap
    simp only [hc, hm, truncToInt_intCast]
    split_ifs with h
    · rfl
    · have hr : ImRemap ((i : ℚ) / ((n - 1 : ℤ) : ℚ)) ((i : ℚ) / ((n - 1 : ℤ) : ℚ))
          (((i + 1 : ℤ) : ℚ) / ((n - 1 : ℤ) : ℚ)) 0 1 = 0 := by
        simp [ImRemap]
      rw [hr, ImVec4.lerp_zero]
  · have hc : ImClamp t 0 1 = 0 := by
      unfold ImClamp
      rw [if_pos hneg]
    have h0 : truncToInt (0 : ℚ) = 0 := by
      have := truncToInt_intCast 0
      simpa using this
    unfold LerpColormap
    simp only [hc, mul_zero, h0]
    rw [if_neg (by omega)]
    have hr : ImRemap t (((0 : ℤ) : ℚ) / ((n - 1 : ℤ) : ℚ))
        (((0 + 1 : ℤ) : ℚ) / ((n - 1 : ℤ) : ℚ)) 0 1 = t * ((n - 1 : ℤ) : ℚ) := by
      simp only [ImRemap]
      push_cast
      field_simp
    rw [hr]
    rfl

/-- Witness of C30 on the colormap of black and white: the argument 3 gives white, the
knot 0 gives black and the knot 1 gives white. -/
theorem C30_lerp_colormap_witness :
    (2 : ℤ) ≤ 2 ∧ (1 : ℚ) ≤ 3 ∧
    LerpColormap exampleColormap 2 3 = exampleColormap 1 ∧
    LerpColormap exampleColormap 2 (((0 : ℤ) : ℚ) / ((2 - 1 : ℤ) : ℚ)) = exampleColormap 0 ∧
    LerpColormap exampleColormap 2 (((1 : ℤ) : ℚ) / ((2 - 1 : ℤ) : ℚ)) = exampleColormap 1 :=
  ⟨by decide, by norm_num,
   (C30_lerp_colormap exampleColormap 2 (by decide) 3).2.1 (by norm_num),
   (C30_lerp_colormap exampleColormap 2 (by decide) 3).2.2.1 0 (by decide) (by decide),
   (C30_lerp_colormap exampleColormap 2 (by decide) 3).2.2.1 1 (by decide) (by decide)⟩

/-! ### C5 and C6: the linear ticks in binary64 -/

/-- The linear loop does not end when the sum `major + interval` rounds back to `major`
below the bound. -/
theorem linearLoop64_stuck (range : ImPlotRange ℚ) (interval : ℚ) (nMinor : ℤ)
    (bound major : ℚ) (h1 : major < bound) (h2 : F64.round (major + interval) = major) :
    ∀ (fuel : ℕ) (out : List (ImPlotTick ℚ)),
      AddDefaultTicks.linearLoop64 range interval nMinor bound fuel major out = none := by
  intro fuel
  induction fuel with
  | zero => intro out; rfl
  | succ k ih =>
    intro out
    rw [AddDefaultTicks.linearLoop64, if_pos h1, h2]
    exact ih _

/-- C5 (counterexample). The range `[1, 1 + DBL_EPSILON]`, which the constraint pass of
BeginPlot makes of the empty range `[1, 1]`, with `nMajor = 5` in binary64: the interval
is the `double` 1e-16, `graphmin` is 1 and the bound `1 + DBL_EPSILON`; the sum
`1 + 1e-16` rounds back to 1, so `major` never leaves 1 and the loop does not end,
whatever the number of rounds, pushing a tick at 1 in every round. -/
theorem C5_linear_ticks_counterexample :
    F64.round (1 + 2028240960365167 / 20282409603651670423947251286016) = 1 ∧
    (AddDefaultTicks.linearLoop64 { Min := 1, Max := 1 + DBL_EPSILON }
        (2028240960365167 / 20282409603651670423947251286016) 2 (1 + DBL_EPSILON) 3 1 []).isNone
      = true ∧
    ∀ fuel : ℕ, AddDefaultTicks.linear64 exampleMath64 { Min := 1, Max := 1 + DBL_EPSILON }
      5 2 fuel [] = none := by
  have e1 : NiceNum64 exampleMath64
      (F64.round (F64.round (1 + DBL_EPSILON - 1) * F64.round (99 / 100))) false
      = some (F64.round (5 * (2028240960365167 / 20282409603651670423947251286016))) := by
    decide!
  have e2 : NiceNum64 exampleMath64
      (F64.round (F64.round (5 * (2028240960365167 / 20282409603651670423947251286016))
        / ((5 - 1 : ℤ) : ℚ))) true
      = some (2028240960365167 / 20282409603651670423947251286016) := by
    decide!
  have e3 : F64.round ((⌊F64.round (1
      / (2028240960365167 / 20282409603651670423947251286016 : ℚ))⌋ : ℚ)
      * (2028240960365167 / 20282409603651670423947251286016)) = 1 := by decide!
  have e4 : F64.round (F64.round ((⌈F64.round ((1 + DBL_EPSILON)
      / (2028240960365167 / 20282409603651670423947251286016 : ℚ))⌉ : ℚ)
      * (2028240960365167 / 20282409603651670423947251286016))
      + F64.round (1 / 2 * (2028240960365167 / 20282409603651670423947251286016)))
      = 1 + DBL_EPSILON := by decide!
  have e5 : F64.round (1 + 2028240960365167 / 20282409603651670423947251286016) = 1 := by
    decide!
  refine ⟨e5, by decide!, fun fuel => ?_⟩
  unfold AddDefaultTicks.linear64
  dsimp only
  rw [e1]
  dsimp only
  rw [e2]
  dsimp only
  rw [e3, e4]
  exact linearLoop64_stuck _ _ _ _ _ (by unfold DBL_EPSILON; norm_num) e5 fuel []
theorem linearBody64_in_range (range : ImPlotRange ℚ) (interval : ℚ) (nMinor : ℤ)
    (major : ℚ) :
    ∀ tk ∈ AddDefaultTicks.linearBody64 range interval nMinor major,
      range.Min ≤ tk.PlotPos ∧ tk.PlotPos ≤ range.Max := by
  have hc : ∀ v : ℚ, range.Contains v = true → range.Min ≤ v ∧ v ≤ range.Max := by
    intro v hv
    unfold ImPlotRange.Contains at hv
    simpa using hv
  intro tk htk
  unfold AddDefaultTicks.linearBody64 at htk
  rw [List.mem_append] at htk
  rcases htk with h | h
  · split_ifs at h with hcon
    · rw [List.mem_singleton] at h
      rw [h]
      exact hc _ hcon
    · cases h
  · rw [List.mem_flatMap] at h
    obtain ⟨i, -, hi⟩ := h
    simp only at hi
    split_ifs at hi with hcon
    · rw [List.mem_singleton] at hi
      rw [hi]
      exact hc _ hcon
    · cases hi

theorem linearLoop64_in_range (range : ImPlotRange ℚ) (interval : ℚ) (nMinor : ℤ)
    (bound : ℚ) :
    ∀ (fuel : ℕ) (major : ℚ) (out ticks : List (ImPlotTick ℚ)),
      (∀ tk ∈ out, range.Min ≤ tk.PlotPos ∧ tk.PlotPos ≤ range.Max) →
      AddDefaultTicks.linearLoop64 range interval nMinor bound fuel major out = some ticks →
      ∀ tk ∈ ticks, range.Min ≤ tk.PlotPos ∧ tk.PlotPos ≤ range.Max := by
  intro fuel
  induction fuel with
  | zero =>
    intro major out ticks _ h
    rw [AddDefaultTicks.linearLoop64] at h
    cases h
  | succ k ih =>
    intro major out ticks hout h
    rw [AddDefaultTicks.linearLoop64] at h
    split_ifs at h with hlt
    · refine ih _ _ ticks ?_ h
      intro tk htk
      rw [List.mem_append] at htk
      rcases htk with h1 | h1
      · exact hout tk h1
      · exact linearBody64_in_range range interval nMinor major tk h1
    · injection h with h
      rw [← h]
      exact hout

/-- C5 (the part that holds). Whatever the C library, the range, `nMajor`, `nMinor` and
the number of rounds after which the loop of the linear branch has ended: every tick
appended to an empty list lies in `[range.Min, range.Max]`. -/
theorem C5_linear_ticks_in_range (m : ImMath ℚ) (range : ImPlotRange ℚ) (nMajor nMinor : ℤ)
    (fuel : ℕ) (ticks : List (ImPlotTick ℚ))
    (h : AddDefaultTicks.linear64 m range nMajor nMinor fuel [] = some ticks) :
    ∀ tk ∈ ticks, range.Min ≤ tk.PlotPos ∧ tk.PlotPos ≤ range.Max := by
  unfold AddDefaultTicks.linear64 at h
  split at h
  · cases h
  · split at h
    · cases h
    · exact linearLoop64_in_range _ _ _ _ _ _ _ ticks (fun _ hh => by cases hh) h

/-- Witness of C5: the range `[0, 1]` with `nMajor = 3` and `nMinor = 2` in binary64 with
the example C library; the loop ends within 10 rounds with ticks at 0, 1/4, 1/2, 3/4
and 1. -/
theorem C5_linear_ticks_in_range_witness :
    (AddDefaultTicks.linear64 exampleMath64 { Min := 0, Max := 1 } 3 2 10 []).map
        (fun ticks => ticks.map (fun tk => tk.PlotPos)) = some [0, 1 / 4, 1 / 2, 3 / 4, 1] ∧
    ∃ ticks : List (ImPlotTick ℚ),
      AddDefaultTicks.linear64 exampleMath64 { Min := 0, Max := 1 } 3 2 10 [] = some ticks ∧
      ∀ tk ∈ ticks, (0 : ℚ) ≤ tk.PlotPos ∧ tk.PlotPos ≤ 1 := by
  obtain ⟨ticks, h⟩ := Option.isSome_iff_exists.1
    (by decide! : (AddDefaultTicks.linear64 exampleMath64 { Min := 0, Max := 1 } 3 2 10
      []).isSome = true)
  exact ⟨by decide!, ticks, h,
    C5_linear_ticks_in_range exampleMath64 { Min := 0, Max := 1 } 3 2 10 ticks h⟩

/-- C6 (counterexample). The range `[2, 2.5]` with `nMajor = 6` in binary64 with the
example C library: the step is the `double` 0.1 and its multiple `25 * 0.1`, rounded, is
2.5, inside the range; the loop adds 0.1 to `major` round by round and reaches
2.5000000000000004, above `range.Max`, so the major ticks are 2, 2.1, 2.2,
2.3000000000000003 and 2.4000000000000004 and there is none at 2.5. -/
theorem C6_linear_major_ticks_counterexample :
    (NiceNum64 exampleMath64 (F64.round (F64.round (5 / 2 - 2) * F64.round (99 / 100)))
        false).bind (fun nice_range =>
      NiceNum64 exampleMath64 (F64.round (nice_range / ((6 - 1 : ℤ) : ℚ))) true)
      = some (3602879701896397 / 36028797018963968) ∧
    F64.round (25 * (3602879701896397 / 36028797018963968)) = 5 / 2 ∧
    (AddDefaultTicks.linear64 exampleMath64 { Min := 2, Max := 5 / 2 } 6 0 10 []).map
        majorPositions
      = some [2, 4728779608739021 / 2251799813685248, 2476979795053773 / 1125899906842624,
          5179139571476071 / 2251799813685248, 1351079888211149 / 562949953421312] ∧
    (5 / 2 : ℚ) ∉ [2, 4728779608739021 / 2251799813685248,
      2476979795053773 / 1125899906842624, 5179139571476071 / 2251799813685248,
      1351079888211149 / 562949953421312] := by
  refine ⟨by decide!, by decide!, by decide!, by decide!⟩

end ImPlot
